import Mathlib

/-!
Calendrical: numeric kernel, solar ephemeris and Chinese lunisolar derivation.

A shallow embedding of `calendar.c` and of the moon phase routines of
`moonphase.c`.

Modelling conventions.
* A C `double` is an exact rational number (`ℚ`): the arithmetic operators,
  `floor`, `round`, `fabs`, `fmin`, `fmax` and `pow` with an integer exponent
  are the exact operations, decimal literals denote their decimal value, and
  rounding error, infinities and NaN are outside the model.
* A C `int` is an unbounded `ℤ`; the conversion `(int)x` truncates toward zero.
* The transcendental library functions `sin`, `cos` and `tan` are parameters
  (`Libm`); `M_PI` is the exact value of that double constant. The value
  returned by `phase` of `moonphase.c` is a parameter of `new_moon_before` and
  `new_moon_after`. In `phase` itself `sqrt` and `atan` are parameters too
  (`LibmInv`).
* `truephase` returns `none` where the C function returns `NAN`; an array of
  doubles is a list, and the values stored through pointer arguments are
  components of the result.
* A table of structures is a list of records, indexed from 0; a `char *` field
  is an `Option String`, with `none` for a null pointer.
* The Chinese calendar functions are written over the record `Astro` of the
  three astronomical routines they call; `ephemeris` is the instance made of
  the routines of `calendar.c`.
* Loops and recursions whose termination depends on the values returned by the
  astronomical routines take a fuel argument and return `Option`.
* A theorem that depends on the values of the library functions assumes
  `LibmAccurate L I ε`: every library function is within `ε` of the function of
  real analysis it computes.
-/

namespace Calendrical

/-! ## Definitions -/

/-- Conversion of a double to `int`: truncation toward zero. -/
def toInt (x : ℚ) : ℤ := if 0 ≤ x then ⌊x⌋ else -⌊-x⌋

/-- C `round`: nearest integer, halfway cases away from zero. -/
def round (x : ℚ) : ℤ := if 0 ≤ x then ⌊x + 1 / 2⌋ else -⌊-x + 1 / 2⌋

/-- C `fmin`. -/
def fmin (x y : ℚ) : ℚ := if x ≤ y then x else y

/-- C `fmax`. -/
def fmax (x y : ℚ) : ℚ := if x ≤ y then y else x

/-- C `fabs`. -/
def fabs (x : ℚ) : ℚ := if x < 0 then -x else x

def MEAN_TROPICAL_YEAR : ℚ := 365.242189
def MEAN_SYNODIC_MONTH : ℚ := 29.530588853
def LONGITUDE_WINTER : ℚ := 270
def EPOCH_CHINESE : ℤ := -963099
def EPOCH_JD : ℚ := -1721424.5

/-- The double constant `M_PI` (0x400921FB54442D18). -/
def M_PI : ℚ := 884279719003555 / 281474976710656

/-- The macro `angle(d, m, s)`. -/
def angle (d m s : ℚ) : ℚ := d + (m + s / 60.0) / 60.0

/-- `mod`: `x - y * floor(x / y)`. -/
def mod (x y : ℚ) : ℚ := x - y * (⌊x / y⌋ : ℤ)

/-- `amod`: `y + mod(x, -y)`. -/
def amod (x y : ℚ) : ℚ := y + mod x (-y)

/-- The loop of `poly`: adds `a[i] * pow(x, i)` for the remaining coefficients. -/
def polyLoop (x : ℚ) : ℕ → List ℚ → ℚ → ℚ
  | _, [], result => result
  | i, c :: cs, result => polyLoop x (i + 1) cs (result + c * x ^ i)

/-- `poly(x, argc, a)`: `a[0]` plus the loop over `i = 1 .. argc - 1`. The array
is the list `a`; only its first `argc` entries are read. -/
def poly (x : ℚ) (argc : ℕ) (a : List ℚ) : ℚ :=
  polyLoop x 1 ((a.take argc).drop 1) (a.headD 0)

/-- `deg2rad`. -/
def deg2rad (deg : ℚ) : ℚ := deg * M_PI / 180.0

/-- `signum`. -/
def signum (num : ℚ) : ℤ := if num < 0 then -1 else if num > 0 then 1 else 0

/-! ### Gregorian calendar -/

/-- `gregorian_leap_year`. -/
def gregorian_leap_year (year : ℤ) : Bool :=
  decide (mod year 4 = 0) &&
    !(decide (mod year 400 = 100) || decide (mod year 400 = 200) ||
      decide (mod year 400 = 300))

/-- `fixed_from_gregorian`. -/
def fixed_from_gregorian (year month day : ℤ) : ℤ :=
  let correction : ℤ :=
    if month ≤ 2 then 0
    else if month > 2 ∧ gregorian_leap_year year = true then -1
    else -2
  toInt (((365 * (year - 1) : ℤ) : ℚ) +
    (⌊(((year - 1 : ℤ) : ℚ)) / 4.0⌋ : ℤ) -
    (⌊(((year - 1 : ℤ) : ℚ)) / 100.0⌋ : ℤ) +
    (⌊(((year - 1 : ℤ) : ℚ)) / 400.0⌋ : ℤ) +
    (⌊(((367 * month - 362 : ℤ) : ℚ)) / 12.0⌋ : ℤ) +
    (correction : ℚ) + (day : ℚ))

/-- `gregorian_year_from_fixed`. -/
def gregorian_year_from_fixed (date : ℤ) : ℤ :=
  let d0 : ℤ := date - 1
  let n400 : ℤ := toInt (⌊(d0 : ℚ) / 146097.0⌋ : ℤ)
  let d1 : ℤ := toInt (mod d0 146097)
  let n100 : ℤ := toInt (⌊(d1 : ℚ) / 36524.0⌋ : ℤ)
  let d2 : ℤ := toInt (mod d1 36524)
  let n4 : ℤ := toInt (⌊(d2 : ℚ) / 1461.0⌋ : ℤ)
  let d3 : ℤ := toInt (mod d2 1461)
  let n1 : ℤ := toInt (⌊(d3 : ℚ) / 365.0⌋ : ℤ)
  let year : ℤ := 400 * n400 + 100 * n100 + 4 * n4 + n1
  if n100 = 4 ∨ n1 = 4 then year else year + 1

/-! ### Time -/

/-- `struct Locale`. -/
structure Locale where
  latitude : ℚ
  longitude : ℚ
  elevation : ℚ
  timezone : ℚ
  deriving DecidableEq

/-- `standard_from_universal`. -/
def standard_from_universal (t : ℚ) (locale : Locale) : ℚ := t + locale.timezone / 24

/-- `universal_from_standard`. -/
def universal_from_standard (t : ℚ) (locale : Locale) : ℚ := t - locale.timezone / 24

def c19 : List ℚ :=
  [-0.00002, 0.000297, 0.025184, -0.181133, 0.553040, -0.861938, 0.677066, -0.212591]
def c18 : List ℚ :=
  [-0.000009, 0.003844, 0.083563, 0.865736, 4.867575, 15.845535, 31.332267, 38.291999,
    28.316289, 11.636204, 2.043794]
def c17 : List ℚ := [196.58333, -4.0675, 0.0219167]
def c19c : ℕ := 8
def c18c : ℕ := 11
def c17c : ℕ := 3

/-- `ephemeris_correction`. -/
def ephemeris_correction (t : ℚ) : ℚ :=
  let year : ℤ := gregorian_year_from_fixed (toInt (⌊t⌋ : ℤ))
  let c : ℚ :=
    ((fixed_from_gregorian year 7 1 - fixed_from_gregorian 1900 1 1 : ℤ) : ℚ) / 36525.0
  if 1988 ≤ year ∧ year ≤ 2019 then
    ((year - 1933 : ℤ) : ℚ) / (24.0 * 60.0 * 60.0)
  else if 1900 ≤ year ∧ year ≤ 1987 then
    poly c c19c c19
  else if 1800 ≤ year ∧ year ≤ 1899 then
    poly c c18c c18
  else if 1620 ≤ year ∧ year ≤ 1799 then
    poly ((year - 1600 : ℤ) : ℚ) c17c c17 / (24 * 60 * 60)
  else
    let x : ℚ :=
      0.5 + ((fixed_from_gregorian year 1 1 - fixed_from_gregorian 1810 1 1 : ℤ) : ℚ)
    (x * x / 41048480.0 - 15) / (24 * 60 * 60)

/-- `dynamical_from_universal`. -/
def dynamical_from_universal (t : ℚ) : ℚ := t + ephemeris_correction t

/-- `universal_from_dynamical`. -/
def universal_from_dynamical (t : ℚ) : ℚ := t - ephemeris_correction t

/-- `jd_from_moment`. -/
def jd_from_moment (t : ℚ) : ℚ := t - EPOCH_JD

/-- `julian_centuries`. -/
def julian_centuries (t : ℚ) : ℚ := (dynamical_from_universal t - 730120.5) / 36525.0

/-! ### Solar ephemeris -/

/-- The transcendental functions of the C library used by the ephemerides. -/
structure Libm where
  sin : ℚ → ℚ
  cos : ℚ → ℚ
  tan : ℚ → ℚ

/-- `aberration`. -/
def aberration (L : Libm) (t : ℚ) : ℚ :=
  let c := julian_centuries t
  0.0000974 * L.cos (deg2rad (177.63 + 35999.01848 * c)) - 0.0005575

def avec : List ℚ := [124.90, -1934.134, 0.002063]
def bvec : List ℚ := [201.11, 72001.5377, 0.00057]

/-- `nuation`. -/
def nuation (L : Libm) (t : ℚ) : ℚ :=
  let c := julian_centuries t
  (-0.004778) * L.sin (deg2rad (poly c 3 avec)) +
    (-0.0003667) * L.sin (deg2rad (poly c 3 bvec))

def oblvec : List ℚ :=
  [0, angle 0 0 (-46.8150), angle 0 0 (-0.00059), angle 0 0 0.001813]

/-- `obliquity`. -/
def obliquity (t : ℚ) : ℚ :=
  let c := julian_centuries t
  angle 23 26 21.448 + poly c 3 oblvec

def xvec : List ℤ :=
  [403406, 195207, 119433, 112392, 3891, 2819, 1721, 660, 350, 334, 314,
   268, 242, 234, 158, 132, 129, 114, 99, 93, 86, 78, 72, 68, 64, 46, 38,
   37, 32, 29, 28, 27, 27, 25, 24, 21, 21, 20, 18, 17, 14, 13, 13, 13, 12,
   10, 10, 10, 10]
def yvec : List ℚ :=
  [270.54861, 340.19128, 63.91854, 331.26220,
   317.843, 86.631, 240.052, 310.26, 247.23,
   260.87, 297.82, 343.14, 166.79, 81.53,
   3.50, 132.75, 182.95, 162.03, 29.8,
   266.4, 249.2, 157.6, 257.8, 185.1, 69.9,
   8.0, 197.1, 250.4, 65.3, 162.7, 341.5,
   291.6, 98.5, 146.7, 110.0, 5.2, 342.6,
   230.9, 256.1, 45.3, 242.9, 115.2, 151.8,
   285.3, 53.3, 126.6, 205.7, 85.9, 146.1]
def zvec : List ℚ :=
  [0.9287892, 35999.1376958, 35999.4089666,
   35998.7287385, 71998.20261, 71998.4403,
   36000.35726, 71997.4812, 32964.4678,
   -19.4410, 445267.1117, 45036.8840, 3.1008,
   22518.4434, -19.9739, 65928.9345,
   9038.0293, 3034.7684, 33718.148, 3034.448,
   -2280.773, 29929.992, 31556.493, 149.588,
   9037.750, 107997.405, -4444.176, 151.771,
   67555.316, 31556.080, -4561.540,
   107996.706, 1221.655, 62894.167,
   31437.369, 14578.298, -31931.757,
   34777.243, 1221.999, 62894.511,
   -4442.039, 107997.909, 119.066, 16859.071,
   -4.578, 26895.292, -39.127, 12297.536, 90073.778]
def vlen : ℕ := 49

/-- `solar_longitude`. -/
def solar_longitude (L : Libm) (t : ℚ) : ℚ :=
  let c := julian_centuries t
  let sigma : ℚ := (List.range vlen).foldl
    (fun sigma i =>
      sigma + (xvec.getD i 0 : ℚ) * L.sin (deg2rad (yvec.getD i 0 + zvec.getD i 0 * c)))
    0.0
  let longitude : ℚ := 282.7771834 + 36000.76953744 * c + 0.000005729577951308232 * sigma
  mod (longitude + aberration L t + nuation L t) 360

/-- The bisection loop of `solar_longitude_after`, over the solar longitude
function `sl`: `none` when the fuel runs out before `hi - lo <= v`. -/
def solar_longitude_after_loop (sl : ℚ → ℚ) (target v : ℚ) : ℕ → ℚ → ℚ → ℚ → Option ℚ
  | 0, lo, hi, x => if hi - lo > v then none else some x
  | fuel + 1, lo, hi, x =>
    if hi - lo > v then
      if mod (sl x - target) 360 < 180 then
        solar_longitude_after_loop sl target v fuel lo x ((x + lo) / 2)
      else
        solar_longitude_after_loop sl target v fuel x hi ((hi + x) / 2)
    else some x

/-- `solar_longitude_after`, over the solar longitude function `sl`. -/
def solar_longitude_after (sl : ℚ → ℚ) (fuel : ℕ) (t target : ℚ) : Option ℚ :=
  let v : ℚ := 0.00001
  let rate : ℚ := MEAN_TROPICAL_YEAR / 360.0
  let tau : ℚ := t + rate * mod (target - sl t) 360
  let l : ℚ := fmax t (tau - 5)
  let u : ℚ := tau + 5
  solar_longitude_after_loop sl target v fuel l u ((u + l) / 2)

/-- `estimate_prior_solar_longitude`, over the solar longitude function `sl`. -/
def estimate_prior_solar_longitude (sl : ℚ → ℚ) (t target : ℚ) : ℚ :=
  let rate : ℚ := MEAN_TROPICAL_YEAR / 360
  let tau : ℚ := t - rate * mod (sl t - target) 360
  let d : ℚ := mod (sl tau - target + 180) 360 - 180
  fmin t (tau - rate * d)

def etlongvec : List ℚ := [280.46645, 36000.76983, 0.0003032]
def etanomvec : List ℚ := [357.52910, 35999.05030, -0.0001559, -0.00000048]
def eteccvec : List ℚ := [0.016708617, -0.000042037, -0.0000001236]

/-- The unclamped value `eq` computed by `equation_of_time`. -/
def equation_of_time_eq (L : Libm) (t : ℚ) : ℚ :=
  let c := julian_centuries t
  let longitude := poly c 3 etlongvec
  let anomaly := poly c 4 etanomvec
  let eccentricity := poly c 3 eteccvec
  let squiggly := obliquity t
  let y := (L.tan (deg2rad (squiggly / 2.0))) ^ 2
  (1 / (2 * M_PI)) *
    (y * L.sin (deg2rad (2 * longitude)) +
     (-2) * eccentricity * L.sin (deg2rad anomaly) +
     4 * eccentricity * y * L.sin (deg2rad anomaly) * L.cos (deg2rad (2 * longitude)) +
     (-0.5) * y * y * L.sin (deg2rad (4 * longitude)) +
     (-1.25) * eccentricity * eccentricity * L.sin (deg2rad (2 * anomaly)))

/-- `equation_of_time`. -/
def equation_of_time (L : Libm) (t : ℚ) : ℚ :=
  let eq := equation_of_time_eq L t
  (signum eq : ℚ) * fmin (fabs eq) 0.5

/-! ### Lunar ephemeris -/

def nm_approx_vec : List ℚ :=
  [730125.59765, MEAN_SYNODIC_MONTH * 1236.85, 0.0001337, -0.000000150, 0.00000000073]
def nm_E_vec : List ℚ := [1, -0.002516, -0.0000074]
def nm_solaranom_vec : List ℚ := [2.5534, 29.10535669 * 1236.85, -0.0000218, -0.00000011]
def nm_lunaranom_vec : List ℚ :=
  [201.5643, 385.81693528 * 1236.85, 0.0107438, 0.00001239, -0.000000058]
def nm_moonarg_vec : List ℚ :=
  [160.7108, 390.67050274 * 1236.85, -0.0016341, -0.00000227, 0.000000011]
def nm_omega_vec : List ℚ := [124.7746, -1.56375580 * 1236.85, 0.0020691, 0.00000215]
def nm_w_vec : List ℕ :=
  [0, 1, 0, 0, 1, 1, 2, 0, 0, 1, 0, 1, 1, 1, 0, 0, 0, 0, 0, 0, 0, 0, 0, 0]
def nm_x_vec : List ℤ :=
  [0, 1, 0, 0, -1, 1, 2, 0, 0, 1, 0, 1, 1, -1, 2, 0, 3, 1, 0, 1, -1, -1, 1, 0]
def nm_y_vec : List ℤ :=
  [1, 0, 2, 0, 1, 1, 0, 1, 1, 2, 3, 0, 0, 2, 1, 2, 0, 1, 2, 1, 1, 1, 3, 4]
def nm_z_vec : List ℤ :=
  [0, 0, 0, 2, 0, 0, 0, -2, 2, 0, 0, 2, -2, 0, 0, -2, 0, -2, 2, 2, 2, -2, 0, 0]
def nm_v_vec : List ℚ :=
  [-0.40720, 0.17241, 0.01608, 0.01039, 0.00739, -0.00514, 0.00208,
   -0.00111, -0.00057, 0.00056, -0.00042, 0.00042, 0.00038, -0.00024,
   -0.00007, 0.00004, 0.00004, 0.00003, 0.00003, -0.00003, 0.00003,
   -0.00002, -0.00002, 0.00002]
def nm_i_vec : List ℚ :=
  [251.88, 251.83, 349.42, 84.66, 141.74, 207.14, 154.84,
   34.52, 207.19, 291.34, 161.72, 239.56, 331.55]
def nm_j_vec : List ℚ :=
  [0.016321, 26.641886, 36.412478, 18.206239, 53.303771,
   2.453732, 7.306860, 27.261239, 0.121824, 1.844379, 24.198154,
   25.513099, 3.592518]
def nm_l_vec : List ℚ :=
  [0.000165, 0.000164, 0.000126, 0.000110, 0.000062, 0.000060,
   0.000056, 0.000047, 0.000042, 0.000040, 0.000037, 0.000035, 0.000023]
def nm_extra_vec : List ℚ := [299.77, 132.8475848, -0.009173]

/-- `nth_new_moon`. -/
def nth_new_moon (L : Libm) (n : ℤ) : ℚ :=
  let k : ℚ := ((n - 24724 : ℤ) : ℚ)
  let c : ℚ := k / 1236.85
  let approx := poly c 5 nm_approx_vec
  let E := poly c 3 nm_E_vec
  let solar_anomaly := poly c 4 nm_solaranom_vec
  let lunar_anomaly := poly c 5 nm_lunaranom_vec
  let moon_argument := poly c 5 nm_moonarg_vec
  let omega := poly c 4 nm_omega_vec
  let correction : ℚ := (List.range 24).foldl
    (fun correction i =>
      correction + nm_v_vec.getD i 0 * E ^ (nm_w_vec.getD i 0) *
        L.sin (deg2rad ((nm_x_vec.getD i 0 : ℚ) * solar_anomaly +
          (nm_y_vec.getD i 0 : ℚ) * lunar_anomaly +
          (nm_z_vec.getD i 0 : ℚ) * moon_argument)))
    ((-0.00017) * L.sin (deg2rad omega))
  let additional : ℚ := (List.range 13).foldl
    (fun additional i =>
      additional + nm_l_vec.getD i 0 * L.sin (deg2rad (nm_i_vec.getD i 0 + nm_j_vec.getD i 0 * k)))
    0.0
  let extra : ℚ := 0.000325 * L.sin (deg2rad (poly c 3 nm_extra_vec))
  universal_from_dynamical (approx + correction + extra + additional)

/-- `new_moon_before`; `phase` is the value returned by `phase` of
`moonphase.c`, as a function of the Julian date. -/
def new_moon_before (L : Libm) (phase : ℚ → ℚ) (t : ℚ) : ℚ :=
  let jd := jd_from_moment t
  let n : ℤ := round (t / MEAN_SYNODIC_MONTH - phase jd)
  nth_new_moon L n

/-- `new_moon_after`; `phase` as in `new_moon_before`. -/
def new_moon_after (L : Libm) (phase : ℚ → ℚ) (t : ℚ) : ℚ :=
  let jd := jd_from_moment t
  let n : ℤ := round (t / MEAN_SYNODIC_MONTH - phase jd)
  nth_new_moon L (n + 1)

/-! ### Chinese calendar -/

/-- `struct ChineseDate`. -/
structure ChineseDate where
  cycle : ℤ
  year : ℤ
  month : ℤ
  leap : Bool
  day : ℤ
  deriving DecidableEq

/-- The static `BejingOld`; its last initialiser `1397/180` is a division of
two `int` constants. -/
def BejingOld : Locale :=
  { latitude := angle 39 55 0, longitude := angle 116 25 0, elevation := 43.5,
    timezone := ((Int.tdiv 1397 180 : ℤ) : ℚ) }

/-- The static `Bejing`. -/
def Bejing : Locale :=
  { latitude := angle 39 55 0, longitude := angle 116 25 0, elevation := 43.5,
    timezone := 8.0 }

/-- `chinese_location`; the returned pointer is modelled by the locale it
points to. -/
def chinese_location (t : ℚ) : Locale :=
  let year : ℚ := (gregorian_year_from_fixed (toInt (⌊t⌋ : ℤ)) : ℤ)
  if year < 1929 then BejingOld else Bejing

/-- `midnight_in_china`. -/
def midnight_in_china (date : ℤ) : ℚ :=
  universal_from_standard (date : ℚ) (chinese_location (date : ℚ))

/-- The astronomical routines the Chinese calendar calls, as functions of a
moment: `solar_longitude`, `new_moon_before` and `new_moon_after`. -/
structure Astro where
  solar_longitude : ℚ → ℚ
  new_moon_before : ℚ → ℚ
  new_moon_after : ℚ → ℚ

/-- The astronomical routines of `calendar.c` itself, over the library
functions `L` and the value `phase` of `moonphase.c`. -/
def ephemeris (L : Libm) (phase : ℚ → ℚ) : Astro :=
  { solar_longitude := solar_longitude L
    new_moon_before := new_moon_before L phase
    new_moon_after := new_moon_after L phase }

/-- `current_major_solar_term`. -/
def current_major_solar_term (A : Astro) (date : ℤ) : ℤ :=
  let b := chinese_location (date : ℚ)
  let s := A.solar_longitude (universal_from_standard (date : ℚ) b)
  toInt (amod (2 + ((⌊s / 30.0⌋ : ℤ) : ℚ)) 12)

/-- The scan of `chinese_winter_solstice_on_or_before`: `none` when the fuel
runs out before the solar longitude reaches 270. -/
def chinese_winter_solstice_loop (A : Astro) : ℕ → ℤ → Option ℤ
  | 0, i =>
    if LONGITUDE_WINTER > A.solar_longitude (midnight_in_china (i + 1)) then none else some i
  | fuel + 1, i =>
    if LONGITUDE_WINTER > A.solar_longitude (midnight_in_china (i + 1)) then
      chinese_winter_solstice_loop A fuel (i + 1)
    else some i

/-- `chinese_winter_solstice_on_or_before`. -/
def chinese_winter_solstice_on_or_before (A : Astro) (fuel : ℕ) (date : ℤ) : Option ℤ :=
  let approx :=
    estimate_prior_solar_longitude A.solar_longitude (midnight_in_china (date + 1))
      LONGITUDE_WINTER
  let i : ℤ := toInt (⌊approx⌋ : ℤ) - 1
  chinese_winter_solstice_loop A fuel i

/-- `chinese_new_moon_on_or_after`. -/
def chinese_new_moon_on_or_after (A : Astro) (date : ℤ) : ℤ :=
  let t := A.new_moon_after (midnight_in_china date)
  toInt (⌊standard_from_universal t (chinese_location t)⌋ : ℤ)

/-- `chinese_new_moon_before`. -/
def chinese_new_moon_before (A : Astro) (date : ℤ) : ℤ :=
  let t := A.new_moon_before (midnight_in_china date)
  toInt (⌊standard_from_universal t (chinese_location t)⌋ : ℤ)

/-- `no_major_solar_term`. -/
def no_major_solar_term (A : Astro) (date : ℤ) : Bool :=
  decide (current_major_solar_term A date =
    current_major_solar_term A (chinese_new_moon_on_or_after A (date + 1)))

/-- `prior_leap_month`: `none` when the recursion is deeper than the fuel. The
operators `&&` and `||` evaluate their right operand only when needed. -/
def prior_leap_month (A : Astro) : ℕ → ℤ → ℤ → Option Bool
  | 0, _, _ => none
  | fuel + 1, date1, date2 =>
    if date2 ≥ date1 then
      if no_major_solar_term A date2 = true then some true
      else prior_leap_month A fuel date1 (chinese_new_moon_before A date2)
    else some false

/-- The value stored in `cdate->leap` by `chinese_from_fixed`:
`leap_year && no_major_solar_term(m) && !prior_leap_month(m12, chinese_new_moon_before(m))`. -/
def chinese_leap_flag (A : Astro) (fuel : ℕ) (leap_year : Bool) (m12 m : ℤ) : Option Bool :=
  if leap_year = true ∧ no_major_solar_term A m = true then
    (prior_leap_month A fuel m12 (chinese_new_moon_before A m)).map (fun b => !b)
  else some false

/-- The local `adj` of `chinese_from_fixed`:
`(leap_year && prior_leap_month(m12, m)) ? 1 : 0`. -/
def chinese_month_adj (A : Astro) (fuel : ℕ) (leap_year : Bool) (m12 m : ℤ) : Option ℤ :=
  if leap_year = true then
    (prior_leap_month A fuel m12 m).map (fun b => if b = true then 1 else 0)
  else some 0

/-- `chinese_from_fixed`; the date written through `cdate` is the result. -/
def chinese_from_fixed (A : Astro) (fuel : ℕ) (date : ℤ) : Option ChineseDate := do
  let s1 ← chinese_winter_solstice_on_or_before A fuel date
  let s2 ← chinese_winter_solstice_on_or_before A fuel (s1 + 370)
  let m12 := chinese_new_moon_on_or_after A (s1 + 1)
  let next_m11 := chinese_new_moon_before A (s2 + 1)
  let m := chinese_new_moon_before A (date + 1)
  let leap_year : Bool := decide (round (((next_m11 - m12 : ℤ) : ℚ) / MEAN_SYNODIC_MONTH) = 12)
  let adj : ℤ ← chinese_month_adj A fuel leap_year m12 m
  let month : ℤ :=
    toInt (amod (((round (((m - m12 : ℤ) : ℚ) / MEAN_SYNODIC_MONTH) : ℤ) : ℚ) - (adj : ℚ)) 12)
  let leap ← chinese_leap_flag A fuel leap_year m12 m
  let ep := fixed_from_gregorian (-2636) 2 15
  let elapsed_years : ℤ :=
    toInt (⌊1.5 - (month : ℚ) / 12.0 + ((date - ep : ℤ) : ℚ) / MEAN_TROPICAL_YEAR⌋ : ℤ)
  let cycle : ℤ := toInt (⌊((elapsed_years - 1 : ℤ) : ℚ) / 60.0⌋ : ℤ) + 1
  let year : ℤ := toInt (amod (elapsed_years : ℚ) 60)
  let day : ℤ := date - m + 1
  some { cycle := cycle, year := year, month := month, leap := leap, day := day }

/-- `chinese_new_year_in_sui`. -/
def chinese_new_year_in_sui (A : Astro) (fuel : ℕ) (date : ℤ) : Option ℤ := do
  let s1 ← chinese_winter_solstice_on_or_before A fuel date
  let s2 ← chinese_winter_solstice_on_or_before A fuel (s1 + 370)
  let m12 := chinese_new_moon_on_or_after A (s1 + 1)
  let m13 := chinese_new_moon_on_or_after A (m12 + 1)
  let next_m11 := chinese_new_moon_before A (s2 + 1)
  if round (((next_m11 - m12 : ℤ) : ℚ) / MEAN_SYNODIC_MONTH) = 12 ∧
      (no_major_solar_term A m12 = true ∨ no_major_solar_term A m13 = true) then
    some (chinese_new_moon_on_or_after A (m13 + 1))
  else some m13

/-- `chinese_new_year_on_or_before`. -/
def chinese_new_year_on_or_before (A : Astro) (fuel : ℕ) (date : ℤ) : Option ℤ := do
  let new_year ← chinese_new_year_in_sui A fuel date
  if date ≥ new_year then some new_year else chinese_new_year_in_sui A fuel (date - 180)

/-- `chinese_new_year`. -/
def chinese_new_year (A : Astro) (fuel : ℕ) (gyear : ℤ) : Option ℤ :=
  chinese_new_year_on_or_before A fuel (fixed_from_gregorian gyear 7 1)

/-- `fixed_from_chinese`. -/
def fixed_from_chinese (A : Astro) (fuel : ℕ) (cdate : ChineseDate) : Option ℤ := do
  let mid_year : ℤ :=
    toInt (⌊(EPOCH_CHINESE : ℚ) +
      ((((cdate.cycle - 1) * 60 + (cdate.year - 1) : ℤ) : ℚ) + 0.5) * MEAN_TROPICAL_YEAR⌋ : ℤ)
  let new_year ← chinese_new_year_on_or_before A fuel mid_year
  let p := chinese_new_moon_on_or_after A (new_year + (cdate.month - 1) * 29)
  let d ← chinese_from_fixed A fuel p
  let prior_new_moon : ℤ :=
    if cdate.month = d.month ∧ cdate.leap = d.leap then p
    else chinese_new_moon_on_or_after A (p + 1)
  some (prior_new_moon + cdate.day - 1)

/-! ### Further time conversions -/

/-- `universal_from_local`. -/
def universal_from_local (t : ℚ) (locale : Locale) : ℚ := t - locale.longitude / 360

/-- `local_from_universal`. -/
def local_from_universal (t : ℚ) (locale : Locale) : ℚ := t + locale.longitude / 360

/-- Horner evaluation of a coefficient list, lowest degree first, as the
specification of `poly` words it: `a0 + x * (a1 + x * (a2 + ...))`. -/
def horner (x : ℚ) (a : List ℚ) : ℚ := a.foldr (fun c acc => c + x * acc) 0

/-! ### Moon phases (`moonphase.c`) -/

def epoch : ℚ := 2444238.5
def elonge : ℚ := 278.833540
def elongp : ℚ := 282.596403
def eccent : ℚ := 0.016718
def sunsmax : ℚ := 1.495985e8
def sunangsiz : ℚ := 0.533128
def mmlong : ℚ := 64.975464
def mmlongp : ℚ := 349.383063
def mlnode : ℚ := 151.950429
def minc : ℚ := 5.145396
def mecc : ℚ := 0.054900
def mangsiz : ℚ := 0.5181
def msmax : ℚ := 384401.0
def mparallax : ℚ := 0.9507
def synmonth : ℚ := 29.53058868
def PI : ℚ := 3.14159265358979323846
def EPSILON : ℚ := 1E-6

/-- The macro `abs(x)` of `moonphase.c`. -/
def abs (x : ℚ) : ℚ := if x < 0 then -x else x

/-- The macro `fixangle(a)`. -/
def fixangle (a : ℚ) : ℚ := a - 360.0 * ((⌊a / 360.0⌋ : ℤ) : ℚ)

/-- The macro `torad(d)`. -/
def torad (d : ℚ) : ℚ := d * (PI / 180.0)

/-- The macro `todeg(d)`. -/
def todeg (d : ℚ) : ℚ := d * (180.0 / PI)

/-- The macro `dsin(x)`. -/
def dsin (L : Libm) (x : ℚ) : ℚ := L.sin (torad x)

/-- The macro `dcos(x)`. -/
def dcos (L : Libm) (x : ℚ) : ℚ := L.cos (torad x)

/-- The library functions `sqrt` and `atan`, used by `phase`. -/
structure LibmInv where
  sqrt : ℚ → ℚ
  atan : ℚ → ℚ

/-- `jyear`: the year, month and day stored through `yy`, `mm`, `dd`. -/
def jyear (td : ℚ) : ℤ × ℤ × ℤ :=
  let td : ℚ := td + 0.5
  let j : ℚ := ((⌊td⌋ : ℤ) : ℚ)
  let j : ℚ := j - 1721119.0
  let y : ℚ := ((⌊((4 * j) - 1) / 146097.0⌋ : ℤ) : ℚ)
  let j : ℚ := (j * 4.0) - (1.0 + (146097.0 * y))
  let d : ℚ := ((⌊j / 4.0⌋ : ℤ) : ℚ)
  let j : ℚ := ((⌊((4.0 * d) + 3.0) / 1461.0⌋ : ℤ) : ℚ)
  let d : ℚ := ((4.0 * d) + 3.0) - (1461.0 * j)
  let d : ℚ := ((⌊(d + 4.0) / 4.0⌋ : ℤ) : ℚ)
  let m : ℚ := ((⌊((5.0 * d) - 3) / 153.0⌋ : ℤ) : ℚ)
  let d : ℚ := (5.0 * d) - (3.0 + (153.0 * m))
  let d : ℚ := ((⌊(d + 5.0) / 5.0⌋ : ℤ) : ℚ)
  let y : ℚ := (100.0 * y) + j
  let my : ℚ × ℚ := if m < 10.0 then (m + 3, y) else (m - 9, y + 1)
  (toInt my.2, toInt my.1, toInt d)

/-- `truephase`; `none` is the value `NAN`. -/
def truephase (L : Libm) (k ph : ℚ) : Option ℚ :=
  let k : ℚ := k + ph
  let t : ℚ := k / 1236.85
  let t2 : ℚ := t * t
  let t3 : ℚ := t2 * t
  let pt : ℚ := 2415020.75933 + synmonth * k + 0.0001178 * t2 - 0.000000155 * t3 +
    0.00033 * dsin L (166.56 + 132.87 * t - 0.009173 * t2)
  let m : ℚ := 359.2242 + 29.10535608 * k - 0.0000333 * t2 - 0.00000347 * t3
  let mprime : ℚ := 306.0253 + 385.81691806 * k + 0.0107306 * t2 + 0.00001236 * t3
  let f : ℚ := 21.2964 + 390.67050646 * k - 0.0016528 * t2 - 0.00000239 * t3
  if ph < 0.01 ∨ abs (ph - 0.5) < 0.01 then
    some (pt + ((0.1734 - 0.000393 * t) * dsin L m + 0.0021 * dsin L (2 * m) -
      0.4068 * dsin L mprime + 0.0161 * dsin L (2 * mprime) -
      0.0004 * dsin L (3 * mprime) + 0.0104 * dsin L (2 * f) -
      0.0051 * dsin L (m + mprime) - 0.0074 * dsin L (m - mprime) +
      0.0004 * dsin L (2 * f + m) - 0.0004 * dsin L (2 * f - m) -
      0.0006 * dsin L (2 * f + mprime) + 0.0010 * dsin L (2 * f - mprime) +
      0.0005 * dsin L (m + 2 * mprime)))
  else if abs (ph - 0.25) < 0.01 ∨ abs (ph - 0.75) < 0.01 then
    let pt : ℚ := pt + ((0.1721 - 0.0004 * t) * dsin L m + 0.0021 * dsin L (2 * m) -
      0.6280 * dsin L mprime + 0.0089 * dsin L (2 * mprime) -
      0.0004 * dsin L (3 * mprime) + 0.0079 * dsin L (2 * f) -
      0.0119 * dsin L (m + mprime) - 0.0047 * dsin L (m - mprime) +
      0.0003 * dsin L (2 * f + m) - 0.0004 * dsin L (2 * f - m) -
      0.0006 * dsin L (2 * f + mprime) + 0.0021 * dsin L (2 * f - mprime) +
      0.0003 * dsin L (m + 2 * mprime) + 0.0004 * dsin L (m - 2 * mprime) -
      0.0003 * dsin L (2 * m + mprime))
    if ph < 0.5 then
      some (pt + (0.0028 - 0.0004 * dcos L m + 0.0003 * dcos L mprime))
    else
      some (pt + ((-0.0028) + 0.0004 * dcos L m - 0.0003 * dcos L mprime))
  else none

/-- The `do ... while` loop of `kepler`: `none` when the fuel runs out before
`abs(delta) <= EPSILON`. -/
def kepler_loop (L : Libm) (ecc m : ℚ) : ℕ → ℚ → Option ℚ
  | 0, _ => none
  | fuel + 1, e =>
    let delta : ℚ := e - ecc * L.sin e - m
    let e' : ℚ := e - delta / (1 - ecc * L.cos e)
    if abs delta > EPSILON then kepler_loop L ecc m fuel e' else some e'

/-- `kepler`. -/
def kepler (L : Libm) (fuel : ℕ) (m ecc : ℚ) : Option ℚ :=
  let m : ℚ := torad m
  kepler_loop L ecc m fuel m

/-- The state of the loop of `phaselist`: the locals `k`, `c`, `i`, the array
`ph` of the caller and `*startphase`. -/
structure PhaselistState where
  k : ℚ
  c : ℤ
  i : ℤ
  ph : List ℚ
  startphase : ℤ
  deriving DecidableEq

/-- One pass through the body of the loop of `phaselist`. A comparison with
`NAN` is false. -/
def phaselist_body (L : Libm) (sdate : ℚ) (s : PhaselistState) : PhaselistState :=
  let k : ℚ := if Int.tmod s.c 4 = 0 then s.k + 1 else s.k
  let psel : ℚ := ((Int.tmod s.c 4 : ℤ) : ℚ) * 0.25
  match truephase L k psel with
  | some d =>
    if d ≥ sdate then
      { k := k, c := s.c + 1, i := s.i + 1, ph := s.ph.set s.i.toNat d,
        startphase := if s.startphase = -1 then Int.tmod s.c 4 else s.startphase }
    else { s with k := k, c := s.c + 1 }
  | none => { s with k := k, c := s.c + 1 }

/-- The `do ... while (i < pcount)` loop of `phaselist`. -/
def phaselist_loop (L : Libm) (sdate : ℚ) (pcount : ℤ) : ℕ → PhaselistState → Option PhaselistState
  | 0, _ => none
  | fuel + 1, s =>
    let s' := phaselist_body L sdate s
    if s'.i < pcount then phaselist_loop L sdate pcount fuel s' else some s'

/-- The value of `k` before the loop of `phaselist`. -/
def phaselist_start (sdate : ℚ) : ℚ :=
  let yy := (jyear sdate).1
  let mm := (jyear sdate).2.1
  ((⌊((yy : ℚ) + (((mm - 1 : ℤ) : ℚ) * (1.0 / 12.0)) - 1900) * 12.3685⌋ : ℤ) : ℚ) - 2

/-- `phaselist`: the array `ph` and `*startphase` on return. -/
def phaselist (L : Libm) (fuel : ℕ) (sdate : ℚ) (pcount : ℤ) (ph : List ℚ) :
    Option (List ℚ × ℤ) :=
  (phaselist_loop L sdate pcount fuel
    { k := phaselist_start sdate, c := 0, i := 0, ph := ph, startphase := -1 }).map
    (fun s => (s.ph, s.startphase))

/-- The value of `truephase` at quarter position number `c`, counted from the
new moon of lunation `k0 + 1`: position `c` is quarter `c % 4` (0 = new,
1 = first, 2 = full, 3 = last) of lunation `k0 + 1 + c / 4`. -/
def quarter_value (L : Libm) (k0 : ℚ) (c : ℕ) : Option ℚ :=
  truephase L (k0 + 1 + ((c / 4 : ℕ) : ℚ)) (((c % 4 : ℕ) : ℚ) * 0.25)

/-- Whether the value at quarter position `c` is a number not before `sdate`. -/
def quarter_hit (L : Libm) (sdate k0 : ℚ) (c : ℕ) : Bool :=
  match quarter_value L k0 c with
  | some d => decide (d ≥ sdate)
  | none => false

/-- The quarter positions below `n` whose value is not before `sdate`, in
increasing order. -/
def quarter_hits (L : Libm) (sdate k0 : ℚ) (n : ℕ) : List ℕ :=
  (List.range n).filter (quarter_hit L sdate k0)

/-- The invariant of the loop of `phaselist` after `n` passes, for the array
`ph0` of the caller and `k0` the value of `k` before the loop: `c` is `n`, `k`
has been incremented once for each multiple of 4 below `n`, and `i`, `ph` and
`*startphase` record the quarter positions below `n` whose value is not before
`sdate`. -/
def PhaselistInv (L : Libm) (sdate k0 : ℚ) (ph0 : List ℚ) (s : PhaselistState) (n : ℕ) : Prop :=
  s.c = (n : ℤ) ∧ s.k = k0 + (((n + 3) / 4 : ℕ) : ℚ) ∧
  s.i = ((quarter_hits L sdate k0 n).length : ℤ) ∧
  s.ph = (quarter_hits L sdate k0 n).map (fun c => (quarter_value L k0 c).getD 0) ++
    ph0.drop (quarter_hits L sdate k0 n).length ∧
  s.startphase =
    ((quarter_hits L sdate k0 n).head?.map (fun c => ((c % 4 : ℕ) : ℤ))).getD (-1)

/-- What `phase` returns and stores through its pointer arguments. -/
structure PhaseResult where
  fraction : ℚ
  pphase : ℚ
  mage : ℚ
  dist : ℚ
  angdia : ℚ
  sudist : ℚ
  suangdia : ℚ
  deriving DecidableEq

/-- `phase`. The locals `MN`, `NP`, `y`, `x`, `Lambdamoon`, `BetaM` and `MoonPar`
reach no output and are left out; each component of the result other than
`fraction` is the value stored through the pointer argument when it is not
null. -/
def phase (L : Libm) (I : LibmInv) (fuel : ℕ) (pdate : ℚ) : Option PhaseResult := do
  let Day : ℚ := pdate - epoch
  let N : ℚ := fixangle ((360 / 365.2422) * Day)
  let M : ℚ := fixangle (N + elonge - elongp)
  let Ec ← kepler L fuel M eccent
  let Ec : ℚ := I.sqrt ((1 + eccent) / (1 - eccent)) * L.tan (Ec / 2)
  let Ec : ℚ := 2 * todeg (I.atan Ec)
  let Lambdasun : ℚ := fixangle (Ec + elongp)
  let F : ℚ := (1 + eccent * L.cos (torad Ec)) / (1 - eccent * eccent)
  let SunDist : ℚ := sunsmax / F
  let SunAng : ℚ := F * sunangsiz
  let ml : ℚ := fixangle (13.1763966 * Day + mmlong)
  let MM : ℚ := fixangle (ml - 0.1114041 * Day - mmlongp)
  let Ev : ℚ := 1.2739 * L.sin (torad (2 * (ml - Lambdasun) - MM))
  let Ae : ℚ := 0.1858 * L.sin (torad M)
  let A3 : ℚ := 0.37 * L.sin (torad M)
  let MmP : ℚ := MM + Ev - Ae - A3
  let mEc : ℚ := 6.2886 * L.sin (torad MmP)
  let A4 : ℚ := 0.214 * L.sin (torad (2 * MmP))
  let lP : ℚ := ml + Ev + mEc - Ae + A4
  let V : ℚ := 0.6583 * L.sin (torad (2 * (lP - Lambdasun)))
  let lPP : ℚ := lP + V
  let MoonAge : ℚ := lPP - Lambdasun
  let MoonPhase : ℚ := (1 - L.cos (torad MoonAge)) / 2
  let MoonDist : ℚ := (msmax * (1 - mecc * mecc)) / (1 + mecc * L.cos (torad (MmP + mEc)))
  let MoonDFrac : ℚ := MoonDist / msmax
  let MoonAng : ℚ := mangsiz / MoonDFrac
  some
    { fraction := fixangle MoonAge / 360.0
      pphase := MoonPhase
      mage := synmonth * (fixangle MoonAge / 360.0)
      dist := MoonDist
      angdia := MoonAng
      sudist := SunDist
      suangdia := SunAng }

/-! ### Days of the week -/

/-- `day_of_week_from_fixed`; Sunday is 0. -/
def day_of_week_from_fixed (date : ℤ) : ℤ := toInt (mod (date : ℚ) 7)

/-- `kday_on_or_before`. -/
def kday_on_or_before (date k : ℤ) : ℤ :=
  toInt ((date : ℚ) - mod (((date - k : ℤ) : ℤ) : ℚ) 7)

/-- `kday_nearest`. -/
def kday_nearest (date k : ℤ) : ℤ := kday_on_or_before (date + 3) k

/-- `kday_on_or_after`. -/
def kday_on_or_after (date k : ℤ) : ℤ := kday_on_or_before (date + 6) k

/-- `kday_before`. -/
def kday_before (date k : ℤ) : ℤ := kday_on_or_before (date - 1) k

/-- `kday_after`. -/
def kday_after (date k : ℤ) : ℤ := kday_on_or_before (date + 7) k

/-! ### Gregorian and Julian dates -/

/-- The `switch` shared by `last_day_of_gregorian_month` and
`last_day_of_julian_month`. -/
def last_day_switch (month : ℤ) : ℤ :=
  if month = 1 then 31
  else if month = 2 then 28
  else if month = 3 then 31
  else if month = 4 then 30
  else if month = 5 then 31
  else if month = 6 then 30
  else if month = 7 then 31
  else if month = 8 then 31
  else if month = 9 then 30
  else if month = 10 then 31
  else if month = 11 then 30
  else if month = 12 then 31
  else 0

/-- `last_day_of_gregorian_month`. -/
def last_day_of_gregorian_month (month year : ℤ) : ℤ :=
  if month = 2 ∧ gregorian_leap_year year = true then 29 else last_day_switch month

/-- `gregorian_from_fixed`: the year, month and day stored through `ryear`,
`rmonth` and `rday`. -/
def gregorian_from_fixed (date : ℤ) : ℤ × ℤ × ℤ :=
  let year : ℤ := gregorian_year_from_fixed date
  let prior_days : ℤ := date - fixed_from_gregorian year 1 1
  let correction : ℤ :=
    if date < fixed_from_gregorian year 3 1 then 0
    else if gregorian_leap_year year = true then 1
    else 2
  let month : ℤ := toInt (⌊((12 * (prior_days + correction) + 373 : ℤ) : ℚ) / 367.0⌋ : ℤ)
  let day : ℤ := date - fixed_from_gregorian year month 1 + 1
  (year, month, day)

/-- `julian_leap_year`. -/
def julian_leap_year (year : ℤ) : Bool :=
  decide (year ≠ 4) && decide (mod year 4 = 0)

/-- `last_day_of_julian_month`. -/
def last_day_of_julian_month (month year : ℤ) : ℤ :=
  if month = 2 ∧ julian_leap_year year = true then 29 else last_day_switch month

/-- `fixed_from_julian`. -/
def fixed_from_julian (year month day : ℤ) : ℤ :=
  let correction : ℤ :=
    if month ≤ 2 then 0
    else if julian_leap_year year = true then -1
    else -2
  let y : ℤ := if year < 0 then year + 1 else year
  toInt (((-2 + (365 * (y - 1)) : ℤ) : ℚ) +
    (⌊(((y - 1 : ℤ) : ℚ)) / 4.0⌋ : ℤ) +
    (⌊(((367 * month - 362 : ℤ) : ℚ)) / 12.0⌋ : ℤ) +
    (correction : ℚ) + (day : ℚ))

/-- `julian_from_fixed`: the year, month and day stored through `ryear`,
`rmonth` and `rday`. -/
def julian_from_fixed (date : ℤ) : ℤ × ℤ × ℤ :=
  let approx : ℤ := toInt (⌊((4 * (date + 1) + 1464 : ℤ) : ℚ) / 1461.0⌋ : ℤ)
  let year : ℤ := if approx ≤ 0 then approx - 1 else approx
  let prior_days : ℤ := date - fixed_from_julian year 1 1
  let correction : ℤ :=
    if date < fixed_from_julian year 3 1 then 0
    else if julian_leap_year year = true then 1
    else 2
  let month : ℤ := toInt (⌊((12 * (prior_days + correction) + 373 : ℤ) : ℚ) / 367.0⌋ : ℤ)
  let day : ℤ := date - fixed_from_julian year month 1 + 1
  (year, month, day)

/-- `easter`. -/
def easter (year : ℤ) : ℤ :=
  let century : ℤ := toInt (1 + ((⌊(year : ℚ) / 100.0⌋ : ℤ) : ℚ))
  let shifted_epact : ℤ :=
    toInt (mod (14 + (11 * mod (year : ℚ) 19)
      - ((⌊((3 * century : ℤ) : ℚ) / 4.0⌋ : ℤ) : ℚ)
      + ((⌊((5 + (8 * century) : ℤ) : ℚ) / 25.0⌋ : ℤ) : ℚ)
      + ((30 * century : ℤ) : ℚ)) 30)
  let adjusted_epact : ℤ :=
    if shifted_epact = 0 ∨ (shifted_epact = 1 ∧ 10 < mod (year : ℚ) 19) then 1 + shifted_epact
    else shifted_epact
  let paschal_moon : ℤ := fixed_from_gregorian year 4 19 - adjusted_epact
  kday_on_or_before (paschal_moon + 7) 0

/-- A calendar date is a valid Gregorian date: the month is in 1..12 and the day
in 1..`last_day_of_gregorian_month`. -/
def gregorian_valid (year month day : ℤ) : Prop :=
  1 ≤ month ∧ month ≤ 12 ∧ 1 ≤ day ∧ day ≤ last_day_of_gregorian_month month year

/-- The lexicographic order of dates, year first, then month, then day. -/
def date_precedes (y1 m1 d1 y2 m2 d2 : ℤ) : Prop :=
  y1 < y2 ∨ (y1 = y2 ∧ (m1 < m2 ∨ (m1 = m2 ∧ d1 < d2)))

/-- The day after a Gregorian date: the next day of the month, or the first day
of the next month, or the first day of the next year. -/
def gregorian_next_day (year month day : ℤ) : ℤ × ℤ × ℤ :=
  if day < last_day_of_gregorian_month month year then (year, month, day + 1)
  else if month < 12 then (year, month + 1, 1)
  else (year + 1, 1, 1)

/-! ### Tables of the Chinese calendar -/

/-- `struct ChineseStem`; `none` is a null pointer. -/
structure ChineseStem where
  chinese : Option String
  pinyin : Option String
  yinyang : Option String
  element : Option String
  deriving DecidableEq

/-- `Stems`. -/
def Stems : List ChineseStem :=
  [ { chinese := none, pinyin := none, yinyang := none, element := none },
    { chinese := some "甲", pinyin := some "jiǎ", yinyang := some "yang", element := some "wood" },
    { chinese := some "乙", pinyin := some "yǐ", yinyang := some "yin", element := some "wood" },
    { chinese := some "丙", pinyin := some "bǐng", yinyang := some "yang", element := some "fire" },
    { chinese := some "丁", pinyin := some "dīng", yinyang := some "yin", element := some "fire" },
    { chinese := some "戊", pinyin := some "wù", yinyang := some "yang", element := some "earth" },
    { chinese := some "己", pinyin := some "jǐ", yinyang := some "yin", element := some "earth" },
    { chinese := some "庚", pinyin := some "gēng", yinyang := some "yang", element := some "metal" },
    { chinese := some "辛", pinyin := some "xīn", yinyang := some "yin", element := some "metal" },
    { chinese := some "壬", pinyin := some "rén", yinyang := some "yang", element := some "water" },
    { chinese := some "癸", pinyin := some "guǐ", yinyang := some "yin", element := some "water" } ]

/-- `struct ChineseBranch`; `none` is a null pointer. -/
structure ChineseBranch where
  chinese : Option String
  pinyin : Option String
  zodiac : Option String
  zsymbol : Option String
  deriving DecidableEq

/-- `Branches`. -/
def Branches : List ChineseBranch :=
  [ { chinese := none, pinyin := none, zodiac := none, zsymbol := none },
    { chinese := some "子", pinyin := some "zǐ", zodiac := some "Rat", zsymbol := some "鼠" },
    { chinese := some "丑", pinyin := some "chǒu", zodiac := some "Ox", zsymbol := some "牛" },
    { chinese := some "寅", pinyin := some "yín", zodiac := some "Tiger", zsymbol := some "虎" },
    { chinese := some "卯", pinyin := some "mǎo", zodiac := some "Rabbit", zsymbol := some "兔" },
    { chinese := some "辰", pinyin := some "chén", zodiac := some "Dragon", zsymbol := some "龍" },
    { chinese := some "巳", pinyin := some "sì", zodiac := some "Snake", zsymbol := some "蛇" },
    { chinese := some "午", pinyin := some "wǔ", zodiac := some "Horse", zsymbol := some "馬" },
    { chinese := some "未", pinyin := some "wèi", zodiac := some "Goat", zsymbol := some "羊" },
    { chinese := some "申", pinyin := some "shēn", zodiac := some "Monkey", zsymbol := some "猴" },
    { chinese := some "酉", pinyin := some "yǒu", zodiac := some "Rooster", zsymbol := some "雞" },
    { chinese := some "戌", pinyin := some "xū", zodiac := some "Dog", zsymbol := some "狗" },
    { chinese := some "亥", pinyin := some "hài", zodiac := some "Pig", zsymbol := some "豬" } ]

/-- `struct SolarTerm`; `none` is a null pointer. -/
structure SolarTerm where
  index : ℤ
  longitude : ℤ
  chinese : Option String
  pinyin : Option String
  english : Option String
  deriving DecidableEq

/-- `MajorSolarTerms`. -/
def MajorSolarTerms : List SolarTerm :=
  [ { index := 0, longitude := -1, chinese := none, pinyin := none, english := none },
    { index := 1, longitude := 330, chinese := some "雨水", pinyin := some "yǔshuǐ",
      english := some "Rain Water" },
    { index := 2, longitude := 0, chinese := some "春分", pinyin := some "chūnfēn",
      english := some "Vernal Equinox" },
    { index := 3, longitude := 30, chinese := some "穀雨", pinyin := some "gǔyǔ",
      english := some "Grain Rains" },
    { index := 4, longitude := 60, chinese := some "小滿", pinyin := some "xiǎomǎn",
      english := some "Grain Full" },
    { index := 5, longitude := 90, chinese := some "夏至", pinyin := some "xiàzhì",
      english := some "Summer Solstice" },
    { index := 6, longitude := 120, chinese := some "大暑", pinyin := some "dàshǔ",
      english := some "Major Heat" },
    { index := 7, longitude := 150, chinese := some "處暑", pinyin := some "chùshǔ",
      english := some "Limit of Heat" },
    { index := 8, longitude := 180, chinese := some "秋分", pinyin := some "qiūfēn",
      english := some "Autumnal Equinox" },
    { index := 9, longitude := 210, chinese := some "霜降", pinyin := some "shuāngjiàng",
      english := some "Descent of Frost" },
    { index := 10, longitude := 240, chinese := some "小雪", pinyin := some "xiǎoxuě",
      english := some "Minor Snow" },
    { index := 11, longitude := 270, chinese := some "冬至", pinyin := some "dōngzhì",
      english := some "Winter Solstice" },
    { index := 12, longitude := 300, chinese := some "大寒", pinyin := some "dàhán",
      english := some "Major Cold" } ]

/-- `chinese_sexagesimal_name`: the values stored through `stem` and `branch`. -/
def chinese_sexagesimal_name (cyear : ℤ) : ℤ × ℤ :=
  (toInt (amod (cyear : ℚ) 10), toInt (amod (cyear : ℚ) 12))

/-! ### The bisection of `solar_longitude_after`, pass by pass -/

/-- One pass through the body of the loop of `solar_longitude_after`, on the
locals `(lo, hi, x)`. -/
def solar_longitude_after_body (sl : ℚ → ℚ) (target : ℚ) (s : ℚ × ℚ × ℚ) : ℚ × ℚ × ℚ :=
  if mod (sl s.2.2 - target) 360 < 180 then (s.1, s.2.2, (s.2.2 + s.1) / 2)
  else (s.2.2, s.2.1, (s.2.1 + s.2.2) / 2)

/-- The locals `(lo, hi, x)` of `solar_longitude_after` before the loop. -/
def solar_longitude_after_start (sl : ℚ → ℚ) (t target : ℚ) : ℚ × ℚ × ℚ :=
  let rate : ℚ := MEAN_TROPICAL_YEAR / 360.0
  let tau : ℚ := t + rate * mod (target - sl t) 360
  let l : ℚ := fmax t (tau - 5)
  let u : ℚ := tau + 5
  (l, u, (u + l) / 2)

/-! ### Epochs and day counts -/

def EPOCH_MJD : ℤ := 678576
def EPOCH_UNIXTIME : ℤ := 719163
def EPOCH_HEBREW : ℤ := -1373427
def EPOCH_ISLAMIC : ℤ := 227015
def EPOCH_MAYAN : ℤ := -1137142
def EPOCH_MAYAN_HAAB : ℤ := -1137490
def EPOCH_MAYAN_TZOLKIN : ℤ := -1137301

/-- `fixed_from_unixtime`; `time / 86400` is the division of the integer type
`time_t`, which truncates toward zero. -/
def fixed_from_unixtime (time : ℤ) : ℤ :=
  toInt (((⌊((Int.tdiv time 86400 : ℤ) : ℚ)⌋ : ℤ) : ℚ) + (EPOCH_UNIXTIME : ℚ))

/-- `jd_from_fixed`. -/
def jd_from_fixed (date : ℤ) : ℚ := jd_from_moment (date : ℚ)

/-- `nth_kday`; Sunday is 0. -/
def nth_kday (n k year month day : ℤ) : ℤ :=
  if n > 0 then 7 * n + kday_before (fixed_from_gregorian year month day) k
  else 7 * n + kday_after (fixed_from_gregorian year month day) k

/-! ### Islamic calendar -/

/-- The macro `oddp(n)`, as a truth value. -/
def oddp (n : ℤ) : Bool := decide (Int.tmod n 2 ≠ 0)

/-- `islamic_leap_year`. -/
def islamic_leap_year (year : ℤ) : Bool :=
  decide (mod (((14 + (11 * year) : ℤ)) : ℚ) 30 < 11)

/-- `last_day_of_islamic_month`. -/
def last_day_of_islamic_month (month year : ℤ) : ℤ :=
  if oddp month = true ∨ (month = 12 ∧ islamic_leap_year year = true) then 30 else 29

/-- `fixed_from_islamic`. -/
def fixed_from_islamic (year month day : ℤ) : ℤ :=
  toInt (((day + (29 * (month - 1)) : ℤ) : ℚ) +
    ((⌊((6 * month - 1 : ℤ) : ℚ) / 11.0⌋ : ℤ) : ℚ) +
    (((year - 1) * 354 : ℤ) : ℚ) +
    ((⌊((3 + (11 * year) : ℤ) : ℚ) / 30.0⌋ : ℤ) : ℚ) +
    (EPOCH_ISLAMIC : ℚ) - 1)

/-- `islamic_from_fixed`: the year, month and day stored through `ryear`,
`rmonth` and `rday`. -/
def islamic_from_fixed (date : ℤ) : ℤ × ℤ × ℤ :=
  let year : ℤ := toInt (⌊((30 * (date - EPOCH_ISLAMIC) + 10646 : ℤ) : ℚ) / 10631.0⌋ : ℤ)
  let prior_days : ℤ := date - fixed_from_islamic year 1 1
  let month : ℤ := toInt (⌊((11 * prior_days + 330 : ℤ) : ℚ) / 325.0⌋ : ℤ)
  let day : ℤ := date - fixed_from_islamic year month 1 + 1
  (year, month, day)

/-! ### Hebrew calendar -/

/-- `hebrew_leap_year`. -/
def hebrew_leap_year (year : ℤ) : Bool :=
  decide (mod (((1 + (7 * year) : ℤ)) : ℚ) 19 < 7)

/-- `last_month_of_hebrew_year`. -/
def last_month_of_hebrew_year (year : ℤ) : ℤ :=
  if hebrew_leap_year year = true then 13 else 12

/-- `hebrew_calendar_elapsed_days`. -/
def hebrew_calendar_elapsed_days (year : ℤ) : ℤ :=
  let months_elapsed : ℤ := toInt (⌊((235 * year - 234 : ℤ) : ℚ) / 19.0⌋ : ℤ)
  let parts_elapsed : ℚ := ((12084 + 13753 * months_elapsed : ℤ) : ℚ)
  let day : ℤ := toInt (((29 * months_elapsed : ℤ) : ℚ) + ((⌊parts_elapsed / 25920.0⌋ : ℤ) : ℚ))
  if mod (((3 * (day + 1) : ℤ)) : ℚ) 7 < 3 then day + 1 else day

/-- `hebrew_year_length_correction`. -/
def hebrew_year_length_correction (year : ℤ) : ℤ :=
  let ny0 := hebrew_calendar_elapsed_days (year - 1)
  let ny1 := hebrew_calendar_elapsed_days year
  let ny2 := hebrew_calendar_elapsed_days (year + 1)
  if ny2 - ny1 = 356 then 2
  else if ny1 - ny0 = 382 then 1
  else 0

/-- `hebrew_new_year`. -/
def hebrew_new_year (year : ℤ) : ℤ :=
  EPOCH_HEBREW + hebrew_calendar_elapsed_days year + hebrew_year_length_correction year

/-- `days_in_hebrew_year`. -/
def days_in_hebrew_year (year : ℤ) : ℤ := hebrew_new_year (year + 1) - hebrew_new_year year

/-- `long_marheshvan`. -/
def long_marheshvan (year : ℤ) : Bool :=
  let days := days_in_hebrew_year year
  decide (days = 355 ∨ days = 385)

/-- `short_kislev`. -/
def short_kislev (year : ℤ) : Bool :=
  let days := days_in_hebrew_year year
  decide (days = 353 ∨ days = 383)

/-- `last_day_of_hebrew_month`. -/
def last_day_of_hebrew_month (month year : ℤ) : ℤ :=
  if (month = 2 ∨ month = 4 ∨ month = 6 ∨ month = 10 ∨ month = 13) ∨
      (month = 12 ∧ ¬ hebrew_leap_year year = true) ∨
      (month = 8 ∧ ¬ long_marheshvan year = true) ∨
      (month = 9 ∧ short_kislev year = true) then 29
  else 30

/-- A loop `for (i = a; ...; i++) date += f(i)` that runs `n` times: the sum
added to `date`. -/
def for_sum (f : ℤ → ℤ) (a : ℤ) : ℕ → ℤ
  | 0 => 0
  | n + 1 => f a + for_sum f (a + 1) n

/-- `fixed_from_hebrew`; a loop from `a` while `i <= b` runs `b + 1 - a` times
when that is positive, and not at all otherwise. -/
def fixed_from_hebrew (year month day : ℤ) : ℤ :=
  let date : ℤ := hebrew_new_year year + day - 1
  if month < 7 then
    let lm := last_month_of_hebrew_year year
    date + for_sum (fun i => last_day_of_hebrew_month i year) 7 (lm + 1 - 7).toNat
      + for_sum (fun i => last_day_of_hebrew_month i year) 1 (month - 1).toNat
  else
    date + for_sum (fun i => last_day_of_hebrew_month i year) 7 (month - 7).toNat

/-! ### Mayan calendars -/

/-- `fixed_from_mayan_long_count`. -/
def fixed_from_mayan_long_count (baktun katun tun uinal kin : ℤ) : ℤ :=
  EPOCH_MAYAN + baktun * 144000 + katun * 7200 + tun * 360 + uinal * 20 + kin

/-- `mayan_long_count_from_fixed`: the values stored through `rbaktun`, `rkatun`,
`rtun`, `ruinal` and `rkin`. -/
def mayan_long_count_from_fixed (date : ℤ) : ℤ × ℤ × ℤ × ℤ × ℤ :=
  let long_count : ℤ := date - EPOCH_MAYAN
  let baktun : ℤ := toInt (⌊(long_count : ℚ) / 144000.0⌋ : ℤ)
  let day_of_baktun : ℤ := toInt (mod (long_count : ℚ) 144000)
  let katun : ℤ := toInt (⌊(day_of_baktun : ℚ) / 7200.0⌋ : ℤ)
  let day_of_katun : ℤ := toInt (mod (day_of_baktun : ℚ) 7200)
  let tun : ℤ := toInt (⌊(day_of_katun : ℚ) / 360.0⌋ : ℤ)
  let day_of_tun : ℤ := toInt (mod (day_of_katun : ℚ) 360)
  let uinal : ℤ := toInt (⌊(day_of_tun : ℚ) / 20.0⌋ : ℤ)
  let kin : ℤ := toInt (mod (day_of_tun : ℚ) 20)
  (baktun, katun, tun, uinal, kin)

/-- `mayan_haab_ordinal`. -/
def mayan_haab_ordinal (month day : ℤ) : ℤ := (month - 1) * 20 + day

/-- `mayan_haab_from_fixed`: the month and day stored through `rmonth` and
`rday`. -/
def mayan_haab_from_fixed (date : ℤ) : ℤ × ℤ :=
  let count : ℤ := toInt (mod (((date - EPOCH_MAYAN_HAAB : ℤ)) : ℚ) 365)
  let day : ℤ := toInt (mod (count : ℚ) 20)
  let month : ℤ := toInt (((⌊(count : ℚ) / 20.0⌋ : ℤ) : ℚ) + 1)
  (month, day)

/-- `mayan_tzolkin_ordinal`. -/
def mayan_tzolkin_ordinal (number name : ℤ) : ℤ :=
  toInt (mod (((number - 1 + 39 * (number - name) : ℤ)) : ℚ) 260)

/-- `mayan_tzolkin_from_fixed`: the number and name stored through `rnumber` and
`rname`. -/
def mayan_tzolkin_from_fixed (date : ℤ) : ℤ × ℤ :=
  let count : ℤ := date - EPOCH_MAYAN_TZOLKIN + 1
  (toInt (amod (count : ℚ) 13), toInt (amod (count : ℚ) 20))

/-- `mayan_tzolkin_on_or_before`. -/
def mayan_tzolkin_on_or_before (date number name : ℤ) : ℤ :=
  toInt ((date : ℚ) -
    mod (((date - EPOCH_MAYAN_TZOLKIN - mayan_tzolkin_ordinal number name : ℤ)) : ℚ) 260)

/-! ### ISO calendar -/

/-- `fixed_from_iso`. -/
def fixed_from_iso (year week day : ℤ) : ℤ := nth_kday week 0 (year - 1) 12 28 + day

/-- `iso_from_fixed`: the year, week and day stored through `ryear`, `rweek` and
`rday`. -/
def iso_from_fixed (date : ℤ) : ℤ × ℤ × ℤ :=
  let approx : ℤ := gregorian_year_from_fixed (date - 3)
  let year : ℤ := if date ≥ fixed_from_iso (approx + 1) 1 1 then approx + 1 else approx
  let week : ℤ := toInt (1 + ((⌊((date - fixed_from_iso year 1 1 : ℤ) : ℚ) / 7.0⌋ : ℤ) : ℚ))
  let day : ℤ := toInt (amod (date : ℚ) 7)
  (year, week, day)

/-! ### Zodiac -/

/-- `struct Zodiac`; `none` is a null pointer. -/
structure Zodiac where
  longitude : ℤ
  symbol : Option String
  name : Option String
  deriving DecidableEq

/-- `Zodiacs`. -/
def Zodiacs : List Zodiac :=
  [ { longitude := -1, symbol := none, name := none },
    { longitude := 0, symbol := some "♈", name := some "Aries" },
    { longitude := 30, symbol := some "♉", name := some "Taurus" },
    { longitude := 60, symbol := some "♊", name := some "Gemini" },
    { longitude := 90, symbol := some "♋", name := some "Cancer" },
    { longitude := 120, symbol := some "♌", name := some "Leo" },
    { longitude := 150, symbol := some "♍", name := some "Virgo" },
    { longitude := 180, symbol := some "♎", name := some "Libra" },
    { longitude := 210, symbol := some "♏", name := some "Scorpio" },
    { longitude := 240, symbol := some "♐", name := some "Sagittarius" },
    { longitude := 270, symbol := some "♑", name := some "Capricorn" },
    { longitude := 300, symbol := some "♒", name := some "Aquarius" },
    { longitude := 330, symbol := some "♓", name := some "Pisces" } ]

/-- `current_zodiac`. -/
def current_zodiac (L : Libm) (date : ℤ) : ℤ :=
  let s : ℚ := solar_longitude L (date : ℚ)
  toInt (amod (((⌊s / 30.0⌋ : ℤ)) : ℚ) 12)

/-! ### Julian day numbers of `moonphase.c` -/

/-- `jdate`, on the fields `tm_year`, `tm_mon` and `tm_mday` of its argument;
the divisions are those of the type `long`, which truncate toward zero. -/
def jdate (tm_year tm_mon tm_mday : ℤ) : ℤ :=
  let y : ℤ := tm_year + 1900
  let m : ℤ := tm_mon + 1
  let my : ℤ × ℤ := if m > 2 then (m - 3, y) else (m + 9, y - 1)
  let m : ℤ := my.1
  let y : ℤ := my.2
  let c : ℤ := Int.tdiv y 100
  let y : ℤ := y - 100 * c
  tm_mday + Int.tdiv (c * 146097) 4 + Int.tdiv (y * 1461) 4 + Int.tdiv (m * 153 + 2) 5 + 1721119

/-! ### A check of the Hebrew year lengths, year by year

The definitions of this section are not functions of the source: they repeat
the arithmetic of `hebrew_calendar_elapsed_days` and
`hebrew_year_length_correction` on natural numbers, where one year after the
other can be evaluated, and are proved equal to the functions of the source in
`hebrew_calendar_elapsed_days_natCast`, `hebrew_new_year_natCast` and
`hebrew_year_ok_sound`. -/

/-- The value of `hebrew_calendar_elapsed_days` for a year from 1 on, in the
division of the natural numbers. -/
def hebrew_elapsed_days_nat (year : ℕ) : ℕ :=
  let months_elapsed : ℕ := (235 * year - 234) / 19
  let day : ℕ := 29 * months_elapsed + (12084 + 13753 * months_elapsed) / 25920
  if 3 * (day + 1) % 7 < 3 then day + 1 else day

/-- The value of `hebrew_year_length_correction` from the elapsed days of the
year before, the year and the year after. -/
def hebrew_correction_nat (ny0 ny1 ny2 : ℕ) : ℕ :=
  if ny2 = ny1 + 356 then 2 else if ny1 = ny0 + 382 then 1 else 0

/-- Whether the length of a Hebrew year from 2 on is one of 383, 384, 385 in a
leap year and one of 353, 354, 355 in a common year. -/
def hebrew_year_ok (year : ℕ) : Bool :=
  let e0 := hebrew_elapsed_days_nat (year - 1)
  let e1 := hebrew_elapsed_days_nat year
  let e2 := hebrew_elapsed_days_nat (year + 1)
  let e3 := hebrew_elapsed_days_nat (year + 2)
  let a := e1 + hebrew_correction_nat e0 e1 e2
  let b := e2 + hebrew_correction_nat e1 e2 e3
  if (1 + 7 * year) % 19 < 7 then decide (b = a + 383 ∨ b = a + 384 ∨ b = a + 385)
  else decide (b = a + 353 ∨ b = a + 354 ∨ b = a + 355)

/-- Whether `hebrew_year_ok` holds for the years 2 to `n + 1`. -/
def hebrew_years_ok : ℕ → Bool
  | 0 => true
  | n + 1 => hebrew_year_ok (n + 2) && hebrew_years_ok n

/-! ### Accuracy of the library functions and enclosures

The definitions of this section are not functions of the source; they serve the
theorems about the values of the ephemerides.
* `LibmAccurate` says how close the library functions, which the source only
  calls, are to the functions of real analysis; `LibmEnclosed` lists what the
  theorems use of it, over the rationals.
* `sinP`, `cosP` and `trig_ref` are the polynomials by which a sine or cosine at
  a rational argument is enclosed; `PI_LO` and `PI_HI` enclose pi.
* A definition named `..._ok` is a Boolean check of closed conditions on
  rationals under which a theorem encloses a value of the source.
* `phase_fraction`, `phase_M`, `phase_ml`, `phase_MM`, `phase_sun`,
  `phase_moon_age`, `nm_c`, `nm_arg`, `nm_coef`, `ephemeris_correction_year` and
  `chinese_date_of` name parts of the bodies of `phase`, `nth_new_moon`,
  `ephemeris_correction` and `chinese_from_fixed`, copied from the definitions
  above; the theorems `phase_fraction_of_kepler`, `nth_new_moon_eq`,
  `ephemeris_correction_eq_year` and `chinese_from_fixed_result` tie them to
  those functions. -/

/-- The Taylor polynomial of degree 9 of the sine. -/
def sinP (x : ℚ) : ℚ := x - x ^ 3 / 6 + x ^ 5 / 120 - x ^ 7 / 5040 + x ^ 9 / 362880

/-- The Taylor polynomial of degree 8 of the cosine. -/
def cosP (x : ℚ) : ℚ := 1 - x ^ 2 / 2 + x ^ 4 / 24 - x ^ 6 / 720 + x ^ 8 / 40320

/-- A lower bound of the real number pi. -/
def PI_LO : ℚ := 3.14159265358979323846

/-- An upper bound of the real number pi. -/
def PI_HI : ℚ := 3.14159265358979323847

/-- The approximate value of `sin (y + k * pi / 2)`. -/
def trig_ref (k : ℤ) (y : ℚ) : ℚ :=
  if k % 4 = 0 then sinP y else if k % 4 = 1 then cosP y
  else if k % 4 = 2 then -sinP y else -cosP y

/-- The library functions are within `ε` of the real functions; for the
tangent, within `ε` relative to `1 + |tan x|`. -/
structure LibmAccurate (L : Libm) (I : LibmInv) (ε : ℚ) : Prop where
  sin : ∀ x : ℚ, |((L.sin x : ℚ) : ℝ) - Real.sin (x : ℝ)| ≤ (ε : ℝ)
  cos : ∀ x : ℚ, |((L.cos x : ℚ) : ℝ) - Real.cos (x : ℝ)| ≤ (ε : ℝ)
  tan : ∀ x : ℚ, |((L.tan x : ℚ) : ℝ) - Real.tan (x : ℝ)| ≤ (ε : ℝ) * (1 + |Real.tan (x : ℝ)|)
  sqrt : ∀ x : ℚ, 0 ≤ x → |((I.sqrt x : ℚ) : ℝ) - Real.sqrt (x : ℝ)| ≤ (ε : ℝ)
  atan : ∀ x : ℚ, |((I.atan x : ℚ) : ℝ) - Real.arctan (x : ℝ)| ≤ (ε : ℝ)

/-- The value returned by `phase` of `moonphase.c`, which is what
`new_moon_before` and `new_moon_after` use of it; 0 stands for a call that does
not return within the fuel. -/
def phase_fraction (L : Libm) (I : LibmInv) (fuel : ℕ) (pdate : ℚ) : ℚ :=
  match phase L I fuel pdate with
  | some r => r.fraction
  | none => 0

/-- The sum of the series of `solar_longitude` with the sines replaced by the
values of the list `Sl`, and by 0 beyond its end. -/
def solar_sumS (Sl : List ℚ) : ℚ :=
  ((List.range vlen).map (fun i => (xvec.getD i 0 : ℚ) * Sl.getD i 0)).sum

/-- The sum of the coefficients of `solar_longitude` weighted by the widths of
the list `Hl`, and by `B` beyond its end. -/
def solar_sumH (Hl : List ℚ) (B : ℚ) : ℚ :=
  ((List.range vlen).map (fun i => |(xvec.getD i 0 : ℚ)| * Hl.getD i B)).sum

/-- The value of `ephemeris_correction` as a function of the Gregorian year of
the moment, the only thing it uses of the moment. -/
def ephemeris_correction_year (year : ℤ) : ℚ :=
  let c : ℚ :=
    ((fixed_from_gregorian year 7 1 - fixed_from_gregorian 1900 1 1 : ℤ) : ℚ) / 36525.0
  if 1988 ≤ year ∧ year ≤ 2019 then
    ((year - 1933 : ℤ) : ℚ) / (24.0 * 60.0 * 60.0)
  else if 1900 ≤ year ∧ year ≤ 1987 then
    poly c c19c c19
  else if 1800 ≤ year ∧ year ≤ 1899 then
    poly c c18c c18
  else if 1620 ≤ year ∧ year ≤ 1799 then
    poly ((year - 1600 : ℤ) : ℚ) c17c c17 / (24 * 60 * 60)
  else
    let x : ℚ :=
      0.5 + ((fixed_from_gregorian year 1 1 - fixed_from_gregorian 1810 1 1 : ℤ) : ℚ)
    (x * x / 41048480.0 - 15) / (24 * 60 * 60)

/-- The conditions under which `r - k * pi / 2` lies between `a` and `b` for
every `r` between `r1` and `r2`, with `a` and `b` in `[-1, 1]`. -/
def reduce_ok (k : ℤ) (r1 r2 a b : ℚ) : Bool :=
  decide (a ≤ r1 - k * (PI_LO / 2)) && decide (a ≤ r1 - k * (PI_HI / 2)) &&
  decide (r1 - k * (PI_LO / 2) ≤ b) && decide (r1 - k * (PI_HI / 2) ≤ b) &&
  decide (a ≤ r2 - k * (PI_LO / 2)) && decide (a ≤ r2 - k * (PI_HI / 2)) &&
  decide (r2 - k * (PI_LO / 2) ≤ b) && decide (r2 - k * (PI_HI / 2) ≤ b) &&
  decide (-1 ≤ a) && decide (b ≤ 1)

/-- The conditions under which a function within `ε` of the sine (`kk = k`) or
of the cosine (`kk = k + 1`) is within `η` of `v` at every argument between `r1`
and `r2`. -/
def trig_ok (ε : ℚ) (k kk : ℤ) (r1 r2 a b v η : ℚ) : Bool :=
  reduce_ok k r1 r2 a b &&
  decide (v - η ≤ trig_ref kk ((a + b) / 2) - ((b - a) / 2 + 1 / 3628800 + ε)) &&
  decide (trig_ref kk ((a + b) / 2) + ((b - a) / 2 + 1 / 3628800 + ε) ≤ v + η)

/-- The consequences of `LibmAccurate` that the enclosures of the ephemerides
use, stated over the rationals: the library sine is enclosed by `trig_ok`, is
bounded and varies no faster than its argument, up to `ε`; the tangent is
enclosed by a quotient of polynomials, the square root by rationals whose
squares enclose the argument, and the arc tangent by angles whose tangents
enclose the argument. -/
structure LibmEnclosed (L : Libm) (I : LibmInv) (ε : ℚ) : Prop where
  sin_of_ok : ∀ r r1 r2 : ℚ, ((r1 ≤ r ∧ r ≤ r2) ∨ (r2 ≤ r ∧ r ≤ r1)) →
    ∀ (k : ℤ) (a b v η : ℚ), trig_ok ε k k r1 r2 a b v η = true → |L.sin r - v| ≤ η
  sin_abs_le : ∀ x : ℚ, |L.sin x| ≤ 1 + ε
  cos_abs_le : ∀ x : ℚ, |L.cos x| ≤ 1 + ε
  sin_lipschitz : ∀ a b : ℚ, |L.sin a - L.sin b| ≤ |a - b| + 2 * ε
  tan_encl : ∀ u u1 u2 : ℚ, u1 ≤ u → u ≤ u2 → ∀ (k : ℤ) (a b t1 t2 T : ℚ),
    reduce_ok k u1 u2 a b = true →
    ((0 < trig_ref (k + 1) ((a + b) / 2) - ((b - a) / 2 + 1 / 3628800) ∧
        t1 * (trig_ref (k + 1) ((a + b) / 2) - ((b - a) / 2 + 1 / 3628800))
          ≤ trig_ref k ((a + b) / 2) - ((b - a) / 2 + 1 / 3628800) ∧
        t1 * (trig_ref (k + 1) ((a + b) / 2) + ((b - a) / 2 + 1 / 3628800))
          ≤ trig_ref k ((a + b) / 2) - ((b - a) / 2 + 1 / 3628800) ∧
        trig_ref k ((a + b) / 2) + ((b - a) / 2 + 1 / 3628800)
          ≤ t2 * (trig_ref (k + 1) ((a + b) / 2) - ((b - a) / 2 + 1 / 3628800)) ∧
        trig_ref k ((a + b) / 2) + ((b - a) / 2 + 1 / 3628800)
          ≤ t2 * (trig_ref (k + 1) ((a + b) / 2) + ((b - a) / 2 + 1 / 3628800))) ∨
      (trig_ref (k + 1) ((a + b) / 2) + ((b - a) / 2 + 1 / 3628800) < 0 ∧
        trig_ref k ((a + b) / 2) + ((b - a) / 2 + 1 / 3628800)
          ≤ t1 * (trig_ref (k + 1) ((a + b) / 2) - ((b - a) / 2 + 1 / 3628800)) ∧
        trig_ref k ((a + b) / 2) + ((b - a) / 2 + 1 / 3628800)
          ≤ t1 * (trig_ref (k + 1) ((a + b) / 2) + ((b - a) / 2 + 1 / 3628800)) ∧
        t2 * (trig_ref (k + 1) ((a + b) / 2) - ((b - a) / 2 + 1 / 3628800))
          ≤ trig_ref k ((a + b) / 2) - ((b - a) / 2 + 1 / 3628800) ∧
        t2 * (trig_ref (k + 1) ((a + b) / 2) + ((b - a) / 2 + 1 / 3628800))
          ≤ trig_ref k ((a + b) / 2) - ((b - a) / 2 + 1 / 3628800))) →
    -T ≤ t1 → t2 ≤ T →
    t1 - ε * (1 + T) ≤ L.tan u ∧ L.tan u ≤ t2 + ε * (1 + T)
  sqrt_encl : ∀ x q1 q2 : ℚ, 0 < q1 → q1 ^ 2 ≤ x → x ≤ q2 ^ 2 → 0 ≤ q2 →
    q1 - ε ≤ I.sqrt x ∧ I.sqrt x ≤ q2 + ε
  atan_encl : ∀ y y1 y2 : ℚ, y1 ≤ y → y ≤ y2 →
    ∀ (β1 : ℚ) (kβ1 : ℤ) (aβ1 bβ1 : ℚ) (β2 : ℚ) (kβ2 : ℤ) (aβ2 bβ2 : ℚ),
    -(3 / 2) ≤ β1 → β1 ≤ 3 / 2 → reduce_ok kβ1 β1 β1 aβ1 bβ1 = true →
    0 < trig_ref (kβ1 + 1) ((aβ1 + bβ1) / 2) - ((bβ1 - aβ1) / 2 + 1 / 3628800) →
    trig_ref kβ1 ((aβ1 + bβ1) / 2) + ((bβ1 - aβ1) / 2 + 1 / 3628800)
      ≤ y1 * (trig_ref (kβ1 + 1) ((aβ1 + bβ1) / 2) - ((bβ1 - aβ1) / 2 + 1 / 3628800)) →
    trig_ref kβ1 ((aβ1 + bβ1) / 2) + ((bβ1 - aβ1) / 2 + 1 / 3628800)
      ≤ y1 * (trig_ref (kβ1 + 1) ((aβ1 + bβ1) / 2) + ((bβ1 - aβ1) / 2 + 1 / 3628800)) →
    -(3 / 2) ≤ β2 → β2 ≤ 3 / 2 → reduce_ok kβ2 β2 β2 aβ2 bβ2 = true →
    0 < trig_ref (kβ2 + 1) ((aβ2 + bβ2) / 2) - ((bβ2 - aβ2) / 2 + 1 / 3628800) →
    y2 * (trig_ref (kβ2 + 1) ((aβ2 + bβ2) / 2) - ((bβ2 - aβ2) / 2 + 1 / 3628800))
      ≤ trig_ref kβ2 ((aβ2 + bβ2) / 2) - ((bβ2 - aβ2) / 2 + 1 / 3628800) →
    y2 * (trig_ref (kβ2 + 1) ((aβ2 + bβ2) / 2) + ((bβ2 - aβ2) / 2 + 1 / 3628800))
      ≤ trig_ref kβ2 ((aβ2 + bβ2) / 2) - ((bβ2 - aβ2) / 2 + 1 / 3628800) →
    β1 - ε ≤ I.atan y ∧ I.atan y ≤ β2 + ε

/-- The conditions under which the value returned by `kepler` for the mean
anomaly `m`, in radians, lies between `E1` and `E2`: two enclosures of the sine
at the last iterate. -/
def kepler_ok (ε m : ℚ) (k1 : ℤ) (a1 b1 v1 η1 : ℚ) (k2 : ℤ) (a2 b2 v2 η2 E1 E2 : ℚ) : Bool :=
  trig_ok ε k1 k1 (m - (eccent * (1 + ε) + EPSILON)) (m + (eccent * (1 + ε) + EPSILON))
    a1 b1 v1 η1 &&
  trig_ok ε k2 k2 (m + eccent * (v1 - η1) - EPSILON) (m + eccent * (v1 + η1) + EPSILON)
    a2 b2 v2 η2 &&
  decide (E1 ≤ m + eccent * (v2 - η2) - EPSILON - EPSILON / 0.98) &&
  decide (m + eccent * (v2 + η2) + EPSILON + EPSILON / 0.98 ≤ E2)

/-- The true longitude of the sun computed by `phase` from the eccentric
anomaly `Ec` that `kepler` returns. -/
def phase_sun (L : Libm) (I : LibmInv) (Ec : ℚ) : ℚ :=
  let Ec : ℚ := I.sqrt ((1 + eccent) / (1 - eccent)) * L.tan (Ec / 2)
  let Ec : ℚ := 2 * todeg (I.atan Ec)
  fixangle (Ec + elongp)

/-- The age of the moon in degrees computed by `phase` at the Julian date
`pdate`, from the longitude `Lambdasun` of the sun. -/
def phase_moon_age (L : Libm) (pdate Lambdasun : ℚ) : ℚ :=
  let Day : ℚ := pdate - epoch
  let N : ℚ := fixangle ((360 / 365.2422) * Day)
  let M : ℚ := fixangle (N + elonge - elongp)
  let ml : ℚ := fixangle (13.1763966 * Day + mmlong)
  let MM : ℚ := fixangle (ml - 0.1114041 * Day - mmlongp)
  let Ev : ℚ := 1.2739 * L.sin (torad (2 * (ml - Lambdasun) - MM))
  let Ae : ℚ := 0.1858 * L.sin (torad M)
  let A3 : ℚ := 0.37 * L.sin (torad M)
  let MmP : ℚ := MM + Ev - Ae - A3
  let mEc : ℚ := 6.2886 * L.sin (torad MmP)
  let A4 : ℚ := 0.214 * L.sin (torad (2 * MmP))
  let lP : ℚ := ml + Ev + mEc - Ae + A4
  let V : ℚ := 0.6583 * L.sin (torad (2 * (lP - Lambdasun)))
  let lPP : ℚ := lP + V
  lPP - Lambdasun

/-- The mean anomaly of the sun, in degrees, that `phase` passes to `kepler`. -/
def phase_M (pdate : ℚ) : ℚ :=
  fixangle (fixangle ((360 / 365.2422) * (pdate - epoch)) + elonge - elongp)

/-- The conditions under which the longitude of the sun computed by `phase`
lies between `Λ1` and `Λ2` for every eccentric anomaly between `E1` and `E2`. -/
def sun_ok (ε E1 E2 : ℚ) (k : ℤ) (a b t1 t2 T q1 q2 y1 y2 β1 : ℚ) (kβ1 : ℤ) (aβ1 bβ1 β2 : ℚ)
    (kβ2 : ℤ) (aβ2 bβ2 : ℚ) (qs : ℤ) (Λ1 Λ2 : ℚ) : Bool :=
  let S := trig_ref k ((a + b) / 2)
  let C := trig_ref (k + 1) ((a + b) / 2)
  let ρ := (b - a) / 2 + 1 / 3628800
  let S1 := trig_ref kβ1 ((aβ1 + bβ1) / 2)
  let C1 := trig_ref (kβ1 + 1) ((aβ1 + bβ1) / 2)
  let ρ1 := (bβ1 - aβ1) / 2 + 1 / 3628800
  let S2 := trig_ref kβ2 ((aβ2 + bβ2) / 2)
  let C2 := trig_ref (kβ2 + 1) ((aβ2 + bβ2) / 2)
  let ρ2 := (bβ2 - aβ2) / 2 + 1 / 3628800
  let ta := t1 - ε * (1 + T)
  let tb := t2 + ε * (1 + T)
  let qa := q1 - ε
  let qb := q2 + ε
  decide (E1 ≤ E2) && decide (0 ≤ ε) &&
  reduce_ok k (E1 / 2) (E2 / 2) a b &&
  ((decide (0 < C - ρ) && decide (t1 * (C - ρ) ≤ S - ρ) && decide (t1 * (C + ρ) ≤ S - ρ) &&
      decide (S + ρ ≤ t2 * (C - ρ)) && decide (S + ρ ≤ t2 * (C + ρ))) ||
    (decide (C + ρ < 0) && decide (S + ρ ≤ t1 * (C - ρ)) && decide (S + ρ ≤ t1 * (C + ρ)) &&
      decide (t2 * (C - ρ) ≤ S - ρ) && decide (t2 * (C + ρ) ≤ S - ρ))) &&
  decide (-T ≤ t1) && decide (t2 ≤ T) &&
  decide (0 < qa) && decide (q1 ^ 2 ≤ (1 + eccent) / (1 - eccent)) &&
  decide ((1 + eccent) / (1 - eccent) ≤ q2 ^ 2) && decide (0 ≤ q2) &&
  decide (y1 ≤ qa * ta) && decide (y1 ≤ qb * ta) && decide (qa * tb ≤ y2) &&
  decide (qb * tb ≤ y2) &&
  decide (-(3 / 2) ≤ β1) && decide (β1 ≤ 3 / 2) && reduce_ok kβ1 β1 β1 aβ1 bβ1 &&
  decide (0 < C1 - ρ1) && decide (S1 + ρ1 ≤ y1 * (C1 - ρ1)) &&
  decide (S1 + ρ1 ≤ y1 * (C1 + ρ1)) &&
  decide (-(3 / 2) ≤ β2) && decide (β2 ≤ 3 / 2) && reduce_ok kβ2 β2 β2 aβ2 bβ2 &&
  decide (0 < C2 - ρ2) && decide (y2 * (C2 - ρ2) ≤ S2 - ρ2) &&
  decide (y2 * (C2 + ρ2) ≤ S2 - ρ2) &&
  decide (360 * (qs : ℚ) + Λ1 ≤ 2 * todeg (β1 - ε) + elongp) &&
  decide (2 * todeg (β2 + ε) + elongp ≤ 360 * (qs : ℚ) + Λ2) &&
  decide (0 ≤ Λ1) && decide (Λ2 < 360)

/-- The mean longitude of the moon, in degrees, computed by `phase`. -/
def phase_ml (pdate : ℚ) : ℚ := fixangle (13.1763966 * (pdate - epoch) + mmlong)

/-- The mean anomaly of the moon, in degrees, computed by `phase`. -/
def phase_MM (pdate : ℚ) : ℚ :=
  fixangle (phase_ml pdate - 0.1114041 * (pdate - epoch) - mmlongp)

/-- The conditions under which the fraction returned by `phase` at the Julian
date `pdate` lies between `φ1` and `φ2` for every longitude of the sun between
`Λ1` and `Λ2`: enclosures of the five sines of the lunar theory. -/
def moon_ok (ε pdate Λ1 Λ2 : ℚ) (k1 : ℤ) (a1 b1 v1 η1 : ℚ) (k2 : ℤ) (a2 b2 v2 η2 : ℚ)
    (k3 : ℤ) (a3 b3 v3 η3 : ℚ) (k4 : ℤ) (a4 b4 v4 η4 : ℚ) (k5 : ℤ) (a5 b5 v5 η5 : ℚ)
    (qm : ℤ) (φ1 φ2 : ℚ) : Bool :=
  let ml := phase_ml pdate
  let MM := phase_MM pdate
  let M := phase_M pdate
  let P1 := MM + 1.2739 * (v1 - η1) - 0.5558 * (v2 + η2)
  let P2 := MM + 1.2739 * (v1 + η1) - 0.5558 * (v2 - η2)
  let Q1 := ml + 1.2739 * (v1 - η1) + 6.2886 * (v3 - η3) - 0.1858 * (v2 + η2)
    + 0.214 * (v4 - η4)
  let Q2 := ml + 1.2739 * (v1 + η1) + 6.2886 * (v3 + η3) - 0.1858 * (v2 - η2)
    + 0.214 * (v4 + η4)
  trig_ok ε k1 k1 (torad (2 * (ml - Λ1) - MM)) (torad (2 * (ml - Λ2) - MM)) a1 b1 v1 η1 &&
  trig_ok ε k2 k2 (torad M) (torad M) a2 b2 v2 η2 &&
  trig_ok ε k3 k3 (torad P1) (torad P2) a3 b3 v3 η3 &&
  trig_ok ε k4 k4 (torad (2 * P1)) (torad (2 * P2)) a4 b4 v4 η4 &&
  trig_ok ε k5 k5 (torad (2 * (Q1 - Λ2))) (torad (2 * (Q2 - Λ1))) a5 b5 v5 η5 &&
  decide (360 * (qm : ℚ) + 360 * φ1 ≤ Q1 + 0.6583 * (v5 - η5) - Λ2) &&
  decide (Q2 + 0.6583 * (v5 + η5) - Λ1 ≤ 360 * (qm : ℚ) + 360 * φ2) &&
  decide (0 ≤ φ1) && decide (φ2 < 1)

/-- The variable `c` of `nth_new_moon`. -/
def nm_c (n : ℤ) : ℚ := ((n - 24724 : ℤ) : ℚ) / 1236.85

/-- The argument of the `i`-th sine of the correction of `nth_new_moon`. -/
def nm_arg (n : ℤ) (i : ℕ) : ℚ :=
  deg2rad ((nm_x_vec.getD i 0 : ℚ) * poly (nm_c n) 4 nm_solaranom_vec +
    (nm_y_vec.getD i 0 : ℚ) * poly (nm_c n) 5 nm_lunaranom_vec +
    (nm_z_vec.getD i 0 : ℚ) * poly (nm_c n) 5 nm_moonarg_vec)

/-- The coefficient of the `i`-th sine of the correction of `nth_new_moon`. -/
def nm_coef (n : ℤ) (i : ℕ) : ℚ :=
  nm_v_vec.getD i 0 * poly (nm_c n) 3 nm_E_vec ^ (nm_w_vec.getD i 0)

/-- The correction of `nth_new_moon` with the sines replaced by the values of
the list `Sl`, and by 0 beyond its end. -/
def nm_sumS (n : ℤ) (Sl : List ℚ) : ℚ :=
  ((List.range 24).map (fun i => nm_coef n i * Sl.getD i 0)).sum

/-- The coefficients of the correction of `nth_new_moon` weighted by the widths
of the list `Hl`, and by `B` beyond its end. -/
def nm_sumH (n : ℤ) (Hl : List ℚ) (B : ℚ) : ℚ :=
  ((List.range 24).map (fun i => |nm_coef n i| * Hl.getD i B)).sum

/-- The bound of the terms of `nth_new_moon` outside the 24 sines of the
correction, for sines bounded by `B`. -/
def nm_rest (B : ℚ) : ℚ :=
  0.00017 * B + 0.000325 * B + ((List.range 13).map (fun i => |nm_l_vec.getD i 0| * B)).sum

/-- The date that `chinese_from_fixed` stores for the day `date`, from the new
moon `m12` after the winter solstice, the new moon `m` on or before the day, and
the locals `adj` and `leap`: the last statements of `chinese_from_fixed`. -/
def chinese_date_of (date m12 m adj : ℤ) (leap : Bool) : ChineseDate :=
  let month : ℤ :=
    toInt (amod (((round (((m - m12 : ℤ) : ℚ) / MEAN_SYNODIC_MONTH) : ℤ) : ℚ) - (adj : ℚ)) 12)
  let ep := fixed_from_gregorian (-2636) 2 15
  let elapsed_years : ℤ :=
    toInt (⌊1.5 - (month : ℚ) / 12.0 + ((date - ep : ℤ) : ℚ) / MEAN_TROPICAL_YEAR⌋ : ℤ)
  let cycle : ℤ := toInt (⌊((elapsed_years - 1 : ℤ) : ℚ) / 60.0⌋ : ℤ) + 1
  let year : ℤ := toInt (amod (elapsed_years : ℚ) 60)
  let day : ℤ := date - m + 1
  { cycle := cycle, year := year, month := month, leap := leap, day := day }

/-- The conditions of `trig_ok` for the sines of a list: for every index `i` of
the list `Sl`, the sine at an argument between `arg1 i` and `arg2 i` is within
`Hl i` of `Sl i`. -/
def terms_ok (ε : ℚ) (arg1 arg2 : ℕ → ℚ) (Kl : List ℤ) (Al Bl Sl Hl : List ℚ) : Bool :=
  decide (Hl.length = Sl.length) &&
  (List.range Sl.length).all (fun i =>
    trig_ok ε (Kl.getD i 0) (Kl.getD i 0) (arg1 i) (arg2 i) (Al.getD i 0) (Bl.getD i 0)
      (Sl.getD i 0) (Hl.getD i 0))

/-- The conditions under which the solar longitude at the moment `t` lies
between `lo` and `hi`. -/
def solar_point_ok (ε t : ℚ) (Kl : List ℤ) (Al Bl Sl Hl : List ℚ) (q : ℤ) (lo hi : ℚ) : Bool :=
  terms_ok ε (fun i => deg2rad (yvec.getD i 0 + zvec.getD i 0 * julian_centuries t))
    (fun i => deg2rad (yvec.getD i 0 + zvec.getD i 0 * julian_centuries t)) Kl Al Bl Sl Hl &&
  decide (0 ≤ lo) && decide (hi < 360) &&
  decide (360 * (q : ℚ) + lo ≤ 282.7771834 + 36000.76953744 * julian_centuries t
    + 0.000005729577951308232 * (solar_sumS Sl - solar_sumH Hl (1 + ε))
    - 0.0005575 - 0.0052421 * (1 + ε)) &&
  decide (282.7771834 + 36000.76953744 * julian_centuries t
    + 0.000005729577951308232 * (solar_sumS Sl + solar_sumH Hl (1 + ε))
    - 0.0005575 + 0.0052421 * (1 + ε) ≤ 360 * (q : ℚ) + hi)

/-- The conditions under which the solar longitude lies between `lo` and `hi`
at every moment between `τ1` and `τ2`, two moments of the Gregorian year `Y`
whose Julian centuries lie between `c1` and `c2`. -/
def solar_near_ok (ε τ1 τ2 : ℚ) (Y : ℤ) (c1 c2 : ℚ) (Kl : List ℤ) (Al Bl Sl Hl : List ℚ)
    (q : ℤ) (lo hi : ℚ) : Bool :=
  decide (((fixed_from_gregorian Y 1 1 : ℤ) : ℚ) ≤ τ1) &&
  decide (τ2 < ((fixed_from_gregorian (Y + 1) 1 1 : ℤ) : ℚ)) &&
  decide (c1 ≤ (τ1 + ephemeris_correction_year Y - 730120.5) / 36525.0) &&
  decide ((τ2 + ephemeris_correction_year Y - 730120.5) / 36525.0 ≤ c2) &&
  terms_ok ε (fun i => deg2rad (yvec.getD i 0 + zvec.getD i 0 * c1))
    (fun i => deg2rad (yvec.getD i 0 + zvec.getD i 0 * c2)) Kl Al Bl Sl Hl &&
  decide (0 ≤ lo) && decide (hi < 360) &&
  decide (360 * (q : ℚ) + lo ≤ 282.7771834 + 36000.76953744 * c1
    + 0.000005729577951308232 * (solar_sumS Sl - solar_sumH Hl (1 + ε))
    - 0.0005575 - 0.0052421 * (1 + ε)) &&
  decide (282.7771834 + 36000.76953744 * c2
    + 0.000005729577951308232 * (solar_sumS Sl + solar_sumH Hl (1 + ε))
    - 0.0005575 + 0.0052421 * (1 + ε) ≤ 360 * (q : ℚ) + hi)

/-- The conditions under which the estimate of the winter solstice made at the
Beijing midnight of `d1` lies in the three days from `s - 1`: the solar
longitude is between `l0` and `h0` at that midnight, and between `l1` and `h1`
at the moments between `τ1` and `τ2`. -/
def solstice_ok (d1 s : ℤ) (l0 h0 : ℚ) (j : ℤ) (τ1 τ2 l1 h1 lo hi : ℚ) : Bool :=
  decide (0 ≤ l0 - 270 + 360 * (j : ℚ)) && decide (h0 - 270 + 360 * (j : ℚ) < 360) &&
  decide (τ1 ≤ midnight_in_china d1 - MEAN_TROPICAL_YEAR / 360 * (h0 - 270 + 360 * (j : ℚ))) &&
  decide (midnight_in_china d1 - MEAN_TROPICAL_YEAR / 360 * (l0 - 270 + 360 * (j : ℚ)) ≤ τ2) &&
  decide (90 ≤ l1) && decide (h1 < 450) &&
  decide (lo ≤ τ1 - MEAN_TROPICAL_YEAR / 360 * (h1 - 270)) &&
  decide (τ2 - MEAN_TROPICAL_YEAR / 360 * (l1 - 270) ≤ hi) &&
  decide (hi ≤ midnight_in_china d1) &&
  decide (((s - 1 : ℤ) : ℚ) ≤ lo) && decide (hi < ((s + 2 : ℤ) : ℚ))

/-- The conditions under which the `n`-th new moon lies between `lo` and `hi`;
`Y` is the Gregorian year of its dynamical time. -/
def nm_ok (ε : ℚ) (n : ℤ) (Kl : List ℤ) (Al Bl Sl Hl : List ℚ) (Y : ℤ) (lo hi : ℚ) : Bool :=
  terms_ok ε (nm_arg n) (nm_arg n) Kl Al Bl Sl Hl &&
  decide (((fixed_from_gregorian Y 1 1 : ℤ) : ℚ) ≤ poly (nm_c n) 5 nm_approx_vec
    + nm_sumS n Sl - nm_sumH n Hl (1 + ε) - nm_rest (1 + ε)) &&
  decide (poly (nm_c n) 5 nm_approx_vec + nm_sumS n Sl + nm_sumH n Hl (1 + ε)
    + nm_rest (1 + ε) < ((fixed_from_gregorian (Y + 1) 1 1 : ℤ) : ℚ)) &&
  decide (lo ≤ poly (nm_c n) 5 nm_approx_vec + nm_sumS n Sl - nm_sumH n Hl (1 + ε)
    - nm_rest (1 + ε) - ephemeris_correction_year Y) &&
  decide (poly (nm_c n) 5 nm_approx_vec + nm_sumS n Sl + nm_sumH n Hl (1 + ε)
    + nm_rest (1 + ε) - ephemeris_correction_year Y ≤ hi)

/-- The conditions under which `new_moon_before` and `new_moon_after` compute
the lunation index `n` at the Beijing midnight of `date`: the conditions of
`kepler_ok`, `sun_ok` and `moon_ok` at the Julian date of that midnight, and the
rounding of the index for a phase between `φ1` and `φ2`. -/
def lunation_ok (ε : ℚ) (date : ℤ)
    (kk1 : ℤ) (ka1 kb1 kv1 kη1 : ℚ) (kk2 : ℤ) (ka2 kb2 kv2 kη2 E1 E2 : ℚ)
    (k : ℤ) (a b t1 t2 T q1 q2 y1 y2 β1 : ℚ) (kβ1 : ℤ) (aβ1 bβ1 β2 : ℚ)
    (kβ2 : ℤ) (aβ2 bβ2 : ℚ) (qs : ℤ) (Λ1 Λ2 : ℚ)
    (k1 : ℤ) (a1 b1 v1 η1 : ℚ) (k2 : ℤ) (a2 b2 v2 η2 : ℚ)
    (k3 : ℤ) (a3 b3 v3 η3 : ℚ) (k4 : ℤ) (a4 b4 v4 η4 : ℚ) (k5 : ℤ) (a5 b5 v5 η5 : ℚ)
    (qm : ℤ) (φ1 φ2 : ℚ) (n : ℤ) : Bool :=
  kepler_ok ε (torad (phase_M (jd_from_moment (midnight_in_china date))))
    kk1 ka1 kb1 kv1 kη1 kk2 ka2 kb2 kv2 kη2 E1 E2 &&
  sun_ok ε E1 E2 k a b t1 t2 T q1 q2 y1 y2 β1 kβ1 aβ1 bβ1 β2 kβ2 aβ2 bβ2 qs Λ1 Λ2 &&
  moon_ok ε (jd_from_moment (midnight_in_china date)) Λ1 Λ2 k1 a1 b1 v1 η1 k2 a2 b2 v2 η2
    k3 a3 b3 v3 η3 k4 a4 b4 v4 η4 k5 a5 b5 v5 η5 qm φ1 φ2 &&
  decide (0 ≤ midnight_in_china date / MEAN_SYNODIC_MONTH - φ2) &&
  decide ((n : ℚ) - 1 / 2 ≤ midnight_in_china date / MEAN_SYNODIC_MONTH - φ2) &&
  decide (midnight_in_china date / MEAN_SYNODIC_MONTH - φ1 < (n : ℚ) + 1 / 2)

/-- Library functions `sqrt` and `atan` that return 0, a concrete instance of
`LibmInv`. -/
def zeroLibmInv : LibmInv := { sqrt := fun _ => 0, atan := fun _ => 0 }

/-- A mean-motion ephemeris, a concrete instance of `Astro`: the solar longitude
advances 360 degrees in 365.2425 days from day 79.3, and the new moons are the
moments `11.3 + 29.5306 * n`. -/
def meanAstro : Astro :=
  { solar_longitude := fun t => mod ((t - 79.3) * (360 / 365.2425)) 360
    new_moon_before := fun t => 11.3 + 29.5306 * ((⌈(t - 11.3) / 29.5306⌉ : ℤ) - 1)
    new_moon_after := fun t => 11.3 + 29.5306 * ((⌊(t - 11.3) / 29.5306⌋ : ℤ) + 1) }

/-- A library whose `sin`, `cos` and `tan` return 0, a concrete instance of `Libm`. -/
def zeroLibm : Libm := { sin := fun _ => 0, cos := fun _ => 0, tan := fun _ => 0 }

/-! ## Theorems -/

/-! ### Numeric kernel -/

theorem toInt_intCast (n : ℤ) : toInt (n : ℚ) = n := by
  unfold toInt
  split_ifs with h
  · exact Int.floor_intCast n
  · rw [← Int.cast_neg, Int.floor_intCast, neg_neg]

theorem mod_nonneg_of_pos (x y : ℚ) (hy : 0 < y) : 0 ≤ mod x y := by
  unfold mod
  have h := Int.floor_le (x / y)
  rw [le_div_iff₀ hy] at h
  linarith

theorem mod_lt_of_pos (x y : ℚ) (hy : 0 < y) : mod x y < y := by
  unfold mod
  have h := Int.lt_floor_add_one (x / y)
  rw [div_lt_iff₀ hy] at h
  linarith

theorem mod_nonpos_of_neg (x y : ℚ) (hy : y < 0) : mod x y ≤ 0 := by
  unfold mod
  have h := Int.floor_le (x / y)
  rw [le_div_iff_of_neg hy] at h
  linarith

theorem lt_mod_of_neg (x y : ℚ) (hy : y < 0) : y < mod x y := by
  unfold mod
  have h := Int.lt_floor_add_one (x / y)
  rw [div_lt_iff_of_neg hy] at h
  linarith

theorem floor_intCast_div_ofNat (n : ℤ) (d : ℕ) : ⌊(n : ℚ) / (d : ℚ)⌋ = n / (d : ℤ) :=
  Rat.floor_intCast_div_natCast n d

theorem mod_intCast_natCast (n : ℤ) (d : ℕ) : mod (n : ℚ) (d : ℚ) = ((n % (d : ℤ) : ℤ) : ℚ) := by
  unfold mod
  rw [floor_intCast_div_ofNat, Int.emod_def]
  push_cast
  ring

theorem amod_intCast_natCast (n : ℤ) (d : ℕ) :
    amod (n : ℚ) (d : ℚ) = (((d : ℤ) - (-n) % (d : ℤ) : ℤ) : ℚ) := by
  unfold amod mod
  have h : (n : ℚ) / -(d : ℚ) = ((-n : ℤ) : ℚ) / (d : ℚ) := by
    push_cast
    rw [div_neg, neg_div]
  rw [h, floor_intCast_div_ofNat, Int.emod_def]
  push_cast
  ring

/-- C10. For every `x` and every non-zero `y`, `mod(x, y)` is
`x - y * floor(x / y)`; it lies in `[0, y)` when `y > 0` and in `(y, 0]` when
`y < 0`, and `x - mod(x, y)` is an integer multiple of `y`. -/
theorem mod_true_modulo (x y : ℚ) (hy : y ≠ 0) :
    mod x y = x - y * (⌊x / y⌋ : ℤ) ∧
    (0 < y → 0 ≤ mod x y ∧ mod x y < y) ∧
    (y < 0 → y < mod x y ∧ mod x y ≤ 0) ∧
    ∃ k : ℤ, x - mod x y = (k : ℚ) * y := by
  have _ := hy
  refine ⟨rfl, fun h => ⟨mod_nonneg_of_pos x y h, mod_lt_of_pos x y h⟩,
    fun h => ⟨lt_mod_of_neg x y h, mod_nonpos_of_neg x y h⟩, ⌊x / y⌋, ?_⟩
  unfold mod
  ring

theorem mod_true_modulo_witness :
    mod (-7) 3 = (-7 : ℚ) - 3 * (⌊(-7 : ℚ) / 3⌋ : ℤ) ∧
    ((0 : ℚ) < 3 → 0 ≤ mod (-7) 3 ∧ mod (-7) 3 < 3) ∧
    ((3 : ℚ) < 0 → 3 < mod (-7) 3 ∧ mod (-7) 3 ≤ 0) ∧
    ∃ k : ℤ, (-7 : ℚ) - mod (-7) 3 = (k : ℚ) * 3 :=
  mod_true_modulo (-7) 3 (by decide!)

/-! ### Gregorian year and the Chinese locale -/

theorem gregorian_year_from_fixed_eq (date : ℤ) :
    gregorian_year_from_fixed date =
      (let d0 := date - 1
       let n400 := d0 / 146097
       let d1 := d0 % 146097
       let n100 := d1 / 36524
       let d2 := d1 % 36524
       let n4 := d2 / 1461
       let d3 := d2 % 1461
       let n1 := d3 / 365
       let year := 400 * n400 + 100 * n100 + 4 * n4 + n1
       if n100 = 4 ∨ n1 = 4 then year else year + 1) := by
  have e1 : (146097.0 : ℚ) = ((146097 : ℕ) : ℚ) := by norm_num
  have e2 : (36524.0 : ℚ) = ((36524 : ℕ) : ℚ) := by norm_num
  have e3 : (1461.0 : ℚ) = ((1461 : ℕ) : ℚ) := by norm_num
  have e4 : (365.0 : ℚ) = ((365 : ℕ) : ℚ) := by norm_num
  have f1 : (146097 : ℚ) = ((146097 : ℕ) : ℚ) := by norm_num
  have f2 : (36524 : ℚ) = ((36524 : ℕ) : ℚ) := by norm_num
  have f3 : (1461 : ℚ) = ((1461 : ℕ) : ℚ) := by norm_num
  unfold gregorian_year_from_fixed
  simp only [e1, e2, e3, e4, f1, f2, f3, floor_intCast_div_ofNat, mod_intCast_natCast,
    toInt_intCast]
  rfl

theorem gregorian_year_lt_1929_iff (date : ℤ) :
    gregorian_year_from_fixed date < 1929 ↔ date < 704188 := by
  rw [gregorian_year_from_fixed_eq]
  simp only []
  have ha : (date - 1) / 146097 ≤ 3 ∨ (date - 1) / 146097 = 4 ∨ 5 ≤ (date - 1) / 146097 := by
    omega
  have hb : (date - 1) % 146097 / 36524 = 0 ∨ (date - 1) % 146097 / 36524 = 1 ∨
      (date - 1) % 146097 / 36524 = 2 ∨ (date - 1) % 146097 / 36524 = 3 ∨
      (date - 1) % 146097 / 36524 = 4 := by
    omega
  have hc : (date - 1) % 146097 % 36524 / 1461 ≤ 6 ∨
      (date - 1) % 146097 % 36524 / 1461 = 7 ∨
      8 ≤ (date - 1) % 146097 % 36524 / 1461 := by
    omega
  rcases ha with ha | ha | ha <;> rcases hb with hb | hb | hb | hb | hb <;>
    rcases hc with hc | hc | hc <;> split_ifs with h <;> omega

theorem chinese_location_eq (t : ℚ) :
    chinese_location t = if ⌊t⌋ < 704188 then BejingOld else Bejing := by
  unfold chinese_location
  simp only [toInt_intCast]
  have h : (((gregorian_year_from_fixed ⌊t⌋ : ℤ) : ℚ) < 1929) ↔ ⌊t⌋ < 704188 := by
    rw [← gregorian_year_lt_1929_iff]
    exact_mod_cast Iff.rfl
  by_cases h1 : ⌊t⌋ < 704188
  · rw [if_pos h1, if_pos (h.mpr h1)]
  · rw [if_neg h1, if_neg (fun h2 => h1 (h.mp h2))]

/-- C6. `chinese_location(t)` returns the pre-1929 locale exactly when the
Gregorian year of `floor(t)` is below 1929, that is exactly when
`floor(t) < fixed_from_gregorian(1929, 1, 1) = 704188`; otherwise it returns the
locale whose timezone offset is 8 hours. -/
theorem chinese_location_threshold (t : ℚ) :
    fixed_from_gregorian 1929 1 1 = 704188 ∧
    (chinese_location t = BejingOld ↔ gregorian_year_from_fixed ⌊t⌋ < 1929) ∧
    (chinese_location t = BejingOld ↔ ⌊t⌋ < fixed_from_gregorian 1929 1 1) ∧
    (¬ ⌊t⌋ < fixed_from_gregorian 1929 1 1 →
      chinese_location t = Bejing ∧ (chinese_location t).timezone = 8) := by
  have hfg : fixed_from_gregorian 1929 1 1 = 704188 := by decide!
  have hne : Bejing ≠ BejingOld := by decide!
  have h8 : Bejing.timezone = 8 := by decide!
  rw [hfg, gregorian_year_lt_1929_iff, chinese_location_eq]
  refine ⟨rfl, ?_, ?_, ?_⟩
  · by_cases h : ⌊t⌋ < 704188
    · simp [h]
    · simp [h, hne]
  · by_cases h : ⌊t⌋ < 704188
    · simp [h]
    · simp [h, hne]
  · intro h
    rw [if_neg h]
    exact ⟨rfl, h8⟩

/-! ### Solar ephemeris -/

/-- C7. For every moment `t`, `solar_longitude(t)` lies in `[0, 360)`, whatever
values `sin` and `cos` return. -/
theorem solar_longitude_range (L : Libm) (t : ℚ) :
    0 ≤ solar_longitude L t ∧ solar_longitude L t < 360 := by
  unfold solar_longitude
  exact ⟨mod_nonneg_of_pos _ _ (by norm_num), mod_lt_of_pos _ _ (by norm_num)⟩

theorem solar_longitude_after_loop_spec (sl : ℚ → ℚ) (target v : ℚ) (hv : 0 < v) :
    ∀ (fuel : ℕ) (lo hi : ℚ), lo ≤ hi → hi - lo ≤ v * 2 ^ fuel →
      ∃ r, solar_longitude_after_loop sl target v fuel lo hi ((hi + lo) / 2) = some r ∧
        lo ≤ r ∧ r ≤ hi := by
  intro fuel
  induction fuel with
  | zero =>
    intro lo hi hle hw
    refine ⟨(hi + lo) / 2, ?_, by linarith, by linarith⟩
    have hnot : ¬ (hi - lo > v) := by
      simp only [pow_zero, mul_one] at hw
      exact not_lt.mpr hw
    simp only [solar_longitude_after_loop, if_neg hnot]
  | succ n ih =>
    intro lo hi hle hw
    by_cases hgt : hi - lo > v
    · have hpow : v * 2 ^ (n + 1) = 2 * (v * 2 ^ n) := by ring
      rw [hpow] at hw
      by_cases hc : mod (sl ((hi + lo) / 2) - target) 360 < 180
      · obtain ⟨r, hr, h1, h2⟩ := ih lo ((hi + lo) / 2) (by linarith) (by linarith)
        refine ⟨r, ?_, h1, by linarith⟩
        simp only [solar_longitude_after_loop, if_pos hgt, if_pos hc]
        exact hr
      · obtain ⟨r, hr, h1, h2⟩ := ih ((hi + lo) / 2) hi (by linarith) (by linarith)
        refine ⟨r, ?_, by linarith, h2⟩
        simp only [solar_longitude_after_loop, if_pos hgt, if_neg hc]
        exact hr
    · refine ⟨(hi + lo) / 2, ?_, by linarith, by linarith⟩
      simp only [solar_longitude_after_loop, if_neg hgt]

theorem solar_longitude_after_loop_fuel_mono (sl : ℚ → ℚ) (target v : ℚ) :
    ∀ (fuel : ℕ) (lo hi x r : ℚ),
      solar_longitude_after_loop sl target v fuel lo hi x = some r →
      solar_longitude_after_loop sl target v (fuel + 1) lo hi x = some r := by
  intro fuel
  induction fuel with
  | zero =>
    intro lo hi x r h
    by_cases hgt : hi - lo > v
    · simp [solar_longitude_after_loop, hgt] at h
    · simpa [solar_longitude_after_loop, hgt] using h
  | succ n ih =>
    intro lo hi x r h
    rw [solar_longitude_after_loop] at h ⊢
    by_cases hgt : hi - lo > v
    · rw [if_pos hgt] at h ⊢
      by_cases hc : mod (sl x - target) 360 < 180
      · rw [if_pos hc] at h ⊢
        exact ih _ _ _ _ h
      · rw [if_neg hc] at h ⊢
        exact ih _ _ _ _ h
    · rw [if_neg hgt] at h ⊢
      exact h

/-- C8. For every solar longitude function, moment `t` and target, the
bisection of `solar_longitude_after` ends within 20 iterations and returns a
moment `r` with `max(t, tau - 5) <= r <= tau + 5` and `r >= t`, where
`tau = t + (365.242189 / 360) * mod(target - solar_longitude(t), 360)`. -/
theorem solar_longitude_after_bracket (sl : ℚ → ℚ) (fuel : ℕ) (hfuel : 20 ≤ fuel)
    (t target : ℚ) :
    ∃ r, solar_longitude_after sl fuel t target = some r ∧
      fmax t (t + (365.242189 / 360) * mod (target - sl t) 360 - 5) ≤ r ∧
      r ≤ t + (365.242189 / 360) * mod (target - sl t) 360 + 5 ∧
      t ≤ r := by
  have hm : 0 ≤ mod (target - sl t) 360 := mod_nonneg_of_pos _ _ (by norm_num)
  have hrate : MEAN_TROPICAL_YEAR / 360.0 = (365.242189 / 360 : ℚ) := by
    unfold MEAN_TROPICAL_YEAR
    norm_num
  obtain ⟨k, rfl⟩ := Nat.exists_eq_add_of_le hfuel
  unfold solar_longitude_after
  simp only [hrate]
  have hP : 0 ≤ (365.242189 / 360 : ℚ) * mod (target - sl t) 360 :=
    mul_nonneg (by norm_num) hm
  generalize (365.242189 / 360 : ℚ) * mod (target - sl t) 360 = P at hP ⊢
  have hl1 : t ≤ fmax t (t + P - 5) := by
    unfold fmax
    split_ifs with h <;> linarith
  have hl2 : t + P - 5 ≤ fmax t (t + P - 5) := by
    unfold fmax
    split_ifs with h <;> linarith
  have hl3 : fmax t (t + P - 5) ≤ t + P := by
    unfold fmax
    split_ifs with h <;> linarith
  generalize fmax t (t + P - 5) = l at hl1 hl2 hl3 ⊢
  have hw : t + P + 5 - l ≤ (0.00001 : ℚ) * 2 ^ 20 := by
    have : (10 : ℚ) ≤ 0.00001 * 2 ^ 20 := by norm_num
    linarith
  obtain ⟨r, hr, h1, h2⟩ := solar_longitude_after_loop_spec sl target 0.00001 (by norm_num) 20
    l (t + P + 5) (by linarith) hw
  refine ⟨r, ?_, h1, h2, le_trans hl1 h1⟩
  clear hfuel
  induction k with
  | zero => exact hr
  | succ n ih => exact solar_longitude_after_loop_fuel_mono _ _ _ _ _ _ _ _ ih

theorem solar_longitude_after_bracket_witness :
    ∃ r, solar_longitude_after (fun _ => 0) 20 0 90 = some r ∧
      fmax 0 (0 + (365.242189 / 360) * mod (90 - (fun _ : ℚ => (0 : ℚ)) 0) 360 - 5) ≤ r ∧
      r ≤ 0 + (365.242189 / 360) * mod (90 - (fun _ : ℚ => (0 : ℚ)) 0) 360 + 5 ∧
      0 ≤ r :=
  solar_longitude_after_bracket (fun _ => 0) 20 (by decide) 0 90

theorem clamp_spec (e : ℚ) :
    fabs ((signum e : ℚ) * fmin (fabs e) 0.5) ≤ 0.5 ∧
    signum ((signum e : ℚ) * fmin (fabs e) 0.5) = signum e ∧
    ((signum e : ℚ) * fmin (fabs e) 0.5 = 0 ↔ e = 0) ∧
    (fabs e ≤ 0.5 → (signum e : ℚ) * fmin (fabs e) 0.5 = e) := by
  rcases lt_trichotomy e 0 with h | h | h
  · have hs : signum e = -1 := by simp [signum, h]
    have ha : fabs e = -e := by simp [fabs, h]
    rw [hs, ha]
    by_cases hc : -e ≤ 0.5
    · have hm : fmin (-e) 0.5 = -e := by simp [fmin, hc]
      rw [hm]
      have he : ((-1 : ℤ) : ℚ) * -e = e := by push_cast; ring
      rw [he]
      refine ⟨?_, hs, ?_, fun _ => rfl⟩
      · rw [ha]; exact hc
      · constructor
        · intro h0; exact h0
        · intro h0; exact h0
    · have hm : fmin (-e) 0.5 = 0.5 := by simp [fmin, hc]
      rw [hm]
      have he : ((-1 : ℤ) : ℚ) * 0.5 = -0.5 := by push_cast; ring
      rw [he]
      refine ⟨?_, ?_, ?_, fun h5 => absurd h5 hc⟩
      · norm_num [fabs]
      · norm_num [signum]
      · constructor
        · intro h0; norm_num at h0
        · intro h0; linarith
  · subst h
    norm_num [signum, fabs, fmin]
  · have hs : signum e = 1 := by
      have : ¬ e < 0 := not_lt.mpr h.le
      simp [signum, h, this]
    have ha : fabs e = e := by
      have : ¬ e < 0 := not_lt.mpr h.le
      simp [fabs, this]
    rw [hs, ha]
    by_cases hc : e ≤ 0.5
    · have hm : fmin e 0.5 = e := by simp [fmin, hc]
      rw [hm]
      have he : ((1 : ℤ) : ℚ) * e = e := by push_cast; ring
      rw [he]
      refine ⟨?_, hs, ?_, fun _ => rfl⟩
      · rw [ha]; exact hc
      · constructor
        · intro h0; exact h0
        · intro h0; exact h0
    · have hm : fmin e 0.5 = 0.5 := by simp [fmin, hc]
      rw [hm]
      have he : ((1 : ℤ) : ℚ) * 0.5 = 0.5 := by push_cast; ring
      rw [he]
      refine ⟨?_, ?_, ?_, fun h5 => absurd h5 hc⟩
      · norm_num [fabs]
      · norm_num [signum]
      · constructor
        · intro h0; norm_num at h0
        · intro h0; linarith

/-- C9. For every moment `t`, `equation_of_time(t)` has absolute value at most
0.5 and the sign of the unclamped value `eq`: it is 0 exactly when `eq` is 0, and
it equals `eq` whenever `|eq| <= 0.5`. -/
theorem equation_of_time_clamped (L : Libm) (t : ℚ) :
    fabs (equation_of_time L t) ≤ 0.5 ∧
    signum (equation_of_time L t) = signum (equation_of_time_eq L t) ∧
    (equation_of_time L t = 0 ↔ equation_of_time_eq L t = 0) ∧
    (fabs (equation_of_time_eq L t) ≤ 0.5 →
      equation_of_time L t = equation_of_time_eq L t) := by
  unfold equation_of_time
  exact clamp_spec (equation_of_time_eq L t)

/-! ### Chinese calendar -/

theorem chinese_location_timezone (t : ℚ) :
    (chinese_location t).timezone = if ⌊t⌋ < 704188 then 7 else 8 := by
  rw [chinese_location_eq]
  have h7 : BejingOld.timezone = 7 := by decide!
  have h8 : Bejing.timezone = 8 := by decide!
  split_ifs
  · exact h7
  · exact h8

/-- When `new_moon_before` returns a moment before its argument,
`chinese_new_moon_before` returns a day before its argument. -/
theorem chinese_new_moon_before_lt (A : Astro) (h : ∀ t, A.new_moon_before t < t) (d : ℤ) :
    chinese_new_moon_before A d < d := by
  unfold chinese_new_moon_before
  simp only [toInt_intCast]
  rw [Int.floor_lt]
  have h1 := h (midnight_in_china d)
  generalize A.new_moon_before (midnight_in_china d) = t at h1 ⊢
  unfold midnight_in_china universal_from_standard at h1
  unfold standard_from_universal
  rw [chinese_location_timezone] at h1 ⊢
  rw [Int.floor_intCast] at h1
  by_cases hd : d < 704188
  · rw [if_pos hd] at h1
    have htd : t < (d : ℚ) := by linarith
    have hfl : ⌊t⌋ < 704188 := lt_trans (Int.floor_lt.mpr htd) hd
    rw [if_pos hfl]
    linarith
  · rw [if_neg hd] at h1
    split_ifs <;> linarith

theorem meanAstro_new_moon_before_lt (d : ℤ) : chinese_new_moon_before meanAstro d < d := by
  apply chinese_new_moon_before_lt
  intro t
  show (11.3 : ℚ) + 29.5306 * ((⌈(t - 11.3) / 29.5306⌉ : ℤ) - 1) < t
  have hc := Int.ceil_lt_add_one ((t - 11.3) / 29.5306)
  have hpos : (0 : ℚ) < 29.5306 := by norm_num
  have h2 : ((⌈(t - 11.3) / 29.5306⌉ : ℤ) : ℚ) - 1 < (t - 11.3) / 29.5306 := by linarith
  have h3 := mul_lt_mul_of_pos_left h2 hpos
  rw [mul_div_cancel₀ _ (ne_of_gt hpos)] at h3
  linarith

theorem iterate_new_moon_before_le (A : Astro) (hlt : ∀ d, chinese_new_moon_before A d < d)
    (k : ℕ) (d : ℤ) : (chinese_new_moon_before A)^[k] d ≤ d := by
  induction k generalizing d with
  | zero => exact le_refl d
  | succ n ih =>
    rw [Function.iterate_succ_apply]
    exact le_trans (ih _) (le_of_lt (hlt d))

theorem prior_leap_month_aux (A : Astro) (hlt : ∀ d, chinese_new_moon_before A d < d)
    (date1 : ℤ) :
    ∀ (n : ℕ) (date2 : ℤ), (date2 - date1 + 1).toNat ≤ n →
      ∃ b : Bool,
        (∀ fuel, n < fuel → prior_leap_month A fuel date1 date2 = some b) ∧
        (date2 < date1 → b = false) ∧
        (date1 ≤ date2 →
          (b = true ↔ ∃ k : ℕ, date1 ≤ (chinese_new_moon_before A)^[k] date2 ∧
            no_major_solar_term A ((chinese_new_moon_before A)^[k] date2) = true)) := by
  have hbelow : ∀ (n : ℕ) (date2 : ℤ), date2 < date1 →
      ∃ b : Bool,
        (∀ fuel, n < fuel → prior_leap_month A fuel date1 date2 = some b) ∧
        (date2 < date1 → b = false) ∧
        (date1 ≤ date2 →
          (b = true ↔ ∃ k : ℕ, date1 ≤ (chinese_new_moon_before A)^[k] date2 ∧
            no_major_solar_term A ((chinese_new_moon_before A)^[k] date2) = true)) := by
    intro n date2 hlt2
    refine ⟨false, ?_, fun _ => rfl, fun hge => absurd hlt2 (not_lt.mpr hge)⟩
    intro fuel hf
    obtain ⟨f, rfl⟩ : ∃ f, fuel = f + 1 := ⟨fuel - 1, by omega⟩
    simp only [prior_leap_month, if_neg (not_le.mpr hlt2)]
  intro n
  induction n with
  | zero =>
    intro date2 hm
    exact hbelow 0 date2 (by omega)
  | succ n ih =>
    intro date2 hm
    by_cases hge : date1 ≤ date2
    · by_cases hn : no_major_solar_term A date2 = true
      · refine ⟨true, ?_, fun h => absurd hge (not_le.mpr h), fun _ => ?_⟩
        · intro fuel hf
          obtain ⟨f, rfl⟩ : ∃ f, fuel = f + 1 := ⟨fuel - 1, by omega⟩
          simp only [prior_leap_month, ge_iff_le, if_pos hge, if_pos hn]
        · exact ⟨fun _ => ⟨0, hge, hn⟩, fun _ => rfl⟩
      · have hstep := hlt date2
        obtain ⟨b, hb1, hb2, hb3⟩ := ih (chinese_new_moon_before A date2) (by omega)
        refine ⟨b, ?_, fun h => absurd hge (not_le.mpr h), fun _ => ?_⟩
        · intro fuel hf
          obtain ⟨f, rfl⟩ : ∃ f, fuel = f + 1 := ⟨fuel - 1, by omega⟩
          simp only [prior_leap_month, ge_iff_le, if_pos hge, if_neg hn]
          exact hb1 f (by omega)
        · constructor
          · intro hbt
            by_cases hge2 : date1 ≤ chinese_new_moon_before A date2
            · obtain ⟨k, hk1, hk2⟩ := (hb3 hge2).mp hbt
              exact ⟨k + 1, by rwa [Function.iterate_succ_apply],
                by rwa [Function.iterate_succ_apply]⟩
            · rw [hb2 (not_le.mp hge2)] at hbt
              exact absurd hbt (by decide)
          · rintro ⟨k, hk1, hk2⟩
            cases k with
            | zero => exact absurd hk2 hn
            | succ j =>
              rw [Function.iterate_succ_apply] at hk1 hk2
              have hle := iterate_new_moon_before_le A hlt j (chinese_new_moon_before A date2)
              exact (hb3 (le_trans hk1 hle)).mpr ⟨j, hk1, hk2⟩
    · exact hbelow (n + 1) date2 (not_le.mp hge)

/-- C5. Assuming `chinese_new_moon_before(d) < d` for every `d`,
`prior_leap_month(date1, date2)` terminates (a recursion depth above
`date2 - date1 + 1` is never needed), returns false when `date2 < date1`, and
otherwise returns true exactly when `no_major_solar_term` holds for some element
`>= date1` of the chain `date2, chinese_new_moon_before(date2), ...`. -/
theorem prior_leap_month_spec (A : Astro) (hlt : ∀ d, chinese_new_moon_before A d < d)
    (date1 date2 : ℤ) :
    ∃ b : Bool,
      (∀ fuel, (date2 - date1 + 1).toNat < fuel →
        prior_leap_month A fuel date1 date2 = some b) ∧
      (date2 < date1 → b = false) ∧
      (date1 ≤ date2 →
        (b = true ↔ ∃ k : ℕ, date1 ≤ (chinese_new_moon_before A)^[k] date2 ∧
          no_major_solar_term A ((chinese_new_moon_before A)^[k] date2) = true)) :=
  prior_leap_month_aux A hlt date1 (date2 - date1 + 1).toNat date2 (le_refl _)

theorem prior_leap_month_spec_witness :
    ∃ b : Bool,
      (∀ fuel, ((738660 : ℤ) - 738512 + 1).toNat < fuel →
        prior_leap_month meanAstro fuel 738512 738660 = some b) ∧
      ((738660 : ℤ) < 738512 → b = false) ∧
      ((738512 : ℤ) ≤ 738660 →
        (b = true ↔ ∃ k : ℕ, 738512 ≤ (chinese_new_moon_before meanAstro)^[k] 738660 ∧
          no_major_solar_term meanAstro ((chinese_new_moon_before meanAstro)^[k] 738660) = true)) :=
  prior_leap_month_spec meanAstro meanAstro_new_moon_before_lt 738512 738660

/-- C4. Assuming `chinese_new_moon_before(d) < d` for every `d`: for month starts
`m12 <= m1 < m2` with `m1` reached from `m2` by repeated
`chinese_new_moon_before`, the leap flag computed by `chinese_from_fixed` is
defined for both months and is not true for both. -/
theorem leap_flag_unique (A : Astro) (hlt : ∀ d, chinese_new_moon_before A d < d)
    (leap_year : Bool) (m12 m1 m2 : ℤ) (h12 : m12 ≤ m1) (hm : m1 < m2)
    (k : ℕ) (hk : m1 = (chinese_new_moon_before A)^[k] m2) :
    ∃ b1 b2 : Bool,
      (∀ fuel, (m2 - m12 + 1).toNat < fuel →
        chinese_leap_flag A fuel leap_year m12 m1 = some b1 ∧
        chinese_leap_flag A fuel leap_year m12 m2 = some b2) ∧
      ¬ (b1 = true ∧ b2 = true) := by
  have hs1 := hlt m1
  have hs2 := hlt m2
  obtain ⟨c1, hc1, -, -⟩ := prior_leap_month_aux A hlt m12
    (m2 - m12 + 1).toNat (chinese_new_moon_before A m1) (by omega)
  obtain ⟨c2, hc2, -, hc2iff⟩ := prior_leap_month_aux A hlt m12
    (m2 - m12 + 1).toNat (chinese_new_moon_before A m2) (by omega)
  obtain ⟨j, rfl⟩ : ∃ j, k = j + 1 := by
    cases k with
    | zero => exact absurd hk (ne_of_lt hm)
    | succ j => exact ⟨j, rfl⟩
  rw [Function.iterate_succ_apply] at hk
  have hle : m1 ≤ chinese_new_moon_before A m2 := by
    rw [hk]
    exact iterate_new_moon_before_le A hlt j _
  by_cases hcond1 : leap_year = true ∧ no_major_solar_term A m1 = true
  · by_cases hcond2 : leap_year = true ∧ no_major_solar_term A m2 = true
    · refine ⟨!c1, !c2, ?_, ?_⟩
      · intro fuel hf
        simp only [chinese_leap_flag, if_pos hcond1, if_pos hcond2, hc1 fuel hf, hc2 fuel hf,
          Option.map_some', and_self]
      · rintro ⟨-, hb2⟩
        have hc2t : c2 = true :=
          (hc2iff (le_trans h12 hle)).mpr ⟨j, by rw [← hk]; exact h12, by rw [← hk]; exact hcond1.2⟩
        rw [hc2t] at hb2
        exact absurd hb2 (by decide)
    · refine ⟨!c1, false, ?_, fun h => absurd h.2 (by decide)⟩
      intro fuel hf
      simp only [chinese_leap_flag, if_pos hcond1, if_neg hcond2, hc1 fuel hf,
        Option.map_some', and_self]
  · by_cases hcond2 : leap_year = true ∧ no_major_solar_term A m2 = true
    · refine ⟨false, !c2, ?_, fun h => absurd h.1 (by decide)⟩
      intro fuel hf
      simp only [chinese_leap_flag, if_neg hcond1, if_pos hcond2, hc2 fuel hf,
        Option.map_some', and_self]
    · refine ⟨false, false, ?_, fun h => absurd h.1 (by decide)⟩
      intro fuel _
      simp only [chinese_leap_flag, if_neg hcond1, if_neg hcond2, and_self]

theorem leap_flag_unique_witness :
    ∃ b1 b2 : Bool,
      (∀ fuel, ((738660 : ℤ) - 738512 + 1).toNat < fuel →
        chinese_leap_flag meanAstro fuel true 738512 738631 = some b1 ∧
        chinese_leap_flag meanAstro fuel true 738512 738660 = some b2) ∧
      ¬ (b1 = true ∧ b2 = true) :=
  leap_flag_unique meanAstro meanAstro_new_moon_before_lt true 738512 738631 738660
    (by decide) (by decide) 1 (by decide!)

theorem toInt_amod_int_range (n : ℤ) (d : ℕ) (hd : 0 < d) :
    1 ≤ toInt (amod (n : ℚ) (d : ℚ)) ∧ toInt (amod (n : ℚ) (d : ℚ)) ≤ d := by
  rw [amod_intCast_natCast, toInt_intCast]
  have hpos : (0 : ℤ) < (d : ℤ) := by exact_mod_cast hd
  have h1 := Int.emod_nonneg (-n) (ne_of_gt hpos)
  have h2 := Int.emod_lt_of_pos (-n) hpos
  omega

/-- C3. Whatever values the solar and lunar routines return, a date written by
`chinese_from_fixed` has its month in 1..12 and its year-in-cycle in 1..60. -/
theorem chinese_from_fixed_ranges (A : Astro) (fuel : ℕ) (date : ℤ) (cd : ChineseDate)
    (h : chinese_from_fixed A fuel date = some cd) :
    1 ≤ cd.month ∧ cd.month ≤ 12 ∧ 1 ≤ cd.year ∧ cd.year ≤ 60 := by
  unfold chinese_from_fixed at h
  simp only [Option.bind_eq_bind, Option.bind_eq_some, Option.some.injEq] at h
  obtain ⟨s1, -, s2, -, adj, -, leap, -, rfl⟩ := h
  simp only
  have e12 : (12 : ℚ) = ((12 : ℕ) : ℚ) := by norm_num
  have e60 : (60 : ℚ) = ((60 : ℕ) : ℚ) := by norm_num
  rw [← Int.cast_sub, e12, e60]
  have hm := toInt_amod_int_range (round (((chinese_new_moon_before A (date + 1) -
    chinese_new_moon_on_or_after A (s1 + 1) : ℤ) : ℚ) / MEAN_SYNODIC_MONTH) - adj) 12
    (by norm_num)
  refine ⟨hm.1, by exact_mod_cast hm.2, ?_⟩
  have hy := toInt_amod_int_range (toInt ((⌊1.5 - ((toInt (amod ((round
    (((chinese_new_moon_before A (date + 1) - chinese_new_moon_on_or_after A (s1 + 1) : ℤ) : ℚ)
      / MEAN_SYNODIC_MONTH) - adj : ℤ) : ℚ) ((12 : ℕ) : ℚ)) : ℤ) : ℚ) / 12.0 +
    ((date - fixed_from_gregorian (-2636) 2 15 : ℤ) : ℚ) / MEAN_TROPICAL_YEAR⌋ : ℤ) : ℚ)) 60
    (by norm_num)
  exact ⟨hy.1, by exact_mod_cast hy.2⟩

theorem chinese_from_fixed_ranges_witness :
    chinese_from_fixed meanAstro 40 738640 =
      some { cycle := 78, year := 40, month := 3, leap := true, day := 10 } ∧
    (1 ≤ (3 : ℤ) ∧ (3 : ℤ) ≤ 12 ∧ 1 ≤ (40 : ℤ) ∧ (40 : ℤ) ≤ 60) :=
  ⟨by decide!,
    chinese_from_fixed_ranges meanAstro 40 738640
      { cycle := 78, year := 40, month := 3, leap := true, day := 10 } (by decide!)⟩

/-! ### The round trip far from the present -/

theorem winter_solstice_loop_ge (A : Astro) :
    ∀ (fuel : ℕ) (i s : ℤ), chinese_winter_solstice_loop A fuel i = some s → i ≤ s := by
  intro fuel
  induction fuel with
  | zero =>
    intro i s h
    by_cases hc : LONGITUDE_WINTER > A.solar_longitude (midnight_in_china (i + 1))
    · simp [chinese_winter_solstice_loop, hc] at h
    · simp only [chinese_winter_solstice_loop, if_neg hc, Option.some.injEq] at h
      exact le_of_eq h
  | succ n ih =>
    intro i s h
    by_cases hc : LONGITUDE_WINTER > A.solar_longitude (midnight_in_china (i + 1))
    · simp only [chinese_winter_solstice_loop, if_pos hc] at h
      have := ih (i + 1) s h
      omega
    · simp only [chinese_winter_solstice_loop, if_neg hc, Option.some.injEq] at h
      exact le_of_eq h

theorem winter_solstice_loop_le (A : Astro) (g : ℤ)
    (hg : ¬ LONGITUDE_WINTER > A.solar_longitude (midnight_in_china (g + 1))) :
    ∀ (fuel : ℕ) (i s : ℤ), i ≤ g → chinese_winter_solstice_loop A fuel i = some s → s ≤ g := by
  intro fuel
  induction fuel with
  | zero =>
    intro i s hi h
    by_cases hc : LONGITUDE_WINTER > A.solar_longitude (midnight_in_china (i + 1))
    · simp [chinese_winter_solstice_loop, hc] at h
    · simp only [chinese_winter_solstice_loop, if_neg hc, Option.some.injEq] at h
      omega
  | succ n ih =>
    intro i s hi h
    by_cases hc : LONGITUDE_WINTER > A.solar_longitude (midnight_in_china (i + 1))
    · simp only [chinese_winter_solstice_loop, if_pos hc] at h
      have hne : i ≠ g := by
        intro he
        rw [he] at hc
        exact hg hc
      exact ih (i + 1) s (by omega) h
    · simp only [chinese_winter_solstice_loop, if_neg hc, Option.some.injEq] at h
      omega

theorem midnight_in_china_bounds (date : ℤ) :
    (date : ℚ) - 1 / 3 ≤ midnight_in_china date ∧ midnight_in_china date ≤ date := by
  unfold midnight_in_china universal_from_standard
  rw [chinese_location_timezone]
  split_ifs <;> constructor <;> linarith

theorem estimate_prior_solar_longitude_bounds (sl : ℚ → ℚ) (t target : ℚ) :
    t - 548 ≤ estimate_prior_solar_longitude sl t target ∧
    estimate_prior_solar_longitude sl t target ≤ t := by
  unfold estimate_prior_solar_longitude
  have h1 := mod_lt_of_pos (sl t - target) 360 (by norm_num)
  have h2 := mod_lt_of_pos
    (sl (t - MEAN_TROPICAL_YEAR / 360 * mod (sl t - target) 360) - target + 180) 360
    (by norm_num)
  simp only []
  generalize mod (sl t - target) 360 = u at h1 h2 ⊢
  generalize mod (sl (t - MEAN_TROPICAL_YEAR / 360 * u) - target + 180) 360 = w at h2 ⊢
  unfold fmin MEAN_TROPICAL_YEAR
  split_ifs with h
  · constructor <;> linarith
  · constructor
    · linarith
    · linarith

theorem winter_solstice_bounds (A : Astro) (fuel : ℕ) (date s g : ℤ)
    (hg : ¬ LONGITUDE_WINTER > A.solar_longitude (midnight_in_china (g + 1)))
    (hdg : date ≤ g)
    (h : chinese_winter_solstice_on_or_before A fuel date = some s) :
    date - 550 ≤ s ∧ s ≤ g := by
  unfold chinese_winter_solstice_on_or_before at h
  simp only [toInt_intCast] at h
  have hb := estimate_prior_solar_longitude_bounds A.solar_longitude
    (midnight_in_china (date + 1)) LONGITUDE_WINTER
  have hm := midnight_in_china_bounds (date + 1)
  generalize estimate_prior_solar_longitude A.solar_longitude
    (midnight_in_china (date + 1)) LONGITUDE_WINTER = approx at h hb
  have hfl1 : date - 549 ≤ ⌊approx⌋ := by
    rw [Int.le_floor]
    push_cast at hm ⊢
    linarith [hb.1, hm.1]
  have hfl2 : ⌊approx⌋ ≤ date + 1 := by
    have h3 : (⌊approx⌋ : ℚ) ≤ ((date + 1 : ℤ) : ℚ) := by
      have := Int.floor_le approx
      push_cast at hm ⊢
      linarith [hb.2, hm.2]
    exact_mod_cast h3
  constructor
  · have := winter_solstice_loop_ge A fuel _ s h
    omega
  · exact winter_solstice_loop_le A g hg fuel _ s (by omega) h

theorem chinese_from_fixed_fields (A : Astro) (fuel : ℕ) (date : ℤ) (cd : ChineseDate)
    (h : chinese_from_fixed A fuel date = some cd) :
    1 ≤ cd.month ∧ cd.month ≤ 12 ∧
    cd.day = date - chinese_new_moon_before A (date + 1) + 1 ∧
    (cd.cycle - 1) * 60 + (cd.year - 1) =
      ⌊(1.5 : ℚ) - (cd.month : ℚ) / 12.0 +
        ((date - EPOCH_CHINESE : ℤ) : ℚ) / MEAN_TROPICAL_YEAR⌋ - 1 := by
  unfold chinese_from_fixed at h
  simp only [Option.bind_eq_bind, Option.bind_eq_some, Option.some.injEq] at h
  obtain ⟨s1, -, s2, -, adj, -, leap, -, rfl⟩ := h
  simp only
  have hep : fixed_from_gregorian (-2636) 2 15 = EPOCH_CHINESE := by decide!
  have e12 : (12 : ℚ) = ((12 : ℕ) : ℚ) := by norm_num
  have e60 : (60 : ℚ) = ((60 : ℕ) : ℚ) := by norm_num
  have e60' : (60.0 : ℚ) = ((60 : ℕ) : ℚ) := by norm_num
  rw [hep, ← Int.cast_sub, e12, e60, e60']
  simp only [toInt_intCast, floor_intCast_div_ofNat, amod_intCast_natCast]
  have hm := toInt_amod_int_range (round (((chinese_new_moon_before A (date + 1) -
    chinese_new_moon_on_or_after A (s1 + 1) : ℤ) : ℚ) / MEAN_SYNODIC_MONTH) - adj) 12
    (by norm_num)
  rw [amod_intCast_natCast, toInt_intCast] at hm
  refine ⟨hm.1, by exact_mod_cast hm.2, trivial, ?_⟩
  generalize ⌊(1.5 : ℚ) - ((((12 : ℕ) : ℤ) - (-(round (((chinese_new_moon_before A (date + 1) -
    chinese_new_moon_on_or_after A (s1 + 1) : ℤ) : ℚ) / MEAN_SYNODIC_MONTH) - adj)) %
    ((12 : ℕ) : ℤ) : ℤ) : ℚ) / 12.0 +
    ((date - EPOCH_CHINESE : ℤ) : ℚ) / MEAN_TROPICAL_YEAR⌋ = e
  push_cast
  omega

theorem mid_year_bounds (date month : ℤ) (hm1 : 1 ≤ month) (hm12 : month ≤ 12) :
    date - 366 ≤ ⌊(EPOCH_CHINESE : ℚ) +
      (((⌊(1.5 : ℚ) - (month : ℚ) / 12.0 +
        ((date - EPOCH_CHINESE : ℤ) : ℚ) / MEAN_TROPICAL_YEAR⌋ - 1 : ℤ) : ℚ) + 0.5) *
        MEAN_TROPICAL_YEAR⌋ ∧
    ⌊(EPOCH_CHINESE : ℚ) +
      (((⌊(1.5 : ℚ) - (month : ℚ) / 12.0 +
        ((date - EPOCH_CHINESE : ℤ) : ℚ) / MEAN_TROPICAL_YEAR⌋ - 1 : ℤ) : ℚ) + 0.5) *
        MEAN_TROPICAL_YEAR⌋ ≤ date + 335 := by
  have hM : MEAN_TROPICAL_YEAR = 365.242189 := rfl
  have hMpos : (0 : ℚ) < MEAN_TROPICAL_YEAR := by rw [hM]; norm_num
  have h1 : (1 : ℚ) ≤ (month : ℚ) := by exact_mod_cast hm1
  have h12 : (month : ℚ) ≤ 12 := by exact_mod_cast hm12
  set D : ℚ := ((date - EPOCH_CHINESE : ℤ) : ℚ) with hD
  have hDe : D = (date : ℚ) - (EPOCH_CHINESE : ℚ) := by rw [hD]; push_cast; ring
  have hcancel : D / MEAN_TROPICAL_YEAR * MEAN_TROPICAL_YEAR = D :=
    div_mul_cancel₀ D (ne_of_gt hMpos)
  have hfl := Int.floor_le ((1.5 : ℚ) - (month : ℚ) / 12.0 + D / MEAN_TROPICAL_YEAR)
  have hfl2 := Int.lt_floor_add_one ((1.5 : ℚ) - (month : ℚ) / 12.0 + D / MEAN_TROPICAL_YEAR)
  generalize ⌊(1.5 : ℚ) - (month : ℚ) / 12.0 + D / MEAN_TROPICAL_YEAR⌋ = e at hfl hfl2 ⊢
  have hq : (0 : ℚ) ≤ D / MEAN_TROPICAL_YEAR * MEAN_TROPICAL_YEAR - D := by rw [hcancel]; linarith
  have hq' : D / MEAN_TROPICAL_YEAR * MEAN_TROPICAL_YEAR - D ≤ 0 := by rw [hcancel]; linarith
  generalize D / MEAN_TROPICAL_YEAR = y at hfl hfl2 hq hq'
  rw [hM] at hq hq' ⊢
  constructor
  · rw [Int.le_floor]
    push_cast
    have : ((e : ℚ) - 1 + 0.5) * 365.242189 ≥ (y - 1) * 365.242189 := by
      apply mul_le_mul_of_nonneg_right _ (by norm_num)
      have : (month : ℚ) / 12.0 ≤ 1 := by
        rw [div_le_one (by norm_num)]; norm_num; exact h12
      linarith
    linarith
  · have hlt : ⌊(EPOCH_CHINESE : ℚ) + (((e - 1 : ℤ) : ℚ) + 0.5) * 365.242189⌋ <
        date + 335 := by
      rw [Int.floor_lt]
      push_cast
      have : ((e : ℚ) - 1 + 0.5) * 365.242189 ≤ (y + 11 / 12) * 365.242189 := by
        apply mul_le_mul_of_nonneg_right _ (by norm_num)
        have : (1 : ℚ) / 12 ≤ (month : ℚ) / 12.0 := by
          rw [div_le_div_iff₀ (by norm_num) (by norm_num)]; norm_num; linarith
        linarith
      linarith
    omega

theorem new_year_in_sui_bounds (A : Astro) (fuel : ℕ) (date ny g a b X0 X1 : ℤ)
    (hshift : ∀ x, X0 ≤ x → x ≤ X1 →
      x + a ≤ chinese_new_moon_on_or_after A x ∧ chinese_new_moon_on_or_after A x ≤ x + b)
    (ha : 0 ≤ a) (hb : a ≤ b)
    (hg : ¬ LONGITUDE_WINTER > A.solar_longitude (midnight_in_china (g + 1)))
    (hdg : date ≤ g) (hX0 : X0 ≤ date - 549) (hX1 : g + 3 + 2 * b ≤ X1)
    (h : chinese_new_year_in_sui A fuel date = some ny) :
    date - 548 + 2 * a ≤ ny ∧ ny ≤ g + 3 + 3 * b := by
  unfold chinese_new_year_in_sui at h
  simp only [Option.bind_eq_bind, Option.bind_eq_some] at h
  obtain ⟨s1, hs1, s2, -, h⟩ := h
  have hs := winter_solstice_bounds A fuel date s1 g hg hdg hs1
  have h12 := hshift (s1 + 1) (by omega) (by omega)
  generalize chinese_new_moon_on_or_after A (s1 + 1) = m12 at h h12
  have h13 := hshift (m12 + 1) (by omega) (by omega)
  generalize chinese_new_moon_on_or_after A (m12 + 1) = m13 at h h13
  have h14 := hshift (m13 + 1) (by omega) (by omega)
  split_ifs at h
  · simp only [Option.some.injEq] at h
    omega
  · simp only [Option.some.injEq] at h
    omega

theorem new_year_on_or_before_bounds (A : Astro) (fuel : ℕ) (date ny g a b X0 X1 : ℤ)
    (hshift : ∀ x, X0 ≤ x → x ≤ X1 →
      x + a ≤ chinese_new_moon_on_or_after A x ∧ chinese_new_moon_on_or_after A x ≤ x + b)
    (ha : 0 ≤ a) (hb : a ≤ b)
    (hg : ¬ LONGITUDE_WINTER > A.solar_longitude (midnight_in_china (g + 1)))
    (hdg : date ≤ g) (hX0 : X0 ≤ date - 729) (hX1 : g + 3 + 2 * b ≤ X1)
    (h : chinese_new_year_on_or_before A fuel date = some ny) :
    date - 728 + 2 * a ≤ ny ∧ ny ≤ g + 3 + 3 * b := by
  unfold chinese_new_year_on_or_before at h
  simp only [Option.bind_eq_bind, Option.bind_eq_some] at h
  obtain ⟨ny1, h1, h⟩ := h
  split_ifs at h
  · simp only [Option.some.injEq] at h
    have := new_year_in_sui_bounds A fuel date ny1 g a b X0 X1 hshift ha hb hg hdg (by omega) hX1 h1
    omega
  · have := new_year_in_sui_bounds A fuel (date - 180) ny g a b X0 X1 hshift ha hb hg (by omega)
      (by omega) hX1 h
    omega

/-- When every `chinese_new_moon_on_or_after` and `chinese_new_moon_before` lands
`a` to `b` days after its argument, with `3 * a > b + 1095`, the date returned by
`fixed_from_chinese` on the result of `chinese_from_fixed` is later than the day
converted. -/
theorem round_trip_gt_of_shift (A : Astro) (fuel1 fuel2 : ℕ) (d g a b : ℤ)
    (hshift : ∀ x, d - 1095 ≤ x → x ≤ g + 323 + 4 * b →
      x + a ≤ chinese_new_moon_on_or_after A x ∧ chinese_new_moon_on_or_after A x ≤ x + b)
    (hbefore : chinese_new_moon_before A (d + 1) ≤ d + 1 + b)
    (ha : 0 ≤ a) (hb : a ≤ b) (hab : b + 1095 < 3 * a)
    (hg : ¬ LONGITUDE_WINTER > A.solar_longitude (midnight_in_china (g + 1)))
    (hdg : d + 335 ≤ g) (cd : ChineseDate) (r : ℤ)
    (h1 : chinese_from_fixed A fuel1 d = some cd)
    (h2 : fixed_from_chinese A fuel2 cd = some r) : d < r := by
  obtain ⟨hm1, hm12, hday, hcy⟩ := chinese_from_fixed_fields A fuel1 d cd h1
  have hmid := mid_year_bounds d cd.month hm1 hm12
  unfold fixed_from_chinese at h2
  simp only [Option.bind_eq_bind, Option.bind_eq_some, Option.some.injEq, toInt_intCast] at h2
  obtain ⟨ny, hny, cdp, -, h2⟩ := h2
  rw [hcy] at hny
  generalize ⌊(EPOCH_CHINESE : ℚ) +
      (((⌊(1.5 : ℚ) - (cd.month : ℚ) / 12.0 +
        ((d - EPOCH_CHINESE : ℤ) : ℚ) / MEAN_TROPICAL_YEAR⌋ - 1 : ℤ) : ℚ) + 0.5) *
        MEAN_TROPICAL_YEAR⌋ = mid at hny hmid
  have hnyb := new_year_on_or_before_bounds A fuel2 mid ny g a b (d - 1095) (g + 323 + 4 * b)
    hshift ha hb hg (by omega) (by omega) (by omega) hny
  have hp := hshift (ny + (cd.month - 1) * 29) (by omega) (by omega)
  generalize chinese_new_moon_on_or_after A (ny + (cd.month - 1) * 29) = p at h2 hp
  have hq := hshift (p + 1) (by omega) (by omega)
  split_ifs at h2 <;> omega

/-! ### Coarse bounds on the ephemerides, valid for every bounded `sin` and `cos` -/

theorem abs_foldl_add_le (f B : ℕ → ℚ) (hB : ∀ i, |f i| ≤ B i) :
    ∀ (l : List ℕ) (init : ℚ),
      |l.foldl (fun acc i => acc + f i) init| ≤ |init| + (l.map B).sum := by
  intro l
  induction l with
  | nil =>
    intro init
    simp
  | cons i l ih =>
    intro init
    simp only [List.foldl_cons, List.map_cons, List.sum_cons]
    have h1 := ih (init + f i)
    have h2 := abs_add init (f i)
    have h3 := hB i
    linarith

theorem round_bounds (z : ℚ) : z - 1 / 2 ≤ (round z : ℚ) ∧ (round z : ℚ) ≤ z + 1 / 2 := by
  unfold round
  split_ifs with h
  · have h1 := Int.floor_le (z + 1 / 2)
    have h2 := Int.lt_floor_add_one (z + 1 / 2)
    constructor <;> linarith
  · have h1 := Int.floor_le (-z + 1 / 2)
    have h2 := Int.lt_floor_add_one (-z + 1 / 2)
    push_cast
    constructor <;> linarith

theorem fixed_from_gregorian_jan1 (y : ℤ) :
    fixed_from_gregorian y 1 1 =
      365 * (y - 1) + (y - 1) / 4 - (y - 1) / 100 + (y - 1) / 400 + 1 := by
  have e1 : (4.0 : ℚ) = ((4 : ℕ) : ℚ) := by norm_num
  have e2 : (100.0 : ℚ) = ((100 : ℕ) : ℚ) := by norm_num
  have e3 : (400.0 : ℚ) = ((400 : ℕ) : ℚ) := by norm_num
  have e4 : (12.0 : ℚ) = ((12 : ℕ) : ℚ) := by norm_num
  unfold fixed_from_gregorian
  simp only [e1, e2, e3, e4, floor_intCast_div_ofNat]
  have h : ((365 * (y - 1) : ℤ) : ℚ) + (((y - 1) / ((4 : ℕ) : ℤ) : ℤ) : ℚ) -
      (((y - 1) / ((100 : ℕ) : ℤ) : ℤ) : ℚ) + (((y - 1) / ((400 : ℕ) : ℤ) : ℤ) : ℚ) +
      (((367 * 1 - 362) / ((12 : ℕ) : ℤ) : ℤ) : ℚ) +
      (((if (1 : ℤ) ≤ 2 then 0 else if (1 : ℤ) > 2 ∧ gregorian_leap_year y = true then -1
        else -2 : ℤ) : ℤ) : ℚ) + ((1 : ℤ) : ℚ) =
      ((365 * (y - 1) + (y - 1) / 4 - (y - 1) / 100 + (y - 1) / 400 + 1 : ℤ) : ℚ) := by
    norm_num
  rw [h, toInt_intCast]

theorem ephemeris_correction_far (T : ℚ) (h1 : 60000000 ≤ ⌊T⌋) (h2 : ⌊T⌋ ≤ 60030000) :
    900 ≤ ephemeris_correction T ∧ ephemeris_correction T ≤ 1100 := by
  unfold ephemeris_correction
  simp only [toInt_intCast]
  have hy : 164001 ≤ gregorian_year_from_fixed ⌊T⌋ ∧ gregorian_year_from_fixed ⌊T⌋ ≤ 164400 := by
    rw [gregorian_year_from_fixed_eq]
    simp only []
    split_ifs <;> omega
  generalize gregorian_year_from_fixed ⌊T⌋ = year at hy
  have hn1 : ¬ (1988 ≤ year ∧ year ≤ 2019) := by omega
  have hn2 : ¬ (1900 ≤ year ∧ year ≤ 1987) := by omega
  have hn3 : ¬ (1800 ≤ year ∧ year ≤ 1899) := by omega
  have hn4 : ¬ (1620 ≤ year ∧ year ≤ 1799) := by omega
  rw [if_neg hn1, if_neg hn2, if_neg hn3, if_neg hn4]
  have h1810 : fixed_from_gregorian 1810 1 1 = 660724 := by decide!
  rw [fixed_from_gregorian_jan1, h1810]
  have hfg : 59239047 ≤ 365 * (year - 1) + (year - 1) / 4 - (year - 1) / 100 +
      (year - 1) / 400 + 1 - 660724 ∧
      365 * (year - 1) + (year - 1) / 4 - (year - 1) / 100 +
      (year - 1) / 400 + 1 - 660724 ≤ 59384779 := by
    omega
  generalize 365 * (year - 1) + (year - 1) / 4 - (year - 1) / 100 +
      (year - 1) / 400 + 1 - 660724 = X at hfg
  have hx1 : (59239047 : ℚ) ≤ (X : ℚ) := by exact_mod_cast hfg.1
  have hx2 : (X : ℚ) ≤ 59384779 := by exact_mod_cast hfg.2
  have hsq1 : (59239047 : ℚ) * 59239047 ≤ (0.5 + (X : ℚ)) * (0.5 + (X : ℚ)) := by
    apply mul_le_mul <;> linarith
  have hsq2 : (0.5 + (X : ℚ)) * (0.5 + (X : ℚ)) ≤ (59384780 : ℚ) * 59384780 := by
    apply mul_le_mul <;> linarith
  generalize (0.5 + (X : ℚ)) * (0.5 + (X : ℚ)) = sq at hsq1 hsq2
  constructor
  · rw [le_div_iff₀ (by norm_num), le_sub_iff_add_le, le_div_iff₀ (by norm_num)]
    norm_num at hsq1 ⊢
    linarith
  · rw [div_le_iff₀ (by norm_num), sub_le_iff_le_add, div_le_iff₀ (by norm_num)]
    norm_num at hsq2 ⊢
    linarith

theorem poly_nm_approx_vec (c : ℚ) :
    poly c 5 nm_approx_vec = 730125.59765 + MEAN_SYNODIC_MONTH * 1236.85 * c +
      0.0001337 * c ^ 2 + (-0.000000150) * c ^ 3 + 0.00000000073 * c ^ 4 := by
  simp [poly, polyLoop, nm_approx_vec]

theorem poly_nm_E_vec (c : ℚ) :
    poly c 3 nm_E_vec = 1 + (-0.002516) * c + (-0.0000074) * c ^ 2 := by
  simp [poly, polyLoop, nm_E_vec]

theorem nm_correction_bound (L : Libm) (hs : ∀ x, |L.sin x| ≤ 1) (E sa la ma om : ℚ)
    (hE : |E| ≤ 23) :
    |(List.range 24).foldl
      (fun correction i =>
        correction + nm_v_vec.getD i 0 * E ^ (nm_w_vec.getD i 0) *
          L.sin (deg2rad ((nm_x_vec.getD i 0 : ℚ) * sa +
            (nm_y_vec.getD i 0 : ℚ) * la +
            (nm_z_vec.getD i 0 : ℚ) * ma)))
      ((-0.00017) * L.sin (deg2rad om))| ≤ 6 := by
  have h := abs_foldl_add_le
    (fun i => nm_v_vec.getD i 0 * E ^ (nm_w_vec.getD i 0) *
      L.sin (deg2rad ((nm_x_vec.getD i 0 : ℚ) * sa + (nm_y_vec.getD i 0 : ℚ) * la +
        (nm_z_vec.getD i 0 : ℚ) * ma)))
    (fun i => |nm_v_vec.getD i 0| * (23 : ℚ) ^ (nm_w_vec.getD i 0))
    (by
      intro i
      simp only [abs_mul, abs_pow]
      have h1 : |E| ^ (nm_w_vec.getD i 0) ≤ (23 : ℚ) ^ (nm_w_vec.getD i 0) :=
        pow_le_pow_left₀ (abs_nonneg E) hE _
      have h2 := hs (deg2rad ((nm_x_vec.getD i 0 : ℚ) * sa + (nm_y_vec.getD i 0 : ℚ) * la +
        (nm_z_vec.getD i 0 : ℚ) * ma))
      have h3 : |nm_v_vec.getD i 0| * |E| ^ (nm_w_vec.getD i 0) ≤
          |nm_v_vec.getD i 0| * (23 : ℚ) ^ (nm_w_vec.getD i 0) :=
        mul_le_mul_of_nonneg_left h1 (abs_nonneg _)
      calc |nm_v_vec.getD i 0| * |E| ^ (nm_w_vec.getD i 0) *
            |L.sin (deg2rad ((nm_x_vec.getD i 0 : ℚ) * sa + (nm_y_vec.getD i 0 : ℚ) * la +
              (nm_z_vec.getD i 0 : ℚ) * ma))|
          ≤ |nm_v_vec.getD i 0| * |E| ^ (nm_w_vec.getD i 0) * 1 :=
            mul_le_mul_of_nonneg_left h2
              (mul_nonneg (abs_nonneg _) (pow_nonneg (abs_nonneg E) _))
        _ ≤ |nm_v_vec.getD i 0| * (23 : ℚ) ^ (nm_w_vec.getD i 0) := by
            rw [mul_one]; exact h3)
    (List.range 24) ((-0.00017) * L.sin (deg2rad om))
  have hsum : ((List.range 24).map
      (fun i => |nm_v_vec.getD i 0| * (23 : ℚ) ^ (nm_w_vec.getD i 0))).sum ≤ 5.9 := by
    decide!
  have hinit : |(-0.00017 : ℚ) * L.sin (deg2rad om)| ≤ 0.00017 := by
    rw [abs_mul]
    have := hs (deg2rad om)
    have h17 : |(-0.00017 : ℚ)| = 0.00017 := by norm_num [abs_of_neg]
    rw [h17]
    nlinarith [abs_nonneg (L.sin (deg2rad om))]
  linarith

theorem nm_additional_bound (L : Libm) (hs : ∀ x, |L.sin x| ≤ 1) (k : ℚ) :
    |(List.range 13).foldl
      (fun additional i =>
        additional + nm_l_vec.getD i 0 *
          L.sin (deg2rad (nm_i_vec.getD i 0 + nm_j_vec.getD i 0 * k)))
      0.0| ≤ 0.001 := by
  have h := abs_foldl_add_le
    (fun i => nm_l_vec.getD i 0 * L.sin (deg2rad (nm_i_vec.getD i 0 + nm_j_vec.getD i 0 * k)))
    (fun i => |nm_l_vec.getD i 0|)
    (by
      intro i
      simp only [abs_mul]
      have h2 := hs (deg2rad (nm_i_vec.getD i 0 + nm_j_vec.getD i 0 * k))
      calc |nm_l_vec.getD i 0| * |L.sin (deg2rad (nm_i_vec.getD i 0 + nm_j_vec.getD i 0 * k))|
          ≤ |nm_l_vec.getD i 0| * 1 := mul_le_mul_of_nonneg_left h2 (abs_nonneg _)
        _ = |nm_l_vec.getD i 0| := mul_one _)
    (List.range 13) 0.0
  have hsum : ((List.range 13).map (fun i => |nm_l_vec.getD i 0|)).sum ≤ 0.001 := by
    decide!
  have hinit : |(0.0 : ℚ)| = 0 := by norm_num
  rw [hinit] at h
  linarith

theorem universal_from_dynamical_far (T : ℚ) (h1 : 60000000 ≤ T) (h2 : T ≤ 60030000) :
    T - 1100 ≤ universal_from_dynamical T ∧ universal_from_dynamical T ≤ T - 900 := by
  unfold universal_from_dynamical
  have hf1 : (60000000 : ℤ) ≤ ⌊T⌋ := by
    rw [Int.le_floor]
    exact_mod_cast h1
  have hf2 : ⌊T⌋ ≤ 60030000 := by
    have h3 : (⌊T⌋ : ℚ) ≤ ((60030000 : ℤ) : ℚ) := by
      have := Int.floor_le T
      push_cast
      linarith
    exact_mod_cast h3
  have h := ephemeris_correction_far T hf1 hf2
  constructor <;> linarith [h.1, h.2]

theorem nth_new_moon_far (L : Libm) (hs : ∀ x, |L.sin x| ≤ 1) (n : ℤ)
    (hn1 : 2031700 ≤ n) (hn2 : n ≤ 2032600) :
    MEAN_SYNODIC_MONTH * (n : ℚ) + 3600 ≤ nth_new_moon L n ∧
    nth_new_moon L n ≤ MEAN_SYNODIC_MONTH * (n : ℚ) + 4000 := by
  have hk1 : (2006976 : ℚ) ≤ ((n - 24724 : ℤ) : ℚ) := by
    exact_mod_cast (by omega : (2006976 : ℤ) ≤ n - 24724)
  have hk2 : ((n - 24724 : ℤ) : ℚ) ≤ 2007876 := by
    exact_mod_cast (by omega : n - 24724 ≤ (2007876 : ℤ))
  have hkn : ((n - 24724 : ℤ) : ℚ) = (n : ℚ) - 24724 := by push_cast; ring
  have hc1 : (1622 : ℚ) ≤ ((n - 24724 : ℤ) : ℚ) / 1236.85 := by
    rw [le_div_iff₀ (by norm_num)]
    norm_num
    linarith
  have hc2 : ((n - 24724 : ℤ) : ℚ) / 1236.85 ≤ 1624 := by
    rw [div_le_iff₀ (by norm_num)]
    norm_num
    linarith
  have hck : ((n - 24724 : ℤ) : ℚ) / 1236.85 * 1236.85 = ((n - 24724 : ℤ) : ℚ) :=
    div_mul_cancel₀ _ (by norm_num)
  unfold nth_new_moon
  simp only []
  rw [poly_nm_approx_vec]
  generalize ((n - 24724 : ℤ) : ℚ) / 1236.85 = c at hc1 hc2 hck ⊢
  have hc0 : (0 : ℚ) ≤ c := by linarith
  have p2a : (1622 : ℚ) ^ 2 ≤ c ^ 2 := pow_le_pow_left₀ (by norm_num) hc1 2
  have p2b : c ^ 2 ≤ (1624 : ℚ) ^ 2 := pow_le_pow_left₀ hc0 hc2 2
  have p3a : (1622 : ℚ) ^ 3 ≤ c ^ 3 := pow_le_pow_left₀ (by norm_num) hc1 3
  have p3b : c ^ 3 ≤ (1624 : ℚ) ^ 3 := pow_le_pow_left₀ hc0 hc2 3
  have p4a : (1622 : ℚ) ^ 4 ≤ c ^ 4 := pow_le_pow_left₀ (by norm_num) hc1 4
  have p4b : c ^ 4 ≤ (1624 : ℚ) ^ 4 := pow_le_pow_left₀ hc0 hc2 4
  norm_num at p2a p2b p3a p3b p4a p4b
  have hE : |poly c 3 nm_E_vec| ≤ 23 := by
    rw [poly_nm_E_vec, abs_le]
    constructor <;> norm_num <;> linarith
  have hcorr := nm_correction_bound L hs (poly c 3 nm_E_vec) (poly c 4 nm_solaranom_vec)
    (poly c 5 nm_lunaranom_vec) (poly c 5 nm_moonarg_vec) (poly c 4 nm_omega_vec) hE
  have hadd := nm_additional_bound L hs ((n - 24724 : ℤ) : ℚ)
  have hextra : |(0.000325 : ℚ) * L.sin (deg2rad (poly c 3 nm_extra_vec))| ≤ 0.001 := by
    rw [abs_mul]
    have := hs (deg2rad (poly c 3 nm_extra_vec))
    have h17 : |(0.000325 : ℚ)| = 0.000325 := by norm_num [abs_of_pos]
    rw [h17]
    nlinarith [abs_nonneg (L.sin (deg2rad (poly c 3 nm_extra_vec)))]
  rw [abs_le] at hcorr hadd hextra
  generalize (List.range 24).foldl _ _ = corr at hcorr ⊢
  generalize (List.range 13).foldl _ _ = add at hadd ⊢
  generalize (0.000325 : ℚ) * L.sin (deg2rad (poly c 3 nm_extra_vec)) = extra at hextra ⊢
  have hM : MEAN_SYNODIC_MONTH = 29.530588853 := rfl
  have hlin : MEAN_SYNODIC_MONTH * 1236.85 * c = MEAN_SYNODIC_MONTH * ((n : ℚ) - 24724) := by
    rw [mul_assoc, mul_comm (1236.85 : ℚ) c, hck, hkn]
  rw [hlin]
  rw [hM] at *
  have hn1q : (2031700 : ℚ) ≤ (n : ℚ) := by exact_mod_cast hn1
  have hn2q : (n : ℚ) ≤ 2032600 := by exact_mod_cast hn2
  have hT := universal_from_dynamical_far
    (730125.59765 + 29.530588853 * ((n : ℚ) - 24724) + 0.0001337 * c ^ 2 +
      (-0.000000150) * c ^ 3 + 0.00000000073 * c ^ 4 + corr + extra + add)
    (by norm_num at *; linarith) (by norm_num at *; linarith)
  constructor
  · norm_num at *
    linarith
  · norm_num at *
    linarith

theorem chinese_day_of_moment_bounds (U : ℚ) :
    U - 1 < ((toInt (⌊standard_from_universal U (chinese_location U)⌋ : ℤ) : ℤ) : ℚ) ∧
    ((toInt (⌊standard_from_universal U (chinese_location U)⌋ : ℤ) : ℤ) : ℚ) ≤ U + 1 / 3 := by
  rw [toInt_intCast]
  unfold standard_from_universal
  rw [chinese_location_timezone]
  split_ifs
  · have h1 := Int.floor_le (U + 7 / 24)
    have h2 := Int.lt_floor_add_one (U + 7 / 24)
    constructor <;> linarith
  · have h1 := Int.floor_le (U + 8 / 24)
    have h2 := Int.lt_floor_add_one (U + 8 / 24)
    constructor <;> linarith

theorem lunation_index_far (phase : ℚ → ℚ) (hph : ∀ jd, 0 ≤ phase jd ∧ phase jd ≤ 1)
    (x : ℤ) (hx1 : 59998900 ≤ x) (hx2 : x ≤ 60021000) :
    2031700 ≤ round (midnight_in_china x / MEAN_SYNODIC_MONTH -
      phase (jd_from_moment (midnight_in_china x))) ∧
    round (midnight_in_china x / MEAN_SYNODIC_MONTH -
      phase (jd_from_moment (midnight_in_china x))) + 1 ≤ 2032600 ∧
    (x : ℚ) - 45 ≤ MEAN_SYNODIC_MONTH * (round (midnight_in_china x / MEAN_SYNODIC_MONTH -
      phase (jd_from_moment (midnight_in_china x))) : ℚ) ∧
    MEAN_SYNODIC_MONTH * ((round (midnight_in_china x / MEAN_SYNODIC_MONTH -
      phase (jd_from_moment (midnight_in_china x))) + 1 : ℤ) : ℚ) ≤ (x : ℚ) + 45 := by
  have hm := midnight_in_china_bounds x
  have hp := hph (jd_from_moment (midnight_in_china x))
  have hr := round_bounds (midnight_in_china x / MEAN_SYNODIC_MONTH -
      phase (jd_from_moment (midnight_in_china x)))
  generalize phase (jd_from_moment (midnight_in_china x)) = φ at hp hr ⊢
  generalize midnight_in_china x = t at hm hr ⊢
  have hM : MEAN_SYNODIC_MONTH = 29.530588853 := rfl
  have hMpos : (0 : ℚ) < MEAN_SYNODIC_MONTH := by rw [hM]; norm_num
  have hcancel : t / MEAN_SYNODIC_MONTH * MEAN_SYNODIC_MONTH = t :=
    div_mul_cancel₀ t (ne_of_gt hMpos)
  have hx1q : (59998900 : ℚ) ≤ (x : ℚ) := by exact_mod_cast hx1
  have hx2q : (x : ℚ) ≤ 60021000 := by exact_mod_cast hx2
  generalize round (t / MEAN_SYNODIC_MONTH - φ) = n at hr ⊢
  generalize t / MEAN_SYNODIC_MONTH = y at hr hcancel
  rw [hM] at hcancel ⊢
  have hn1 : (2031700 : ℚ) ≤ (n : ℚ) := by
    by_contra hcon
    push_neg at hcon
    have : y < 2031702 := by linarith [hr.1, hp.2]
    have : y * 29.530588853 < 2031702 * 29.530588853 :=
      mul_lt_mul_of_pos_right this (by norm_num)
    norm_num at this
    linarith [hm.1]
  have hn2 : (n : ℚ) + 1 ≤ 2032600 := by
    by_contra hcon
    push_neg at hcon
    have : (2032598 : ℚ) < y := by linarith [hr.2, hp.1]
    have : 2032598 * 29.530588853 < y * 29.530588853 :=
      mul_lt_mul_of_pos_right this (by norm_num)
    norm_num at this
    linarith [hm.2]
  refine ⟨by exact_mod_cast hn1, by exact_mod_cast hn2, ?_, ?_⟩
  · have : (y - 3 / 2) * 29.530588853 ≤ (n : ℚ) * 29.530588853 :=
      mul_le_mul_of_nonneg_right (by linarith [hr.1, hp.2]) (by norm_num)
    linarith [hm.1]
  · push_cast
    have : ((n : ℚ) + 1) * 29.530588853 ≤ (y + 3 / 2) * 29.530588853 :=
      mul_le_mul_of_nonneg_right (by linarith [hr.2, hp.1]) (by norm_num)
    linarith [hm.2]

theorem chinese_new_moon_far (L : Libm) (phase : ℚ → ℚ) (hs : ∀ x, |L.sin x| ≤ 1)
    (hph : ∀ jd, 0 ≤ phase jd ∧ phase jd ≤ 1)
    (x : ℤ) (hx1 : 59998900 ≤ x) (hx2 : x ≤ 60021000) :
    (x + 3000 ≤ chinese_new_moon_on_or_after (ephemeris L phase) x ∧
      chinese_new_moon_on_or_after (ephemeris L phase) x ≤ x + 5000) ∧
    chinese_new_moon_before (ephemeris L phase) x ≤ x + 5000 := by
  obtain ⟨hn1, hn2, hl, hu⟩ := lunation_index_far phase hph x hx1 hx2
  unfold chinese_new_moon_on_or_after chinese_new_moon_before ephemeris new_moon_after
    new_moon_before
  simp only []
  generalize round (midnight_in_china x / MEAN_SYNODIC_MONTH -
      phase (jd_from_moment (midnight_in_china x))) = n at hn1 hn2 hl hu ⊢
  have ha := nth_new_moon_far L hs (n + 1) (by omega) (by omega)
  have hb := nth_new_moon_far L hs n (by omega) (by omega)
  have da := chinese_day_of_moment_bounds (nth_new_moon L (n + 1))
  have db := chinese_day_of_moment_bounds (nth_new_moon L n)
  generalize toInt (⌊standard_from_universal (nth_new_moon L (n + 1))
    (chinese_location (nth_new_moon L (n + 1)))⌋ : ℤ) = ra at da ⊢
  generalize toInt (⌊standard_from_universal (nth_new_moon L n)
    (chinese_location (nth_new_moon L n))⌋ : ℤ) = rb at db ⊢
  have hM : MEAN_SYNODIC_MONTH = 29.530588853 := rfl
  rw [hM] at hl hu ha hb
  push_cast at hu ha
  have h1 : ((x + 3000 : ℤ) : ℚ) ≤ (ra : ℚ) := by
    push_cast
    linarith [ha.1, da.1]
  have h2 : (ra : ℚ) ≤ ((x + 5000 : ℤ) : ℚ) := by
    push_cast
    linarith [ha.2, da.2]
  have h3 : (rb : ℚ) ≤ ((x + 5000 : ℤ) : ℚ) := by
    push_cast
    linarith [hb.2, db.2]
  exact ⟨⟨by exact_mod_cast h1, by exact_mod_cast h2⟩, by exact_mod_cast h3⟩

theorem mod_360_ge_270 (z : ℚ) (q : ℤ) (h1 : 360 * (q : ℚ) + 270 ≤ z)
    (h2 : z < 360 * (q : ℚ) + 360) : 270 ≤ mod z 360 := by
  unfold mod
  have hq : ⌊z / 360⌋ = q := by
    rw [Int.floor_eq_iff]
    constructor
    · rw [le_div_iff₀ (by norm_num)]
      linarith
    · rw [div_lt_iff₀ (by norm_num)]
      linarith
  rw [hq]
  linarith

theorem solar_sigma_bound (L : Libm) (hs : ∀ x, |L.sin x| ≤ 1) (c : ℚ) :
    |(List.range vlen).foldl
      (fun sigma i =>
        sigma + (xvec.getD i 0 : ℚ) * L.sin (deg2rad (yvec.getD i 0 + zvec.getD i 0 * c)))
      0.0| ≤ 842879 := by
  have h := abs_foldl_add_le
    (fun i => (xvec.getD i 0 : ℚ) * L.sin (deg2rad (yvec.getD i 0 + zvec.getD i 0 * c)))
    (fun i => |(xvec.getD i 0 : ℚ)|)
    (by
      intro i
      simp only [abs_mul]
      have h2 := hs (deg2rad (yvec.getD i 0 + zvec.getD i 0 * c))
      calc |(xvec.getD i 0 : ℚ)| * |L.sin (deg2rad (yvec.getD i 0 + zvec.getD i 0 * c))|
          ≤ |(xvec.getD i 0 : ℚ)| * 1 := mul_le_mul_of_nonneg_left h2 (abs_nonneg _)
        _ = |(xvec.getD i 0 : ℚ)| := mul_one _)
    (List.range vlen) 0.0
  have hsum : ((List.range vlen).map (fun i => |(xvec.getD i 0 : ℚ)|)).sum ≤ 842879 := by
    decide!
  have hinit : |(0.0 : ℚ)| = 0 := by norm_num
  rw [hinit] at h
  linarith

/-- Day 60000655 ends the scan for the winter solstice: at Chinese midnight of
the next day the solar longitude is at least 270, for every bounded `sin`, `cos`. -/
theorem solar_longitude_far (L : Libm) (hs : ∀ x, |L.sin x| ≤ 1) (hc : ∀ x, |L.cos x| ≤ 1) :
    ¬ LONGITUDE_WINTER > solar_longitude L (midnight_in_china (60000655 + 1)) := by
  have hM : (360 : ℚ) * 162280 + 275 ≤
      282.7771834 + 36000.76953744 * julian_centuries (midnight_in_china (60000655 + 1)) ∧
      282.7771834 + 36000.76953744 * julian_centuries (midnight_in_china (60000655 + 1)) ≤
      (360 : ℚ) * 162280 + 355 := by
    decide!
  rw [not_lt]
  unfold LONGITUDE_WINTER solar_longitude aberration nuation
  simp only []
  generalize julian_centuries (midnight_in_china (60000655 + 1)) = c at hM ⊢
  have hsig := solar_sigma_bound L hs c
  have h1 := hc (deg2rad (177.63 + 35999.01848 * c))
  have h2 := hs (deg2rad (poly c 3 avec))
  have h3 := hs (deg2rad (poly c 3 bvec))
  rw [abs_le] at hsig h1 h2 h3
  generalize (List.range vlen).foldl _ _ = sigma at hsig ⊢
  apply mod_360_ge_270 _ 162280
  · push_cast
    linarith [hM.1, hsig.1, hsig.2, h1.1, h1.2, h2.1, h2.2, h3.1, h3.2]
  · push_cast
    linarith [hM.2, hsig.1, hsig.2, h1.1, h1.2, h2.1, h2.2, h3.1, h3.2]

/-- For every bounded `sin` and `cos` and every `phase` value in `[0, 1]`, the
round trip from day 60000000 returns, if anything, a later day. -/
theorem round_trip_far (L : Libm) (phase : ℚ → ℚ) (hs : ∀ x, |L.sin x| ≤ 1)
    (hc : ∀ x, |L.cos x| ≤ 1) (hph : ∀ jd, 0 ≤ phase jd ∧ phase jd ≤ 1)
    (fuel1 fuel2 : ℕ) (cd : ChineseDate) (r : ℤ)
    (h1 : chinese_from_fixed (ephemeris L phase) fuel1 60000000 = some cd)
    (h2 : fixed_from_chinese (ephemeris L phase) fuel2 cd = some r) : 60000000 < r :=
  round_trip_gt_of_shift (ephemeris L phase) fuel1 fuel2 60000000 60000655 3000 5000
    (fun x hx1 hx2 => (chinese_new_moon_far L phase hs hph x (by omega) (by omega)).1)
    (chinese_new_moon_far L phase hs hph (60000000 + 1) (by omega) (by omega)).2
    (by norm_num) (by norm_num) (by norm_num) (solar_longitude_far L hs hc) (by norm_num)
    cd r h1 h2

/-- Far outside the range of the ephemerides the round trip is lost. For every
`sin` and `cos` bounded by 1 and every `phase` value in `[0, 1]`,
`fixed_from_chinese(chinese_from_fixed(60000000))` is not 60000000: there the
quartic term of `nth_new_moon` puts every new moon more than 3000 days after the
moment asked for. With `sin = cos = 0` and `phase = 1/2` the month of day
60000000 starts on day 60003776. This says nothing about the days within a few
millennia of the present. -/
theorem round_trip_fails_far_future :
    (¬ ∃ (L : Libm) (phase : ℚ → ℚ) (fuel1 fuel2 : ℕ),
      (∀ x, |L.sin x| ≤ 1) ∧ (∀ x, |L.cos x| ≤ 1) ∧ (∀ jd, 0 ≤ phase jd ∧ phase jd ≤ 1) ∧
      (chinese_from_fixed (ephemeris L phase) fuel1 60000000).bind
        (fixed_from_chinese (ephemeris L phase) fuel2) = some 60000000) ∧
    chinese_new_moon_before (ephemeris zeroLibm (fun _ => 1 / 2)) (60000000 + 1) =
      60003776 := by
  refine ⟨?_, by decide!⟩
  rintro ⟨L, phase, fuel1, fuel2, hs, hc, hph, h⟩
  rw [Option.bind_eq_some] at h
  obtain ⟨cd, h1, h2⟩ := h
  exact lt_irrefl _ (round_trip_far L phase hs hc hph fuel1 fuel2 cd 60000000 h1 h2)

/-- The shape of the round trip. Whenever `chinese_from_fixed(d)` returns `cd` and
`fixed_from_chinese(cd)` returns `r`: `r = d + (q - m)`, where
`m = chinese_new_moon_before(d + 1)` is the first day of the month of `d` and `q`
is the month start picked by `fixed_from_chinese` (the new moon `p` on or after
`new_year + 29 * (month - 1)`, or the one after `p`); so the round trip returns
`d` exactly when `q = m`. -/
theorem round_trip_iff_month_start (A : Astro) (fuel1 fuel2 : ℕ) (d : ℤ) (cd : ChineseDate)
    (r : ℤ) (h1 : chinese_from_fixed A fuel1 d = some cd)
    (h2 : fixed_from_chinese A fuel2 cd = some r) :
    ∃ ny q : ℤ,
      chinese_new_year_on_or_before A fuel2
        (toInt (⌊(EPOCH_CHINESE : ℚ) +
          ((((cd.cycle - 1) * 60 + (cd.year - 1) : ℤ) : ℚ) + 0.5) * MEAN_TROPICAL_YEAR⌋ : ℤ)) =
        some ny ∧
      (q = chinese_new_moon_on_or_after A (ny + (cd.month - 1) * 29) ∨
        q = chinese_new_moon_on_or_after A
          (chinese_new_moon_on_or_after A (ny + (cd.month - 1) * 29) + 1)) ∧
      r = d + (q - chinese_new_moon_before A (d + 1)) ∧
      (r = d ↔ q = chinese_new_moon_before A (d + 1)) := by
  obtain ⟨-, -, hday, -⟩ := chinese_from_fixed_fields A fuel1 d cd h1
  unfold fixed_from_chinese at h2
  simp only [Option.bind_eq_bind, Option.bind_eq_some, Option.some.injEq] at h2
  obtain ⟨ny, hny, cdp, -, h2⟩ := h2
  refine ⟨ny, r - cd.day + 1, hny, ?_, ?_, ?_⟩
  · split_ifs at h2
    · left
      omega
    · right
      omega
  · omega
  · omega

theorem round_trip_iff_month_start_witness :
    ∃ ny q : ℤ,
      chinese_new_year_on_or_before meanAstro 40
        (toInt (⌊(EPOCH_CHINESE : ℚ) +
          ((((78 - 1) * 60 + (40 - 1) : ℤ) : ℚ) + 0.5) * MEAN_TROPICAL_YEAR⌋ : ℤ)) =
        some ny ∧
      (q = chinese_new_moon_on_or_after meanAstro (ny + (3 - 1) * 29) ∨
        q = chinese_new_moon_on_or_after meanAstro
          (chinese_new_moon_on_or_after meanAstro (ny + (3 - 1) * 29) + 1)) ∧
      (738640 : ℤ) = 738640 + (q - chinese_new_moon_before meanAstro (738640 + 1)) ∧
      ((738640 : ℤ) = 738640 ↔ q = chinese_new_moon_before meanAstro (738640 + 1)) :=
  round_trip_iff_month_start meanAstro 40 40 738640
    { cycle := 78, year := 40, month := 3, leap := true, day := 10 } 738640
    (by decide!) (by decide!)

/-! ### Adjusted modulo and polynomial evaluation -/

/-- C11. For every `x` and every `y > 0`, `amod(x, y)` lies in `(0, y]`, differs
from `x` by an integer multiple of `y`, and equals `y` when `x` is a multiple of
`y`. -/
theorem amod_adjusted (x y : ℚ) (hy : 0 < y) :
    0 < amod x y ∧ amod x y ≤ y ∧
    (∃ k : ℤ, amod x y - x = (k : ℚ) * y) ∧
    (∀ k : ℤ, x = (k : ℚ) * y → amod x y = y) := by
  have hneg : -y < 0 := by linarith
  have h1 := lt_mod_of_neg x (-y) hneg
  have h2 := mod_nonpos_of_neg x (-y) hneg
  refine ⟨?_, ?_, ⟨1 + ⌊x / -y⌋, ?_⟩, ?_⟩
  · unfold amod
    linarith
  · unfold amod
    linarith
  · unfold amod mod
    push_cast
    ring
  · intro k hk
    unfold amod mod
    have hq : x / -y = ((-k : ℤ) : ℚ) := by
      rw [hk, div_neg, mul_div_assoc, div_self (ne_of_gt hy), mul_one]
      push_cast
      rfl
    rw [hq, Int.floor_intCast, hk]
    push_cast
    ring

theorem amod_adjusted_witness :
    0 < amod 24 12 ∧ amod 24 12 ≤ 12 ∧
    (∃ k : ℤ, amod 24 12 - 24 = (k : ℚ) * 12) ∧
    (∀ k : ℤ, (24 : ℚ) = (k : ℚ) * 12 → amod 24 12 = 12) :=
  amod_adjusted 24 12 (by decide!)

theorem polyLoop_eq_sum (x : ℚ) :
    ∀ (cs : List ℚ) (i : ℕ) (r : ℚ),
      polyLoop x i cs r = r + ∑ j in Finset.range cs.length, cs.getD j 0 * x ^ (i + j) := by
  intro cs
  induction cs with
  | nil =>
    intro i r
    simp [polyLoop]
  | cons c cs ih =>
    intro i r
    rw [polyLoop, ih, List.length_cons, Finset.sum_range_succ']
    simp only [List.getD_cons_succ, List.getD_cons_zero, add_zero]
    have h : ∀ j, cs.getD j 0 * x ^ (i + 1 + j) = cs.getD j 0 * x ^ (i + (j + 1)) := by
      intro j
      rw [add_assoc, add_comm 1 j]
    simp only [h]
    ring

theorem horner_eq_sum (x : ℚ) :
    ∀ cs : List ℚ, horner x cs = ∑ j in Finset.range cs.length, cs.getD j 0 * x ^ j := by
  intro cs
  induction cs with
  | nil => simp [horner]
  | cons c cs ih =>
    have hstep : horner x (c :: cs) = c + x * horner x cs := rfl
    rw [hstep, ih, List.length_cons, Finset.sum_range_succ', Finset.mul_sum]
    simp only [List.getD_cons_succ, List.getD_cons_zero, pow_zero, mul_one]
    have h : ∀ j, x * (cs.getD j 0 * x ^ j) = cs.getD j 0 * x ^ (j + 1) := by
      intro j
      ring
    simp only [h]
    ring

/-- C12. For every `x` and every coefficient list `a` of length `n >= 1`,
`poly(x, n, a)` is the sum of `a[i] * x^i` over `i < n`, which is also the value
of Horner evaluation of `a`. -/
theorem poly_eq_sum (x : ℚ) (n : ℕ) (a : List ℚ) (hlen : a.length = n) (hn : 1 ≤ n) :
    poly x n a = ∑ i in Finset.range n, a.getD i 0 * x ^ i ∧ poly x n a = horner x a := by
  have key : poly x n a = ∑ i in Finset.range n, a.getD i 0 * x ^ i := by
    cases a with
    | nil =>
      simp only [List.length_nil] at hlen
      omega
    | cons c cs =>
      unfold poly
      rw [← hlen, List.take_length, List.drop_one, List.tail_cons, List.headD_cons,
        polyLoop_eq_sum, List.length_cons, Finset.sum_range_succ']
      simp only [List.getD_cons_succ, List.getD_cons_zero, pow_zero, mul_one]
      have h : ∀ j, cs.getD j 0 * x ^ (1 + j) = cs.getD j 0 * x ^ (j + 1) := by
        intro j
        rw [add_comm]
      simp only [h]
      ring
  refine ⟨key, ?_⟩
  rw [key, horner_eq_sum, hlen]

theorem poly_eq_sum_witness :
    poly 2 3 [1, 2, 3] = ∑ i in Finset.range 3, ([1, 2, 3] : List ℚ).getD i 0 * (2 : ℚ) ^ i ∧
    poly 2 3 [1, 2, 3] = horner 2 [1, 2, 3] :=
  poly_eq_sum 2 3 [1, 2, 3] (by decide) (by decide)

/-! ### Time conversions and the ephemeris correction -/

/-- C13, counterexample. For the locale `Bejing` (longitude 116 deg 25 min east)
`local_from_universal(0, locale)` is not `0 - longitude / 360`. -/
theorem local_from_universal_not_minus :
    local_from_universal 0 Bejing ≠ 0 - Bejing.longitude / 360 := by
  decide!

/-- C13, amended. For every universal moment `t` and locale, with longitude
counted positive to the east, `local_from_universal(t, locale)` is
`t + locale.longitude / 360`; the difference `t - locale.longitude / 360` is
`universal_from_local(t, locale)`, its inverse. -/
theorem local_from_universal_plus (t : ℚ) (locale : Locale) :
    local_from_universal t locale = t + locale.longitude / 360 ∧
    universal_from_local t locale = t - locale.longitude / 360 ∧
    universal_from_local (local_from_universal t locale) locale = t ∧
    local_from_universal (universal_from_local t locale) locale = t := by
  unfold local_from_universal universal_from_local
  refine ⟨rfl, rfl, ?_, ?_⟩ <;> ring

/-- C14. For every moment `t` whose Gregorian year `y` (the year of `floor(t)`)
satisfies `1988 <= y <= 2019`, `ephemeris_correction(t)` is `(y - 1933) / 86400`. -/
theorem ephemeris_correction_linear (t : ℚ)
    (h1 : 1988 ≤ gregorian_year_from_fixed ⌊t⌋) (h2 : gregorian_year_from_fixed ⌊t⌋ ≤ 2019) :
    ephemeris_correction t = ((gregorian_year_from_fixed ⌊t⌋ - 1933 : ℤ) : ℚ) / 86400 := by
  unfold ephemeris_correction
  simp only [toInt_intCast]
  rw [if_pos ⟨h1, h2⟩]
  norm_num

/-- C14, witness: the moment 730120.5 (noon of 1 January 2000) gives 67 seconds. -/
theorem ephemeris_correction_linear_witness :
    ephemeris_correction 730120.5 =
      ((gregorian_year_from_fixed ⌊(730120.5 : ℚ)⌋ - 1933 : ℤ) : ℚ) / 86400 :=
  ephemeris_correction_linear 730120.5 (by decide!) (by decide!)

/-- C15, counterexample. On day 620548 (1 January 1700) `ephemeris_correction`
is neither the polynomial `c17` at
`c = (fixed_from_gregorian(1700, 7, 1) - fixed_from_gregorian(1900, 1, 1)) / 36525`
nor that value divided by 86400. -/
theorem ephemeris_correction_1700_not_centuries :
    gregorian_year_from_fixed ⌊(620548 : ℚ)⌋ = 1700 ∧
    ephemeris_correction 620548 ≠
      poly (((fixed_from_gregorian 1700 7 1 - fixed_from_gregorian 1900 1 1 : ℤ) : ℚ) / 36525)
        c17c c17 ∧
    ephemeris_correction 620548 ≠
      poly (((fixed_from_gregorian 1700 7 1 - fixed_from_gregorian 1900 1 1 : ℤ) : ℚ) / 36525)
        c17c c17 / 86400 := by
  decide!

/-- C15, amended. With `year` the Gregorian year of `floor(t)` and
`c = (fixed_from_gregorian(year, 7, 1) - fixed_from_gregorian(1900, 1, 1)) / 36525`:
for 1900-1987 `ephemeris_correction(t)` is the polynomial `c19` at `c`, for
1800-1899 the polynomial `c18` at `c`, and for 1620-1799 the polynomial `c17` at
`year - 1600` (years, not centuries), divided by 86400. -/
theorem ephemeris_correction_regimes (t : ℚ) :
    (1900 ≤ gregorian_year_from_fixed ⌊t⌋ ∧ gregorian_year_from_fixed ⌊t⌋ ≤ 1987 →
      ephemeris_correction t =
        poly (((fixed_from_gregorian (gregorian_year_from_fixed ⌊t⌋) 7 1 -
          fixed_from_gregorian 1900 1 1 : ℤ) : ℚ) / 36525) c19c c19) ∧
    (1800 ≤ gregorian_year_from_fixed ⌊t⌋ ∧ gregorian_year_from_fixed ⌊t⌋ ≤ 1899 →
      ephemeris_correction t =
        poly (((fixed_from_gregorian (gregorian_year_from_fixed ⌊t⌋) 7 1 -
          fixed_from_gregorian 1900 1 1 : ℤ) : ℚ) / 36525) c18c c18) ∧
    (1620 ≤ gregorian_year_from_fixed ⌊t⌋ ∧ gregorian_year_from_fixed ⌊t⌋ ≤ 1799 →
      ephemeris_correction t =
        poly ((gregorian_year_from_fixed ⌊t⌋ - 1600 : ℤ) : ℚ) c17c c17 / 86400) := by
  have e : (36525.0 : ℚ) = 36525 := by norm_num
  unfold ephemeris_correction
  simp only [toInt_intCast, e]
  generalize gregorian_year_from_fixed ⌊t⌋ = year
  refine ⟨?_, ?_, ?_⟩
  · intro h
    rw [if_neg (by omega), if_pos h]
  · intro h
    rw [if_neg (by omega), if_neg (by omega), if_pos h]
  · intro h
    rw [if_neg (by omega), if_neg (by omega), if_neg (by omega), if_pos h]
    norm_num

/-! ### Moon phases -/

lemma abs_eq_abs (x : ℚ) : abs x = |x| := by
  unfold abs
  split_ifs with h
  · exact (abs_of_neg h).symm
  · exact (abs_of_nonneg (not_lt.mp h)).symm

/-- C16. `truephase(k, ph)` returns `NAN` exactly when `ph >= 0.01`,
`|ph - 0.25| >= 0.01`, `|ph - 0.5| >= 0.01` and `|ph - 0.75| >= 0.01`; it does
not for the selectors 0, 0.25, 0.5 and 0.75. -/
theorem truephase_nan_iff (L : Libm) (k ph : ℚ) :
    (truephase L k ph = none ↔
      (0.01 ≤ ph ∧ 0.01 ≤ |ph - 0.25| ∧ 0.01 ≤ |ph - 0.5| ∧ 0.01 ≤ |ph - 0.75|)) ∧
    truephase L k 0 ≠ none ∧ truephase L k 0.25 ≠ none ∧
    truephase L k 0.5 ≠ none ∧ truephase L k 0.75 ≠ none := by
  have key : ∀ p : ℚ, truephase L k p = none ↔
      (0.01 ≤ p ∧ 0.01 ≤ |p - 0.25| ∧ 0.01 ≤ |p - 0.5| ∧ 0.01 ≤ |p - 0.75|) := by
    intro p
    unfold truephase
    simp only [abs_eq_abs]
    by_cases h1 : p < 0.01 ∨ |p - 0.5| < 0.01
    · rw [if_pos h1]
      constructor
      · intro h
        exact absurd h (by simp)
      · rintro ⟨a, -, c, -⟩
        rcases h1 with h1 | h1
        · exact absurd a (not_le.mpr h1)
        · exact absurd c (not_le.mpr h1)
    · rw [if_neg h1]
      by_cases h2 : |p - 0.25| < 0.01 ∨ |p - 0.75| < 0.01
      · rw [if_pos h2]
        constructor
        · intro h
          split_ifs at h
        · rintro ⟨-, b, -, d⟩
          rcases h2 with h2 | h2
          · exact absurd b (not_le.mpr h2)
          · exact absurd d (not_le.mpr h2)
      · rw [if_neg h2]
        push_neg at h1 h2
        exact ⟨fun _ => ⟨h1.1, h2.1, h1.2, h2.2⟩, fun _ => rfl⟩
  refine ⟨key ph, ?_, ?_, ?_, ?_⟩
  · rw [Ne, key]
    norm_num
  · rw [Ne, key]
    norm_num
  · rw [Ne, key]
    norm_num
  · rw [Ne, key]
    norm_num

/-- C19. For every moment `t`, with
`n = round(t / 29.530588853 - phase(jd_from_moment(t)))`, `new_moon_before(t)`
is `nth_new_moon(n)` and `new_moon_after(t)` is `nth_new_moon(n + 1)`, whatever
value `phase` returns; `jd_from_moment(t)` is `t + 1721424.5`. -/
theorem new_moon_consecutive (L : Libm) (ph : ℚ → ℚ) (t : ℚ) :
    new_moon_before L ph t =
      nth_new_moon L (round (t / 29.530588853 - ph (jd_from_moment t))) ∧
    new_moon_after L ph t =
      nth_new_moon L (round (t / 29.530588853 - ph (jd_from_moment t)) + 1) ∧
    jd_from_moment t = t + 1721424.5 := by
  refine ⟨rfl, rfl, ?_⟩
  unfold jd_from_moment EPOCH_JD
  norm_num

/-- C20. The epoch computed by `chinese_from_fixed`,
`fixed_from_gregorian(-2636, 2, 15)`, is the constant `EPOCH_CHINESE` used by
`fixed_from_chinese`, day -963099. -/
theorem chinese_epoch_agrees :
    fixed_from_gregorian (-2636) 2 15 = EPOCH_CHINESE ∧ EPOCH_CHINESE = -963099 := by
  decide!

/-! ### The phase of the moon (`phase`, `kepler`) -/

lemma fixangle_eq_mod (a : ℚ) : fixangle a = mod a 360.0 := rfl

lemma fixangle_nonneg (a : ℚ) : 0 ≤ fixangle a := by
  rw [fixangle_eq_mod]
  exact mod_nonneg_of_pos a 360.0 (by norm_num)

lemma fixangle_lt (a : ℚ) : fixangle a < 360.0 := by
  rw [fixangle_eq_mod]
  exact mod_lt_of_pos a 360.0 (by norm_num)

/-- One Newton step of `kepler` with the eccentricity of the earth's orbit
shrinks the residual `e - ecc * sin e - m` by a factor of at least 29. -/
lemma kepler_step_contract (L : Libm) (hc : ∀ x, |L.cos x| ≤ 1)
    (hlip : ∀ a b, |L.sin a - L.sin b| ≤ |a - b|) (m e : ℚ) :
    |(e - (e - eccent * L.sin e - m) / (1 - eccent * L.cos e))
        - eccent * L.sin (e - (e - eccent * L.sin e - m) / (1 - eccent * L.cos e)) - m|
      ≤ 0.0341 * |e - eccent * L.sin e - m| := by
  have hcb := abs_le.mp (hc e)
  have hecc : eccent = 0.016718 := rfl
  generalize hδ : e - eccent * L.sin e - m = δ
  generalize hw : 1 - eccent * L.cos e = w
  have hwl : (0.983282 : ℚ) ≤ w := by rw [← hw, hecc]; norm_num; linarith [hcb.1, hcb.2]
  have hwpos : 0 < w := lt_of_lt_of_le (by norm_num) hwl
  generalize hu : δ / w = u
  have huw : u * w = δ := by rw [← hu]; field_simp
  have hl := hlip e (e - u)
  have hl' : |L.sin e - L.sin (e - u)| ≤ |u| := by
    have : e - (e - u) = u := by ring
    rwa [this] at hl
  have hdelta : e - u - eccent * L.sin (e - u) - m
      = -(u * (eccent * L.cos e)) + eccent * (L.sin e - L.sin (e - u)) := by
    have h1 : eccent * L.cos e = 1 - w := by rw [← hw]; ring
    rw [h1]
    have h2 : e = δ + eccent * L.sin e + m := by rw [← hδ]; ring
    nth_rewrite 1 [h2]
    rw [← huw]; ring
  rw [hdelta]
  have hA : |u * (eccent * L.cos e)| ≤ 0.016718 * |u| := by
    rw [abs_mul, abs_mul, hecc]
    have h0 : |(0.016718 : ℚ)| = 0.016718 := abs_of_pos (by norm_num)
    rw [h0]
    have := mul_le_mul_of_nonneg_left (hc e) (abs_nonneg u)
    nlinarith [abs_nonneg u, abs_nonneg (L.cos e), hc e]
  have hB : |eccent * (L.sin e - L.sin (e - u))| ≤ 0.016718 * |u| := by
    rw [abs_mul, hecc]
    have h0 : |(0.016718 : ℚ)| = 0.016718 := abs_of_pos (by norm_num)
    rw [h0]
    exact mul_le_mul_of_nonneg_left hl' (by norm_num)
  have hδu : |δ| = |u| * w := by rw [← huw, abs_mul, abs_of_pos hwpos]
  have hT := abs_add (-(u * (eccent * L.cos e))) (eccent * (L.sin e - L.sin (e - u)))
  rw [abs_neg] at hT
  have hδl : 0.983282 * |u| ≤ |δ| := by
    rw [hδu]
    nlinarith [abs_nonneg u]
  nlinarith [abs_nonneg u]

/-- The loop of `kepler` with the eccentricity of the earth's orbit ends: when
the residual is at most `D` and `D * 0.0341 ^ n` is at most `EPSILON`, more
than `n` passes are never needed. -/
lemma kepler_loop_returns (L : Libm) (hc : ∀ x, |L.cos x| ≤ 1)
    (hlip : ∀ a b, |L.sin a - L.sin b| ≤ |a - b|) (m : ℚ) :
    ∀ (n fuel : ℕ) (e D : ℚ), n < fuel → |e - eccent * L.sin e - m| ≤ D →
      D * 0.0341 ^ n ≤ EPSILON → ∃ r, kepler_loop L eccent m fuel e = some r := by
  intro n
  induction n with
  | zero =>
    intro fuel e D hf hD hE
    obtain ⟨f, rfl⟩ : ∃ f, fuel = f + 1 := ⟨fuel - 1, by omega⟩
    simp only [kepler_loop]
    rw [abs_eq_abs]
    have : ¬ |e - eccent * L.sin e - m| > EPSILON := by
      simp only [pow_zero, mul_one] at hE
      exact not_lt.mpr (le_trans hD hE)
    rw [if_neg this]
    exact ⟨_, rfl⟩
  | succ n ih =>
    intro fuel e D hf hD hE
    obtain ⟨f, rfl⟩ : ∃ f, fuel = f + 1 := ⟨fuel - 1, by omega⟩
    simp only [kepler_loop]
    split_ifs with h
    · refine ih f _ (0.0341 * D) (by omega) ?_ ?_
      · exact le_trans (kepler_step_contract L hc hlip m e)
          (mul_le_mul_of_nonneg_left hD (by norm_num))
      · rw [pow_succ] at hE
        linarith [hE]
    · exact ⟨_, rfl⟩

/-- With at least four passes allowed, `kepler` returns for the eccentricity of
the earth's orbit. -/
lemma kepler_returns (L : Libm) (hs : ∀ x, |L.sin x| ≤ 1) (hc : ∀ x, |L.cos x| ≤ 1)
    (hlip : ∀ a b, |L.sin a - L.sin b| ≤ |a - b|) (fuel : ℕ) (hfuel : 4 ≤ fuel) (m : ℚ) :
    ∃ r, kepler L fuel m eccent = some r := by
  unfold kepler
  refine kepler_loop_returns L hc hlip (torad m) 3 fuel (torad m) 0.016718 (by omega) ?_ ?_
  · have h : torad m - eccent * L.sin (torad m) - torad m = -(eccent * L.sin (torad m)) := by
      ring
    rw [h, abs_neg, abs_mul]
    have h0 : |eccent| = 0.016718 := abs_of_pos (by decide!)
    rw [h0]
    have := mul_le_mul_of_nonneg_left (hs (torad m)) (show (0 : ℚ) ≤ 0.016718 by norm_num)
    linarith
  · unfold EPSILON; norm_num

/-- C18. For every Julian date `pdate`, `phase` returns (four passes of the
loop of `kepler` are enough, for any sine and cosine bounded by 1 with the sine
1-Lipschitz); the returned fraction is `fixangle(MoonAge) / 360` and lies in
`[0, 1)`; the illuminated fraction stored is `(1 - cos(MoonAge)) / 2`, with
`MoonAge` in degrees, and lies in `[0, 1]`; the age stored is `synmonth` times
the returned fraction and lies in `[0, synmonth)`, where `synmonth` is
29.53058868. -/
theorem phase_ranges (L : Libm) (I : LibmInv) (hs : ∀ x, |L.sin x| ≤ 1)
    (hc : ∀ x, |L.cos x| ≤ 1) (hlip : ∀ a b, |L.sin a - L.sin b| ≤ |a - b|)
    (fuel : ℕ) (hfuel : 4 ≤ fuel) (pdate : ℚ) :
    ∃ (r : PhaseResult) (MoonAge : ℚ), phase L I fuel pdate = some r ∧
      r.fraction = fixangle MoonAge / 360.0 ∧ 0 ≤ r.fraction ∧ r.fraction < 1 ∧
      r.pphase = (1 - L.cos (torad MoonAge)) / 2 ∧ 0 ≤ r.pphase ∧ r.pphase ≤ 1 ∧
      r.mage = synmonth * r.fraction ∧ 0 ≤ r.mage ∧ r.mage < synmonth ∧
      synmonth = 29.53058868 := by
  obtain ⟨Ec, hEc⟩ := kepler_returns L hs hc hlip fuel hfuel
    (fixangle (fixangle ((360 / 365.2422) * (pdate - epoch)) + elonge - elongp))
  have hcos : ∀ x, 0 ≤ (1 - L.cos x) / 2 ∧ (1 - L.cos x) / 2 ≤ 1 := by
    intro x
    have := abs_le.mp (hc x)
    constructor <;> linarith [this.1, this.2]
  simp only [phase, hEc, Option.bind_eq_bind, Option.some_bind, bind, Option.bind]
  refine ⟨_, _, rfl, rfl, ?_, ?_, rfl, ?_, ?_, rfl, ?_, ?_, rfl⟩
  · exact div_nonneg (fixangle_nonneg _) (by norm_num)
  · rw [div_lt_one (by norm_num)]
    exact fixangle_lt _
  · exact (hcos _).1
  · exact (hcos _).2
  · exact mul_nonneg (by decide!) (div_nonneg (fixangle_nonneg _) (by norm_num))
  · have h1 : ∀ a, fixangle a / 360.0 < 1 := by
      intro a
      rw [div_lt_one (by norm_num)]
      exact fixangle_lt a
    exact mul_lt_of_lt_one_right (by decide!) (h1 _)

/-- C18, witness: sine, cosine, tangent, square root and arc tangent that return
0 satisfy the hypotheses, at the Julian date 2451545. -/
theorem phase_ranges_witness :
    ∃ (r : PhaseResult) (MoonAge : ℚ), phase zeroLibm zeroLibmInv 4 2451545 = some r ∧
      r.fraction = fixangle MoonAge / 360.0 ∧ 0 ≤ r.fraction ∧ r.fraction < 1 ∧
      r.pphase = (1 - zeroLibm.cos (torad MoonAge)) / 2 ∧ 0 ≤ r.pphase ∧ r.pphase ≤ 1 ∧
      r.mage = synmonth * r.fraction ∧ 0 ≤ r.mage ∧ r.mage < synmonth ∧
      synmonth = 29.53058868 :=
  phase_ranges zeroLibm zeroLibmInv (fun _ => by simp [zeroLibm]) (fun _ => by simp [zeroLibm])
    (fun a b => by simp [zeroLibm]) 4 (by decide) 2451545

/-! ### The list of phases (`phaselist`) -/

lemma quarter_hits_succ (L : Libm) (sdate k0 : ℚ) (n : ℕ) :
    quarter_hits L sdate k0 (n + 1)
      = quarter_hits L sdate k0 n ++ (if quarter_hit L sdate k0 n then [n] else []) := by
  unfold quarter_hits
  rw [List.range_succ, List.filter_append]
  congr 1
  by_cases h : quarter_hit L sdate k0 n <;> simp [List.filter, h]

/-- A quarter position in `quarter_hits` has a value, and it is not before
`sdate`. -/
lemma quarter_hits_value (L : Libm) (sdate k0 : ℚ) (n c : ℕ)
    (hc : c ∈ quarter_hits L sdate k0 n) :
    ∃ d, quarter_value L k0 c = some d ∧ sdate ≤ d := by
  unfold quarter_hits at hc
  have h := (List.mem_filter.mp hc).2
  unfold quarter_hit at h
  cases hv : quarter_value L k0 c with
  | none => rw [hv] at h; simp at h
  | some d =>
    rw [hv] at h
    exact ⟨d, rfl, by simpa using h⟩

/-- The body of the loop of `phaselist` at pass `n` looks at quarter position
`n`. -/
lemma phaselist_body_eq (L : Libm) (sdate k0 : ℚ) (s : PhaselistState) (n : ℕ)
    (hc : s.c = (n : ℤ)) (hk : s.k = k0 + (((n + 3) / 4 : ℕ) : ℚ)) :
    phaselist_body L sdate s =
      match quarter_value L k0 n with
      | some d =>
        if d ≥ sdate then
          { k := k0 + 1 + ((n / 4 : ℕ) : ℚ), c := (n : ℤ) + 1, i := s.i + 1,
            ph := s.ph.set s.i.toNat d,
            startphase := if s.startphase = -1 then ((n % 4 : ℕ) : ℤ) else s.startphase }
        else { s with k := k0 + 1 + ((n / 4 : ℕ) : ℚ), c := (n : ℤ) + 1 }
      | none => { s with k := k0 + 1 + ((n / 4 : ℕ) : ℚ), c := (n : ℤ) + 1 } := by
  have hm : Int.tmod (n : ℤ) 4 = ((n % 4 : ℕ) : ℤ) := rfl
  have hk' : (if ((n % 4 : ℕ) : ℤ) = 0 then s.k + 1 else s.k)
      = k0 + 1 + ((n / 4 : ℕ) : ℚ) := by
    rw [hk]
    by_cases h4 : n % 4 = 0
    · have h1 : (n + 3) / 4 = n / 4 := by omega
      rw [h4, h1]; simp; ring
    · have h1 : (n + 3) / 4 = n / 4 + 1 := by omega
      have h2 : ¬ ((n % 4 : ℕ) : ℤ) = 0 := by exact_mod_cast h4
      rw [if_neg h2, h1]; push_cast; ring
  unfold phaselist_body quarter_value
  simp only [hc, hk', hm, Int.cast_natCast]

lemma phaselist_body_inv (L : Libm) (sdate k0 : ℚ) (ph0 : List ℚ) (s : PhaselistState)
    (n : ℕ) (hinv : PhaselistInv L sdate k0 ph0 s n)
    (hroom : (quarter_hits L sdate k0 n).length < ph0.length) :
    PhaselistInv L sdate k0 ph0 (phaselist_body L sdate s) (n + 1) := by
  obtain ⟨hc, hk, hi, hph, hsp⟩ := hinv
  have hk1 : k0 + 1 + ((n / 4 : ℕ) : ℚ) = k0 + (((n + 1 + 3) / 4 : ℕ) : ℚ) := by
    have h1 : (n + 1 + 3) / 4 = n / 4 + 1 := by omega
    rw [h1]; push_cast; ring
  rw [phaselist_body_eq L sdate k0 s n hc hk]
  unfold PhaselistInv
  rw [quarter_hits_succ]
  cases hv : quarter_value L k0 n with
  | none =>
    have hh : quarter_hit L sdate k0 n = false := by unfold quarter_hit; rw [hv]
    simp only [hh, Bool.false_eq_true, if_false, List.append_nil]
    exact ⟨by push_cast; rfl, hk1, hi, hph, hsp⟩
  | some d =>
    by_cases hd : d ≥ sdate
    · have hh : quarter_hit L sdate k0 n = true := by
        unfold quarter_hit; rw [hv]; simpa using hd
      simp only [hh, if_true, if_pos hd]
      refine ⟨by push_cast; rfl, hk1, ?_, ?_, ?_⟩
      · simp only [List.length_append, List.length_singleton]
        rw [hi]; push_cast; rfl
      · simp only [List.length_append, List.length_singleton, List.map_append, List.map_cons,
          List.map_nil, hv, Option.getD_some]
        have hto : s.i.toNat = (quarter_hits L sdate k0 n).length := by rw [hi]; simp
        rw [hto, hph, List.set_append_right _ _ (by simp), List.length_map, Nat.sub_self,
          List.drop_eq_getElem_cons hroom, List.set_cons_zero, List.append_assoc]
        rfl
      · rw [hsp]
        cases hl : quarter_hits L sdate k0 n with
        | nil => simp
        | cons c cs =>
          have : ¬ (((c % 4 : ℕ) : ℤ) = -1) := by omega
          simp only [List.head?_cons, Option.map_some', Option.getD_some, List.cons_append,
            if_neg this]
    · have hh : quarter_hit L sdate k0 n = false := by
        unfold quarter_hit; rw [hv]; simpa using hd
      simp only [hh, if_neg hd, Bool.false_eq_true, if_false, List.append_nil]
      exact ⟨by push_cast; rfl, hk1, hi, hph, hsp⟩

lemma phaselist_loop_inv (L : Libm) (sdate k0 : ℚ) (ph0 : List ℚ) (pcount : ℤ)
    (hlen : pcount ≤ ph0.length) :
    ∀ (fuel : ℕ) (s sf : PhaselistState) (n : ℕ), PhaselistInv L sdate k0 ph0 s n →
      s.i < pcount → phaselist_loop L sdate pcount fuel s = some sf →
      ∃ N, PhaselistInv L sdate k0 ph0 sf N ∧ sf.i = pcount := by
  intro fuel
  induction fuel with
  | zero => intro s sf n _ _ h; simp [phaselist_loop] at h
  | succ f ih =>
    intro s sf n hinv hi h
    have hroom : (quarter_hits L sdate k0 n).length < ph0.length := by
      have := hinv.2.2.1
      omega
    have hinv' := phaselist_body_inv L sdate k0 ph0 s n hinv hroom
    simp only [phaselist_loop] at h
    split_ifs at h with hlt
    · exact ih _ sf (n + 1) hinv' hlt h
    · refine ⟨n + 1, ?_, ?_⟩
      · rw [← Option.some.inj h]; exact hinv'
      · rw [← Option.some.inj h]
        have h1 := hinv'.2.2.1
        have h0 := hinv.2.2.1
        rw [quarter_hits_succ] at h1
        have h2 : (quarter_hits L sdate k0 n ++
            (if quarter_hit L sdate k0 n then [n] else [])).length
            ≤ (quarter_hits L sdate k0 n).length + 1 := by
          rw [List.length_append]
          split_ifs <;> simp
        omega

/-- C17. For every start moment `sdate` and every `pcount` of at least 1, with
an array `ph0` of at least `pcount` elements: when `phaselist` returns the array
`ph` and `*startphase = sp`, there is a number `n` of quarter positions looked
at such that exactly `pcount` of the positions below `n` have a value of
`truephase` not before `sdate`; these values, taken in increasing order of
position with none skipped, are the entries `ph[0..pcount-1]`, each of them not
before `sdate`; the rest of the array is as the caller left it; and `sp` is the
quarter index, from 0 to 3, of the position whose value is in `ph[0]`. -/
theorem phaselist_spec (L : Libm) (fuel : ℕ) (sdate : ℚ) (pcount : ℤ) (ph0 ph : List ℚ)
    (sp : ℤ) (hp : 1 ≤ pcount) (hlen : pcount ≤ ph0.length)
    (h : phaselist L fuel sdate pcount ph0 = some (ph, sp)) :
    ∃ n : ℕ,
      ((quarter_hits L sdate (phaselist_start sdate) n).length : ℤ) = pcount ∧
      ph.length = ph0.length ∧ ph.drop pcount.toNat = ph0.drop pcount.toNat ∧
      (∀ j c, (quarter_hits L sdate (phaselist_start sdate) n).get? j = some c →
        ∃ d, quarter_value L (phaselist_start sdate) c = some d ∧ ph.get? j = some d ∧
          sdate ≤ d) ∧
      (∃ c0, (quarter_hits L sdate (phaselist_start sdate) n).head? = some c0 ∧
        sp = ((c0 % 4 : ℕ) : ℤ)) ∧
      0 ≤ sp ∧ sp ≤ 3 := by
  unfold phaselist at h
  obtain ⟨sf, hsf, hout⟩ := Option.map_eq_some'.mp h
  have hinit : PhaselistInv L sdate (phaselist_start sdate) ph0
      { k := phaselist_start sdate, c := 0, i := 0, ph := ph0, startphase := -1 } 0 := by
    unfold PhaselistInv quarter_hits
    simp
  obtain ⟨N, hinv, hi⟩ := phaselist_loop_inv L sdate (phaselist_start sdate) ph0 pcount hlen
    fuel _ sf 0 hinit (by show (0 : ℤ) < pcount; omega) hsf
  obtain ⟨-, -, hI, hph, hsp⟩ := hinv
  have hph' : ph = sf.ph := (congrArg Prod.fst hout).symm
  have hsp' : sp = sf.startphase := (congrArg Prod.snd hout).symm
  rw [hi] at hI
  generalize hcs : quarter_hits L sdate (phaselist_start sdate) N = cs at hI hph hsp
  have hto : pcount.toNat = cs.length := by rw [hI]; simp
  have hle : cs.length ≤ ph0.length := by omega
  refine ⟨N, ?_, ?_, ?_, ?_, ?_⟩
  · rw [hcs]; exact hI.symm
  · rw [hph', hph, List.length_append, List.length_map, List.length_drop]; omega
  · rw [hph', hph, hto]
    exact List.drop_left' (List.length_map _ _)
  · intro j c hj
    rw [hcs] at hj
    have hmem : c ∈ quarter_hits L sdate (phaselist_start sdate) N := by
      rw [hcs]; exact List.get?_mem hj
    obtain ⟨d, hd, hge⟩ := quarter_hits_value L sdate _ N c hmem
    refine ⟨d, hd, ?_, hge⟩
    have hjlt : j < cs.length := by
      rcases List.get?_eq_some.mp hj with ⟨hlt, -⟩
      exact hlt
    rw [hph', hph, List.get?_eq_getElem?, List.getElem?_append_left (by simpa using hjlt),
      List.getElem?_map, ← List.get?_eq_getElem?, hj]
    simp [hd]
  · rw [hcs]
    cases cs with
    | nil => simp at hI; omega
    | cons c0 cs =>
      have hs : sp = ((c0 % 4 : ℕ) : ℤ) := by rw [hsp', hsp]; simp
      exact ⟨⟨c0, rfl, hs⟩, by omega, by omega⟩

/-- C17, witness: with sine and cosine that return 0, the two phases after the
Julian date 2451500 are a full moon and a last quarter; the third element of the
array is left alone. -/
theorem phaselist_spec_witness :
    phaselist zeroLibm 12 2451500 2 [0, 0, 7]
        = some ([1855427618647625964061044221 / 756852224177650000000,
          7421732816405626420178139761 / 3027408896710600000000, 7], 2) ∧
    ∃ n : ℕ,
      ((quarter_hits zeroLibm 2451500 (phaselist_start 2451500) n).length : ℤ) = 2 ∧
      ([1855427618647625964061044221 / 756852224177650000000,
        7421732816405626420178139761 / 3027408896710600000000, 7] : List ℚ).length
        = ([0, 0, 7] : List ℚ).length ∧
      ([1855427618647625964061044221 / 756852224177650000000,
        7421732816405626420178139761 / 3027408896710600000000, 7] : List ℚ).drop (2 : ℤ).toNat
        = ([0, 0, 7] : List ℚ).drop (2 : ℤ).toNat ∧
      (∀ j c, (quarter_hits zeroLibm 2451500 (phaselist_start 2451500) n).get? j = some c →
        ∃ d, quarter_value zeroLibm (phaselist_start 2451500) c = some d ∧
          ([1855427618647625964061044221 / 756852224177650000000,
            7421732816405626420178139761 / 3027408896710600000000, 7] : List ℚ).get? j
            = some d ∧
          2451500 ≤ d) ∧
      (∃ c0, (quarter_hits zeroLibm 2451500 (phaselist_start 2451500) n).head? = some c0 ∧
        (2 : ℤ) = ((c0 % 4 : ℕ) : ℤ)) ∧
      (0 : ℤ) ≤ 2 ∧ (2 : ℤ) ≤ 3 :=
  ⟨by decide!, phaselist_spec zeroLibm 12 2451500 2 [0, 0, 7] _ 2 (by decide) (by decide)
    (by decide!)⟩

/-! ### Days of the week -/

lemma day_of_week_from_fixed_eq (date : ℤ) : day_of_week_from_fixed date = date % 7 := by
  have e : (7 : ℚ) = ((7 : ℕ) : ℚ) := by norm_num
  unfold day_of_week_from_fixed
  rw [e, mod_intCast_natCast, toInt_intCast]
  rfl

lemma kday_on_or_before_eq (date k : ℤ) :
    kday_on_or_before date k = date - (date - k) % 7 := by
  have e : (7 : ℚ) = ((7 : ℕ) : ℚ) := by norm_num
  unfold kday_on_or_before
  rw [e, mod_intCast_natCast, ← Int.cast_sub, toInt_intCast]
  rfl

/-- C24. With Sunday numbered 0, for every fixed day `date` and weekday `k` in
0..6: `kday_on_or_before(date, k)` lies in `[date - 6, date]`, `kday_nearest`
within 3 days of `date`, `kday_on_or_after` in `[date, date + 6]`,
`kday_before` in `[date - 7, date - 1]` and `kday_after` in
`[date + 1, date + 7]`, and `day_of_week_from_fixed` of each of them is `k`. -/
theorem kday_spec (date k : ℤ) (hk0 : 0 ≤ k) (hk6 : k ≤ 6) :
    (date - 6 ≤ kday_on_or_before date k ∧ kday_on_or_before date k ≤ date ∧
      day_of_week_from_fixed (kday_on_or_before date k) = k) ∧
    (date - 3 ≤ kday_nearest date k ∧ kday_nearest date k ≤ date + 3 ∧
      day_of_week_from_fixed (kday_nearest date k) = k) ∧
    (date ≤ kday_on_or_after date k ∧ kday_on_or_after date k ≤ date + 6 ∧
      day_of_week_from_fixed (kday_on_or_after date k) = k) ∧
    (date - 7 ≤ kday_before date k ∧ kday_before date k ≤ date - 1 ∧
      day_of_week_from_fixed (kday_before date k) = k) ∧
    (date + 1 ≤ kday_after date k ∧ kday_after date k ≤ date + 7 ∧
      day_of_week_from_fixed (kday_after date k) = k) := by
  unfold kday_nearest kday_on_or_after kday_before kday_after
  simp only [kday_on_or_before_eq, day_of_week_from_fixed_eq]
  refine ⟨⟨?_, ?_, ?_⟩, ⟨?_, ?_, ?_⟩, ⟨?_, ?_, ?_⟩, ⟨?_, ?_, ?_⟩, ⟨?_, ?_, ?_⟩⟩ <;> omega

/-- C24, witness: the Wednesdays (weekday 3) around day 738542, a Sunday. -/
theorem kday_spec_witness :
    (738542 - 6 ≤ kday_on_or_before 738542 3 ∧ kday_on_or_before 738542 3 ≤ 738542 ∧
      day_of_week_from_fixed (kday_on_or_before 738542 3) = 3) ∧
    (738542 - 3 ≤ kday_nearest 738542 3 ∧ kday_nearest 738542 3 ≤ 738542 + 3 ∧
      day_of_week_from_fixed (kday_nearest 738542 3) = 3) ∧
    (738542 ≤ kday_on_or_after 738542 3 ∧ kday_on_or_after 738542 3 ≤ 738542 + 6 ∧
      day_of_week_from_fixed (kday_on_or_after 738542 3) = 3) ∧
    (738542 - 7 ≤ kday_before 738542 3 ∧ kday_before 738542 3 ≤ 738542 - 1 ∧
      day_of_week_from_fixed (kday_before 738542 3) = 3) ∧
    (738542 + 1 ≤ kday_after 738542 3 ∧ kday_after 738542 3 ≤ 738542 + 7 ∧
      day_of_week_from_fixed (kday_after 738542 3) = 3) :=
  kday_spec 738542 3 (by decide) (by decide)

/-! ### Tables of the Chinese calendar -/

lemma toInt_amod_int_eq (n : ℤ) (d : ℕ) :
    toInt (amod (n : ℚ) (d : ℚ)) = (d : ℤ) - (-n) % (d : ℤ) := by
  rw [amod_intCast_natCast, toInt_intCast]

/-- C23. For every integer `cyear`, `chinese_sexagesimal_name` stores a stem in
1..10 congruent to `cyear` modulo 10 and a branch in 1..12 congruent to `cyear`
modulo 12; `Stems` has 11 entries and `Branches` 13, so both lookups are in
bounds, and the entry selected is never the entry of null pointers at index 0. -/
theorem chinese_sexagesimal_name_spec (cyear : ℤ) :
    (1 ≤ (chinese_sexagesimal_name cyear).1 ∧ (chinese_sexagesimal_name cyear).1 ≤ 10 ∧
      ((chinese_sexagesimal_name cyear).1 - cyear) % 10 = 0) ∧
    (1 ≤ (chinese_sexagesimal_name cyear).2 ∧ (chinese_sexagesimal_name cyear).2 ≤ 12 ∧
      ((chinese_sexagesimal_name cyear).2 - cyear) % 12 = 0) ∧
    Stems.length = 11 ∧ Branches.length = 13 ∧
    (∃ s, Stems.get? (chinese_sexagesimal_name cyear).1.toNat = some s ∧
      s.chinese ≠ none ∧ s.pinyin ≠ none ∧ s.yinyang ≠ none ∧ s.element ≠ none) ∧
    (∃ b, Branches.get? (chinese_sexagesimal_name cyear).2.toNat = some b ∧
      b.chinese ≠ none ∧ b.pinyin ≠ none ∧ b.zodiac ≠ none ∧ b.zsymbol ≠ none) := by
  have e10 : (10 : ℚ) = ((10 : ℕ) : ℚ) := by norm_num
  have e12 : (12 : ℚ) = ((12 : ℕ) : ℚ) := by norm_num
  have hs : (chinese_sexagesimal_name cyear).1 = 10 - (-cyear) % 10 := by
    unfold chinese_sexagesimal_name
    simp only [e10, toInt_amod_int_eq]
    rfl
  have hb : (chinese_sexagesimal_name cyear).2 = 12 - (-cyear) % 12 := by
    unfold chinese_sexagesimal_name
    simp only [e12, toInt_amod_int_eq]
    rfl
  have hs1 : 1 ≤ (chinese_sexagesimal_name cyear).1 := by omega
  have hs2 : (chinese_sexagesimal_name cyear).1 ≤ 10 := by omega
  have hb1 : 1 ≤ (chinese_sexagesimal_name cyear).2 := by omega
  have hb2 : (chinese_sexagesimal_name cyear).2 ≤ 12 := by omega
  refine ⟨⟨hs1, hs2, by omega⟩, ⟨hb1, hb2, by omega⟩, rfl, rfl, ?_, ?_⟩
  · generalize (chinese_sexagesimal_name cyear).1 = stem at hs1 hs2
    interval_cases stem <;> exact ⟨_, rfl, by decide⟩
  · generalize (chinese_sexagesimal_name cyear).2 = branch at hb1 hb2
    interval_cases branch <;> exact ⟨_, rfl, by decide⟩

/-- C27. For every solar longitude `s` in `[0, 360)`, the index
`i = amod(2 + floor(s / 30), 12)` lies in 1..12, and `MajorSolarTerms[i]` has
longitude `30 * floor(s / 30)` and index `i`; `current_major_solar_term`
returns `i` for the solar longitude `s` at the moment it looks at. -/
theorem major_solar_term_index (s : ℚ) (h0 : 0 ≤ s) (h360 : s < 360) :
    1 ≤ toInt (amod (2 + ((⌊s / 30.0⌋ : ℤ) : ℚ)) 12) ∧
    toInt (amod (2 + ((⌊s / 30.0⌋ : ℤ) : ℚ)) 12) ≤ 12 ∧
    (∃ e, MajorSolarTerms.get? (toInt (amod (2 + ((⌊s / 30.0⌋ : ℤ) : ℚ)) 12)).toNat = some e ∧
      e.longitude = 30 * ⌊s / 30⌋ ∧
      e.index = toInt (amod (2 + ((⌊s / 30.0⌋ : ℤ) : ℚ)) 12)) ∧
    (∀ (A : Astro) (date : ℤ),
      A.solar_longitude (universal_from_standard (date : ℚ) (chinese_location (date : ℚ))) = s →
      current_major_solar_term A date = toInt (amod (2 + ((⌊s / 30.0⌋ : ℤ) : ℚ)) 12)) := by
  have e30 : (30.0 : ℚ) = 30 := by norm_num
  have e12 : (12 : ℚ) = ((12 : ℕ) : ℚ) := by norm_num
  rw [e30]
  have hq0 : 0 ≤ ⌊s / 30⌋ := Int.floor_nonneg.mpr (div_nonneg h0 (by norm_num))
  have hq11 : ⌊s / 30⌋ ≤ 11 := by
    have : ⌊s / 30⌋ < 12 := by
      rw [Int.floor_lt]
      rw [div_lt_iff₀ (by norm_num)]
      push_cast
      linarith
    omega
  have hi : toInt (amod (2 + ((⌊s / 30⌋ : ℤ) : ℚ)) 12) = 12 - (-(2 + ⌊s / 30⌋)) % 12 := by
    have : (2 + ((⌊s / 30⌋ : ℤ) : ℚ)) = (((2 + ⌊s / 30⌋ : ℤ)) : ℚ) := by push_cast; ring
    rw [this, e12, toInt_amod_int_eq]
    rfl
  have hcur : ∀ (A : Astro) (date : ℤ),
      A.solar_longitude (universal_from_standard (date : ℚ) (chinese_location (date : ℚ))) = s →
      current_major_solar_term A date = toInt (amod (2 + ((⌊s / 30⌋ : ℤ) : ℚ)) 12) := by
    intro A date hA
    unfold current_major_solar_term
    simp only [hA, e30]
  refine ⟨?_, ?_, ?_, hcur⟩
  · omega
  · omega
  · rw [hi]
    generalize ⌊s / 30⌋ = q at hq0 hq11
    interval_cases q <;> exact ⟨_, rfl, by decide⟩

/-- C27, witness: the solar longitude 275.5 selects entry 11, the winter
solstice, of longitude 270. -/
theorem major_solar_term_index_witness :
    1 ≤ toInt (amod (2 + ((⌊(275.5 : ℚ) / 30.0⌋ : ℤ) : ℚ)) 12) ∧
    toInt (amod (2 + ((⌊(275.5 : ℚ) / 30.0⌋ : ℤ) : ℚ)) 12) ≤ 12 ∧
    (∃ e, MajorSolarTerms.get? (toInt (amod (2 + ((⌊(275.5 : ℚ) / 30.0⌋ : ℤ) : ℚ)) 12)).toNat
        = some e ∧
      e.longitude = 30 * ⌊(275.5 : ℚ) / 30⌋ ∧
      e.index = toInt (amod (2 + ((⌊(275.5 : ℚ) / 30.0⌋ : ℤ) : ℚ)) 12)) ∧
    (∀ (A : Astro) (date : ℤ),
      A.solar_longitude (universal_from_standard (date : ℚ) (chinese_location (date : ℚ)))
        = 275.5 →
      current_major_solar_term A date
        = toInt (amod (2 + ((⌊(275.5 : ℚ) / 30.0⌋ : ℤ) : ℚ)) 12)) :=
  major_solar_term_index 275.5 (by norm_num) (by norm_num)

/-! ### The Gregorian calendar in integer arithmetic -/

lemma gregorian_leap_year_iff (y : ℤ) :
    gregorian_leap_year y = true ↔
      y % 4 = 0 ∧ ¬ (y % 400 = 100 ∨ y % 400 = 200 ∨ y % 400 = 300) := by
  have e4 : (4 : ℚ) = ((4 : ℕ) : ℚ) := by norm_num
  have e400 : (400 : ℚ) = ((400 : ℕ) : ℚ) := by norm_num
  unfold gregorian_leap_year
  rw [e4, e400, mod_intCast_natCast, mod_intCast_natCast]
  simp only [Bool.and_eq_true, Bool.not_eq_true', Bool.or_eq_false_iff, decide_eq_true_eq,
    decide_eq_false_iff_not, Nat.cast_ofNat]
  have h0 : (((y % 4 : ℤ) : ℚ) = 0) ↔ y % 4 = 0 := by exact_mod_cast Iff.rfl
  have h1 : (((y % 400 : ℤ) : ℚ) = 100) ↔ y % 400 = 100 := by exact_mod_cast Iff.rfl
  have h2 : (((y % 400 : ℤ) : ℚ) = 200) ↔ y % 400 = 200 := by exact_mod_cast Iff.rfl
  have h3 : (((y % 400 : ℤ) : ℚ) = 300) ↔ y % 400 = 300 := by exact_mod_cast Iff.rfl
  rw [h0, h1, h2, h3]
  tauto

/-- `fixed_from_gregorian` in integer division. -/
lemma fixed_from_gregorian_eq (y m d : ℤ) :
    fixed_from_gregorian y m d =
      365 * (y - 1) + (y - 1) / 4 - (y - 1) / 100 + (y - 1) / 400 + (367 * m - 362) / 12 +
        (if m ≤ 2 then 0 else if gregorian_leap_year y = true then -1 else -2) + d := by
  have e4 : (4.0 : ℚ) = ((4 : ℕ) : ℚ) := by norm_num
  have e100 : (100.0 : ℚ) = ((100 : ℕ) : ℚ) := by norm_num
  have e400 : (400.0 : ℚ) = ((400 : ℕ) : ℚ) := by norm_num
  have e12 : (12.0 : ℚ) = ((12 : ℕ) : ℚ) := by norm_num
  unfold fixed_from_gregorian
  simp only [e4, e100, e400, e12, floor_intCast_div_ofNat]
  have hc : (if m ≤ 2 then (0 : ℤ) else if m > 2 ∧ gregorian_leap_year y = true then -1 else -2)
      = (if m ≤ 2 then 0 else if gregorian_leap_year y = true then -1 else -2) := by
    split_ifs with h1 h2 h3 h3 <;> first | rfl | (exfalso; simp_all)
  rw [hc]
  generalize (if m ≤ 2 then (0 : ℤ) else if gregorian_leap_year y = true then -1 else -2) = c
  have : (((365 * (y - 1) : ℤ) : ℚ) + (((y - 1) / ((4 : ℕ) : ℤ) : ℤ) : ℚ)
      - (((y - 1) / ((100 : ℕ) : ℤ) : ℤ) : ℚ) + (((y - 1) / ((400 : ℕ) : ℤ) : ℤ) : ℚ)
      + (((367 * m - 362) / ((12 : ℕ) : ℤ) : ℤ) : ℚ) + (c : ℚ) + (d : ℚ))
      = (((365 * (y - 1) + (y - 1) / 4 - (y - 1) / 100 + (y - 1) / 400 + (367 * m - 362) / 12
        + c + d : ℤ)) : ℚ) := by
    push_cast
    ring
  rw [this, toInt_intCast]

/-- The fixed day of 1 January of year `y`. -/
lemma fixed_from_gregorian_new_year (y : ℤ) :
    fixed_from_gregorian y 1 1
      = 365 * (y - 1) + (y - 1) / 4 - (y - 1) / 100 + (y - 1) / 400 + 1 := by
  rw [fixed_from_gregorian_eq]
  norm_num

/-- Within a year, the fixed day of a date counted from 1 January. -/
lemma fixed_from_gregorian_in_year (y m d : ℤ) :
    fixed_from_gregorian y m d = fixed_from_gregorian y 1 1 - 1 + (367 * m - 362) / 12 +
      (if m ≤ 2 then 0 else if gregorian_leap_year y = true then -1 else -2) + d := by
  rw [fixed_from_gregorian_new_year, fixed_from_gregorian_eq]
  ring

/-- A Gregorian year has 366 days when it is a leap year and 365 otherwise. -/
lemma gregorian_year_length (y : ℤ) :
    fixed_from_gregorian (y + 1) 1 1 =
      fixed_from_gregorian y 1 1 + (if gregorian_leap_year y = true then 366 else 365) := by
  rw [fixed_from_gregorian_new_year, fixed_from_gregorian_new_year]
  have h := gregorian_leap_year_iff y
  split_ifs with hl
  · have := h.mp hl
    omega
  · have hn : ¬ (y % 4 = 0 ∧ ¬ (y % 400 = 100 ∨ y % 400 = 200 ∨ y % 400 = 300)) :=
      fun hh => hl (h.mpr hh)
    omega

/-- The fixed day of 1 January grows with the year. -/
lemma fixed_from_gregorian_new_year_lt (y1 y2 : ℤ) (h : y1 < y2) :
    fixed_from_gregorian (y1 + 1) 1 1 ≤ fixed_from_gregorian y2 1 1 := by
  rw [fixed_from_gregorian_new_year, fixed_from_gregorian_new_year]
  omega

/-- The digits of `date - 1` in the mixed radix of 400 years, centuries, 4 years
and years, as `gregorian_year_from_fixed` computes them. -/
lemma gregorian_year_from_fixed_digits (date : ℤ) :
    ∃ a b c e r : ℤ, date - 1 = 146097 * a + 36524 * b + 1461 * c + 365 * e + r ∧
      0 ≤ b ∧ 0 ≤ c ∧ 0 ≤ e ∧ 0 ≤ r ∧ r < 365 ∧
      36524 * b + 1461 * c + 365 * e + r < 146097 ∧
      1461 * c + 365 * e + r < 36524 ∧ 365 * e + r < 1461 ∧
      gregorian_year_from_fixed date =
        if b = 4 ∨ e = 4 then 400 * a + 100 * b + 4 * c + e
        else 400 * a + 100 * b + 4 * c + e + 1 := by
  rw [gregorian_year_from_fixed_eq]
  refine ⟨(date - 1) / 146097, (date - 1) % 146097 / 36524,
    (date - 1) % 146097 % 36524 / 1461, (date - 1) % 146097 % 36524 % 1461 / 365,
    (date - 1) % 146097 % 36524 % 1461 % 365, ?_, ?_, ?_, ?_, ?_, ?_, ?_, ?_, ?_, rfl⟩ <;>
  omega

/-- The year found by `gregorian_year_from_fixed` is the year whose days contain
`date`. -/
lemma gregorian_year_from_fixed_bounds (date : ℤ) :
    fixed_from_gregorian (gregorian_year_from_fixed date) 1 1 ≤ date ∧
    date < fixed_from_gregorian (gregorian_year_from_fixed date + 1) 1 1 := by
  rw [gregorian_year_length, fixed_from_gregorian_new_year]
  have hl := gregorian_leap_year_iff (gregorian_year_from_fixed date)
  obtain ⟨a, b, c, e, r, hd, hb0, hc0, he0, hr0, hr, hu1, hu2, hu3, hy⟩ :=
    gregorian_year_from_fixed_digits date
  generalize gregorian_year_from_fixed date = y at hl hy ⊢
  have hb4 : b ≤ 4 := by omega
  have hc24 : c ≤ 24 := by omega
  have he4 : e ≤ 4 := by omega
  by_cases hcase : b = 4 ∨ e = 4
  · rw [if_pos hcase] at hy
    have hleap : gregorian_leap_year y = true := by
      rw [hl]
      rcases hcase with h | h
      · omega
      · have : c ≤ 23 := by omega
        omega
    rw [if_pos hleap]
    rcases hcase with h | h
    · have h1 : (y - 1) / 4 = 100 * a + 99 := by omega
      have h2 : (y - 1) / 100 = 4 * a + 3 := by omega
      have h3 : (y - 1) / 400 = a := by omega
      rw [h1, h2, h3]
      omega
    · have hb3 : b ≤ 3 := by omega
      have hc23 : c ≤ 23 := by omega
      have h1 : (y - 1) / 4 = 100 * a + 25 * b + c := by omega
      have h2 : (y - 1) / 100 = 4 * a + b := by omega
      have h3 : (y - 1) / 400 = a := by omega
      rw [h1, h2, h3]
      omega
  · rw [if_neg hcase] at hy
    push_neg at hcase
    have hb3 : b ≤ 3 := by omega
    have he3 : e ≤ 3 := by omega
    have h1 : (y - 1) / 4 = 100 * a + 25 * b + c := by omega
    have h2 : (y - 1) / 100 = 4 * a + b := by omega
    have h3 : (y - 1) / 400 = a := by omega
    rw [h1, h2, h3]
    split_ifs <;> omega

/-- The year of a day is the only year whose days contain it. -/
lemma gregorian_year_from_fixed_unique (date y : ℤ)
    (h1 : fixed_from_gregorian y 1 1 ≤ date) (h2 : date < fixed_from_gregorian (y + 1) 1 1) :
    gregorian_year_from_fixed date = y := by
  have hb := gregorian_year_from_fixed_bounds date
  rcases lt_trichotomy (gregorian_year_from_fixed date) y with h | h | h
  · have := fixed_from_gregorian_new_year_lt _ _ h
    omega
  · exact h
  · have := fixed_from_gregorian_new_year_lt _ _ h
    omega

/-- `gregorian_from_fixed` in integer division. -/
lemma gregorian_from_fixed_eq (date : ℤ) :
    gregorian_from_fixed date =
      (gregorian_year_from_fixed date,
        (12 * (date - fixed_from_gregorian (gregorian_year_from_fixed date) 1 1 +
          (if date < fixed_from_gregorian (gregorian_year_from_fixed date) 3 1 then 0
           else if gregorian_leap_year (gregorian_year_from_fixed date) = true then 1
           else 2)) + 373) / 367,
        date - fixed_from_gregorian (gregorian_year_from_fixed date)
          ((12 * (date - fixed_from_gregorian (gregorian_year_from_fixed date) 1 1 +
            (if date < fixed_from_gregorian (gregorian_year_from_fixed date) 3 1 then 0
             else if gregorian_leap_year (gregorian_year_from_fixed date) = true then 1
             else 2)) + 373) / 367) 1 + 1) := by
  have e : (367.0 : ℚ) = ((367 : ℕ) : ℚ) := by norm_num
  unfold gregorian_from_fixed
  simp only [e, floor_intCast_div_ofNat, toInt_intCast]
  rfl

/-- The month and day that `gregorian_from_fixed` computes inside a year that
starts on day `J`: the date is valid and `fixed_from_gregorian` maps it back. -/
lemma gregorian_month_day (y date : ℤ)
    (h1 : fixed_from_gregorian y 1 1 ≤ date) (h2 : date < fixed_from_gregorian (y + 1) 1 1) :
    gregorian_valid y
      ((12 * (date - fixed_from_gregorian y 1 1 +
        (if date < fixed_from_gregorian y 3 1 then 0
         else if gregorian_leap_year y = true then 1 else 2)) + 373) / 367)
      (date - fixed_from_gregorian y
        ((12 * (date - fixed_from_gregorian y 1 1 +
          (if date < fixed_from_gregorian y 3 1 then 0
           else if gregorian_leap_year y = true then 1 else 2)) + 373) / 367) 1 + 1) := by
  rw [gregorian_year_length] at h2
  have h3 := fixed_from_gregorian_in_year y 3 1
  obtain ⟨m, hm⟩ : ∃ m : ℤ, m = (12 * (date - fixed_from_gregorian y 1 1 +
        (if date < fixed_from_gregorian y 3 1 then 0
         else if gregorian_leap_year y = true then 1 else 2)) + 373) / 367 := ⟨_, rfl⟩
  rw [← hm]
  have hfm := fixed_from_gregorian_in_year y m 1
  unfold gregorian_valid last_day_of_gregorian_month last_day_switch
  rw [hfm]
  clear hfm
  generalize fixed_from_gregorian y 1 1 = J at h1 h2 h3 hm ⊢
  generalize fixed_from_gregorian y 3 1 = M3 at h3 hm ⊢
  by_cases hL : gregorian_leap_year y = true
  · have hLt : (gregorian_leap_year y = true) = True := eq_true hL
    simp only [hLt, if_true, and_true] at h2 h3 hm ⊢
    norm_num at h3
    have hm1 : 1 ≤ m := by split_ifs at hm <;> omega
    have hm12 : m ≤ 12 := by split_ifs at hm <;> omega
    interval_cases m <;> norm_num <;> split_ifs at hm <;> omega
  · have hLf : (gregorian_leap_year y = true) = False := eq_false hL
    simp only [hLf, if_false, and_false] at h2 h3 hm ⊢
    norm_num at h3
    have hm1 : 1 ≤ m := by split_ifs at hm <;> omega
    have hm12 : m ≤ 12 := by split_ifs at hm <;> omega
    interval_cases m <;> norm_num <;> split_ifs at hm <;> omega

/-- A valid date lies in its year, and `gregorian_from_fixed` computes its month
from its fixed day. -/
lemma gregorian_valid_in_year (y m dd : ℤ) (hv : gregorian_valid y m dd) :
    fixed_from_gregorian y 1 1 ≤ fixed_from_gregorian y m dd ∧
    fixed_from_gregorian y m dd < fixed_from_gregorian (y + 1) 1 1 ∧
    (12 * (fixed_from_gregorian y m dd - fixed_from_gregorian y 1 1 +
      (if fixed_from_gregorian y m dd < fixed_from_gregorian y 3 1 then 0
       else if gregorian_leap_year y = true then 1 else 2)) + 373) / 367 = m := by
  rw [gregorian_year_length]
  have h3 := fixed_from_gregorian_in_year y 3 1
  have hd := fixed_from_gregorian_in_year y m dd
  obtain ⟨hm1, hm12, hd1, hdl⟩ := hv
  unfold last_day_of_gregorian_month last_day_switch at hdl
  generalize fixed_from_gregorian y m dd = d at hd ⊢
  generalize fixed_from_gregorian y 1 1 = J at h3 hd ⊢
  generalize fixed_from_gregorian y 3 1 = M3 at h3 ⊢
  by_cases hL : gregorian_leap_year y = true
  · have hLt : (gregorian_leap_year y = true) = True := eq_true hL
    simp only [hLt, if_true, and_true] at h3 hd hdl ⊢
    norm_num at h3
    interval_cases m <;> norm_num at hd hdl <;>
      refine ⟨by omega, by omega, ?_⟩ <;> split_ifs <;> omega
  · have hLf : (gregorian_leap_year y = true) = False := eq_false hL
    simp only [hLf, if_false, and_false] at h3 hd hdl ⊢
    norm_num at h3
    interval_cases m <;> norm_num at hd hdl <;>
      refine ⟨by omega, by omega, ?_⟩ <;> split_ifs <;> omega

/-- For every fixed day, `gregorian_from_fixed` gives a valid date that
`fixed_from_gregorian` maps back to the day. -/
lemma gregorian_from_fixed_valid (date : ℤ) :
    gregorian_valid (gregorian_from_fixed date).1 (gregorian_from_fixed date).2.1
      (gregorian_from_fixed date).2.2 ∧
    fixed_from_gregorian (gregorian_from_fixed date).1 (gregorian_from_fixed date).2.1
      (gregorian_from_fixed date).2.2 = date := by
  have hb := gregorian_year_from_fixed_bounds date
  have hv := gregorian_month_day (gregorian_year_from_fixed date) date hb.1 hb.2
  rw [gregorian_from_fixed_eq]
  refine ⟨hv, ?_⟩
  simp only
  generalize (12 * (date - fixed_from_gregorian (gregorian_year_from_fixed date) 1 1 +
    (if date < fixed_from_gregorian (gregorian_year_from_fixed date) 3 1 then 0
     else if gregorian_leap_year (gregorian_year_from_fixed date) = true then 1
     else 2)) + 373) / 367 = m
  rw [fixed_from_gregorian_in_year _ m (date - _ + 1), fixed_from_gregorian_in_year _ m 1]
  ring

/-- For every valid date, `gregorian_from_fixed` recovers it from its fixed
day. -/
lemma gregorian_from_fixed_of_valid (y m dd : ℤ) (hv : gregorian_valid y m dd) :
    gregorian_from_fixed (fixed_from_gregorian y m dd) = (y, m, dd) := by
  obtain ⟨h1, h2, h3⟩ := gregorian_valid_in_year y m dd hv
  have hy := gregorian_year_from_fixed_unique _ y h1 h2
  rw [gregorian_from_fixed_eq, hy, h3]
  have e : fixed_from_gregorian y m dd - fixed_from_gregorian y m 1 + 1 = dd := by
    rw [fixed_from_gregorian_in_year y m dd, fixed_from_gregorian_in_year y m 1]
    ring
  rw [e]

/-- C21. The Gregorian mapping is a bijection between fixed days and valid
dates: for every fixed day `d`, `gregorian_from_fixed(d)` is a valid date (month
in 1..12, day in 1..`last_day_of_gregorian_month(month, year)`) whose
`fixed_from_gregorian` is `d`; and for every valid date `(y, m, dd)`,
`gregorian_from_fixed(fixed_from_gregorian(y, m, dd))` is `(y, m, dd)`. -/
theorem gregorian_bijection :
    (∀ d : ℤ,
      (1 ≤ (gregorian_from_fixed d).2.1 ∧ (gregorian_from_fixed d).2.1 ≤ 12 ∧
        1 ≤ (gregorian_from_fixed d).2.2 ∧
        (gregorian_from_fixed d).2.2 ≤
          last_day_of_gregorian_month (gregorian_from_fixed d).2.1 (gregorian_from_fixed d).1) ∧
      fixed_from_gregorian (gregorian_from_fixed d).1 (gregorian_from_fixed d).2.1
        (gregorian_from_fixed d).2.2 = d) ∧
    (∀ y m dd : ℤ, 1 ≤ m → m ≤ 12 → 1 ≤ dd → dd ≤ last_day_of_gregorian_month m y →
      gregorian_from_fixed (fixed_from_gregorian y m dd) = (y, m, dd)) :=
  ⟨fun d => gregorian_from_fixed_valid d,
    fun y m dd h1 h2 h3 h4 => gregorian_from_fixed_of_valid y m dd ⟨h1, h2, h3, h4⟩⟩

/-- Within one year the fixed day grows with the month and the day. -/
lemma fixed_from_gregorian_lt_in_year (y m1 d1 m2 d2 : ℤ) (hv1 : gregorian_valid y m1 d1)
    (hv2 : gregorian_valid y m2 d2) (h : m1 < m2 ∨ (m1 = m2 ∧ d1 < d2)) :
    fixed_from_gregorian y m1 d1 < fixed_from_gregorian y m2 d2 := by
  rw [fixed_from_gregorian_in_year y m1 d1, fixed_from_gregorian_in_year y m2 d2]
  rcases h with h | ⟨rfl, h⟩
  · obtain ⟨ha1, ha12, hd1, hl1⟩ := hv1
    obtain ⟨hb1, hb12, hd2, -⟩ := hv2
    unfold last_day_of_gregorian_month last_day_switch at hl1
    by_cases hL : gregorian_leap_year y = true
    · have hLt : (gregorian_leap_year y = true) = True := eq_true hL
      simp only [hLt, if_true, and_true] at hl1 ⊢
      interval_cases m1 <;> norm_num at hl1 ⊢ <;> interval_cases m2 <;> norm_num at h ⊢ <;>
        omega
    · have hLf : (gregorian_leap_year y = true) = False := eq_false hL
      simp only [hLf, if_false, and_false] at hl1 ⊢
      interval_cases m1 <;> norm_num at hl1 ⊢ <;> interval_cases m2 <;> norm_num at h ⊢ <;>
        omega
  · omega

/-- The lexicographic order of valid dates is the order of their fixed days. -/
lemma date_precedes_fixed_lt (y1 m1 d1 y2 m2 d2 : ℤ) (hv1 : gregorian_valid y1 m1 d1)
    (hv2 : gregorian_valid y2 m2 d2) (h : date_precedes y1 m1 d1 y2 m2 d2) :
    fixed_from_gregorian y1 m1 d1 < fixed_from_gregorian y2 m2 d2 := by
  rcases h with h | ⟨rfl, h⟩
  · have a := (gregorian_valid_in_year y1 m1 d1 hv1).2.1
    have b := (gregorian_valid_in_year y2 m2 d2 hv2).1
    have c := fixed_from_gregorian_new_year_lt y1 y2 h
    omega
  · exact fixed_from_gregorian_lt_in_year y1 m1 d1 m2 d2 hv1 hv2 h

/-- The day after a valid date is a valid date, one fixed day later. -/
lemma gregorian_next_day_fixed (y m d : ℤ) (hv : gregorian_valid y m d) :
    gregorian_valid (gregorian_next_day y m d).1 (gregorian_next_day y m d).2.1
      (gregorian_next_day y m d).2.2 ∧
    fixed_from_gregorian (gregorian_next_day y m d).1 (gregorian_next_day y m d).2.1
      (gregorian_next_day y m d).2.2 = fixed_from_gregorian y m d + 1 := by
  obtain ⟨hm1, hm12, hd1, hdl⟩ := hv
  unfold gregorian_next_day
  by_cases h1 : d < last_day_of_gregorian_month m y
  · rw [if_pos h1]
    refine ⟨⟨hm1, hm12, by show 1 ≤ d + 1; omega, by show d + 1 ≤ last_day_of_gregorian_month m y; omega⟩, ?_⟩
    show fixed_from_gregorian y m (d + 1) = _
    rw [fixed_from_gregorian_in_year y m (d + 1), fixed_from_gregorian_in_year y m d]
    ring
  · rw [if_neg h1]
    have hd : d = last_day_of_gregorian_month m y := by omega
    by_cases h2 : m < 12
    · rw [if_pos h2]
      refine ⟨⟨by show 1 ≤ m + 1; omega, by show m + 1 ≤ 12; omega, le_refl _, ?_⟩, ?_⟩
      · show 1 ≤ last_day_of_gregorian_month (m + 1) y
        unfold last_day_of_gregorian_month last_day_switch
        interval_cases m
        all_goals norm_num
        all_goals split_ifs <;> norm_num
      · show fixed_from_gregorian y (m + 1) 1 = _
        rw [fixed_from_gregorian_in_year y (m + 1) 1, fixed_from_gregorian_in_year y m d, hd]
        unfold last_day_of_gregorian_month last_day_switch
        by_cases hL : gregorian_leap_year y = true
        · have hLt : (gregorian_leap_year y = true) = True := eq_true hL
          simp only [hLt, if_true, and_true]
          interval_cases m <;> norm_num <;> omega
        · have hLf : (gregorian_leap_year y = true) = False := eq_false hL
          simp only [hLf, if_false, and_false]
          interval_cases m <;> norm_num <;> omega
    · rw [if_neg h2]
      have hm : m = 12 := by omega
      subst hm
      refine ⟨⟨le_refl _, by norm_num, le_refl _, ?_⟩, ?_⟩
      · show 1 ≤ last_day_of_gregorian_month 1 (y + 1)
        unfold last_day_of_gregorian_month last_day_switch
        norm_num
      · show fixed_from_gregorian (y + 1) 1 1 = _
        rw [gregorian_year_length, fixed_from_gregorian_in_year y 12 d, hd]
        unfold last_day_of_gregorian_month last_day_switch
        by_cases hL : gregorian_leap_year y = true
        · have hLt : (gregorian_leap_year y = true) = True := eq_true hL
          simp only [hLt, if_true, and_true]
          norm_num
          omega
        · have hLf : (gregorian_leap_year y = true) = False := eq_false hL
          simp only [hLf, if_false, and_false]
          norm_num
          omega

/-- C22. The order of fixed day numbers is chronological order: for any two
valid Gregorian dates, `(y1, m1, d1)` precedes `(y2, m2, d2)` lexicographically
if and only if `fixed_from_gregorian(y1, m1, d1) < fixed_from_gregorian(y2, m2,
d2)`; and the day after a valid date is a valid date whose fixed day number is
one greater. -/
theorem fixed_order_chronological (y1 m1 d1 y2 m2 d2 : ℤ)
    (hv1 : gregorian_valid y1 m1 d1) (hv2 : gregorian_valid y2 m2 d2) :
    (date_precedes y1 m1 d1 y2 m2 d2 ↔
      fixed_from_gregorian y1 m1 d1 < fixed_from_gregorian y2 m2 d2) ∧
    gregorian_valid (gregorian_next_day y1 m1 d1).1 (gregorian_next_day y1 m1 d1).2.1
      (gregorian_next_day y1 m1 d1).2.2 ∧
    fixed_from_gregorian (gregorian_next_day y1 m1 d1).1 (gregorian_next_day y1 m1 d1).2.1
      (gregorian_next_day y1 m1 d1).2.2 = fixed_from_gregorian y1 m1 d1 + 1 := by
  refine ⟨⟨date_precedes_fixed_lt y1 m1 d1 y2 m2 d2 hv1 hv2, ?_⟩,
    gregorian_next_day_fixed y1 m1 d1 hv1⟩
  intro hlt
  by_contra hn
  have hcases : (y1 = y2 ∧ m1 = m2 ∧ d1 = d2) ∨ date_precedes y2 m2 d2 y1 m1 d1 := by
    unfold date_precedes at hn ⊢
    omega
  rcases hcases with ⟨rfl, rfl, rfl⟩ | h
  · exact lt_irrefl _ hlt
  · have := date_precedes_fixed_lt y2 m2 d2 y1 m1 d1 hv2 hv1 h
    omega

/-- C22, witness: 28 February 2023 precedes 1 March 2023, which is the day after
it; 2023 is not a leap year. -/
theorem fixed_order_chronological_witness :
    (date_precedes 2023 2 28 2023 3 1 ↔
      fixed_from_gregorian 2023 2 28 < fixed_from_gregorian 2023 3 1) ∧
    gregorian_valid (gregorian_next_day 2023 2 28).1 (gregorian_next_day 2023 2 28).2.1
      (gregorian_next_day 2023 2 28).2.2 ∧
    fixed_from_gregorian (gregorian_next_day 2023 2 28).1 (gregorian_next_day 2023 2 28).2.1
      (gregorian_next_day 2023 2 28).2.2 = fixed_from_gregorian 2023 2 28 + 1 :=
  fixed_order_chronological 2023 2 28 2023 3 1
    ⟨by decide, by decide, by decide, by decide!⟩ ⟨by decide, by decide, by decide, by decide!⟩

/-! ### Easter -/

lemma toInt_mod_range (x : ℚ) (n : ℕ) (hn : 0 < n) :
    0 ≤ toInt (mod x (n : ℚ)) ∧ toInt (mod x (n : ℚ)) < n := by
  have hpos : (0 : ℚ) < (n : ℚ) := by exact_mod_cast hn
  have h0 := mod_nonneg_of_pos x n hpos
  have h1 := mod_lt_of_pos x n hpos
  unfold toInt
  rw [if_pos h0]
  constructor
  · exact Int.floor_nonneg.mpr h0
  · rw [Int.floor_lt]
    exact_mod_cast h1

/-- C30. For every Gregorian year, `easter(year)` is a Sunday
(`day_of_week_from_fixed` is 0) from 22 March to 25 April of that year. -/
theorem easter_sunday_range (year : ℤ) :
    day_of_week_from_fixed (easter year) = 0 ∧
    fixed_from_gregorian year 3 22 ≤ easter year ∧
    easter year ≤ fixed_from_gregorian year 4 25 := by
  have e30 : (30 : ℚ) = ((30 : ℕ) : ℚ) := by norm_num
  unfold easter
  simp only []
  rw [e30]
  generalize toInt (1 + ((⌊(year : ℚ) / 100.0⌋ : ℤ) : ℚ)) = century
  have hs := toInt_mod_range (14 + (11 * mod (year : ℚ) 19)
      - ((⌊((3 * century : ℤ) : ℚ) / 4.0⌋ : ℤ) : ℚ)
      + ((⌊((5 + (8 * century) : ℤ) : ℚ) / 25.0⌋ : ℤ) : ℚ)
      + ((30 * century : ℤ) : ℚ)) 30 (by norm_num)
  generalize toInt (mod (14 + (11 * mod (year : ℚ) 19)
      - ((⌊((3 * century : ℤ) : ℚ) / 4.0⌋ : ℤ) : ℚ)
      + ((⌊((5 + (8 * century) : ℤ) : ℚ) / 25.0⌋ : ℤ) : ℚ)
      + ((30 * century : ℤ) : ℚ)) ((30 : ℕ) : ℚ)) = shifted at hs ⊢
  obtain ⟨hs0, hs30⟩ := hs
  have hadj : 1 ≤ (if shifted = 0 ∨ (shifted = 1 ∧ 10 < mod (year : ℚ) 19) then 1 + shifted
      else shifted) ∧
      (if shifted = 0 ∨ (shifted = 1 ∧ 10 < mod (year : ℚ) 19) then 1 + shifted
      else shifted) ≤ 29 := by
    split_ifs with h
    · rcases h with h | ⟨h, -⟩ <;> omega
    · push_neg at h
      have := h.1
      push_cast at hs30
      omega
  generalize (if shifted = 0 ∨ (shifted = 1 ∧ 10 < mod (year : ℚ) 19) then 1 + shifted
      else shifted) = adj at hadj ⊢
  rw [kday_on_or_before_eq, day_of_week_from_fixed_eq, fixed_from_gregorian_in_year year 4 19,
    fixed_from_gregorian_in_year year 3 22, fixed_from_gregorian_in_year year 4 25]
  norm_num
  refine ⟨?_, ?_, ?_⟩ <;> omega

/-! ### The Julian calendar -/

/-- C29, at the failing input. For the fixed day 1459, `julian_from_fixed`
returns year 4, month 13, day 1: `julian_leap_year(4)` is false, while
`fixed_from_julian` counts 366 days from 1 January 4 to 1 January 5, so the last
of them falls outside the twelve months; the same happens on day -2, in
year -1. -/
theorem julian_from_fixed_month_13 :
    julian_from_fixed 1459 = (4, 13, 1) ∧
    julian_from_fixed (-2) = (-1, 13, 1) ∧
    julian_leap_year 4 = false ∧ julian_leap_year (-1) = false ∧
    fixed_from_julian 4 1 1 = 1094 ∧ fixed_from_julian 4 12 31 = 1458 ∧
    fixed_from_julian 5 1 1 = 1460 ∧
    last_day_of_julian_month 13 4 = 0 := by
  decide!

/-! ### Cycle and year of the Chinese date -/

/-- C28. For every integer `elapsed_years`, the cycle
`floor((elapsed_years - 1) / 60) + 1` and the year `amod(elapsed_years, 60)`, as
`chinese_from_fixed` computes them, satisfy
`60 * (cycle - 1) + year = elapsed_years` and `1 <= year <= 60`; the cycle and
year of every date written by `chinese_from_fixed` are of this form. -/
theorem chinese_cycle_year_decompose (elapsed_years : ℤ) :
    60 * ((toInt ((⌊((elapsed_years - 1 : ℤ) : ℚ) / 60.0⌋ : ℤ) : ℚ) + 1) - 1) +
        toInt (amod (elapsed_years : ℚ) 60) = elapsed_years ∧
    1 ≤ toInt (amod (elapsed_years : ℚ) 60) ∧ toInt (amod (elapsed_years : ℚ) 60) ≤ 60 ∧
    (∀ (A : Astro) (fuel : ℕ) (date : ℤ) (cd : ChineseDate),
      chinese_from_fixed A fuel date = some cd →
      ∃ e : ℤ,
        e = toInt ((⌊(1.5 : ℚ) - (cd.month : ℚ) / 12.0 +
          ((date - fixed_from_gregorian (-2636) 2 15 : ℤ) : ℚ) / MEAN_TROPICAL_YEAR⌋ : ℤ) : ℚ) ∧
        cd.cycle = toInt ((⌊((e - 1 : ℤ) : ℚ) / 60.0⌋ : ℤ) : ℚ) + 1 ∧
        cd.year = toInt (amod (e : ℚ) 60) ∧
        60 * (cd.cycle - 1) + cd.year = e) := by
  have e60 : (60 : ℚ) = ((60 : ℕ) : ℚ) := by norm_num
  have e60' : (60.0 : ℚ) = ((60 : ℕ) : ℚ) := by norm_num
  have key : ∀ e : ℤ, 60 * ((toInt ((⌊((e - 1 : ℤ) : ℚ) / 60.0⌋ : ℤ) : ℚ) + 1) - 1) +
        toInt (amod (e : ℚ) 60) = e ∧
      1 ≤ toInt (amod (e : ℚ) 60) ∧ toInt (amod (e : ℚ) 60) ≤ 60 := by
    intro e
    rw [e60, e60', toInt_amod_int_eq, floor_intCast_div_ofNat, toInt_intCast]
    push_cast
    omega
  refine ⟨(key elapsed_years).1, (key elapsed_years).2.1, (key elapsed_years).2.2, ?_⟩
  intro A fuel date cd h
  unfold chinese_from_fixed at h
  simp only [Option.bind_eq_bind, Option.bind_eq_some, Option.some.injEq] at h
  obtain ⟨s1, -, s2, -, adj, -, leap, -, rfl⟩ := h
  exact ⟨_, rfl, rfl, rfl, (key _).1⟩

/-! ### The scan for the winter solstice -/

/-- The scan of `chinese_winter_solstice_on_or_before` stops at the first day
from its start whose next Chinese midnight has solar longitude at least 270. -/
lemma winter_solstice_loop_scan (A : Astro) :
    ∀ (fuel : ℕ) (i s : ℤ), chinese_winter_solstice_loop A fuel i = some s →
      LONGITUDE_WINTER ≤ A.solar_longitude (midnight_in_china (s + 1)) ∧
      ∀ j : ℤ, i ≤ j → j < s →
        A.solar_longitude (midnight_in_china (j + 1)) < LONGITUDE_WINTER := by
  intro fuel
  induction fuel with
  | zero =>
    intro i s h
    by_cases hc : LONGITUDE_WINTER > A.solar_longitude (midnight_in_china (i + 1))
    · simp [chinese_winter_solstice_loop, hc] at h
    · simp only [chinese_winter_solstice_loop, if_neg hc, Option.some.injEq] at h
      subst h
      exact ⟨not_lt.mp hc, fun j h1 h2 => absurd h1 (by omega)⟩
  | succ n ih =>
    intro i s h
    by_cases hc : LONGITUDE_WINTER > A.solar_longitude (midnight_in_china (i + 1))
    · simp only [chinese_winter_solstice_loop, if_pos hc] at h
      obtain ⟨h1, h2⟩ := ih (i + 1) s h
      refine ⟨h1, fun j hj1 hj2 => ?_⟩
      rcases eq_or_lt_of_le hj1 with he | hl
      · rw [← he]; exact hc
      · exact h2 j (by omega) hj2
    · simp only [chinese_winter_solstice_loop, if_neg hc, Option.some.injEq] at h
      subst h
      exact ⟨not_lt.mp hc, fun j h1 h2 => absurd h1 (by omega)⟩

/-- C26. Whenever `chinese_winter_solstice_on_or_before(date)` returns `i`, with
`approx = estimate_prior_solar_longitude(midnight_in_china(date + 1), 270)`:
the solar longitude at Chinese midnight of day `i + 1` is at least 270, every
day `j` with `floor(approx) - 1 <= j < i` has solar longitude below 270 at
Chinese midnight of day `j + 1`, `i >= floor(approx) - 1`, and
`approx <= midnight_in_china(date + 1)`. -/
theorem winter_solstice_scan (A : Astro) (fuel : ℕ) (date i : ℤ)
    (h : chinese_winter_solstice_on_or_before A fuel date = some i) :
    270 ≤ A.solar_longitude (midnight_in_china (i + 1)) ∧
    (∀ j : ℤ,
      ⌊estimate_prior_solar_longitude A.solar_longitude (midnight_in_china (date + 1)) 270⌋ - 1
        ≤ j → j < i → A.solar_longitude (midnight_in_china (j + 1)) < 270) ∧
    ⌊estimate_prior_solar_longitude A.solar_longitude (midnight_in_china (date + 1)) 270⌋ - 1
      ≤ i ∧
    estimate_prior_solar_longitude A.solar_longitude (midnight_in_china (date + 1)) 270
      ≤ midnight_in_china (date + 1) := by
  unfold chinese_winter_solstice_on_or_before at h
  simp only [toInt_intCast] at h
  have hw : LONGITUDE_WINTER = 270 := rfl
  rw [hw] at h
  obtain ⟨h1, h2⟩ := winter_solstice_loop_scan A fuel _ i h
  rw [hw] at h1 h2
  exact ⟨h1, h2, winter_solstice_loop_ge A fuel _ i h,
    (estimate_prior_solar_longitude_bounds _ _ _).2⟩

/-- C26, witness: with the mean-motion ephemeris the scan from day 738640 starts
at day 738507 and returns day 738508. -/
theorem winter_solstice_scan_witness :
    chinese_winter_solstice_on_or_before meanAstro 1 738640 = some 738508 ∧
    (270 ≤ meanAstro.solar_longitude (midnight_in_china (738508 + 1)) ∧
    (∀ j : ℤ,
      ⌊estimate_prior_solar_longitude meanAstro.solar_longitude
        (midnight_in_china (738640 + 1)) 270⌋ - 1 ≤ j → j < 738508 →
        meanAstro.solar_longitude (midnight_in_china (j + 1)) < 270) ∧
    ⌊estimate_prior_solar_longitude meanAstro.solar_longitude
      (midnight_in_china (738640 + 1)) 270⌋ - 1 ≤ 738508 ∧
    estimate_prior_solar_longitude meanAstro.solar_longitude (midnight_in_china (738640 + 1)) 270
      ≤ midnight_in_china (738640 + 1)) :=
  ⟨by decide!, winter_solstice_scan meanAstro 1 738640 738508 (by decide!)⟩

/-! ### The bisection of `solar_longitude_after` -/

/-- The loop of `solar_longitude_after` is the repetition of its body. -/
lemma solar_longitude_after_loop_body (sl : ℚ → ℚ) (target v : ℚ) (fuel : ℕ)
    (s : ℚ × ℚ × ℚ) (h : s.2.1 - s.1 > v) :
    solar_longitude_after_loop sl target v (fuel + 1) s.1 s.2.1 s.2.2 =
      solar_longitude_after_loop sl target v fuel (solar_longitude_after_body sl target s).1
        (solar_longitude_after_body sl target s).2.1
        (solar_longitude_after_body sl target s).2.2 := by
  unfold solar_longitude_after_body
  rw [solar_longitude_after_loop, if_pos h]
  by_cases hc : mod (sl s.2.2 - target) 360 < 180
  · rw [if_pos hc, if_pos hc]
  · rw [if_neg hc, if_neg hc]

/-- When the loop test fails first after `n` passes, the loop returns the `x` of
that moment, for every fuel of at least `n`. -/
lemma solar_longitude_after_loop_iterate (sl : ℚ → ℚ) (target v : ℚ) :
    ∀ (n fuel : ℕ) (s : ℚ × ℚ × ℚ), n ≤ fuel →
      (∀ m, m < n → ((solar_longitude_after_body sl target)^[m] s).2.1 -
        ((solar_longitude_after_body sl target)^[m] s).1 > v) →
      ¬ (((solar_longitude_after_body sl target)^[n] s).2.1 -
        ((solar_longitude_after_body sl target)^[n] s).1 > v) →
      solar_longitude_after_loop sl target v fuel s.1 s.2.1 s.2.2 =
        some ((solar_longitude_after_body sl target)^[n] s).2.2 := by
  intro n
  induction n with
  | zero =>
    intro fuel s _ _ hn
    simp only [Function.iterate_zero, id_eq] at hn ⊢
    cases fuel with
    | zero => simp only [solar_longitude_after_loop, if_neg hn]
    | succ f => simp only [solar_longitude_after_loop, if_neg hn]
  | succ n ih =>
    intro fuel s hf hlt hn
    obtain ⟨f, rfl⟩ : ∃ f, fuel = f + 1 := ⟨fuel - 1, by omega⟩
    have h0 := hlt 0 (by omega)
    simp only [Function.iterate_zero, id_eq] at h0
    rw [solar_longitude_after_loop_body sl target v f s h0]
    rw [Function.iterate_succ_apply] at hn ⊢
    refine ih f _ (by omega) (fun m hm => ?_) hn
    have := hlt (m + 1) (by omega)
    rwa [Function.iterate_succ_apply] at this

/-- Each pass keeps `x` the midpoint of `[lo, hi]` and halves the bracket. -/
lemma solar_longitude_after_body_width (sl : ℚ → ℚ) (target : ℚ) (s : ℚ × ℚ × ℚ) :
    ∀ m : ℕ, s.1 ≤ s.2.1 → s.2.2 = (s.2.1 + s.1) / 2 →
      ((solar_longitude_after_body sl target)^[m] s).1 ≤
        ((solar_longitude_after_body sl target)^[m] s).2.1 ∧
      ((solar_longitude_after_body sl target)^[m] s).2.2 =
        (((solar_longitude_after_body sl target)^[m] s).2.1 +
          ((solar_longitude_after_body sl target)^[m] s).1) / 2 ∧
      ((solar_longitude_after_body sl target)^[m] s).2.1 -
        ((solar_longitude_after_body sl target)^[m] s).1 = (s.2.1 - s.1) / 2 ^ m := by
  intro m
  induction m with
  | zero =>
    intro h1 h2
    simp only [Function.iterate_zero, id_eq, pow_zero, div_one]
    exact ⟨h1, h2, trivial⟩
  | succ n ih =>
    intro h1 h2
    obtain ⟨a, b, c⟩ := ih h1 h2
    rw [Function.iterate_succ_apply']
    generalize (solar_longitude_after_body sl target)^[n] s = r at a b c ⊢
    have hp : (s.2.1 - s.1) / 2 ^ (n + 1) = (s.2.1 - s.1) / 2 ^ n / 2 := by
      rw [pow_succ, div_mul_eq_div_div]
    rw [hp, ← c]
    unfold solar_longitude_after_body
    split_ifs with hc
    · refine ⟨by show r.1 ≤ r.2.2; rw [b]; linarith, rfl, ?_⟩
      show r.2.2 - r.1 = (r.2.1 - r.1) / 2
      rw [b]; ring
    · refine ⟨by show r.2.2 ≤ r.2.1; rw [b]; linarith, rfl, ?_⟩
      show r.2.1 - r.2.2 = (r.2.1 - r.1) / 2
      rw [b]; ring

/-- C25. For every solar longitude function, every moment `t` and every target,
the bracket `[lo, hi]` of `solar_longitude_after` starts no wider than 10 days
and after `m` passes of the loop has `1 / 2 ^ m` of its first width; the loop
test fails first after some number `n <= 20` of passes, with a bracket of width
at most 0.00001 that contains `x`, and `solar_longitude_after` returns that `x`
whenever at least `n` passes are allowed. -/
theorem solar_longitude_after_terminates (sl : ℚ → ℚ) (t target : ℚ) :
    ∃ n : ℕ, n ≤ 20 ∧
      (solar_longitude_after_start sl t target).2.1 -
        (solar_longitude_after_start sl t target).1 ≤ 10 ∧
      (∀ m : ℕ,
        ((solar_longitude_after_body sl target)^[m] (solar_longitude_after_start sl t target)).2.1
          - ((solar_longitude_after_body sl target)^[m]
            (solar_longitude_after_start sl t target)).1
          = ((solar_longitude_after_start sl t target).2.1 -
            (solar_longitude_after_start sl t target).1) / 2 ^ m) ∧
      (∀ m : ℕ, m < n →
        ((solar_longitude_after_body sl target)^[m] (solar_longitude_after_start sl t target)).2.1
          - ((solar_longitude_after_body sl target)^[m]
            (solar_longitude_after_start sl t target)).1 > 0.00001) ∧
      ((solar_longitude_after_body sl target)^[n] (solar_longitude_after_start sl t target)).2.1
        - ((solar_longitude_after_body sl target)^[n]
          (solar_longitude_after_start sl t target)).1 ≤ 0.00001 ∧
      ((solar_longitude_after_body sl target)^[n] (solar_longitude_after_start sl t target)).1
        ≤ ((solar_longitude_after_body sl target)^[n]
          (solar_longitude_after_start sl t target)).2.2 ∧
      ((solar_longitude_after_body sl target)^[n] (solar_longitude_after_start sl t target)).2.2
        ≤ ((solar_longitude_after_body sl target)^[n]
          (solar_longitude_after_start sl t target)).2.1 ∧
      (∀ fuel : ℕ, n ≤ fuel →
        solar_longitude_after sl fuel t target =
          some ((solar_longitude_after_body sl target)^[n]
            (solar_longitude_after_start sl t target)).2.2) := by
  have hm : 0 ≤ mod (target - sl t) 360 := mod_nonneg_of_pos _ _ (by norm_num)
  have hP : 0 ≤ MEAN_TROPICAL_YEAR / 360.0 * mod (target - sl t) 360 :=
    mul_nonneg (by decide!) hm
  have hstart : solar_longitude_after_start sl t target =
      (fmax t (t + MEAN_TROPICAL_YEAR / 360.0 * mod (target - sl t) 360 - 5),
        t + MEAN_TROPICAL_YEAR / 360.0 * mod (target - sl t) 360 + 5,
        (t + MEAN_TROPICAL_YEAR / 360.0 * mod (target - sl t) 360 + 5 +
          fmax t (t + MEAN_TROPICAL_YEAR / 360.0 * mod (target - sl t) 360 - 5)) / 2) := rfl
  have hrun : ∀ fuel, solar_longitude_after sl fuel t target =
      solar_longitude_after_loop sl target 0.00001 fuel
        (solar_longitude_after_start sl t target).1 (solar_longitude_after_start sl t target).2.1
        (solar_longitude_after_start sl t target).2.2 := fun _ => rfl
  have hw10 : (solar_longitude_after_start sl t target).2.1 -
      (solar_longitude_after_start sl t target).1 ≤ 10 := by
    rw [hstart]
    show _ - fmax _ _ ≤ 10
    unfold fmax
    split_ifs with h <;> linarith
  have hw0 : (solar_longitude_after_start sl t target).1 ≤
      (solar_longitude_after_start sl t target).2.1 := by
    rw [hstart]
    show fmax _ _ ≤ _
    unfold fmax
    split_ifs with h <;> linarith
  have hmid : (solar_longitude_after_start sl t target).2.2 =
      ((solar_longitude_after_start sl t target).2.1 +
        (solar_longitude_after_start sl t target).1) / 2 := rfl
  generalize solar_longitude_after_start sl t target = s0 at hw10 hw0 hmid hrun ⊢
  have hinv := fun m => solar_longitude_after_body_width sl target s0 m hw0 hmid
  have h20 : ¬ (((solar_longitude_after_body sl target)^[20] s0).2.1 -
      ((solar_longitude_after_body sl target)^[20] s0).1 > 0.00001) := by
    rw [(hinv 20).2.2, not_lt, div_le_iff₀ (by norm_num)]
    have : (10 : ℚ) ≤ 0.00001 * 2 ^ 20 := by norm_num
    linarith
  classical
  have hex : ∃ n, ¬ (((solar_longitude_after_body sl target)^[n] s0).2.1 -
      ((solar_longitude_after_body sl target)^[n] s0).1 > 0.00001) := ⟨20, h20⟩
  refine ⟨Nat.find hex, Nat.find_min' hex h20, hw10, fun m => (hinv m).2.2, ?_, ?_, ?_, ?_, ?_⟩
  · intro m hm
    exact not_not.mp (Nat.find_min hex hm)
  · exact not_lt.mp (Nat.find_spec hex)
  · have := hinv (Nat.find hex)
    rw [this.2.1]
    linarith [this.1]
  · have := hinv (Nat.find hex)
    rw [this.2.1]
    linarith [this.1]
  · intro fuel hf
    rw [hrun]
    exact solar_longitude_after_loop_iterate sl target 0.00001 (Nat.find hex) fuel s0 hf
      (fun m hm => not_not.mp (Nat.find_min hex hm)) (Nat.find_spec hex)

/-! ### Concrete instances -/

/-- C21, witness: day 738542 is 22 January 2023, and 29 February 2024 is valid. -/
theorem gregorian_bijection_witness :
    gregorian_from_fixed 738542 = (2023, 1, 22) ∧
    fixed_from_gregorian (gregorian_from_fixed 738542).1 (gregorian_from_fixed 738542).2.1
      (gregorian_from_fixed 738542).2.2 = 738542 ∧
    gregorian_from_fixed (fixed_from_gregorian 2024 2 29) = (2024, 2, 29) :=
  ⟨by decide!, (gregorian_bijection.1 738542).2,
    gregorian_bijection.2 2024 2 29 (by decide) (by decide) (by decide) (by decide!)⟩

/-- C28, witness: 4660 elapsed years are cycle 78, year 40, as on day 738640 with
the mean-motion ephemeris. -/
theorem chinese_cycle_year_decompose_witness :
    60 * ((toInt ((⌊(((4660 : ℤ) - 1 : ℤ) : ℚ) / 60.0⌋ : ℤ) : ℚ) + 1) - 1) +
        toInt (amod ((4660 : ℤ) : ℚ) 60) = 4660 ∧
    chinese_from_fixed meanAstro 40 738640 =
      some { cycle := 78, year := 40, month := 3, leap := true, day := 10 } ∧
    (∃ e : ℤ,
      e = toInt ((⌊(1.5 : ℚ) - ((3 : ℤ) : ℚ) / 12.0 +
        ((738640 - fixed_from_gregorian (-2636) 2 15 : ℤ) : ℚ) / MEAN_TROPICAL_YEAR⌋ : ℤ) : ℚ) ∧
      (78 : ℤ) = toInt ((⌊((e - 1 : ℤ) : ℚ) / 60.0⌋ : ℤ) : ℚ) + 1 ∧
      (40 : ℤ) = toInt (amod (e : ℚ) 60) ∧
      60 * ((78 : ℤ) - 1) + 40 = e) :=
  ⟨(chinese_cycle_year_decompose 4660).1, by decide!,
    (chinese_cycle_year_decompose 4660).2.2.2 meanAstro 40 738640
      { cycle := 78, year := 40, month := 3, leap := true, day := 10 } (by decide!)⟩

/-! ### Mayan calendars -/

lemma mayan_long_count_from_fixed_eq (date : ℤ) :
    mayan_long_count_from_fixed date =
      ((date - EPOCH_MAYAN) / 144000,
        (date - EPOCH_MAYAN) % 144000 / 7200,
        (date - EPOCH_MAYAN) % 144000 % 7200 / 360,
        (date - EPOCH_MAYAN) % 144000 % 7200 % 360 / 20,
        (date - EPOCH_MAYAN) % 144000 % 7200 % 360 % 20) := by
  have e1 : (144000.0 : ℚ) = ((144000 : ℕ) : ℚ) := by norm_num
  have e2 : (7200.0 : ℚ) = ((7200 : ℕ) : ℚ) := by norm_num
  have e3 : (360.0 : ℚ) = ((360 : ℕ) : ℚ) := by norm_num
  have e4 : (20.0 : ℚ) = ((20 : ℕ) : ℚ) := by norm_num
  have f1 : (144000 : ℚ) = ((144000 : ℕ) : ℚ) := by norm_num
  have f2 : (7200 : ℚ) = ((7200 : ℕ) : ℚ) := by norm_num
  have f3 : (360 : ℚ) = ((360 : ℕ) : ℚ) := by norm_num
  have f4 : (20 : ℚ) = ((20 : ℕ) : ℚ) := by norm_num
  unfold mayan_long_count_from_fixed
  simp only [e1, e2, e3, e4, f1, f2, f3, f4, floor_intCast_div_ofNat, mod_intCast_natCast,
    toInt_intCast]
  rfl

/-- C34. For every fixed day `d`, `mayan_long_count_from_fixed(d)` stores a katun
in 0..19, a tun in 0..19, a uinal in 0..17 and a kin in 0..19, and
`fixed_from_mayan_long_count` of the five components is `d`. -/
theorem mayan_long_count_round_trip (d : ℤ) :
    (0 ≤ (mayan_long_count_from_fixed d).2.1 ∧ (mayan_long_count_from_fixed d).2.1 ≤ 19) ∧
    (0 ≤ (mayan_long_count_from_fixed d).2.2.1 ∧ (mayan_long_count_from_fixed d).2.2.1 ≤ 19) ∧
    (0 ≤ (mayan_long_count_from_fixed d).2.2.2.1 ∧
      (mayan_long_count_from_fixed d).2.2.2.1 ≤ 17) ∧
    (0 ≤ (mayan_long_count_from_fixed d).2.2.2.2 ∧
      (mayan_long_count_from_fixed d).2.2.2.2 ≤ 19) ∧
    fixed_from_mayan_long_count (mayan_long_count_from_fixed d).1
      (mayan_long_count_from_fixed d).2.1 (mayan_long_count_from_fixed d).2.2.1
      (mayan_long_count_from_fixed d).2.2.2.1 (mayan_long_count_from_fixed d).2.2.2.2 = d := by
  rw [mayan_long_count_from_fixed_eq]
  unfold fixed_from_mayan_long_count
  simp only
  obtain ⟨n, hn⟩ : ∃ n, n = d - EPOCH_MAYAN := ⟨_, rfl⟩
  rw [← hn]
  refine ⟨⟨?_, ?_⟩, ⟨?_, ?_⟩, ⟨?_, ?_⟩, ⟨?_, ?_⟩, ?_⟩ <;> omega

lemma mayan_tzolkin_ordinal_eq (number name : ℤ) :
    mayan_tzolkin_ordinal number name = (number - 1 + 39 * (number - name)) % 260 := by
  have e : (260 : ℚ) = ((260 : ℕ) : ℚ) := by norm_num
  unfold mayan_tzolkin_ordinal
  rw [e, mod_intCast_natCast, toInt_intCast]
  rfl

lemma mayan_tzolkin_on_or_before_eq (date number name : ℤ) :
    mayan_tzolkin_on_or_before date number name =
      date - (date - EPOCH_MAYAN_TZOLKIN - (number - 1 + 39 * (number - name)) % 260) % 260 := by
  have e : (260 : ℚ) = ((260 : ℕ) : ℚ) := by norm_num
  unfold mayan_tzolkin_on_or_before
  rw [mayan_tzolkin_ordinal_eq, e, mod_intCast_natCast, ← Int.cast_sub, toInt_intCast]
  rfl

lemma mayan_tzolkin_from_fixed_eq (date : ℤ) :
    mayan_tzolkin_from_fixed date =
      (13 - (-(date - EPOCH_MAYAN_TZOLKIN + 1)) % 13,
        20 - (-(date - EPOCH_MAYAN_TZOLKIN + 1)) % 20) := by
  have e13 : (13 : ℚ) = ((13 : ℕ) : ℚ) := by norm_num
  have e20 : (20 : ℚ) = ((20 : ℕ) : ℚ) := by norm_num
  unfold mayan_tzolkin_from_fixed
  simp only [e13, e20, toInt_amod_int_eq]
  rfl

/-- C35. For every fixed day `date`, number in 1..13 and name in 1..20,
`r = mayan_tzolkin_on_or_before(date, number, name)` satisfies
`date - 259 <= r <= date` and `mayan_tzolkin_from_fixed(r) = (number, name)`; at
the long-count epoch `EPOCH_MAYAN` the tzolkin date is (4, 20) and the haab date
is month 18, day 8. -/
theorem mayan_tzolkin_on_or_before_spec (date number name : ℤ)
    (hn1 : 1 ≤ number) (hn13 : number ≤ 13) (hm1 : 1 ≤ name) (hm20 : name ≤ 20) :
    date - 259 ≤ mayan_tzolkin_on_or_before date number name ∧
    mayan_tzolkin_on_or_before date number name ≤ date ∧
    mayan_tzolkin_from_fixed (mayan_tzolkin_on_or_before date number name) = (number, name) ∧
    mayan_tzolkin_from_fixed EPOCH_MAYAN = (4, 20) ∧
    mayan_haab_from_fixed EPOCH_MAYAN = (18, 8) := by
  rw [mayan_tzolkin_from_fixed_eq, mayan_tzolkin_on_or_before_eq]
  have hE : EPOCH_MAYAN_TZOLKIN = -1137301 := rfl
  rw [hE]
  refine ⟨by omega, by omega, ?_, by decide!, by decide!⟩
  rw [Prod.mk.injEq]
  constructor <;> omega

/-- C35, witness: the tzolkin date (4, 20) on or before day 0. -/
theorem mayan_tzolkin_on_or_before_spec_witness :
    0 - 259 ≤ mayan_tzolkin_on_or_before 0 4 20 ∧
    mayan_tzolkin_on_or_before 0 4 20 ≤ 0 ∧
    mayan_tzolkin_from_fixed (mayan_tzolkin_on_or_before 0 4 20) = (4, 20) ∧
    mayan_tzolkin_from_fixed EPOCH_MAYAN = (4, 20) ∧
    mayan_haab_from_fixed EPOCH_MAYAN = (18, 8) :=
  mayan_tzolkin_on_or_before_spec 0 4 20 (by decide) (by decide) (by decide) (by decide)

/-! ### Zodiac, the old Beijing locale, obliquity and Unix time -/

/-- C36, as the code behaves. `current_zodiac` returns `amod(floor(s / 30), 12)`,
which is the index of the sign before the one the Sun is in: the entry of
`Zodiacs` it selects has longitude `30 * floor(s / 30) - 30` (330 when
`floor(s / 30)` is 0), never `30 * floor(s / 30)`. On day 738980 (4 April 2024)
with sine and cosine that return 0 the solar longitude is in `[0, 30)` and the
index returned is 12, Pisces, not 1, Aries. -/
theorem current_zodiac_previous_sign :
    current_zodiac zeroLibm 738980 = 12 ∧
    0 ≤ solar_longitude zeroLibm 738980 ∧ solar_longitude zeroLibm 738980 < 30 ∧
    (Zodiacs.get? 12).map (fun e => e.longitude) = some 330 ∧
    (Zodiacs.get? 1).map (fun e => e.longitude) = some 0 ∧
    (∀ (L : Libm) (date : ℤ),
      ∃ e, Zodiacs.get? (current_zodiac L date).toNat = some e ∧
        e.longitude = (if ⌊solar_longitude L (date : ℚ) / 30⌋ = 0 then 330
          else 30 * (⌊solar_longitude L (date : ℚ) / 30⌋ - 1)) ∧
        e.longitude ≠ 30 * ⌊solar_longitude L (date : ℚ) / 30⌋) := by
  refine ⟨by decide!, by decide!, by decide!, by decide, by decide, ?_⟩
  intro L date
  have e30 : (30.0 : ℚ) = 30 := by norm_num
  have e12 : (12 : ℚ) = ((12 : ℕ) : ℚ) := by norm_num
  have h0 : 0 ≤ solar_longitude L (date : ℚ) := by
    unfold solar_longitude
    exact mod_nonneg_of_pos _ _ (by norm_num)
  have h360 : solar_longitude L (date : ℚ) < 360 := by
    unfold solar_longitude
    exact mod_lt_of_pos _ _ (by norm_num)
  unfold current_zodiac
  simp only [e30, e12, toInt_amod_int_eq]
  generalize solar_longitude L (date : ℚ) = s at h0 h360
  have hq0 : 0 ≤ ⌊s / 30⌋ := Int.floor_nonneg.mpr (div_nonneg h0 (by norm_num))
  have hq11 : ⌊s / 30⌋ ≤ 11 := by
    have : ⌊s / 30⌋ < 12 := by
      rw [Int.floor_lt, div_lt_iff₀ (by norm_num)]
      push_cast
      linarith
    omega
  generalize ⌊s / 30⌋ = q at hq0 hq11
  interval_cases q <;> exact ⟨_, rfl, by decide⟩

/-- C37, as the code behaves. The initialiser `1397/180` of the time zone of
`BejingOld` is an integer division: the time zone is 7 hours, not
`longitude / 15 = 1397/180` hours, so `standard_from_universal(0, BejingOld)` is
`7/24`, `local_from_universal(0, BejingOld)` is `1397/4320`, and
`midnight_in_china(0)`, a date before 1929, is `-7/24`, not `-1397/4320`. -/
theorem bejing_old_timezone_truncated :
    BejingOld.timezone = 7 ∧
    BejingOld.longitude / 15 = 1397 / 180 ∧
    standard_from_universal 0 BejingOld = 7 / 24 ∧
    local_from_universal 0 BejingOld = 1397 / 4320 ∧
    standard_from_universal 0 BejingOld ≠ local_from_universal 0 BejingOld ∧
    gregorian_year_from_fixed 0 < 1929 ∧
    midnight_in_china 0 = -(7 / 24) ∧
    midnight_in_china 0 ≠ 0 - 1397 / 4320 := by
  decide!

/-- C38, as the code behaves. `obliquity` passes the count 3 to `poly` for the
table `oblvec` of 4 coefficients: for every `t`, with `c = julian_centuries(t)`,
it is `23 deg 26' 21.448"` plus `(-46.8150") * c + (-0.00059") * c^2`, without
the term `(0.001813") * c^3`; at `t = 766645.5` the two values differ. -/
theorem obliquity_drops_cubic :
    oblvec.length = 4 ∧
    (∀ t : ℚ, obliquity t = angle 23 26 21.448 + angle 0 0 (-46.8150) * julian_centuries t +
      angle 0 0 (-0.00059) * julian_centuries t ^ 2) ∧
    obliquity 766645.5 ≠ angle 23 26 21.448 + angle 0 0 (-46.8150) * julian_centuries 766645.5 +
      angle 0 0 (-0.00059) * julian_centuries 766645.5 ^ 2 +
      angle 0 0 0.001813 * julian_centuries 766645.5 ^ 3 := by
  have hgen : ∀ t : ℚ, obliquity t = angle 23 26 21.448 +
      angle 0 0 (-46.8150) * julian_centuries t +
      angle 0 0 (-0.00059) * julian_centuries t ^ 2 := by
    intro t
    unfold obliquity
    simp only [poly, polyLoop, oblvec, List.take, List.drop, List.headD]
    ring
  refine ⟨rfl, hgen, ?_⟩
  rw [hgen]
  have hc : julian_centuries 766645.5 ≠ 0 := by decide!
  intro h
  have h3 : angle 0 0 0.001813 * julian_centuries 766645.5 ^ 3 = 0 := by linarith
  rcases mul_eq_zero.mp h3 with h4 | h4
  · exact absurd h4 (by decide!)
  · exact hc (pow_eq_zero_iff (by norm_num) |>.mp h4)

/-- C39, as the code behaves. `fixed_from_unixtime` takes `floor` of the
quotient `time / 86400` of two integers, which C has already truncated toward
zero: for every `t` it returns `trunc(t / 86400) + 719163`, and at `t = -1`,
one second before 1 January 1970, that is day 719163 and not
`floor(-1 / 86400) + fixed_from_gregorian(1970, 1, 1) = 719162`. -/
theorem fixed_from_unixtime_truncates :
    fixed_from_gregorian 1970 1 1 = 719163 ∧ EPOCH_UNIXTIME = 719163 ∧
    fixed_from_unixtime (-1) = 719163 ∧
    ⌊(((-1 : ℤ) : ℚ)) / 86400⌋ + fixed_from_gregorian 1970 1 1 = 719162 ∧
    (∀ t : ℤ, fixed_from_unixtime t = Int.tdiv t 86400 + 719163) := by
  refine ⟨by decide!, rfl, by decide!, by decide!, ?_⟩
  intro t
  unfold fixed_from_unixtime EPOCH_UNIXTIME
  rw [Int.floor_intCast, ← Int.cast_add, toInt_intCast]

/-! ### ISO calendar -/

lemma fixed_from_gregorian_dec_28 (y : ℤ) :
    fixed_from_gregorian (y - 1) 12 28 = fixed_from_gregorian y 1 1 - 4 := by
  have h1 := gregorian_year_length (y - 1)
  rw [sub_add_cancel] at h1
  rw [h1, fixed_from_gregorian_in_year (y - 1) 12 28]
  norm_num
  split_ifs <;> omega

/-- `fixed_from_iso` for a positive week: the day before the first week is the
Sunday on or before 27 December. -/
lemma fixed_from_iso_eq (y w d : ℤ) (hw : 0 < w) :
    fixed_from_iso y w d =
      7 * w + (fixed_from_gregorian y 1 1 - 5 - (fixed_from_gregorian y 1 1 - 5) % 7) + d := by
  unfold fixed_from_iso nth_kday kday_before
  rw [if_pos hw, kday_on_or_before_eq, fixed_from_gregorian_dec_28]
  omega

lemma iso_from_fixed_eq (date : ℤ) :
    iso_from_fixed date =
      ((if date ≥ fixed_from_iso (gregorian_year_from_fixed (date - 3) + 1) 1 1
          then gregorian_year_from_fixed (date - 3) + 1
          else gregorian_year_from_fixed (date - 3)),
        1 + (date - fixed_from_iso
          (if date ≥ fixed_from_iso (gregorian_year_from_fixed (date - 3) + 1) 1 1
            then gregorian_year_from_fixed (date - 3) + 1
            else gregorian_year_from_fixed (date - 3)) 1 1) / 7,
        7 - (-date) % 7) := by
  have e7 : (7.0 : ℚ) = ((7 : ℕ) : ℚ) := by norm_num
  have f7 : (7 : ℚ) = ((7 : ℕ) : ℚ) := by norm_num
  unfold iso_from_fixed
  simp only [e7, f7, floor_intCast_div_ofNat, toInt_amod_int_eq]
  have h : ∀ n : ℤ, toInt (1 + (n : ℚ)) = 1 + n := by
    intro n
    have : (1 + (n : ℚ)) = ((1 + n : ℤ) : ℚ) := by push_cast; ring
    rw [this, toInt_intCast]
  rw [h]
  rfl

/-- C31. For every fixed day `d`, `iso_from_fixed(d) = (year, week, day)` has
`day` in 1..7 (Monday is 1 and Sunday 7: `day` is the day of the week of `d`,
with 7 for 0), `week` in 1..53, and `fixed_from_iso(year, week, day) = d`. -/
theorem iso_round_trip (d : ℤ) :
    1 ≤ (iso_from_fixed d).2.2 ∧ (iso_from_fixed d).2.2 ≤ 7 ∧
    (iso_from_fixed d).2.2 % 7 = day_of_week_from_fixed d ∧
    1 ≤ (iso_from_fixed d).2.1 ∧ (iso_from_fixed d).2.1 ≤ 53 ∧
    fixed_from_iso (iso_from_fixed d).1 (iso_from_fixed d).2.1 (iso_from_fixed d).2.2 = d := by
  have hb := gregorian_year_from_fixed_bounds (d - 3)
  have hlen := gregorian_year_length (gregorian_year_from_fixed (d - 3))
  have hsa := fixed_from_iso_eq (gregorian_year_from_fixed (d - 3)) 1 1 (by norm_num)
  have hsb := fixed_from_iso_eq (gregorian_year_from_fixed (d - 3) + 1) 1 1 (by norm_num)
  rw [iso_from_fixed_eq, day_of_week_from_fixed_eq]
  simp only
  generalize gregorian_year_from_fixed (d - 3) = a at hb hlen hsa hsb ⊢
  have hJ : fixed_from_gregorian (a + 1) 1 1 = fixed_from_gregorian a 1 1 + 365 ∨
      fixed_from_gregorian (a + 1) 1 1 = fixed_from_gregorian a 1 1 + 366 := by
    split_ifs at hlen <;> omega
  clear hlen
  by_cases hc : d ≥ fixed_from_iso (a + 1) 1 1
  · rw [if_pos hc]
    have hw : 0 < 1 + (d - fixed_from_iso (a + 1) 1 1) / 7 := by omega
    rw [fixed_from_iso_eq _ _ _ hw]
    generalize fixed_from_iso (a + 1) 1 1 = sb at hsb hc hw ⊢
    generalize fixed_from_gregorian a 1 1 = Ja at hb hJ hsa ⊢
    generalize fixed_from_gregorian (a + 1) 1 1 = Jb at hb hJ hsb ⊢
    refine ⟨?_, ?_, ?_, ?_, ?_, ?_⟩ <;> omega
  · rw [if_neg hc]
    have hw : 0 < 1 + (d - fixed_from_iso a 1 1) / 7 := by omega
    rw [fixed_from_iso_eq _ _ _ hw]
    generalize fixed_from_iso (a + 1) 1 1 = sb at hsb hc
    generalize fixed_from_iso a 1 1 = sa at hsa hw ⊢
    generalize fixed_from_gregorian a 1 1 = Ja at hb hJ hsa ⊢
    generalize fixed_from_gregorian (a + 1) 1 1 = Jb at hb hJ hsb ⊢
    refine ⟨?_, ?_, ?_, ?_, ?_, ?_⟩ <;> omega

/-! ### Islamic calendar -/

lemma islamic_leap_year_iff (y : ℤ) :
    islamic_leap_year y = true ↔ (14 + 11 * y) % 30 < 11 := by
  have e30 : (30 : ℚ) = ((30 : ℕ) : ℚ) := by norm_num
  unfold islamic_leap_year
  rw [e30, mod_intCast_natCast, decide_eq_true_eq]
  have : ((11 : ℚ)) = ((11 : ℤ) : ℚ) := by norm_num
  rw [this, Int.cast_lt]
  rfl

lemma fixed_from_islamic_eq (y m d : ℤ) :
    fixed_from_islamic y m d =
      d + 29 * (m - 1) + (6 * m - 1) / 11 + (y - 1) * 354 + (3 + 11 * y) / 30 + 227015 - 1 := by
  have e11 : (11.0 : ℚ) = ((11 : ℕ) : ℚ) := by norm_num
  have e30 : (30.0 : ℚ) = ((30 : ℕ) : ℚ) := by norm_num
  unfold fixed_from_islamic EPOCH_ISLAMIC
  simp only [e11, e30, floor_intCast_div_ofNat]
  have : (((d + 29 * (m - 1) : ℤ) : ℚ) + (((6 * m - 1) / ((11 : ℕ) : ℤ) : ℤ) : ℚ)
      + (((y - 1) * 354 : ℤ) : ℚ) + (((3 + 11 * y) / ((30 : ℕ) : ℤ) : ℤ) : ℚ)
      + ((227015 : ℤ) : ℚ) - 1)
      = ((d + 29 * (m - 1) + (6 * m - 1) / 11 + (y - 1) * 354 + (3 + 11 * y) / 30
        + 227015 - 1 : ℤ) : ℚ) := by
    push_cast
    ring
  rw [this, toInt_intCast]

lemma islamic_from_fixed_eq (date : ℤ) :
    islamic_from_fixed date =
      ((30 * (date - 227015) + 10646) / 10631,
        (11 * (date - fixed_from_islamic ((30 * (date - 227015) + 10646) / 10631) 1 1) + 330)
          / 325,
        date - fixed_from_islamic ((30 * (date - 227015) + 10646) / 10631)
          ((11 * (date - fixed_from_islamic ((30 * (date - 227015) + 10646) / 10631) 1 1)
            + 330) / 325) 1 + 1) := by
  have e1 : (10631.0 : ℚ) = ((10631 : ℕ) : ℚ) := by norm_num
  have e2 : (325.0 : ℚ) = ((325 : ℕ) : ℚ) := by norm_num
  unfold islamic_from_fixed EPOCH_ISLAMIC
  simp only [e1, e2, floor_intCast_div_ofNat, toInt_intCast]
  rfl

lemma last_day_of_islamic_month_eq (m y : ℤ) (hm1 : 1 ≤ m) (hm12 : m ≤ 12) :
    last_day_of_islamic_month m y =
      if m % 2 = 1 ∨ (m = 12 ∧ (14 + 11 * y) % 30 < 11) then 30 else 29 := by
  unfold last_day_of_islamic_month
  have ho : oddp m = true ↔ m % 2 = 1 := by
    unfold oddp
    interval_cases m <;> decide
  simp only [islamic_leap_year_iff, ho]

/-- C32. For every Islamic year `y`, month `m` in 1..12 and day `d` in
1..`last_day_of_islamic_month(m, y)`,
`islamic_from_fixed(fixed_from_islamic(y, m, d)) = (y, m, d)`; the first day of
each month follows the first day of the month before by
`last_day_of_islamic_month` days, also from month 12 to month 1 of the next
year; and month 12 has 30 days exactly in the years of `islamic_leap_year`. -/
theorem islamic_round_trip (y m d : ℤ) (hm1 : 1 ≤ m) (hm12 : m ≤ 12) (hd1 : 1 ≤ d)
    (hdl : d ≤ last_day_of_islamic_month m y) :
    islamic_from_fixed (fixed_from_islamic y m d) = (y, m, d) ∧
    (if m < 12 then fixed_from_islamic y (m + 1) 1 else fixed_from_islamic (y + 1) 1 1)
      = fixed_from_islamic y m 1 + last_day_of_islamic_month m y ∧
    (last_day_of_islamic_month 12 y = 30 ↔ islamic_leap_year y = true) ∧
    (last_day_of_islamic_month 12 y = 29 ↔ islamic_leap_year y = false) := by
  have h12 := last_day_of_islamic_month_eq 12 y (by norm_num) (by norm_num)
  have hl := islamic_leap_year_iff y
  rw [last_day_of_islamic_month_eq m y hm1 hm12] at hdl ⊢
  obtain ⟨q, r, hqr, hr0, hr30⟩ : ∃ q r : ℤ, 3 + 11 * y = 30 * q + r ∧ 0 ≤ r ∧ r < 30 :=
    ⟨(3 + 11 * y) / 30, (3 + 11 * y) % 30, by omega, by omega, by omega⟩
  have hq : (3 + 11 * y) / 30 = q := by omega
  have hq' : (3 + 11 * (y + 1)) / 30 = if r < 19 then q else q + 1 := by
    split_ifs <;> omega
  have hr' : (14 + 11 * y) % 30 = if r < 19 then r + 11 else r - 19 := by
    split_ifs <;> omega
  refine ⟨?_, ?_, ?_, ?_⟩
  · have hy : (30 * (fixed_from_islamic y m d - 227015) + 10646) / 10631 = y := by
      rw [fixed_from_islamic_eq]
      interval_cases m <;> norm_num at hdl ⊢ <;> omega
    rw [islamic_from_fixed_eq, hy]
    have hmm : (11 * (fixed_from_islamic y m d - fixed_from_islamic y 1 1) + 330) / 325 = m := by
      rw [fixed_from_islamic_eq, fixed_from_islamic_eq]
      interval_cases m <;> norm_num at hdl ⊢ <;> omega
    rw [hmm]
    have hdd : fixed_from_islamic y m d - fixed_from_islamic y m 1 + 1 = d := by
      rw [fixed_from_islamic_eq, fixed_from_islamic_eq]
      ring
    rw [hdd]
  · simp only [fixed_from_islamic_eq]
    interval_cases m <;> norm_num <;> omega
  · rw [h12, hl]
    norm_num
  · rw [h12, Bool.eq_false_iff, Ne, hl]
    norm_num

/-- C32, witness: 30 Dhu al-Hijja 1445, a leap year. -/
theorem islamic_round_trip_witness :
    islamic_from_fixed (fixed_from_islamic 1445 12 30) = (1445, 12, 30) ∧
    (if (12 : ℤ) < 12 then fixed_from_islamic 1445 (12 + 1) 1
      else fixed_from_islamic (1445 + 1) 1 1)
      = fixed_from_islamic 1445 12 1 + last_day_of_islamic_month 12 1445 ∧
    (last_day_of_islamic_month 12 1445 = 30 ↔ islamic_leap_year 1445 = true) ∧
    (last_day_of_islamic_month 12 1445 = 29 ↔ islamic_leap_year 1445 = false) :=
  islamic_round_trip 1445 12 30 (by decide) (by decide) (by decide) (by decide!)

/-! ### The two Julian day computations -/

/-- `jdate` in floor division, for a date of year at least 1; `Y` is the year
that starts in March. -/
lemma jdate_eq (y m d : ℤ) (hy : 1 ≤ y) (hm1 : 1 ≤ m) (hm12 : m ≤ 12) :
    jdate (y - 1900) (m - 1) d =
      d + ((if m > 2 then y else y - 1) / 100 * 146097) / 4 +
        (((if m > 2 then y else y - 1) - 100 * ((if m > 2 then y else y - 1) / 100)) * 1461) / 4 +
        ((if m > 2 then m - 3 else m + 9) * 153 + 2) / 5 + 1721119 := by
  unfold jdate
  simp only [sub_add_cancel]
  have key : ∀ Y M : ℤ, 0 ≤ Y → 0 ≤ M →
      d + Int.tdiv (Int.tdiv Y 100 * 146097) 4 + Int.tdiv ((Y - 100 * Int.tdiv Y 100) * 1461) 4 +
        Int.tdiv (M * 153 + 2) 5 + 1721119 =
      d + (Y / 100 * 146097) / 4 + ((Y - 100 * (Y / 100)) * 1461) / 4 + (M * 153 + 2) / 5 +
        1721119 := by
    intro Y M hY hM
    have hc : Int.tdiv Y 100 = Y / 100 := Int.tdiv_eq_ediv hY (by norm_num)
    rw [hc]
    have h1 : Int.tdiv (Y / 100 * 146097) 4 = (Y / 100 * 146097) / 4 :=
      Int.tdiv_eq_ediv (by omega) (by norm_num)
    have h2 : Int.tdiv ((Y - 100 * (Y / 100)) * 1461) 4 = ((Y - 100 * (Y / 100)) * 1461) / 4 :=
      Int.tdiv_eq_ediv (by omega) (by norm_num)
    have h3 : Int.tdiv (M * 153 + 2) 5 = (M * 153 + 2) / 5 :=
      Int.tdiv_eq_ediv (by omega) (by norm_num)
    rw [h1, h2, h3]
  by_cases h : m > 2
  · simp only [if_pos h]
    exact key y (m - 3) (by omega) (by omega)
  · simp only [if_neg h]
    exact key (y - 1) (m + 9) (by omega) (by omega)

/-- The digits of a year in centuries and years of the century, with the
quotients that `jdate` and `fixed_from_gregorian` take of it. -/
lemma year_digits (Y : ℤ) :
    ∃ c y' k s t u : ℤ, Y = 100 * c + y' ∧ 0 ≤ y' ∧ y' < 100 ∧ c = 4 * k + s ∧ 0 ≤ s ∧ s < 4 ∧
      y' = 4 * t + u ∧ 0 ≤ u ∧ u < 4 ∧
      Y / 100 = c ∧ Y / 4 = 25 * c + t ∧ Y / 400 = k ∧ Y % 4 = u ∧ Y % 400 = 100 * s + y' ∧
      (Y / 100 * 146097) / 4 = 36524 * c + k ∧
      ((Y - 100 * (Y / 100)) * 1461) / 4 = 365 * y' + t := by
  refine ⟨Y / 100, Y % 100, Y / 100 / 4, Y / 100 % 4, Y % 100 / 4, Y % 100 % 4,
    ?_, ?_, ?_, ?_, ?_, ?_, ?_, ?_, ?_, ?_, ?_, ?_, ?_, ?_, ?_, ?_⟩ <;> omega

/-- The quotients of `Y - 1` from the digits of `Y`. -/
lemma year_digits_pred (c y' k s t u : ℤ) (hy0 : 0 ≤ y') (hy99 : y' < 100)
    (hc : c = 4 * k + s) (hs0 : 0 ≤ s) (hs3 : s < 4) (ht : y' = 4 * t + u) (hu0 : 0 ≤ u)
    (hu3 : u < 4) :
    (100 * c + y' - 1) / 4 = (if u = 0 then 25 * c + t - 1 else 25 * c + t) ∧
    (100 * c + y' - 1) / 100 = (if y' = 0 then c - 1 else c) ∧
    (100 * c + y' - 1) / 400 = (if y' = 0 ∧ s = 0 then k - 1 else k) := by
  refine ⟨?_, ?_, ?_⟩ <;> split_ifs <;> omega

/-- `jdate` of a Gregorian date of year at least 1 is its fixed day plus
1721425. -/
lemma jdate_eq_fixed (y m d : ℤ) (hy : 1 ≤ y) (hm1 : 1 ≤ m) (hm12 : m ≤ 12) :
    jdate (y - 1900) (m - 1) d = fixed_from_gregorian y m d + 1721425 := by
  rw [jdate_eq y m d hy hm1 hm12, fixed_from_gregorian_eq]
  by_cases h : m > 2
  · simp only [if_pos h, if_neg (not_le.mpr h)]
    obtain ⟨c, y', k, s, t, u, hY, hy0, hy99, hc, hs0, hs3, ht, hu0, hu3, e1, -, -, e4, e400,
      e2, e3⟩ := year_digits y
    have e7 : gregorian_leap_year y = true ↔ (u = 0 ∧ ¬ (y' = 0 ∧ s ≠ 0)) := by
      rw [gregorian_leap_year_iff, e4, e400]
      clear e1 e2 e3 e4 e400 hY hc hy ht
      constructor
      · intro hh; constructor <;> omega
      · intro hh; constructor <;> omega
    obtain ⟨p4, p100, p400⟩ := year_digits_pred c y' k s t u hy0 hy99 hc hs0 hs3 ht hu0 hu3
    rw [← hY] at p4 p100 p400
    rw [e2, e3, p4, p100, p400]
    clear e1 e2 e3 e4 e400 p4 p100 p400 hc hy
    by_cases hL : gregorian_leap_year y = true
    · rw [if_pos hL]
      have := e7.mp hL
      clear e7 hL
      interval_cases m <;> norm_num <;> split_ifs <;> omega
    · rw [if_neg hL]
      have : ¬ (u = 0 ∧ ¬ (y' = 0 ∧ s ≠ 0)) := fun hh => hL (e7.mpr hh)
      clear e7 hL
      interval_cases m <;> norm_num <;> split_ifs <;> omega
  · have h2 : m ≤ 2 := by omega
    simp only [if_neg h, if_pos h2]
    obtain ⟨c, y', k, s, t, u, hY, hy0, hy99, hc, hs0, hs3, ht, hu0, hu3, e1, e4, e400, -, -,
      e2, e3⟩ := year_digits (y - 1)
    rw [e2, e3, e1, e4, e400]
    clear e1 e2 e3 e4 e400
    interval_cases m <;> norm_num <;> omega

lemma floor_div_cast (x c : ℚ) (a : ℤ) (b : ℕ) (hx : x = (a : ℚ)) (hc : c = (b : ℚ)) :
    ⌊x / c⌋ = a / (b : ℤ) := by
  rw [hx, hc, floor_intCast_div_ofNat]

lemma toInt_cast_eq (x : ℚ) (a : ℤ) (hx : x = (a : ℚ)) : toInt x = a := by
  rw [hx, toInt_intCast]

/-- `jyear` at half a day before an integer, in integer division. -/
lemma jyear_eq (J : ℤ) :
    jyear ((J : ℚ) - 0.5) =
      (let y := (4 * (J - 1721119) - 1) / 146097
       let d := ((J - 1721119) * 4 - (1 + 146097 * y)) / 4
       let j := (4 * d + 3) / 1461
       let d3 := (4 * d + 3 - 1461 * j + 4) / 4
       let m := (5 * d3 - 3) / 153
       let d5 := (5 * d3 - (3 + 153 * m) + 5) / 5
       if m < 10 then (100 * y + j, m + 3, d5) else (100 * y + j + 1, m - 9, d5)) := by
  unfold jyear
  have htd : (J : ℚ) - 0.5 + 0.5 = (J : ℚ) := by ring
  simp only [htd, Int.floor_intCast]
  have h1 : ⌊(4 * ((J : ℚ) - 1721119.0) - 1) / 146097.0⌋ = (4 * (J - 1721119) - 1) / 146097 :=
    floor_div_cast _ _ _ 146097 (by push_cast; norm_num) (by norm_num)
  rw [h1]
  generalize (4 * (J - 1721119) - 1) / 146097 = y
  have h2 : ⌊(((J : ℚ) - 1721119.0) * 4.0 - (1.0 + 146097.0 * (y : ℚ))) / 4.0⌋
      = ((J - 1721119) * 4 - (1 + 146097 * y)) / 4 :=
    floor_div_cast _ _ _ 4 (by push_cast; norm_num) (by norm_num)
  rw [h2]
  generalize ((J - 1721119) * 4 - (1 + 146097 * y)) / 4 = d
  have h3 : ⌊(4.0 * (d : ℚ) + 3.0) / 1461.0⌋ = (4 * d + 3) / 1461 :=
    floor_div_cast _ _ _ 1461 (by push_cast; norm_num) (by norm_num)
  rw [h3]
  generalize (4 * d + 3) / 1461 = j
  have h4 : ⌊(4.0 * (d : ℚ) + 3.0 - 1461.0 * (j : ℚ) + 4.0) / 4.0⌋
      = (4 * d + 3 - 1461 * j + 4) / 4 :=
    floor_div_cast _ _ _ 4 (by push_cast; norm_num) (by norm_num)
  rw [h4]
  generalize (4 * d + 3 - 1461 * j + 4) / 4 = d3
  have h5 : ⌊(5.0 * (d3 : ℚ) - 3) / 153.0⌋ = (5 * d3 - 3) / 153 :=
    floor_div_cast _ _ _ 153 (by push_cast; norm_num) (by norm_num)
  rw [h5]
  generalize (5 * d3 - 3) / 153 = m
  have h6 : ⌊(5.0 * (d3 : ℚ) - (3.0 + 153.0 * (m : ℚ)) + 5.0) / 5.0⌋
      = (5 * d3 - (3 + 153 * m) + 5) / 5 :=
    floor_div_cast _ _ _ 5 (by push_cast; norm_num) (by norm_num)
  rw [h6]
  generalize (5 * d3 - (3 + 153 * m) + 5) / 5 = d5
  have hlt : ((m : ℚ) < 10.0) ↔ m < 10 := by
    rw [show (10.0 : ℚ) = ((10 : ℤ) : ℚ) by norm_num, Int.cast_lt]
  by_cases hm : m < 10
  · rw [if_pos (hlt.mpr hm), if_pos hm, toInt_intCast]
    rw [toInt_cast_eq _ (100 * y + j) (by push_cast; norm_num),
      toInt_cast_eq _ (m + 3) (by push_cast; norm_num)]
  · rw [if_neg (fun h => hm (hlt.mp h)), if_neg hm, toInt_intCast]
    rw [toInt_cast_eq _ (100 * y + j + 1) (by push_cast; norm_num),
      toInt_cast_eq _ (m - 9) (by push_cast; norm_num)]

/-- The arithmetic of `jyear` undoes the arithmetic of `jdate`: `n` is the day
number counted from 1 March of year 0, `c` and `y'` the century and the year of
the century of the year that starts in March, `m'` the month counted from
March, `d` the day of the month. -/
lemma jyear_decode_core (n c k s y' t u d m' : ℤ)
    (hn : n = d + 36524 * c + k + 365 * y' + t + (m' * 153 + 2) / 5)
    (hy0 : 0 ≤ y') (hy99 : y' < 100) (hc : c = 4 * k + s) (hs0 : 0 ≤ s) (hs3 : s < 4)
    (ht : y' = 4 * t + u) (hu0 : 0 ≤ u) (hu3 : u < 4)
    (hm0 : 0 ≤ m') (hm11 : m' ≤ 11) (hd1 : 1 ≤ d)
    (hd : m' ≤ 10 → d + (m' * 153 + 2) / 5 ≤ ((m' + 1) * 153 + 2) / 5)
    (hfeb : m' = 11 → d ≤ 28 ∨ (d = 29 ∧ ((y' = 99 ∧ s = 3) ∨ (y' < 99 ∧ u = 3)))) :
    (4 * n - 1) / 146097 = c ∧
    (n * 4 - (1 + 146097 * c)) / 4 = d + 365 * y' + t + (m' * 153 + 2) / 5 - 1 ∧
    (4 * (d + 365 * y' + t + (m' * 153 + 2) / 5 - 1) + 3) / 1461 = y' ∧
    (4 * (d + 365 * y' + t + (m' * 153 + 2) / 5 - 1) + 3 - 1461 * y' + 4) / 4
      = d + (m' * 153 + 2) / 5 ∧
    (5 * (d + (m' * 153 + 2) / 5) - 3) / 153 = m' ∧
    (5 * (d + (m' * 153 + 2) / 5) - (3 + 153 * m') + 5) / 5 = d := by
  interval_cases m' <;> norm_num at hn hd hfeb ⊢ <;>
    refine ⟨by omega, by omega, by omega, by omega, by omega⟩

/-- From March to December, and in January, the day of the month fits between
the month offsets of `jdate`. -/
lemma jdate_month_bound (y m d : ℤ) (hm1 : 1 ≤ m) (hm12 : m ≤ 12) (hm : m ≠ 2)
    (hdl : d ≤ last_day_of_gregorian_month m y) :
    d + ((if m > 2 then m - 3 else m + 9) * 153 + 2) / 5
      ≤ (((if m > 2 then m - 3 else m + 9) + 1) * 153 + 2) / 5 := by
  unfold last_day_of_gregorian_month last_day_switch at hdl
  interval_cases m <;> norm_num at hdl hm ⊢ <;> omega

/-- In February the day is at most 28, or 29 in a leap year, told from the
digits of the year before. -/
lemma jdate_february_bound (y d c y' k s t u : ℤ) (hY : y - 1 = 100 * c + y')
    (hy0 : 0 ≤ y') (hy99 : y' < 100) (hc : c = 4 * k + s) (hs0 : 0 ≤ s) (hs3 : s < 4)
    (ht : y' = 4 * t + u) (hu0 : 0 ≤ u) (hu3 : u < 4)
    (hdl : d ≤ last_day_of_gregorian_month 2 y) :
    d ≤ 28 ∨ (d = 29 ∧ ((y' = 99 ∧ s = 3) ∨ (y' < 99 ∧ u = 3))) := by
  unfold last_day_of_gregorian_month last_day_switch at hdl
  by_cases hL : gregorian_leap_year y = true
  · have h4 := (gregorian_leap_year_iff y).mp hL
    have hLt : (gregorian_leap_year y = true) = True := eq_true hL
    simp only [hLt, and_true, if_true] at hdl
    have hu : u = 3 := by omega
    have hs : y' = 99 → s = 3 := by
      intro h99
      omega
    by_cases h99 : y' = 99
    · have := hs h99
      omega
    · omega
  · have hLf : (gregorian_leap_year y = true) = False := eq_false hL
    simp only [hLf, and_false, if_false] at hdl
    omega

/-- `jyear` recovers the date from `jdate`, for a valid date of year at least 1
from March to December. -/
lemma jyear_jdate_march (y m d : ℤ) (hy : 1 ≤ y) (hv : gregorian_valid y m d) (h : m > 2) :
    jyear (((jdate (y - 1900) (m - 1) d : ℤ) : ℚ) - 0.5) = (y, m, d) := by
  obtain ⟨hm1, hm12, hd1, hdl⟩ := hv
  rw [jyear_eq]
  simp only []
  have hJ := jdate_eq y m d hy hm1 hm12
  have hd := jdate_month_bound y m d hm1 hm12 (by omega) hdl
  obtain ⟨N, hN⟩ : ∃ N, N = jdate (y - 1900) (m - 1) d - 1721119 := ⟨_, rfl⟩
  rw [← hN]
  simp only [if_pos h] at hJ hd
  obtain ⟨c, y', k, s, t, u, hY, hy0, hy99, hc, hs0, hs3, ht, hu0, hu3, -, -, -, -, -,
    e2, e3⟩ := year_digits y
  rw [e2, e3] at hJ
  have hn : N = d + 36524 * c + k + 365 * y' + t + ((m - 3) * 153 + 2) / 5 := by omega
  obtain ⟨h1, h2, h3, h4, h5, h6⟩ := jyear_decode_core N c k s y' t u d (m - 3) hn hy0 hy99 hc
    hs0 hs3 ht hu0 hu3 (by omega) (by omega) hd1 (fun _ => hd) (fun hh => absurd hh (by omega))
  rw [h1, h2, h3, h4, h5, h6, if_pos (by omega), Prod.mk.injEq, Prod.mk.injEq]
  exact ⟨by omega, by omega, rfl⟩

/-- `jyear` recovers the date from `jdate`, for a valid date of year at least 1
in January or February. -/
lemma jyear_jdate_winter (y m d : ℤ) (hy : 1 ≤ y) (hv : gregorian_valid y m d) (h : m ≤ 2) :
    jyear (((jdate (y - 1900) (m - 1) d : ℤ) : ℚ) - 0.5) = (y, m, d) := by
  obtain ⟨hm1, hm12, hd1, hdl⟩ := hv
  rw [jyear_eq]
  simp only []
  have hJ := jdate_eq y m d hy hm1 hm12
  obtain ⟨N, hN⟩ : ∃ N, N = jdate (y - 1900) (m - 1) d - 1721119 := ⟨_, rfl⟩
  rw [← hN]
  have hng : ¬ m > 2 := by omega
  simp only [if_neg hng] at hJ
  obtain ⟨c, y', k, s, t, u, hY, hy0, hy99, hc, hs0, hs3, ht, hu0, hu3, -, -, -, -, -,
    e2, e3⟩ := year_digits (y - 1)
  rw [e2, e3] at hJ
  have hn : N = d + 36524 * c + k + 365 * y' + t + ((m + 9) * 153 + 2) / 5 := by omega
  have hd : m + 9 ≤ 10 → d + ((m + 9) * 153 + 2) / 5 ≤ ((m + 9 + 1) * 153 + 2) / 5 := by
    intro hh
    have := jdate_month_bound y m d hm1 hm12 (by omega) hdl
    simpa only [if_neg hng] using this
  have hfeb : m + 9 = 11 →
      d ≤ 28 ∨ (d = 29 ∧ ((y' = 99 ∧ s = 3) ∨ (y' < 99 ∧ u = 3))) := by
    intro hh
    have hm : m = 2 := by omega
    subst hm
    exact jdate_february_bound y d c y' k s t u hY hy0 hy99 hc hs0 hs3 ht hu0 hu3 hdl
  obtain ⟨h1, h2, h3, h4, h5, h6⟩ := jyear_decode_core N c k s y' t u d (m + 9) hn hy0 hy99 hc
    hs0 hs3 ht hu0 hu3 (by omega) (by omega) hd1 hd hfeb
  rw [h1, h2, h3, h4, h5, h6, if_neg (by omega), Prod.mk.injEq, Prod.mk.injEq]
  exact ⟨by omega, by omega, rfl⟩

/-- C40. The two Julian day computations agree: for every valid Gregorian date
with year at least 1, `jdate` of that date is
`fixed_from_gregorian(year, month, day) + 1721425`, so that `jdate - 0.5` is
`jd_from_fixed` of the fixed day, and `jyear(jdate - 0.5)` returns the same
year, month and day. -/
theorem jdate_agrees_with_fixed (y m d : ℤ) (hy : 1 ≤ y) (hm1 : 1 ≤ m) (hm12 : m ≤ 12)
    (hd1 : 1 ≤ d) (hdl : d ≤ last_day_of_gregorian_month m y) :
    jdate (y - 1900) (m - 1) d = fixed_from_gregorian y m d + 1721425 ∧
    ((jdate (y - 1900) (m - 1) d : ℤ) : ℚ) - 0.5 = jd_from_fixed (fixed_from_gregorian y m d) ∧
    jyear (((jdate (y - 1900) (m - 1) d : ℤ) : ℚ) - 0.5) = (y, m, d) := by
  refine ⟨jdate_eq_fixed y m d hy hm1 hm12, ?_, ?_⟩
  · rw [jdate_eq_fixed y m d hy hm1 hm12]
    unfold jd_from_fixed jd_from_moment EPOCH_JD
    push_cast
    ring
  · by_cases h : m > 2
    · exact jyear_jdate_march y m d hy ⟨hm1, hm12, hd1, hdl⟩ h
    · exact jyear_jdate_winter y m d hy ⟨hm1, hm12, hd1, hdl⟩ (by omega)

/-- C40, witness: 29 February 2024. -/
theorem jdate_agrees_with_fixed_witness :
    jdate (2024 - 1900) (2 - 1) 29 = fixed_from_gregorian 2024 2 29 + 1721425 ∧
    ((jdate (2024 - 1900) (2 - 1) 29 : ℤ) : ℚ) - 0.5
      = jd_from_fixed (fixed_from_gregorian 2024 2 29) ∧
    jyear (((jdate (2024 - 1900) (2 - 1) 29 : ℤ) : ℚ) - 0.5) = (2024, 2, 29) :=
  jdate_agrees_with_fixed 2024 2 29 (by decide) (by decide) (by decide) (by decide)
    (by decide!)

/-! ### Hebrew calendar -/

lemma hebrew_leap_year_iff (y : ℤ) :
    hebrew_leap_year y = true ↔ (1 + 7 * y) % 19 < 7 := by
  have e19 : (19 : ℚ) = ((19 : ℕ) : ℚ) := by norm_num
  unfold hebrew_leap_year
  rw [e19, mod_intCast_natCast, decide_eq_true_eq]
  have : ((7 : ℚ)) = ((7 : ℤ) : ℚ) := by norm_num
  rw [this, Int.cast_lt]
  rfl

/-- The elapsed days of the Hebrew calendar in integer division. -/
lemma hebrew_calendar_elapsed_days_eq (y : ℤ) :
    hebrew_calendar_elapsed_days y =
      if 3 * (29 * ((235 * y - 234) / 19)
          + (12084 + 13753 * ((235 * y - 234) / 19)) / 25920 + 1) % 7 < 3
      then 29 * ((235 * y - 234) / 19)
          + (12084 + 13753 * ((235 * y - 234) / 19)) / 25920 + 1
      else 29 * ((235 * y - 234) / 19)
          + (12084 + 13753 * ((235 * y - 234) / 19)) / 25920 := by
  have e19 : (19.0 : ℚ) = ((19 : ℕ) : ℚ) := by norm_num
  have e25920 : (25920.0 : ℚ) = ((25920 : ℕ) : ℚ) := by norm_num
  have e7 : (7 : ℚ) = ((7 : ℕ) : ℚ) := by norm_num
  have e3 : (3 : ℚ) = ((3 : ℤ) : ℚ) := by norm_num
  unfold hebrew_calendar_elapsed_days
  simp only [e19, e25920, floor_intCast_div_ofNat, toInt_intCast, ← Int.cast_add,
    e7, mod_intCast_natCast]
  simp only [e3, Int.cast_lt]
  rfl

/-- The elapsed days of the Hebrew calendar for a year from 1 on. -/
lemma hebrew_calendar_elapsed_days_natCast (y : ℕ) (hy : 1 ≤ y) :
    hebrew_calendar_elapsed_days (y : ℤ) = (hebrew_elapsed_days_nat y : ℤ) := by
  rw [hebrew_calendar_elapsed_days_eq]
  unfold hebrew_elapsed_days_nat
  simp only []
  have hm : (235 * (y : ℤ) - 234) / 19 = (((235 * y - 234) / 19 : ℕ) : ℤ) := by omega
  rw [hm]
  generalize (235 * y - 234) / 19 = m
  have hd : (12084 + 13753 * (m : ℤ)) / 25920 = (((12084 + 13753 * m) / 25920 : ℕ) : ℤ) := by
    omega
  rw [hd]
  generalize (12084 + 13753 * m) / 25920 = d
  have hc : 3 * (29 * (m : ℤ) + d + 1) % 7 = ((3 * (29 * m + d + 1) % 7 : ℕ) : ℤ) := by omega
  rw [hc]
  split_ifs <;> omega

/-- The year length correction of the Hebrew calendar for a year from 2 on. -/
lemma hebrew_year_length_correction_natCast (y : ℕ) (hy : 2 ≤ y) :
    hebrew_year_length_correction (y : ℤ) =
      (hebrew_correction_nat (hebrew_elapsed_days_nat (y - 1)) (hebrew_elapsed_days_nat y)
        (hebrew_elapsed_days_nat (y + 1)) : ℕ) := by
  have h0 : (y : ℤ) - 1 = ((y - 1 : ℕ) : ℤ) := by omega
  have h2 : (y : ℤ) + 1 = ((y + 1 : ℕ) : ℤ) := by omega
  unfold hebrew_year_length_correction
  rw [h0, h2, hebrew_calendar_elapsed_days_natCast _ (by omega),
    hebrew_calendar_elapsed_days_natCast _ (by omega),
    hebrew_calendar_elapsed_days_natCast _ (by omega)]
  unfold hebrew_correction_nat
  simp only []
  generalize hebrew_elapsed_days_nat (y - 1) = a
  generalize hebrew_elapsed_days_nat y = b
  generalize hebrew_elapsed_days_nat (y + 1) = c
  split_ifs <;> omega

/-- The Hebrew new year for a year from 2 on. -/
lemma hebrew_new_year_natCast (y : ℕ) (hy : 2 ≤ y) :
    hebrew_new_year (y : ℤ) = EPOCH_HEBREW +
      ((hebrew_elapsed_days_nat y
        + hebrew_correction_nat (hebrew_elapsed_days_nat (y - 1)) (hebrew_elapsed_days_nat y)
          (hebrew_elapsed_days_nat (y + 1)) : ℕ) : ℤ) := by
  unfold hebrew_new_year
  rw [hebrew_year_length_correction_natCast y hy,
    hebrew_calendar_elapsed_days_natCast y (by omega)]
  push_cast
  ring

/-- A year from 2 on that passes `hebrew_year_ok` has one of the six lengths,
by its leap status. -/
lemma hebrew_year_ok_sound (y : ℕ) (hy : 2 ≤ y) (h : hebrew_year_ok y = true) :
    (hebrew_leap_year (y : ℤ) = true ∧
        (days_in_hebrew_year (y : ℤ) = 383 ∨ days_in_hebrew_year (y : ℤ) = 384
          ∨ days_in_hebrew_year (y : ℤ) = 385)) ∨
      (hebrew_leap_year (y : ℤ) = false ∧
        (days_in_hebrew_year (y : ℤ) = 353 ∨ days_in_hebrew_year (y : ℤ) = 354
          ∨ days_in_hebrew_year (y : ℤ) = 355)) := by
  have h2 : (y : ℤ) + 1 = ((y + 1 : ℕ) : ℤ) := by omega
  have hd : days_in_hebrew_year (y : ℤ) =
      ((hebrew_elapsed_days_nat (y + 1)
        + hebrew_correction_nat (hebrew_elapsed_days_nat y) (hebrew_elapsed_days_nat (y + 1))
          (hebrew_elapsed_days_nat (y + 2)) : ℕ) : ℤ)
      - ((hebrew_elapsed_days_nat y
        + hebrew_correction_nat (hebrew_elapsed_days_nat (y - 1)) (hebrew_elapsed_days_nat y)
          (hebrew_elapsed_days_nat (y + 1)) : ℕ) : ℤ) := by
    unfold days_in_hebrew_year
    rw [h2, hebrew_new_year_natCast (y + 1) (by omega), hebrew_new_year_natCast y hy]
    simp only [Nat.add_sub_cancel]
    ring
  have hl : hebrew_leap_year (y : ℤ) = true ↔ (1 + 7 * y) % 19 < 7 := by
    rw [hebrew_leap_year_iff]
    have hc : (1 + 7 * (y : ℤ)) % 19 = (((1 + 7 * y) % 19 : ℕ) : ℤ) := by omega
    rw [hc]
    generalize (1 + 7 * y) % 19 = r
    omega
  rw [hd]
  unfold hebrew_year_ok at h
  simp only [] at h
  generalize hebrew_elapsed_days_nat (y + 1)
        + hebrew_correction_nat (hebrew_elapsed_days_nat y) (hebrew_elapsed_days_nat (y + 1))
          (hebrew_elapsed_days_nat (y + 2)) = b at h ⊢
  generalize hebrew_elapsed_days_nat y
        + hebrew_correction_nat (hebrew_elapsed_days_nat (y - 1)) (hebrew_elapsed_days_nat y)
          (hebrew_elapsed_days_nat (y + 1)) = a at h ⊢
  by_cases hL : (1 + 7 * y) % 19 < 7
  · rw [if_pos hL, decide_eq_true_eq] at h
    left
    exact ⟨hl.mpr hL, by omega⟩
  · rw [if_neg hL, decide_eq_true_eq] at h
    right
    refine ⟨?_, by omega⟩
    cases hb : hebrew_leap_year (y : ℤ)
    · rfl
    · exact absurd (hl.mp hb) hL

lemma hebrew_years_ok_sound :
    ∀ n : ℕ, hebrew_years_ok n = true → ∀ y : ℕ, 2 ≤ y → y ≤ n + 1 →
      hebrew_year_ok y = true := by
  intro n
  induction n with
  | zero =>
    intro _ y h2 h1
    omega
  | succ n ih =>
    intro h y h2 h1
    simp only [hebrew_years_ok, Bool.and_eq_true] at h
    by_cases hy : y = n + 2
    · rw [hy]
      exact h.1
    · exact ih h.2 y h2 (by omega)

set_option maxRecDepth 100000 in
lemma hebrew_years_ok_9999 : hebrew_years_ok 9999 = true := by decide!

lemma hebrew_year_one :
    hebrew_leap_year 1 = false ∧ days_in_hebrew_year 1 = 355 := by decide!

/-- The length of every Hebrew year from 1 to 10000 is one of six values, by
its leap status. -/
lemma hebrew_year_shape (y : ℤ) (h1 : 1 ≤ y) (h2 : y ≤ 10000) :
    (hebrew_leap_year y = true ∧
        (days_in_hebrew_year y = 383 ∨ days_in_hebrew_year y = 384
          ∨ days_in_hebrew_year y = 385)) ∨
      (hebrew_leap_year y = false ∧
        (days_in_hebrew_year y = 353 ∨ days_in_hebrew_year y = 354
          ∨ days_in_hebrew_year y = 355)) := by
  by_cases hy : y = 1
  · rw [hy]
    exact Or.inr ⟨hebrew_year_one.1, Or.inr (Or.inr hebrew_year_one.2)⟩
  · obtain ⟨n, hn⟩ : ∃ n : ℕ, y = (n : ℤ) := ⟨y.toNat, by omega⟩
    rw [hn]
    exact hebrew_year_ok_sound n (by omega)
      (hebrew_years_ok_sound 9999 hebrew_years_ok_9999 n (by omega) (by omega))

/-- In a Hebrew year of one of the six lengths the months sum to the year, and
the day after 29 Elul is the next new year. -/
lemma hebrew_month_sum (y : ℤ)
    (h : (hebrew_leap_year y = true ∧
        (days_in_hebrew_year y = 383 ∨ days_in_hebrew_year y = 384
          ∨ days_in_hebrew_year y = 385)) ∨
      (hebrew_leap_year y = false ∧
        (days_in_hebrew_year y = 353 ∨ days_in_hebrew_year y = 354
          ∨ days_in_hebrew_year y = 355))) :
    for_sum (fun i => last_day_of_hebrew_month i y) 1 (last_month_of_hebrew_year y).toNat
        = days_in_hebrew_year y ∧
      fixed_from_hebrew y 6 29 + 1 = hebrew_new_year (y + 1) := by
  have hny : hebrew_new_year (y + 1) = hebrew_new_year y + days_in_hebrew_year y := by
    unfold days_in_hebrew_year
    ring
  rw [hny]
  unfold fixed_from_hebrew last_month_of_hebrew_year
  rcases h with ⟨hl, hd | hd | hd⟩ | ⟨hl, hd | hd | hd⟩ <;>
    simp [for_sum, last_day_of_hebrew_month, long_marheshvan, short_kislev, hl, hd] <;>
    ring

/-- C33. For every Hebrew year `y` with `1 ≤ y ≤ 10000`,
`days_in_hebrew_year(y)` is one of 353, 354, 355 when `hebrew_leap_year(y)` is
false and one of 383, 384, 385 when it is true; the month lengths given by
`last_day_of_hebrew_month`, from month 1 to `last_month_of_hebrew_year(y)`, sum
to the year length; and `fixed_from_hebrew(y, 6, 29) + 1` is
`hebrew_new_year(y + 1)`. In this range the largest integer product of
`hebrew_calendar_elapsed_days`, reached for the year `y + 2`, stays below
`2 ^ 31`. -/
theorem hebrew_year_lengths (y : ℤ) (h1 : 1 ≤ y) (h2 : y ≤ 10000) :
    (hebrew_leap_year y = false →
      days_in_hebrew_year y = 353 ∨ days_in_hebrew_year y = 354
        ∨ days_in_hebrew_year y = 355) ∧
    (hebrew_leap_year y = true →
      days_in_hebrew_year y = 383 ∨ days_in_hebrew_year y = 384
        ∨ days_in_hebrew_year y = 385) ∧
    for_sum (fun i => last_day_of_hebrew_month i y) 1 (last_month_of_hebrew_year y).toNat
      = days_in_hebrew_year y ∧
    fixed_from_hebrew y 6 29 + 1 = hebrew_new_year (y + 1) ∧
    12084 + 13753 * ((235 * (y + 2) - 234) / 19) < 2 ^ 31 := by
  have hs := hebrew_year_shape y h1 h2
  refine ⟨?_, ?_, (hebrew_month_sum y hs).1, (hebrew_month_sum y hs).2, by omega⟩
  · intro hf
    rcases hs with ⟨hl, -⟩ | ⟨-, hd⟩
    · rw [hf] at hl
      exact absurd hl (by decide)
    · exact hd
  · intro ht
    rcases hs with ⟨-, hd⟩ | ⟨hl, -⟩
    · exact hd
    · rw [ht] at hl
      exact absurd hl (by decide)

/-- C33, witness: the Hebrew year 5784, a leap year of 383 days that begins on
16 September 2023. -/
theorem hebrew_year_lengths_witness :
    (hebrew_leap_year 5784 = false →
      days_in_hebrew_year 5784 = 353 ∨ days_in_hebrew_year 5784 = 354
        ∨ days_in_hebrew_year 5784 = 355) ∧
    (hebrew_leap_year 5784 = true →
      days_in_hebrew_year 5784 = 383 ∨ days_in_hebrew_year 5784 = 384
        ∨ days_in_hebrew_year 5784 = 385) ∧
    for_sum (fun i => last_day_of_hebrew_month i 5784) 1
        (last_month_of_hebrew_year 5784).toNat
      = days_in_hebrew_year 5784 ∧
    fixed_from_hebrew 5784 6 29 + 1 = hebrew_new_year (5784 + 1) ∧
    12084 + 13753 * ((235 * ((5784 : ℤ) + 2) - 234) / 19) < 2 ^ 31 :=
  hebrew_year_lengths 5784 (by decide) (by decide)

/-! ## Enclosures of the ephemerides

The theorems of this part hold for every library whose functions are within
`10⁻⁹` of the real functions (`LibmAccurate`). A sine at a rational argument is
enclosed by range reduction with bounds of pi and by a Taylor polynomial; the
side conditions are closed inequalities of rationals, gathered in Boolean
checks that are evaluated. -/

/-! ### From the real functions to enclosures over the rationals -/

set_option maxHeartbeats 4000000 in
/-- Library functions within `ε` of the real ones satisfy the enclosures of
`LibmEnclosed`. The proof has three parts. The Taylor polynomials of the sine and
the cosine are compared with the functions by the signs of the derivatives, one
degree after the other, which bounds the remainders on `[-1, 1]`. An argument is
reduced by a multiple of `pi / 2` with the bounds `PI_LO` and `PI_HI` of pi, and
the sine and the cosine vary no faster than their argument. The tangent is the
quotient of the enclosures of the sine and the cosine, the square root is
enclosed through squares, and the arc tangent through the tangent of the
bounds. -/
theorem libm_enclosed (L : Libm) (I : LibmInv) (ε : ℚ) (hε0 : 0 ≤ ε) (h : LibmAccurate L I ε) :
    LibmEnclosed L I ε := by
  -- Taylor bounds of the sine and the cosine, by comparison of derivatives
  have nonneg_of_deriv_nonneg (f f' : ℝ → ℝ) (hf : ∀ x, HasDerivAt f (f' x) x) (h0 : f 0 = 0)
      (hpos : ∀ x, 0 ≤ x → 0 ≤ f' x) : ∀ x, 0 ≤ x → 0 ≤ f x := by
    intro x hx
    have hmono : MonotoneOn f (Set.Ici 0) := by
      apply monotoneOn_of_deriv_nonneg (convex_Ici 0)
      · exact (continuous_iff_continuousAt.mpr fun x => (hf x).continuousAt).continuousOn
      · exact fun x _ => (hf x).differentiableAt.differentiableWithinAt
      · intro x hx
        rw [interior_Ici] at hx
        rw [(hf x).deriv]
        exact hpos x (le_of_lt hx)
    have := hmono (Set.mem_Ici.mpr le_rfl) (Set.mem_Ici.mpr hx) hx
    rwa [h0] at this
  have hasDerivAt_pow_div (n : ℕ) (c : ℝ) (x : ℝ) :
      HasDerivAt (fun x : ℝ => x ^ (n + 1) / c) ((n + 1 : ℕ) * x ^ n / c) x := by
    have := (hasDerivAt_pow (n + 1) x).div_const c
    simpa using this
  have cos_ge_2 (x : ℝ) (_ : 0 ≤ x) : 1 - x ^ 2 / 2 ≤ Real.cos x :=
    Real.one_sub_sq_div_two_le_cos
  have sin_ge_3 (x : ℝ) (hx : 0 ≤ x) : x - x ^ 3 / 6 ≤ Real.sin x := by
    have h := nonneg_of_deriv_nonneg (fun x => Real.sin x - (x - x ^ 3 / 6))
      (fun x => Real.cos x - (1 - x ^ 2 / 2))
      (fun x => by
        have := (Real.hasDerivAt_sin x).sub ((hasDerivAt_id x).sub (hasDerivAt_pow_div 2 6 x))
        convert this using 1
        simp only [id]
        push_cast
        ring)
      (by simp)
      (fun x hx => by linarith [cos_ge_2 x hx]) x hx
    linarith
  have cos_le_4 (x : ℝ) (hx : 0 ≤ x) : Real.cos x ≤ 1 - x ^ 2 / 2 + x ^ 4 / 24 := by
    have h := nonneg_of_deriv_nonneg (fun x => (1 - x ^ 2 / 2 + x ^ 4 / 24) - Real.cos x)
      (fun x => Real.sin x - (x - x ^ 3 / 6))
      (fun x => by
        have := (((hasDerivAt_const x (1:ℝ)).sub (hasDerivAt_pow_div 1 2 x)).add (hasDerivAt_pow_div 3 24 x)).sub (Real.hasDerivAt_cos x)
        convert this using 1
        simp only [id]
        push_cast
        ring)
      (by simp)
      (fun x hx => by linarith [sin_ge_3 x hx]) x hx
    linarith
  have sin_le_5 (x : ℝ) (hx : 0 ≤ x) : Real.sin x ≤ x - x ^ 3 / 6 + x ^ 5 / 120 := by
    have h := nonneg_of_deriv_nonneg (fun x => (x - x ^ 3 / 6 + x ^ 5 / 120) - Real.sin x)
      (fun x => (1 - x ^ 2 / 2 + x ^ 4 / 24) - Real.cos x)
      (fun x => by
        have := (((hasDerivAt_id x).sub (hasDerivAt_pow_div 2 6 x)).add (hasDerivAt_pow_div 4 120 x)).sub (Real.hasDerivAt_sin x)
        convert this using 1
        simp only [id]
        push_cast
        ring)
      (by simp)
      (fun x hx => by linarith [cos_le_4 x hx]) x hx
    linarith
  have cos_ge_6 (x : ℝ) (hx : 0 ≤ x) : 1 - x ^ 2 / 2 + x ^ 4 / 24 - x ^ 6 / 720 ≤ Real.cos x := by
    have h := nonneg_of_deriv_nonneg (fun x => Real.cos x - (1 - x ^ 2 / 2 + x ^ 4 / 24 - x ^ 6 / 720))
      (fun x => (x - x ^ 3 / 6 + x ^ 5 / 120) - Real.sin x)
      (fun x => by
        have := (Real.hasDerivAt_cos x).sub ((((hasDerivAt_const x (1:ℝ)).sub (hasDerivAt_pow_div 1 2 x)).add (hasDerivAt_pow_div 3 24 x)).sub (hasDerivAt_pow_div 5 720 x))
        convert this using 1
        simp only [id]
        push_cast
        ring)
      (by simp)
      (fun x hx => by linarith [sin_le_5 x hx]) x hx
    linarith
  have sin_ge_7 (x : ℝ) (hx : 0 ≤ x) : x - x ^ 3 / 6 + x ^ 5 / 120 - x ^ 7 / 5040 ≤ Real.sin x := by
    have h := nonneg_of_deriv_nonneg (fun x => Real.sin x - (x - x ^ 3 / 6 + x ^ 5 / 120 - x ^ 7 / 5040))
      (fun x => Real.cos x - (1 - x ^ 2 / 2 + x ^ 4 / 24 - x ^ 6 / 720))
      (fun x => by
        have := (Real.hasDerivAt_sin x).sub ((((hasDerivAt_id x).sub (hasDerivAt_pow_div 2 6 x)).add (hasDerivAt_pow_div 4 120 x)).sub (hasDerivAt_pow_div 6 5040 x))
        convert this using 1
        simp only [id]
        push_cast
        ring)
      (by simp)
      (fun x hx => by linarith [cos_ge_6 x hx]) x hx
    linarith
  have cos_le_8 (x : ℝ) (hx : 0 ≤ x) : Real.cos x ≤ 1 - x ^ 2 / 2 + x ^ 4 / 24 - x ^ 6 / 720 + x ^ 8 / 40320 := by
    have h := nonneg_of_deriv_nonneg (fun x => (1 - x ^ 2 / 2 + x ^ 4 / 24 - x ^ 6 / 720 + x ^ 8 / 40320) - Real.cos x)
      (fun x => Real.sin x - (x - x ^ 3 / 6 + x ^ 5 / 120 - x ^ 7 / 5040))
      (fun x => by
        have := (((((hasDerivAt_const x (1:ℝ)).sub (hasDerivAt_pow_div 1 2 x)).add (hasDerivAt_pow_div 3 24 x)).sub (hasDerivAt_pow_div 5 720 x)).add (hasDerivAt_pow_div 7 40320 x)).sub (Real.hasDerivAt_cos x)
        convert this using 1
        simp only [id]
        push_cast
        ring)
      (by simp)
      (fun x hx => by linarith [sin_ge_7 x hx]) x hx
    linarith
  have sin_le_9 (x : ℝ) (hx : 0 ≤ x) : Real.sin x ≤ x - x ^ 3 / 6 + x ^ 5 / 120 - x ^ 7 / 5040 + x ^ 9 / 362880 := by
    have h := nonneg_of_deriv_nonneg (fun x => (x - x ^ 3 / 6 + x ^ 5 / 120 - x ^ 7 / 5040 + x ^ 9 / 362880) - Real.sin x)
      (fun x => (1 - x ^ 2 / 2 + x ^ 4 / 24 - x ^ 6 / 720 + x ^ 8 / 40320) - Real.cos x)
      (fun x => by
        have := (((((hasDerivAt_id x).sub (hasDerivAt_pow_div 2 6 x)).add (hasDerivAt_pow_div 4 120 x)).sub (hasDerivAt_pow_div 6 5040 x)).add (hasDerivAt_pow_div 8 362880 x)).sub (Real.hasDerivAt_sin x)
        convert this using 1
        simp only [id]
        push_cast
        ring)
      (by simp)
      (fun x hx => by linarith [cos_le_8 x hx]) x hx
    linarith
  have cos_ge_10 (x : ℝ) (hx : 0 ≤ x) : 1 - x ^ 2 / 2 + x ^ 4 / 24 - x ^ 6 / 720 + x ^ 8 / 40320 - x ^ 10 / 3628800 ≤ Real.cos x := by
    have h := nonneg_of_deriv_nonneg (fun x => Real.cos x - (1 - x ^ 2 / 2 + x ^ 4 / 24 - x ^ 6 / 720 + x ^ 8 / 40320 - x ^ 10 / 3628800))
      (fun x => (x - x ^ 3 / 6 + x ^ 5 / 120 - x ^ 7 / 5040 + x ^ 9 / 362880) - Real.sin x)
      (fun x => by
        have := (Real.hasDerivAt_cos x).sub ((((((hasDerivAt_const x (1:ℝ)).sub (hasDerivAt_pow_div 1 2 x)).add (hasDerivAt_pow_div 3 24 x)).sub (hasDerivAt_pow_div 5 720 x)).add (hasDerivAt_pow_div 7 40320 x)).sub (hasDerivAt_pow_div 9 3628800 x))
        convert this using 1
        simp only [id]
        push_cast
        ring)
      (by simp)
      (fun x hx => by linarith [sin_le_9 x hx]) x hx
    linarith
  have sin_ge_11 (x : ℝ) (hx : 0 ≤ x) : x - x ^ 3 / 6 + x ^ 5 / 120 - x ^ 7 / 5040 + x ^ 9 / 362880 - x ^ 11 / 39916800 ≤ Real.sin x := by
    have h := nonneg_of_deriv_nonneg (fun x => Real.sin x - (x - x ^ 3 / 6 + x ^ 5 / 120 - x ^ 7 / 5040 + x ^ 9 / 362880 - x ^ 11 / 39916800))
      (fun x => Real.cos x - (1 - x ^ 2 / 2 + x ^ 4 / 24 - x ^ 6 / 720 + x ^ 8 / 40320 - x ^ 10 / 3628800))
      (fun x => by
        have := (Real.hasDerivAt_sin x).sub ((((((hasDerivAt_id x).sub (hasDerivAt_pow_div 2 6 x)).add (hasDerivAt_pow_div 4 120 x)).sub (hasDerivAt_pow_div 6 5040 x)).add (hasDerivAt_pow_div 8 362880 x)).sub (hasDerivAt_pow_div 10 39916800 x))
        convert this using 1
        simp only [id]
        push_cast
        ring)
      (by simp)
      (fun x hx => by linarith [cos_ge_10 x hx]) x hx
    linarith
  -- Enclosures of the sine and the cosine at rational arguments
  have abs_sin_sub_sinP (x : ℝ) (hx : |x| ≤ 1) :
      |Real.sin x - (x - x ^ 3 / 6 + x ^ 5 / 120 - x ^ 7 / 5040 + x ^ 9 / 362880)|
        ≤ 1 / 39916800 := by
    have key : ∀ y : ℝ, 0 ≤ y → y ≤ 1 →
        |Real.sin y - (y - y ^ 3 / 6 + y ^ 5 / 120 - y ^ 7 / 5040 + y ^ 9 / 362880)|
          ≤ 1 / 39916800 := by
      intro y h0 h1
      have hu := sin_le_9 y h0
      have hl := sin_ge_11 y h0
      have hp : y ^ 11 ≤ 1 := pow_le_one₀ h0 h1
      rw [abs_le]
      constructor <;> linarith
    rcases le_total 0 x with h | h
    · exact key x h (by rwa [abs_of_nonneg h] at hx)
    · have := key (-x) (by linarith) (by rwa [abs_of_nonpos h] at hx)
      rw [Real.sin_neg] at this
      have e : -Real.sin x - (-x - (-x) ^ 3 / 6 + (-x) ^ 5 / 120 - (-x) ^ 7 / 5040
          + (-x) ^ 9 / 362880)
          = -(Real.sin x - (x - x ^ 3 / 6 + x ^ 5 / 120 - x ^ 7 / 5040 + x ^ 9 / 362880)) := by
        ring
      rwa [e, abs_neg] at this
  have abs_cos_sub_cosP (x : ℝ) (hx : |x| ≤ 1) :
      |Real.cos x - (1 - x ^ 2 / 2 + x ^ 4 / 24 - x ^ 6 / 720 + x ^ 8 / 40320)|
        ≤ 1 / 3628800 := by
    have key : ∀ y : ℝ, 0 ≤ y → y ≤ 1 →
        |Real.cos y - (1 - y ^ 2 / 2 + y ^ 4 / 24 - y ^ 6 / 720 + y ^ 8 / 40320)|
          ≤ 1 / 3628800 := by
      intro y h0 h1
      have hu := cos_le_8 y h0
      have hl := cos_ge_10 y h0
      have hp : y ^ 10 ≤ 1 := pow_le_one₀ h0 h1
      rw [abs_le]
      constructor <;> linarith
    rcases le_total 0 x with h | h
    · exact key x h (by rwa [abs_of_nonneg h] at hx)
    · have := key (-x) (by linarith) (by rwa [abs_of_nonpos h] at hx)
      rw [Real.cos_neg] at this
      have e : (1 - (-x) ^ 2 / 2 + (-x) ^ 4 / 24 - (-x) ^ 6 / 720 + (-x) ^ 8 / 40320)
          = (1 - x ^ 2 / 2 + x ^ 4 / 24 - x ^ 6 / 720 + x ^ 8 / 40320) := by
        ring
      rwa [e] at this
  have abs_sin_sub_sin_le (x y : ℝ) : |Real.sin x - Real.sin y| ≤ |x - y| := by
    rw [Real.sin_sub_sin, abs_mul, abs_mul]
    have h1 := Real.abs_sin_le_abs (x := (x - y) / 2)
    have h2 := Real.abs_cos_le_one ((x + y) / 2)
    have h3 : |(x - y) / 2| = |x - y| / 2 := by rw [abs_div]; norm_num
    have h4 : |(2 : ℝ)| = 2 := by norm_num
    rw [h3] at h1
    rw [h4]
    have h5 : 0 ≤ |Real.sin ((x - y) / 2)| := abs_nonneg _
    nlinarith [abs_nonneg (Real.cos ((x + y) / 2)), abs_nonneg (x - y)]
  have abs_cos_sub_cos_le (x y : ℝ) : |Real.cos x - Real.cos y| ≤ |x - y| := by
    rw [Real.cos_sub_cos, abs_mul, abs_mul, abs_neg]
    have h1 := Real.abs_sin_le_abs (x := (x - y) / 2)
    have h2 := Real.abs_sin_le_one ((x + y) / 2)
    have h3 : |(x - y) / 2| = |x - y| / 2 := by rw [abs_div]; norm_num
    have h4 : |(2 : ℝ)| = 2 := by norm_num
    rw [h3] at h1
    rw [h4]
    have h5 : 0 ≤ |Real.sin ((x - y) / 2)| := abs_nonneg _
    nlinarith [abs_nonneg (Real.sin ((x + y) / 2)), abs_nonneg (x - y)]
  have sin_add_int_mul_pi_div_two (y : ℝ) (k : ℤ) :
      Real.sin (y + k * (Real.pi / 2)) =
        if k % 4 = 0 then Real.sin y else if k % 4 = 1 then Real.cos y
        else if k % 4 = 2 then -Real.sin y else -Real.cos y := by
    obtain ⟨q, j, hk, hj0, hj4⟩ : ∃ q j : ℤ, k = 4 * q + j ∧ 0 ≤ j ∧ j < 4 :=
      ⟨k / 4, k % 4, by omega, by omega, by omega⟩
    have hmod : k % 4 = j := by omega
    have e : y + (k : ℝ) * (Real.pi / 2) = (y + (j : ℝ) * (Real.pi / 2)) + q * (2 * Real.pi) := by
      rw [hk]
      push_cast
      ring
    rw [e, Real.sin_add_int_mul_two_pi, hmod]
    interval_cases j
    · simp
    · simp [Real.sin_add_pi_div_two]
    · have : y + ((2 : ℤ) : ℝ) * (Real.pi / 2) = y + Real.pi := by push_cast; ring
      rw [this, Real.sin_add_pi]
      simp
    · have : y + ((3 : ℤ) : ℝ) * (Real.pi / 2) = (y + Real.pi) + Real.pi / 2 := by
        push_cast; ring
      rw [this, Real.sin_add_pi_div_two, Real.cos_add_pi]
      simp
  have cast_trig_ref (k : ℤ) (y : ℚ) :
      ((trig_ref k y : ℚ) : ℝ) =
        if k % 4 = 0 then ((y : ℝ) - (y : ℝ) ^ 3 / 6 + (y : ℝ) ^ 5 / 120 - (y : ℝ) ^ 7 / 5040
          + (y : ℝ) ^ 9 / 362880)
        else if k % 4 = 1 then
          (1 - (y : ℝ) ^ 2 / 2 + (y : ℝ) ^ 4 / 24 - (y : ℝ) ^ 6 / 720 + (y : ℝ) ^ 8 / 40320)
        else if k % 4 = 2 then -((y : ℝ) - (y : ℝ) ^ 3 / 6 + (y : ℝ) ^ 5 / 120
          - (y : ℝ) ^ 7 / 5040 + (y : ℝ) ^ 9 / 362880)
        else -(1 - (y : ℝ) ^ 2 / 2 + (y : ℝ) ^ 4 / 24 - (y : ℝ) ^ 6 / 720
          + (y : ℝ) ^ 8 / 40320) := by
    unfold trig_ref sinP cosP
    split_ifs <;> push_cast <;> ring
  -- The sine of a real number `x` with `x - k * pi / 2` between `a` and `b`.
  have sin_encl (x : ℝ) (k : ℤ) (a b : ℚ) (ha : (a : ℝ) ≤ x - k * (Real.pi / 2))
      (hb : x - k * (Real.pi / 2) ≤ (b : ℝ)) (h1 : -1 ≤ a) (h2 : b ≤ 1) :
      |Real.sin x - ((trig_ref k ((a + b) / 2) : ℚ) : ℝ)| ≤ ((b - a) / 2 + 1 / 3628800 : ℚ) := by
    have h1' : (-1 : ℝ) ≤ (a : ℝ) := by exact_mod_cast h1
    have h2' : (b : ℝ) ≤ 1 := by exact_mod_cast h2
    obtain ⟨y, hy⟩ : ∃ y : ℝ, y = x - k * (Real.pi / 2) := ⟨_, rfl⟩
    obtain ⟨m, hm⟩ : ∃ m : ℝ, m = (((a + b) / 2 : ℚ) : ℝ) := ⟨_, rfl⟩
    have hm' : m = ((a : ℝ) + b) / 2 := by rw [hm]; push_cast; ring
    rw [← hy] at ha hb
    have hx : x = y + k * (Real.pi / 2) := by rw [hy]; ring
    have hym : |y - m| ≤ ((b : ℝ) - a) / 2 := by
      rw [abs_le, hm']
      constructor <;> linarith
    have hmabs : |m| ≤ 1 := by
      rw [abs_le, hm']
      constructor <;> linarith
    have hs : |Real.sin y - Real.sin m| ≤ ((b : ℝ) - a) / 2 :=
      le_trans (abs_sin_sub_sin_le y m) hym
    have hc : |Real.cos y - Real.cos m| ≤ ((b : ℝ) - a) / 2 :=
      le_trans (abs_cos_sub_cos_le y m) hym
    have hS := abs_sin_sub_sinP m hmabs
    have hC := abs_cos_sub_cosP m hmabs
    rw [hx, sin_add_int_mul_pi_div_two, cast_trig_ref, ← hm]
    push_cast
    rw [abs_le] at hs hc hS hC ⊢
    split_ifs <;> constructor <;> linarith [hs.1, hs.2, hc.1, hc.2, hS.1, hS.2, hC.1, hC.2]
  have pi_bounds : ((PI_LO : ℚ) : ℝ) < Real.pi ∧ Real.pi < ((PI_HI : ℚ) : ℝ) := by
    unfold PI_LO PI_HI
    constructor
    · have := Real.pi_gt_d20
      norm_num at this ⊢
      linarith
    · have := Real.pi_lt_d20
      norm_num at this ⊢
      linarith
  -- With `pi` between its two bounds, `r - k * pi / 2` lies between the values
  -- for the bounds.
  have reduce_bounds (r : ℚ) (k : ℤ) (a b : ℚ)
      (h1 : a ≤ r - k * (PI_LO / 2)) (h2 : a ≤ r - k * (PI_HI / 2))
      (h3 : r - k * (PI_LO / 2) ≤ b) (h4 : r - k * (PI_HI / 2) ≤ b) :
      (a : ℝ) ≤ (r : ℝ) - k * (Real.pi / 2) ∧ (r : ℝ) - k * (Real.pi / 2) ≤ (b : ℝ) := by
    have h1' : (a : ℝ) ≤ (r : ℝ) - k * ((PI_LO : ℚ) / 2) := by exact_mod_cast h1
    have h2' : (a : ℝ) ≤ (r : ℝ) - k * ((PI_HI : ℚ) / 2) := by exact_mod_cast h2
    have h3' : (r : ℝ) - k * ((PI_LO : ℚ) / 2) ≤ (b : ℝ) := by exact_mod_cast h3
    have h4' : (r : ℝ) - k * ((PI_HI : ℚ) / 2) ≤ (b : ℝ) := by exact_mod_cast h4
    obtain ⟨hp1, hp2⟩ := pi_bounds
    rcases le_total 0 (k : ℝ) with hk | hk
    · constructor
      · have : (k : ℝ) * (Real.pi / 2) ≤ k * ((PI_HI : ℚ) / 2) :=
          mul_le_mul_of_nonneg_left (by linarith) hk
        linarith
      · have : (k : ℝ) * ((PI_LO : ℚ) / 2) ≤ k * (Real.pi / 2) :=
          mul_le_mul_of_nonneg_left (by linarith) hk
        linarith
    · constructor
      · have : (k : ℝ) * (Real.pi / 2) ≤ k * ((PI_LO : ℚ) / 2) :=
          mul_le_mul_of_nonpos_left (by linarith) hk
        linarith
      · have : (k : ℝ) * ((PI_HI : ℚ) / 2) ≤ k * (Real.pi / 2) :=
          mul_le_mul_of_nonpos_left (by linarith) hk
        linarith
  -- Bounds of the library sine and cosine
  have libm_sin_abs_le (L : Libm) (ε : ℚ)
      (hs : ∀ x : ℚ, |((L.sin x : ℚ) : ℝ) - Real.sin (x : ℝ)| ≤ (ε : ℝ)) (x : ℚ) :
      |L.sin x| ≤ 1 + ε := by
    have h1 := hs x
    have h2 := Real.abs_sin_le_one (x : ℝ)
    rw [abs_le] at h1 h2
    have : |((L.sin x : ℚ) : ℝ)| ≤ ((1 + ε : ℚ) : ℝ) := by
      rw [abs_le]
      push_cast
      constructor <;> linarith [h1.1, h1.2, h2.1, h2.2]
    exact_mod_cast this
  have libm_cos_abs_le (L : Libm) (ε : ℚ)
      (hc : ∀ x : ℚ, |((L.cos x : ℚ) : ℝ) - Real.cos (x : ℝ)| ≤ (ε : ℝ)) (x : ℚ) :
      |L.cos x| ≤ 1 + ε := by
    have h1 := hc x
    have h2 := Real.abs_cos_le_one (x : ℝ)
    rw [abs_le] at h1 h2
    have : |((L.cos x : ℚ) : ℝ)| ≤ ((1 + ε : ℚ) : ℝ) := by
      rw [abs_le]
      push_cast
      constructor <;> linarith [h1.1, h1.2, h2.1, h2.2]
    exact_mod_cast this
  have reduce_ok_real (x : ℝ) (k : ℤ) (r1 r2 a b : ℚ)
      (hb : ((r1 : ℝ) ≤ x ∧ x ≤ (r2 : ℝ)) ∨ ((r2 : ℝ) ≤ x ∧ x ≤ (r1 : ℝ)))
      (hok : reduce_ok k r1 r2 a b = true) :
      (a : ℝ) ≤ x - k * (Real.pi / 2) ∧ x - k * (Real.pi / 2) ≤ (b : ℝ) ∧ -1 ≤ a ∧ b ≤ 1 := by
    simp only [reduce_ok, Bool.and_eq_true, decide_eq_true_eq] at hok
    obtain ⟨⟨⟨⟨⟨⟨⟨⟨⟨h1, h2⟩, h3⟩, h4⟩, h5⟩, h6⟩, h7⟩, h8⟩, h9⟩, h10⟩ := hok
    obtain ⟨ha1, hb1⟩ := reduce_bounds r1 k a b h1 h2 h3 h4
    obtain ⟨ha2, hb2⟩ := reduce_bounds r2 k a b h5 h6 h7 h8
    refine ⟨?_, ?_, h9, h10⟩
    · rcases hb with ⟨hx1, _⟩ | ⟨hx1, _⟩ <;> linarith
    · rcases hb with ⟨_, hx2⟩ | ⟨_, hx2⟩ <;> linarith
  -- The sine and the cosine of a real number between `r1` and `r2`.
  have trig_encl_real (x : ℝ) (k : ℤ) (r1 r2 a b : ℚ)
      (hb : ((r1 : ℝ) ≤ x ∧ x ≤ (r2 : ℝ)) ∨ ((r2 : ℝ) ≤ x ∧ x ≤ (r1 : ℝ)))
      (hok : reduce_ok k r1 r2 a b = true) :
      |Real.sin x - ((trig_ref k ((a + b) / 2) : ℚ) : ℝ)| ≤ ((b - a) / 2 + 1 / 3628800 : ℚ) ∧
      |Real.cos x - ((trig_ref (k + 1) ((a + b) / 2) : ℚ) : ℝ)|
        ≤ ((b - a) / 2 + 1 / 3628800 : ℚ) := by
    obtain ⟨ha, hb', h1, h2⟩ := reduce_ok_real x k r1 r2 a b hb hok
    refine ⟨sin_encl x k a b ha hb' h1 h2, ?_⟩
    have ha' : (a : ℝ) ≤ (x + Real.pi / 2) - ((k + 1 : ℤ) : ℝ) * (Real.pi / 2) := by
      push_cast
      linarith
    have hb'' : (x + Real.pi / 2) - ((k + 1 : ℤ) : ℝ) * (Real.pi / 2) ≤ (b : ℝ) := by
      push_cast
      linarith
    have he := sin_encl (x + Real.pi / 2) (k + 1) a b ha' hb'' h1 h2
    rwa [Real.sin_add_pi_div_two] at he
  have between_cast (r r1 r2 : ℚ) (hb : (r1 ≤ r ∧ r ≤ r2) ∨ (r2 ≤ r ∧ r ≤ r1)) :
      ((r1 : ℝ) ≤ (r : ℝ) ∧ (r : ℝ) ≤ (r2 : ℝ)) ∨ ((r2 : ℝ) ≤ (r : ℝ) ∧ (r : ℝ) ≤ (r1 : ℝ)) := by
    rcases hb with ⟨h1, h2⟩ | ⟨h1, h2⟩
    · left
      exact ⟨by exact_mod_cast h1, by exact_mod_cast h2⟩
    · right
      exact ⟨by exact_mod_cast h1, by exact_mod_cast h2⟩
  -- A rational `f` within `ε` of a real `s` that is within `ρ` of `T`.
  have near_of_real (f : ℚ) (s : ℝ) (ε T ρ v η : ℚ) (h1 : |(f : ℝ) - s| ≤ (ε : ℝ))
      (h2 : |s - (T : ℝ)| ≤ (ρ : ℝ)) (hlo : v - η ≤ T - (ρ + ε)) (hhi : T + (ρ + ε) ≤ v + η) :
      |f - v| ≤ η := by
    have hlo' : ((v - η : ℚ) : ℝ) ≤ ((T - (ρ + ε) : ℚ) : ℝ) := by exact_mod_cast hlo
    have hhi' : ((T + (ρ + ε) : ℚ) : ℝ) ≤ ((v + η : ℚ) : ℝ) := by exact_mod_cast hhi
    push_cast at hlo' hhi'
    rw [abs_le] at h1 h2
    have : |((f - v : ℚ) : ℝ)| ≤ ((η : ℚ) : ℝ) := by
      rw [abs_le]
      push_cast
      constructor <;> linarith [h1.1, h1.2, h2.1, h2.2]
    exact_mod_cast this
  -- The library sine at an argument between `r1` and `r2`.
  have libm_sin_of_ok (L : Libm) (ε : ℚ)
      (hs : ∀ x : ℚ, |((L.sin x : ℚ) : ℝ) - Real.sin (x : ℝ)| ≤ (ε : ℝ))
      (r r1 r2 : ℚ) (hb : (r1 ≤ r ∧ r ≤ r2) ∨ (r2 ≤ r ∧ r ≤ r1)) (k : ℤ) (a b v η : ℚ)
      (hok : trig_ok ε k k r1 r2 a b v η = true) : |L.sin r - v| ≤ η := by
    simp only [trig_ok, Bool.and_eq_true, decide_eq_true_eq] at hok
    obtain ⟨⟨hr, hlo⟩, hhi⟩ := hok
    have he := (trig_encl_real (r : ℝ) k r1 r2 a b (between_cast r r1 r2 hb) hr).1
    exact near_of_real (L.sin r) (Real.sin r) ε (trig_ref k ((a + b) / 2))
      ((b - a) / 2 + 1 / 3628800) v η (hs r) he hlo hhi
  have libm_sin_lipschitz (L : Libm) (ε : ℚ)
      (hs : ∀ x : ℚ, |((L.sin x : ℚ) : ℝ) - Real.sin (x : ℝ)| ≤ (ε : ℝ)) (a b : ℚ) :
      |L.sin a - L.sin b| ≤ |a - b| + 2 * ε := by
    have h1 := hs a
    have h2 := hs b
    have h3 := abs_sin_sub_sin_le (a : ℝ) (b : ℝ)
    have : |((L.sin a - L.sin b : ℚ) : ℝ)| ≤ ((|a - b| + 2 * ε : ℚ) : ℝ) := by
      push_cast
      rw [abs_le] at h1 h2 h3 ⊢
      constructor <;> linarith [h1.1, h1.2, h2.1, h2.2, h3.1, h3.2]
    exact_mod_cast this
  -- The tangent and the arc tangent from enclosures of the sine and the cosine
  have mul_le_of_endpoints (t c c1 c2 B : ℝ) (h1 : c1 ≤ c) (h2 : c ≤ c2) (hB1 : t * c1 ≤ B)
      (hB2 : t * c2 ≤ B) : t * c ≤ B := by
    rcases le_total 0 t with ht | ht
    · exact le_trans (mul_le_mul_of_nonneg_left h2 ht) hB2
    · exact le_trans (mul_le_mul_of_nonpos_left h1 ht) hB1
  have le_mul_of_endpoints (t c c1 c2 B : ℝ) (h1 : c1 ≤ c) (h2 : c ≤ c2) (hB1 : B ≤ t * c1)
      (hB2 : B ≤ t * c2) : B ≤ t * c := by
    rcases le_total 0 t with ht | ht
    · exact le_trans hB1 (mul_le_mul_of_nonneg_left h1 ht)
    · exact le_trans hB2 (mul_le_mul_of_nonpos_left h2 ht)
  -- The tangent from enclosures of the sine and of the cosine, when the cosine
  -- is positive.
  have real_tan_encl_pos (x S C ρ t1 t2 : ℝ) (hs : |Real.sin x - S| ≤ ρ)
      (hc : |Real.cos x - C| ≤ ρ) (hpos : 0 < C - ρ)
      (h1 : t1 * (C - ρ) ≤ S - ρ) (h2 : t1 * (C + ρ) ≤ S - ρ)
      (h3 : S + ρ ≤ t2 * (C - ρ)) (h4 : S + ρ ≤ t2 * (C + ρ)) :
      t1 ≤ Real.tan x ∧ Real.tan x ≤ t2 := by
    rw [abs_le] at hs hc
    have hcp : 0 < Real.cos x := by linarith [hc.1]
    rw [Real.tan_eq_sin_div_cos]
    constructor
    · rw [le_div_iff₀ hcp]
      have := mul_le_of_endpoints t1 (Real.cos x) (C - ρ) (C + ρ) (S - ρ) (by linarith [hc.1])
        (by linarith [hc.2]) h1 h2
      linarith [hs.1]
    · rw [div_le_iff₀ hcp]
      have := le_mul_of_endpoints t2 (Real.cos x) (C - ρ) (C + ρ) (S + ρ) (by linarith [hc.1])
        (by linarith [hc.2]) h3 h4
      linarith [hs.2]
  -- The tangent from enclosures of the sine and of the cosine, when the cosine
  -- is negative.
  have real_tan_encl_neg (x S C ρ t1 t2 : ℝ) (hs : |Real.sin x - S| ≤ ρ)
      (hc : |Real.cos x - C| ≤ ρ) (hneg : C + ρ < 0)
      (h1 : S + ρ ≤ t1 * (C - ρ)) (h2 : S + ρ ≤ t1 * (C + ρ))
      (h3 : t2 * (C - ρ) ≤ S - ρ) (h4 : t2 * (C + ρ) ≤ S - ρ) :
      t1 ≤ Real.tan x ∧ Real.tan x ≤ t2 := by
    rw [abs_le] at hs hc
    have hcn : Real.cos x < 0 := by linarith [hc.2]
    rw [Real.tan_eq_sin_div_cos]
    constructor
    · rw [le_div_iff_of_neg hcn]
      have := le_mul_of_endpoints t1 (Real.cos x) (C - ρ) (C + ρ) (S + ρ) (by linarith [hc.1])
        (by linarith [hc.2]) h1 h2
      linarith [hs.2]
    · rw [div_le_iff_of_neg hcn]
      have := mul_le_of_endpoints t2 (Real.cos x) (C - ρ) (C + ρ) (S - ρ) (by linarith [hc.1])
        (by linarith [hc.2]) h3 h4
      linarith [hs.1]
  -- A lower bound of the arc tangent: `β ≤ arctan y` when `tan β ≤ y`, read off
  -- enclosures of the sine and of the cosine of `β`.
  have real_arctan_ge (y β S C ρ : ℝ) (hβ1 : -(3 / 2) ≤ β) (hβ2 : β ≤ 3 / 2)
      (hs : |Real.sin β - S| ≤ ρ) (hc : |Real.cos β - C| ≤ ρ) (hpos : 0 < C - ρ)
      (h1 : S + ρ ≤ y * (C - ρ)) (h2 : S + ρ ≤ y * (C + ρ)) : β ≤ Real.arctan y := by
    have hpi := Real.pi_gt_three
    rw [abs_le] at hs hc
    have hcp : 0 < Real.cos β := by linarith [hc.1]
    have ht : Real.tan β ≤ y := by
      rw [Real.tan_eq_sin_div_cos, div_le_iff₀ hcp]
      have := le_mul_of_endpoints y (Real.cos β) (C - ρ) (C + ρ) (S + ρ) (by linarith [hc.1])
        (by linarith [hc.2]) h1 h2
      linarith [hs.2]
    have := Real.arctan_strictMono.monotone ht
    rwa [Real.arctan_tan (by linarith) (by linarith)] at this
  -- An upper bound of the arc tangent.
  have real_arctan_le (y β S C ρ : ℝ) (hβ1 : -(3 / 2) ≤ β) (hβ2 : β ≤ 3 / 2)
      (hs : |Real.sin β - S| ≤ ρ) (hc : |Real.cos β - C| ≤ ρ) (hpos : 0 < C - ρ)
      (h1 : y * (C - ρ) ≤ S - ρ) (h2 : y * (C + ρ) ≤ S - ρ) : Real.arctan y ≤ β := by
    have hpi := Real.pi_gt_three
    rw [abs_le] at hs hc
    have hcp : 0 < Real.cos β := by linarith [hc.1]
    have ht : y ≤ Real.tan β := by
      rw [Real.tan_eq_sin_div_cos, le_div_iff₀ hcp]
      have := mul_le_of_endpoints y (Real.cos β) (C - ρ) (C + ρ) (S - ρ) (by linarith [hc.1])
        (by linarith [hc.2]) h1 h2
      linarith [hs.1]
    have := Real.arctan_strictMono.monotone ht
    rwa [Real.arctan_tan (by linarith) (by linarith)] at this
  -- The library tangent at an argument between `u1` and `u2`, from enclosures
  -- of the sine and of the cosine there.
  have libm_tan_encl (L : Libm) (I : LibmInv) (ε : ℚ) (hε0 : 0 ≤ ε) (h : LibmAccurate L I ε)
      (u u1 u2 : ℚ) (hu1 : u1 ≤ u) (hu2 : u ≤ u2) (k : ℤ) (a b t1 t2 T : ℚ)
      (hr : reduce_ok k u1 u2 a b = true)
      (hcase :
        (0 < trig_ref (k + 1) ((a + b) / 2) - ((b - a) / 2 + 1 / 3628800) ∧
          t1 * (trig_ref (k + 1) ((a + b) / 2) - ((b - a) / 2 + 1 / 3628800))
            ≤ trig_ref k ((a + b) / 2) - ((b - a) / 2 + 1 / 3628800) ∧
          t1 * (trig_ref (k + 1) ((a + b) / 2) + ((b - a) / 2 + 1 / 3628800))
            ≤ trig_ref k ((a + b) / 2) - ((b - a) / 2 + 1 / 3628800) ∧
          trig_ref k ((a + b) / 2) + ((b - a) / 2 + 1 / 3628800)
            ≤ t2 * (trig_ref (k + 1) ((a + b) / 2) - ((b - a) / 2 + 1 / 3628800)) ∧
          trig_ref k ((a + b) / 2) + ((b - a) / 2 + 1 / 3628800)
            ≤ t2 * (trig_ref (k + 1) ((a + b) / 2) + ((b - a) / 2 + 1 / 3628800))) ∨
        (trig_ref (k + 1) ((a + b) / 2) + ((b - a) / 2 + 1 / 3628800) < 0 ∧
          trig_ref k ((a + b) / 2) + ((b - a) / 2 + 1 / 3628800)
            ≤ t1 * (trig_ref (k + 1) ((a + b) / 2) - ((b - a) / 2 + 1 / 3628800)) ∧
          trig_ref k ((a + b) / 2) + ((b - a) / 2 + 1 / 3628800)
            ≤ t1 * (trig_ref (k + 1) ((a + b) / 2) + ((b - a) / 2 + 1 / 3628800)) ∧
          t2 * (trig_ref (k + 1) ((a + b) / 2) - ((b - a) / 2 + 1 / 3628800))
            ≤ trig_ref k ((a + b) / 2) - ((b - a) / 2 + 1 / 3628800) ∧
          t2 * (trig_ref (k + 1) ((a + b) / 2) + ((b - a) / 2 + 1 / 3628800))
            ≤ trig_ref k ((a + b) / 2) - ((b - a) / 2 + 1 / 3628800)))
      (hT1 : -T ≤ t1) (hT2 : t2 ≤ T) :
      t1 - ε * (1 + T) ≤ L.tan u ∧ L.tan u ≤ t2 + ε * (1 + T) := by
    obtain ⟨hs, hc⟩ := trig_encl_real (u : ℝ) k u1 u2 a b
      (Or.inl ⟨by exact_mod_cast hu1, by exact_mod_cast hu2⟩) hr
    generalize trig_ref k ((a + b) / 2) = S at hs hcase
    generalize trig_ref (k + 1) ((a + b) / 2) = C at hc hcase
    generalize (b - a) / 2 + 1 / 3628800 = ρ at hs hc hcase
    have ht : (t1 : ℝ) ≤ Real.tan u ∧ Real.tan u ≤ (t2 : ℝ) := by
      rcases hcase with ⟨h0, h1, h2, h3, h4⟩ | ⟨h0, h1, h2, h3, h4⟩
      · exact real_tan_encl_pos u S C ρ t1 t2 hs hc (by exact_mod_cast h0)
          (by exact_mod_cast h1) (by exact_mod_cast h2) (by exact_mod_cast h3)
          (by exact_mod_cast h4)
      · exact real_tan_encl_neg u S C ρ t1 t2 hs hc (by exact_mod_cast h0)
          (by exact_mod_cast h1) (by exact_mod_cast h2) (by exact_mod_cast h3)
          (by exact_mod_cast h4)
    have hl := h.tan u
    have hT1' : -(T : ℝ) ≤ t1 := by exact_mod_cast hT1
    have hT2' : (t2 : ℝ) ≤ T := by exact_mod_cast hT2
    have habs : |Real.tan u| ≤ (T : ℝ) := abs_le.mpr ⟨by linarith [ht.1], by linarith [ht.2]⟩
    have hε0' : (0 : ℝ) ≤ ε := by exact_mod_cast hε0
    have hb : (ε : ℝ) * (1 + |Real.tan u|) ≤ ε * (1 + T) :=
      mul_le_mul_of_nonneg_left (by linarith) hε0'
    rw [abs_le] at hl
    constructor
    · have : ((t1 - ε * (1 + T) : ℚ) : ℝ) ≤ ((L.tan u : ℚ) : ℝ) := by
        push_cast
        linarith [hl.1, ht.1]
      exact_mod_cast this
    · have : ((L.tan u : ℚ) : ℝ) ≤ ((t2 + ε * (1 + T) : ℚ) : ℝ) := by
        push_cast
        linarith [hl.2, ht.2]
      exact_mod_cast this
  -- The library square root of `x`, between rationals whose squares enclose `x`.
  have libm_sqrt_encl (L : Libm) (I : LibmInv) (ε : ℚ) (h : LibmAccurate L I ε)
      (x q1 q2 : ℚ) (hq1 : 0 < q1) (h1 : q1 ^ 2 ≤ x) (h2 : x ≤ q2 ^ 2) (hq2 : 0 ≤ q2) :
      q1 - ε ≤ I.sqrt x ∧ I.sqrt x ≤ q2 + ε := by
    have hx0 : 0 ≤ x := le_trans (by positivity) h1
    have hl := h.sqrt x hx0
    have ha : (q1 : ℝ) ≤ Real.sqrt x := by
      rw [Real.le_sqrt' (by exact_mod_cast hq1)]
      exact_mod_cast h1
    have hb : Real.sqrt x ≤ (q2 : ℝ) := by
      rw [Real.sqrt_le_iff]
      exact ⟨by exact_mod_cast hq2, by exact_mod_cast h2⟩
    rw [abs_le] at hl
    constructor
    · have : ((q1 - ε : ℚ) : ℝ) ≤ ((I.sqrt x : ℚ) : ℝ) := by
        push_cast
        linarith [hl.1]
      exact_mod_cast this
    · have : ((I.sqrt x : ℚ) : ℝ) ≤ ((q2 + ε : ℚ) : ℝ) := by
        push_cast
        linarith [hl.2]
      exact_mod_cast this
  -- The library arc tangent at an argument between `y1` and `y2`.
  have libm_atan_encl (L : Libm) (I : LibmInv) (ε : ℚ) (h : LibmAccurate L I ε)
      (y y1 y2 : ℚ) (hy1 : y1 ≤ y) (hy2 : y ≤ y2)
      (β1 : ℚ) (kβ1 : ℤ) (aβ1 bβ1 : ℚ) (β2 : ℚ) (kβ2 : ℤ) (aβ2 bβ2 : ℚ)
      (hβ1a : -(3 / 2) ≤ β1) (hβ1b : β1 ≤ 3 / 2) (hr1 : reduce_ok kβ1 β1 β1 aβ1 bβ1 = true)
      (hp1 : 0 < trig_ref (kβ1 + 1) ((aβ1 + bβ1) / 2) - ((bβ1 - aβ1) / 2 + 1 / 3628800))
      (h11 : trig_ref kβ1 ((aβ1 + bβ1) / 2) + ((bβ1 - aβ1) / 2 + 1 / 3628800)
        ≤ y1 * (trig_ref (kβ1 + 1) ((aβ1 + bβ1) / 2) - ((bβ1 - aβ1) / 2 + 1 / 3628800)))
      (h12 : trig_ref kβ1 ((aβ1 + bβ1) / 2) + ((bβ1 - aβ1) / 2 + 1 / 3628800)
        ≤ y1 * (trig_ref (kβ1 + 1) ((aβ1 + bβ1) / 2) + ((bβ1 - aβ1) / 2 + 1 / 3628800)))
      (hβ2a : -(3 / 2) ≤ β2) (hβ2b : β2 ≤ 3 / 2) (hr2 : reduce_ok kβ2 β2 β2 aβ2 bβ2 = true)
      (hp2 : 0 < trig_ref (kβ2 + 1) ((aβ2 + bβ2) / 2) - ((bβ2 - aβ2) / 2 + 1 / 3628800))
      (h21 : y2 * (trig_ref (kβ2 + 1) ((aβ2 + bβ2) / 2) - ((bβ2 - aβ2) / 2 + 1 / 3628800))
        ≤ trig_ref kβ2 ((aβ2 + bβ2) / 2) - ((bβ2 - aβ2) / 2 + 1 / 3628800))
      (h22 : y2 * (trig_ref (kβ2 + 1) ((aβ2 + bβ2) / 2) + ((bβ2 - aβ2) / 2 + 1 / 3628800))
        ≤ trig_ref kβ2 ((aβ2 + bβ2) / 2) - ((bβ2 - aβ2) / 2 + 1 / 3628800)) :
      β1 - ε ≤ I.atan y ∧ I.atan y ≤ β2 + ε := by
    obtain ⟨hs1, hc1⟩ := trig_encl_real (β1 : ℝ) kβ1 β1 β1 aβ1 bβ1
      (Or.inl ⟨le_rfl, le_rfl⟩) hr1
    obtain ⟨hs2, hc2⟩ := trig_encl_real (β2 : ℝ) kβ2 β2 β2 aβ2 bβ2
      (Or.inl ⟨le_rfl, le_rfl⟩) hr2
    generalize trig_ref kβ1 ((aβ1 + bβ1) / 2) = S1 at hs1 h11 h12
    generalize trig_ref (kβ1 + 1) ((aβ1 + bβ1) / 2) = C1 at hc1 hp1 h11 h12
    generalize (bβ1 - aβ1) / 2 + 1 / 3628800 = ρ1 at hs1 hc1 hp1 h11 h12
    generalize trig_ref kβ2 ((aβ2 + bβ2) / 2) = S2 at hs2 h21 h22
    generalize trig_ref (kβ2 + 1) ((aβ2 + bβ2) / 2) = C2 at hc2 hp2 h21 h22
    generalize (bβ2 - aβ2) / 2 + 1 / 3628800 = ρ2 at hs2 hc2 hp2 h21 h22
    have c1 : -(3 / 2 : ℝ) ≤ (β1 : ℝ) := by
      have := (Rat.cast_le (K := ℝ)).mpr hβ1a
      push_cast at this
      linarith
    have c2 : (β1 : ℝ) ≤ 3 / 2 := by
      have := (Rat.cast_le (K := ℝ)).mpr hβ1b
      push_cast at this
      linarith
    have c3 : -(3 / 2 : ℝ) ≤ (β2 : ℝ) := by
      have := (Rat.cast_le (K := ℝ)).mpr hβ2a
      push_cast at this
      linarith
    have c4 : (β2 : ℝ) ≤ 3 / 2 := by
      have := (Rat.cast_le (K := ℝ)).mpr hβ2b
      push_cast at this
      linarith
    have ha : (β1 : ℝ) ≤ Real.arctan (y1 : ℝ) :=
      real_arctan_ge y1 β1 S1 C1 ρ1 c1 c2 hs1 hc1
        (by exact_mod_cast hp1) (by exact_mod_cast h11) (by exact_mod_cast h12)
    have hb : Real.arctan (y2 : ℝ) ≤ (β2 : ℝ) :=
      real_arctan_le y2 β2 S2 C2 ρ2 c3 c4 hs2 hc2
        (by exact_mod_cast hp2) (by exact_mod_cast h21) (by exact_mod_cast h22)
    have hm1 : Real.arctan (y1 : ℝ) ≤ Real.arctan (y : ℝ) :=
      Real.arctan_strictMono.monotone (by exact_mod_cast hy1)
    have hm2 : Real.arctan (y : ℝ) ≤ Real.arctan (y2 : ℝ) :=
      Real.arctan_strictMono.monotone (by exact_mod_cast hy2)
    have hl := abs_le.mp (h.atan y)
    constructor
    · have : ((β1 - ε : ℚ) : ℝ) ≤ ((I.atan y : ℚ) : ℝ) := by
        push_cast
        linarith [hl.1]
      exact_mod_cast this
    · have : ((I.atan y : ℚ) : ℝ) ≤ ((β2 + ε : ℚ) : ℝ) := by
        push_cast
        linarith [hl.2]
      exact_mod_cast this
  exact
    { sin_of_ok := fun r r1 r2 hb k a b v η hok =>
        libm_sin_of_ok L ε h.sin r r1 r2 hb k a b v η hok
      sin_abs_le := libm_sin_abs_le L ε h.sin
      cos_abs_le := libm_cos_abs_le L ε h.cos
      sin_lipschitz := libm_sin_lipschitz L ε h.sin
      tan_encl := fun u u1 u2 hu1 hu2 k a b t1 t2 T hr hcase hT1 hT2 =>
        libm_tan_encl L I ε hε0 h u u1 u2 hu1 hu2 k a b t1 t2 T hr hcase hT1 hT2
      sqrt_encl := fun x q1 q2 h1 h2 h3 h4 => libm_sqrt_encl L I ε h x q1 q2 h1 h2 h3 h4
      atan_encl := fun y y1 y2 hy1 hy2 β1 kβ1 aβ1 bβ1 β2 kβ2 aβ2 bβ2 c1 c2 c3 c4 c5 c6 c7 c8 c9
          c10 c11 c12 =>
        libm_atan_encl L I ε h y y1 y2 hy1 hy2 β1 kβ1 aβ1 bβ1 β2 kβ2 aβ2 bβ2 c1 c2 c3 c4 c5 c6 c7
          c8 c9 c10 c11 c12 }

/-! ### Sums of weighted sines -/

/-- A sum of weighted values `g i`, each within `H i` of `S i`. -/
lemma foldl_encl (g a S H : ℕ → ℚ) (h : ∀ i, |g i - S i| ≤ H i) :
    ∀ (l : List ℕ) (init : ℚ),
      |l.foldl (fun acc i => acc + a i * g i) init
          - (init + (l.map (fun i => a i * S i)).sum)|
        ≤ (l.map (fun i => |a i| * H i)).sum := by
  intro l
  induction l with
  | nil =>
    intro init
    simp
  | cons i l ih =>
    intro init
    simp only [List.foldl_cons, List.map_cons, List.sum_cons]
    have h1 := ih (init + a i * g i)
    have h2 : |a i * g i - a i * S i| ≤ |a i| * H i := by
      rw [← mul_sub, abs_mul]
      exact mul_le_mul_of_nonneg_left (h i) (abs_nonneg _)
    rw [abs_le] at h1 h2 ⊢
    constructor <;> linarith [h1.1, h1.2, h2.1, h2.2]

/-- Values given by a list of centres and half-widths, and by a common bound
beyond the end of the list. -/
lemma terms_of_list (g : ℕ → ℚ) (B : ℚ) (hB : ∀ i, |g i| ≤ B) (Sl Hl : List ℚ)
    (hlen : Hl.length = Sl.length)
    (h : ∀ i, i < Sl.length → |g i - Sl.getD i 0| ≤ Hl.getD i B) :
    ∀ i, |g i - Sl.getD i 0| ≤ Hl.getD i B := by
  intro i
  by_cases hi : i < Sl.length
  · exact h i hi
  · have h1 : Sl.getD i 0 = 0 := by
      rw [List.getD_eq_getElem?_getD, List.getElem?_eq_none (by omega)]
      rfl
    have h2 : Hl.getD i B = B := by
      rw [List.getD_eq_getElem?_getD, List.getElem?_eq_none (by omega)]
      rfl
    rw [h1, h2, sub_zero]
    exact hB i

/-! ### Enclosures of the solar longitude -/

lemma mod_360_encl (z : ℚ) (q : ℤ) (lo hi : ℚ) (h0 : 0 ≤ lo) (h360 : hi < 360)
    (h1 : 360 * (q : ℚ) + lo ≤ z) (h2 : z ≤ 360 * (q : ℚ) + hi) :
    lo ≤ mod z 360 ∧ mod z 360 ≤ hi := by
  unfold mod
  have hq : ⌊z / 360⌋ = q := by
    rw [Int.floor_eq_iff]
    constructor
    · rw [le_div_iff₀ (by norm_num)]
      linarith
    · rw [div_lt_iff₀ (by norm_num)]
      linarith
  rw [hq]
  constructor <;> linarith

/-- The solar longitude at the moment `t`, from enclosures of the first sines of
its series; the other sines, the aberration and the nutation are bounded by
their coefficients. -/
lemma solar_longitude_encl (L : Libm) (ε : ℚ) (hsb : ∀ x, |L.sin x| ≤ 1 + ε)
    (hcb : ∀ x, |L.cos x| ≤ 1 + ε) (t : ℚ) (Sl Hl : List ℚ) (hlen : Hl.length = Sl.length)
    (hterms : ∀ i, i < Sl.length →
      |L.sin (deg2rad (yvec.getD i 0 + zvec.getD i 0 * julian_centuries t)) - Sl.getD i 0|
        ≤ Hl.getD i (1 + ε))
    (q : ℤ) (lo hi : ℚ) (h0 : 0 ≤ lo) (h360 : hi < 360)
    (hlo : 360 * (q : ℚ) + lo ≤ 282.7771834 + 36000.76953744 * julian_centuries t
      + 0.000005729577951308232 * (solar_sumS Sl - solar_sumH Hl (1 + ε))
      - 0.0005575 - 0.0052421 * (1 + ε))
    (hhi : 282.7771834 + 36000.76953744 * julian_centuries t
      + 0.000005729577951308232 * (solar_sumS Sl + solar_sumH Hl (1 + ε))
      - 0.0005575 + 0.0052421 * (1 + ε) ≤ 360 * (q : ℚ) + hi) :
    lo ≤ solar_longitude L t ∧ solar_longitude L t ≤ hi := by
  have hall := terms_of_list
    (fun i => L.sin (deg2rad (yvec.getD i 0 + zvec.getD i 0 * julian_centuries t)))
    (1 + ε) (fun i => hsb _) Sl Hl hlen hterms
  have hsum := foldl_encl
    (fun i => L.sin (deg2rad (yvec.getD i 0 + zvec.getD i 0 * julian_centuries t)))
    (fun i => (xvec.getD i 0 : ℚ)) (fun i => Sl.getD i 0) (fun i => Hl.getD i (1 + ε))
    hall (List.range vlen) 0.0
  have h1 := hcb (deg2rad (177.63 + 35999.01848 * julian_centuries t))
  have h2 := hsb (deg2rad (poly (julian_centuries t) 3 avec))
  have h3 := hsb (deg2rad (poly (julian_centuries t) 3 bvec))
  unfold solar_sumS solar_sumH at hlo hhi
  unfold solar_longitude aberration nuation
  simp only [] at hsum ⊢
  generalize julian_centuries t = c at hlo hhi hsum h1 h2 h3 ⊢
  generalize (List.range vlen).foldl _ _ = sigma at hsum ⊢
  generalize ((List.range vlen).map (fun i => (xvec.getD i 0 : ℚ) * Sl.getD i 0)).sum = sS
    at hsum hlo hhi
  generalize ((List.range vlen).map (fun i => |(xvec.getD i 0 : ℚ)| * Hl.getD i (1 + ε))).sum
    = sH at hsum hlo hhi
  rw [abs_le] at hsum h1 h2 h3
  apply mod_360_encl _ q lo hi h0 h360
  · norm_num at hsum ⊢
    linarith [hsum.1, hsum.2, h1.1, h1.2, h2.1, h2.2, h3.1, h3.2]
  · norm_num at hsum ⊢
    linarith [hsum.1, hsum.2, h1.1, h1.2, h2.1, h2.2, h3.1, h3.2]

/-! ### Moments within one Gregorian year -/

lemma ephemeris_correction_eq_year (t : ℚ) :
    ephemeris_correction t =
      ephemeris_correction_year (gregorian_year_from_fixed (toInt ((⌊t⌋ : ℤ) : ℚ))) := rfl

/-- The Gregorian year of a moment between two new years. -/
lemma year_of_moment (t : ℚ) (Y : ℤ) (h1 : ((fixed_from_gregorian Y 1 1 : ℤ) : ℚ) ≤ t)
    (h2 : t < ((fixed_from_gregorian (Y + 1) 1 1 : ℤ) : ℚ)) :
    gregorian_year_from_fixed (toInt ((⌊t⌋ : ℤ) : ℚ)) = Y := by
  rw [toInt_intCast]
  apply gregorian_year_from_fixed_unique
  · exact Int.le_floor.mpr h1
  · exact Int.floor_lt.mpr h2

lemma julian_centuries_of_year (t : ℚ) (Y : ℤ)
    (h1 : ((fixed_from_gregorian Y 1 1 : ℤ) : ℚ) ≤ t)
    (h2 : t < ((fixed_from_gregorian (Y + 1) 1 1 : ℤ) : ℚ)) :
    julian_centuries t = (t + ephemeris_correction_year Y - 730120.5) / 36525.0 := by
  unfold julian_centuries dynamical_from_universal
  rw [ephemeris_correction_eq_year, year_of_moment t Y h1 h2]

lemma universal_from_dynamical_of_year (t : ℚ) (Y : ℤ)
    (h1 : ((fixed_from_gregorian Y 1 1 : ℤ) : ℚ) ≤ t)
    (h2 : t < ((fixed_from_gregorian (Y + 1) 1 1 : ℤ) : ℚ)) :
    universal_from_dynamical t = t - ephemeris_correction_year Y := by
  unfold universal_from_dynamical
  rw [ephemeris_correction_eq_year, year_of_moment t Y h1 h2]

/-- The Julian centuries of a moment between `t1` and `t2` of the year `Y`. -/
lemma julian_centuries_bounds (t t1 t2 : ℚ) (Y : ℤ) (c1 c2 : ℚ) (h1 : t1 ≤ t) (h2 : t ≤ t2)
    (hy1 : ((fixed_from_gregorian Y 1 1 : ℤ) : ℚ) ≤ t1)
    (hy2 : t2 < ((fixed_from_gregorian (Y + 1) 1 1 : ℤ) : ℚ))
    (hc1 : c1 ≤ (t1 + ephemeris_correction_year Y - 730120.5) / 36525.0)
    (hc2 : (t2 + ephemeris_correction_year Y - 730120.5) / 36525.0 ≤ c2) :
    c1 ≤ julian_centuries t ∧ julian_centuries t ≤ c2 := by
  rw [julian_centuries_of_year t Y (le_trans hy1 h1) (lt_of_le_of_lt h2 hy2)]
  have e : (36525.0 : ℚ) = 36525 := by norm_num
  rw [e] at hc1 hc2 ⊢
  rw [le_div_iff₀ (by norm_num)] at hc1 ⊢
  rw [div_le_iff₀ (by norm_num)] at hc2 ⊢
  constructor <;> linarith

/-- The solar longitude at a moment whose Julian centuries lie between `c1` and
`c2`. -/
lemma solar_longitude_encl_int (L : Libm) (ε : ℚ) (hsb : ∀ x, |L.sin x| ≤ 1 + ε)
    (hcb : ∀ x, |L.cos x| ≤ 1 + ε) (t c1 c2 : ℚ) (hc1 : c1 ≤ julian_centuries t)
    (hc2 : julian_centuries t ≤ c2) (Sl Hl : List ℚ) (hlen : Hl.length = Sl.length)
    (hterms : ∀ i, i < Sl.length →
      |L.sin (deg2rad (yvec.getD i 0 + zvec.getD i 0 * julian_centuries t)) - Sl.getD i 0|
        ≤ Hl.getD i (1 + ε))
    (q : ℤ) (lo hi : ℚ) (h0 : 0 ≤ lo) (h360 : hi < 360)
    (hlo : 360 * (q : ℚ) + lo ≤ 282.7771834 + 36000.76953744 * c1
      + 0.000005729577951308232 * (solar_sumS Sl - solar_sumH Hl (1 + ε))
      - 0.0005575 - 0.0052421 * (1 + ε))
    (hhi : 282.7771834 + 36000.76953744 * c2
      + 0.000005729577951308232 * (solar_sumS Sl + solar_sumH Hl (1 + ε))
      - 0.0005575 + 0.0052421 * (1 + ε) ≤ 360 * (q : ℚ) + hi) :
    lo ≤ solar_longitude L t ∧ solar_longitude L t ≤ hi := by
  apply solar_longitude_encl L ε hsb hcb t Sl Hl hlen hterms q lo hi h0 h360
  · have : (36000.76953744 : ℚ) * c1 ≤ 36000.76953744 * julian_centuries t :=
      mul_le_mul_of_nonneg_left hc1 (by norm_num)
    linarith
  · have : (36000.76953744 : ℚ) * julian_centuries t ≤ 36000.76953744 * c2 :=
      mul_le_mul_of_nonneg_left hc2 (by norm_num)
    linarith

/-! ### The winter solstice -/

/-- The estimate of `estimate_prior_solar_longitude` for the winter solstice,
from an enclosure of the solar longitude at the moment `t0` and one that holds
between `τ1` and `τ2`. -/
lemma estimate_prior_encl (sl : ℚ → ℚ) (t0 l0 h0 : ℚ) (j : ℤ) (τ1 τ2 l1 h1 lo hi : ℚ)
    (hs0 : l0 ≤ sl t0 ∧ sl t0 ≤ h0)
    (hj1 : 0 ≤ l0 - 270 + 360 * (j : ℚ)) (hj2 : h0 - 270 + 360 * (j : ℚ) < 360)
    (hτ1 : τ1 ≤ t0 - MEAN_TROPICAL_YEAR / 360 * (h0 - 270 + 360 * (j : ℚ)))
    (hτ2 : t0 - MEAN_TROPICAL_YEAR / 360 * (l0 - 270 + 360 * (j : ℚ)) ≤ τ2)
    (hst : ∀ τ, τ1 ≤ τ → τ ≤ τ2 → l1 ≤ sl τ ∧ sl τ ≤ h1)
    (hl1 : 90 ≤ l1) (hh1 : h1 < 450)
    (hlo : lo ≤ τ1 - MEAN_TROPICAL_YEAR / 360 * (h1 - 270))
    (hhi : τ2 - MEAN_TROPICAL_YEAR / 360 * (l1 - 270) ≤ hi) (ht0 : hi ≤ t0) :
    lo ≤ estimate_prior_solar_longitude sl t0 LONGITUDE_WINTER ∧
      estimate_prior_solar_longitude sl t0 LONGITUDE_WINTER ≤ hi := by
  have hrate : (0 : ℚ) < MEAN_TROPICAL_YEAR / 360 := by decide!
  have hm0 : mod (sl t0 - 270) 360 = sl t0 - 270 + 360 * (j : ℚ) := by
    unfold mod
    have hq : ⌊(sl t0 - 270) / 360⌋ = -j := by
      rw [Int.floor_eq_iff]
      push_cast
      constructor
      · rw [le_div_iff₀ (by norm_num)]
        linarith [hs0.1]
      · rw [div_lt_iff₀ (by norm_num)]
        linarith [hs0.2]
    rw [hq]
    push_cast
    ring
  unfold estimate_prior_solar_longitude LONGITUDE_WINTER
  simp only []
  rw [hm0]
  obtain ⟨τ, hτ⟩ : ∃ τ, τ = t0 - MEAN_TROPICAL_YEAR / 360 * (sl t0 - 270 + 360 * (j : ℚ)) :=
    ⟨_, rfl⟩
  rw [← hτ]
  have hτa : τ1 ≤ τ := by
    rw [hτ]
    have := mul_le_mul_of_nonneg_left (show sl t0 - 270 + 360 * (j : ℚ) ≤ h0 - 270 + 360 * (j : ℚ)
      by linarith [hs0.2]) (le_of_lt hrate)
    linarith
  have hτb : τ ≤ τ2 := by
    rw [hτ]
    have := mul_le_mul_of_nonneg_left (show l0 - 270 + 360 * (j : ℚ) ≤ sl t0 - 270 + 360 * (j : ℚ)
      by linarith [hs0.1]) (le_of_lt hrate)
    linarith
  obtain ⟨hs1, hs2⟩ := hst τ hτa hτb
  have hm1 : mod (sl τ - 270 + 180) 360 = sl τ - 270 + 180 := by
    unfold mod
    have hq : ⌊(sl τ - 270 + 180) / 360⌋ = 0 := by
      rw [Int.floor_eq_iff]
      push_cast
      constructor
      · rw [le_div_iff₀ (by norm_num)]
        linarith
      · rw [div_lt_iff₀ (by norm_num)]
        linarith
    rw [hq]
    push_cast
    ring
  rw [hm1]
  have e : τ - MEAN_TROPICAL_YEAR / 360 * (sl τ - 270 + 180 - 180)
      = τ - MEAN_TROPICAL_YEAR / 360 * (sl τ - 270) := by ring
  rw [e]
  have ha := mul_le_mul_of_nonneg_left (show sl τ - 270 ≤ h1 - 270 by linarith) (le_of_lt hrate)
  have hb := mul_le_mul_of_nonneg_left (show l1 - 270 ≤ sl τ - 270 by linarith) (le_of_lt hrate)
  have hle : τ - MEAN_TROPICAL_YEAR / 360 * (sl τ - 270) ≤ t0 := by linarith
  unfold fmin
  split_ifs with hc
  · constructor <;> linarith
  · constructor <;> linarith

/-- The scan for the winter solstice, started at most `fuel` days before the
day `s` it ends on. -/
lemma winter_solstice_loop_result (A : Astro) (s : ℤ)
    (hge : ¬ LONGITUDE_WINTER > A.solar_longitude (midnight_in_china (s + 1))) :
    ∀ (n fuel : ℕ) (i : ℤ), i + n = s → n ≤ fuel →
      (∀ j, i ≤ j → j < s → LONGITUDE_WINTER > A.solar_longitude (midnight_in_china (j + 1))) →
      chinese_winter_solstice_loop A fuel i = some s := by
  intro n
  induction n with
  | zero =>
    intro fuel i hi _ _
    have his : i = s := by omega
    rw [his]
    cases fuel with
    | zero => simp only [chinese_winter_solstice_loop, if_neg hge]
    | succ f => simp only [chinese_winter_solstice_loop, if_neg hge]
  | succ n ih =>
    intro fuel i hi hf hlt
    obtain ⟨f, rfl⟩ : ∃ f, fuel = f + 1 := ⟨fuel - 1, by omega⟩
    have hc := hlt i le_rfl (by omega)
    simp only [chinese_winter_solstice_loop, if_pos hc]
    exact ih f (i + 1) (by push_cast at hi ⊢; omega) (by omega)
      (fun j hj1 hj2 => hlt j (by omega) hj2)

/-- The winter solstice on or before `date` is the day `s`, when the estimate
lies in the three days from `s - 1` and the solar longitude reaches 270 between
the midnights of `s` and of `s + 1`. -/
lemma chinese_winter_solstice_result (A : Astro) (fuel : ℕ) (date s : ℤ) (lo hi : ℚ)
    (hest : lo ≤ estimate_prior_solar_longitude A.solar_longitude
        (midnight_in_china (date + 1)) LONGITUDE_WINTER ∧
      estimate_prior_solar_longitude A.solar_longitude
        (midnight_in_china (date + 1)) LONGITUDE_WINTER ≤ hi)
    (hlo : ((s - 1 : ℤ) : ℚ) ≤ lo) (hhi : hi < ((s + 2 : ℤ) : ℚ))
    (h1 : A.solar_longitude (midnight_in_china (s - 1)) < 270)
    (h2 : A.solar_longitude (midnight_in_china s) < 270)
    (h3 : 270 ≤ A.solar_longitude (midnight_in_china (s + 1)))
    (hfuel : 2 ≤ fuel) :
    chinese_winter_solstice_on_or_before A fuel date = some s := by
  unfold chinese_winter_solstice_on_or_before
  simp only [toInt_intCast]
  obtain ⟨x, hx⟩ : ∃ x, x = estimate_prior_solar_longitude A.solar_longitude
      (midnight_in_china (date + 1)) LONGITUDE_WINTER := ⟨_, rfl⟩
  rw [← hx] at hest ⊢
  have hf1 : s - 1 ≤ ⌊x⌋ := Int.le_floor.mpr (le_trans hlo hest.1)
  have hf2 : ⌊x⌋ < s + 2 := Int.floor_lt.mpr (lt_of_le_of_lt hest.2 hhi)
  have hge : ¬ LONGITUDE_WINTER > A.solar_longitude (midnight_in_china (s + 1)) := by
    unfold LONGITUDE_WINTER
    exact not_lt.mpr h3
  apply winter_solstice_loop_result A s hge (s - (⌊x⌋ - 1)).toNat fuel (⌊x⌋ - 1)
  · rw [Int.toNat_of_nonneg (by omega)]
    ring
  · omega
  · intro j hj1 hj2
    unfold LONGITUDE_WINTER
    have hj : j = s - 2 ∨ j = s - 1 := by omega
    rcases hj with hj | hj
    · have e : j + 1 = s - 1 := by omega
      rw [e]
      exact h1
    · have e : j + 1 = s := by omega
      rw [e]
      exact h2

/-! ### Enclosures at arguments known between two bounds -/

/-- An affine function of `x` between `x1` and `x2` lies between its values at
`x1` and `x2`. -/
lemma affine_between (A B x x1 x2 : ℚ) (h1 : x1 ≤ x) (h2 : x ≤ x2) :
    (A + B * x1 ≤ A + B * x ∧ A + B * x ≤ A + B * x2) ∨
      (A + B * x2 ≤ A + B * x ∧ A + B * x ≤ A + B * x1) := by
  rcases le_total 0 B with hB | hB
  · left
    constructor <;> nlinarith
  · right
    constructor <;> nlinarith

/-! ### Kepler's equation with a library sine that is only accurate -/

/-- One Newton step of `kepler` with a sine and a cosine within `ε` of the real
functions. -/
lemma kepler_step_noisy (L : Libm) (ε : ℚ) (hε : ε ≤ 1 / 1000000000)
    (hcb : ∀ x, |L.cos x| ≤ 1 + ε)
    (hsl : ∀ a b, |L.sin a - L.sin b| ≤ |a - b| + 2 * ε) (m e : ℚ) :
    |(e - (e - eccent * L.sin e - m) / (1 - eccent * L.cos e))
        - eccent * L.sin (e - (e - eccent * L.sin e - m) / (1 - eccent * L.cos e)) - m|
      ≤ 0.0341 * |e - eccent * L.sin e - m| + 3.5 / 100000000000 := by
  have hcb' := abs_le.mp (hcb e)
  have hecc : eccent = 0.016718 := rfl
  generalize hδ : e - eccent * L.sin e - m = δ
  generalize hw : 1 - eccent * L.cos e = w
  have hwl : (0.98328 : ℚ) ≤ w := by rw [← hw, hecc]; norm_num; linarith [hcb'.1, hcb'.2]
  have hwpos : 0 < w := lt_of_lt_of_le (by norm_num) hwl
  generalize hu : δ / w = u
  have huw : u * w = δ := by rw [← hu]; field_simp
  have hl := hsl e (e - u)
  have hl' : |L.sin e - L.sin (e - u)| ≤ |u| + 2 * ε := by
    have : e - (e - u) = u := by ring
    rwa [this] at hl
  have hdelta : e - u - eccent * L.sin (e - u) - m
      = -(u * (eccent * L.cos e)) + eccent * (L.sin e - L.sin (e - u)) := by
    have h1 : eccent * L.cos e = 1 - w := by rw [← hw]; ring
    rw [h1]
    have h2 : e = δ + eccent * L.sin e + m := by rw [← hδ]; ring
    nth_rewrite 1 [h2]
    rw [← huw]; ring
  rw [hdelta]
  have hA : |u * (eccent * L.cos e)| ≤ 0.016718 * (1 + ε) * |u| := by
    rw [abs_mul, abs_mul, hecc]
    have h0 : |(0.016718 : ℚ)| = 0.016718 := abs_of_pos (by norm_num)
    rw [h0]
    nlinarith [abs_nonneg u, abs_nonneg (L.cos e), hcb e]
  have hB : |eccent * (L.sin e - L.sin (e - u))| ≤ 0.016718 * (|u| + 2 * ε) := by
    rw [abs_mul, hecc]
    have h0 : |(0.016718 : ℚ)| = 0.016718 := abs_of_pos (by norm_num)
    rw [h0]
    exact mul_le_mul_of_nonneg_left hl' (by norm_num)
  have hδu : |δ| = |u| * w := by rw [← huw, abs_mul, abs_of_pos hwpos]
  have hT := abs_add (-(u * (eccent * L.cos e))) (eccent * (L.sin e - L.sin (e - u)))
  rw [abs_neg] at hT
  have hδl : 0.98328 * |u| ≤ |δ| := by
    rw [hδu]
    nlinarith [abs_nonneg u]
  nlinarith [abs_nonneg u]

/-- The loop of `kepler` ends, and what it returns is one Newton step from an
iterate whose residual is at most `EPSILON`. -/
lemma kepler_loop_noisy (L : Libm) (ε : ℚ) (hε : ε ≤ 1 / 1000000000)
    (hcb : ∀ x, |L.cos x| ≤ 1 + ε)
    (hsl : ∀ a b, |L.sin a - L.sin b| ≤ |a - b| + 2 * ε) (m : ℚ) :
    ∀ (n fuel : ℕ) (e D : ℚ), n < fuel → 0 ≤ D →
      |e - eccent * L.sin e - m| ≤ D + 1.1 / 1000000000 →
      D * 0.035 ^ n + 1.1 / 1000000000 ≤ EPSILON →
      ∃ r e' : ℚ, kepler_loop L eccent m fuel e = some r ∧
        |e' - eccent * L.sin e' - m| ≤ EPSILON ∧
        r = e' - (e' - eccent * L.sin e' - m) / (1 - eccent * L.cos e') := by
  intro n
  induction n with
  | zero =>
    intro fuel e D hf _ hD hE
    obtain ⟨f, rfl⟩ : ∃ f, fuel = f + 1 := ⟨fuel - 1, by omega⟩
    simp only [kepler_loop]
    rw [abs_eq_abs]
    have hle : |e - eccent * L.sin e - m| ≤ EPSILON := by
      simp only [pow_zero, mul_one] at hE
      exact le_trans hD hE
    rw [if_neg (not_lt.mpr hle)]
    exact ⟨_, e, rfl, hle, rfl⟩
  | succ n ih =>
    intro fuel e D hf hD0 hD hE
    obtain ⟨f, rfl⟩ : ∃ f, fuel = f + 1 := ⟨fuel - 1, by omega⟩
    simp only [kepler_loop]
    rw [abs_eq_abs]
    split_ifs with h
    · refine ih f _ (0.035 * D) (by omega) (by positivity) ?_ ?_
      · have := kepler_step_noisy L ε hε hcb hsl m e
        linarith
      · rw [pow_succ] at hE
        linarith [hE]
    · exact ⟨_, e, rfl, not_lt.mp h, rfl⟩

/-- The value one Newton step from an iterate `e'` whose residual is at most
`EPSILON`, from two enclosures of the sine at `e'`. -/
lemma kepler_result_encl (L : Libm) (I : LibmInv) (ε : ℚ) (hε : ε ≤ 1 / 1000000000)
    (h : LibmEnclosed L I ε) (m e' : ℚ)
    (hres : |e' - eccent * L.sin e' - m| ≤ EPSILON)
    (k1 : ℤ) (a1 b1 v1 η1 : ℚ) (k2 : ℤ) (a2 b2 v2 η2 E1 E2 : ℚ)
    (hok : kepler_ok ε m k1 a1 b1 v1 η1 k2 a2 b2 v2 η2 E1 E2 = true) :
    E1 ≤ e' - (e' - eccent * L.sin e' - m) / (1 - eccent * L.cos e') ∧
      e' - (e' - eccent * L.sin e' - m) / (1 - eccent * L.cos e') ≤ E2 := by
  have hcb := h.cos_abs_le
  have hsb := h.sin_abs_le
  have hecc : eccent = 0.016718 := rfl
  have hEPS : EPSILON = 1 / 1000000 := by unfold EPSILON; norm_num
  simp only [kepler_ok, Bool.and_eq_true, decide_eq_true_eq] at hok
  obtain ⟨⟨⟨hok1, hok2⟩, hE1⟩, hE2⟩ := hok
  rw [abs_le] at hres
  have hs0 := abs_le.mp (hsb e')
  have hc0 := abs_le.mp (hcb e')
  obtain ⟨s, hs⟩ : ∃ s, s = L.sin e' := ⟨_, rfl⟩
  obtain ⟨c, hc⟩ : ∃ c, c = L.cos e' := ⟨_, rfl⟩
  rw [← hs] at hres hs0 ⊢
  rw [← hc] at hc0 ⊢
  have hr0 : (m - (eccent * (1 + ε) + EPSILON) ≤ e' ∧ e' ≤ m + (eccent * (1 + ε) + EPSILON)) ∨
      (m + (eccent * (1 + ε) + EPSILON) ≤ e' ∧ e' ≤ m - (eccent * (1 + ε) + EPSILON)) := by
    left
    rw [hecc, hEPS] at hres ⊢
    constructor <;> linarith [hres.1, hres.2, hs0.1, hs0.2]
  have hs1 := abs_le.mp (h.sin_of_ok e' _ _ hr0 k1 a1 b1 v1 η1 hok1)
  rw [← hs] at hs1
  have hr1 : (m + eccent * (v1 - η1) - EPSILON ≤ e' ∧ e' ≤ m + eccent * (v1 + η1) + EPSILON) ∨
      (m + eccent * (v1 + η1) + EPSILON ≤ e' ∧ e' ≤ m + eccent * (v1 - η1) - EPSILON) := by
    left
    rw [hecc, hEPS] at hres ⊢
    constructor <;> linarith [hres.1, hres.2, hs1.1, hs1.2]
  have hs2 := abs_le.mp (h.sin_of_ok e' _ _ hr1 k2 a2 b2 v2 η2 hok2)
  rw [← hs] at hs2
  clear hok1 hok2 hr0 hr1 hs0 hs1
  have hw : (0.98 : ℚ) ≤ 1 - eccent * c := by
    rw [hecc]
    linarith [hc0.1, hc0.2]
  have hwpos : (0 : ℚ) < 1 - eccent * c := lt_of_lt_of_le (by norm_num) hw
  obtain ⟨δ, hδ⟩ : ∃ δ, δ = e' - eccent * s - m := ⟨_, rfl⟩
  rw [← hδ] at hres ⊢
  have hq : |δ / (1 - eccent * c)| ≤ EPSILON / 0.98 := by
    rw [abs_div, abs_of_pos hwpos]
    exact div_le_div₀ (by rw [hEPS]; norm_num) (abs_le.mpr hres) (by norm_num) hw
  rw [abs_le] at hq
  obtain ⟨x, hx⟩ : ∃ x, x = δ / (1 - eccent * c) := ⟨_, rfl⟩
  rw [← hx] at hq ⊢
  rw [hecc] at hδ hE1 hE2
  rw [hEPS] at hq hres hE1 hE2
  constructor <;> linarith [hq.1, hq.2, hs2.1, hs2.2, hres.1, hres.2]

/-- With a sine and a cosine within `ε` of the real functions, `kepler` returns
within four passes, and two enclosures of the sine at the last iterate locate
the value returned. -/
lemma kepler_encl (L : Libm) (I : LibmInv) (ε : ℚ) (hε : ε ≤ 1 / 1000000000)
    (h : LibmEnclosed L I ε) (fuel : ℕ) (hfuel : 4 ≤ fuel) (M : ℚ)
    (k1 : ℤ) (a1 b1 v1 η1 : ℚ) (k2 : ℤ) (a2 b2 v2 η2 E1 E2 : ℚ)
    (hok : kepler_ok ε (torad M) k1 a1 b1 v1 η1 k2 a2 b2 v2 η2 E1 E2 = true) :
    ∃ Ec, kepler L fuel M eccent = some Ec ∧ E1 ≤ Ec ∧ Ec ≤ E2 := by
  have hcb := h.cos_abs_le
  have hsb := h.sin_abs_le
  have hsl := h.sin_lipschitz
  have hecc : eccent = 0.016718 := rfl
  have hEPS : EPSILON = 1 / 1000000 := by unfold EPSILON; norm_num
  unfold kepler
  simp only []
  obtain ⟨m, hm⟩ : ∃ m, m = torad M := ⟨_, rfl⟩
  rw [← hm] at hok ⊢
  have h0 : |m - eccent * L.sin m - m| ≤ 0.0167189 + 1.1 / 1000000000 := by
    have e : m - eccent * L.sin m - m = -(eccent * L.sin m) := by ring
    rw [e, abs_neg, abs_mul, hecc]
    have h0 : |(0.016718 : ℚ)| = 0.016718 := abs_of_pos (by norm_num)
    rw [h0]
    have := hsb m
    nlinarith [abs_nonneg (L.sin m)]
  obtain ⟨r, e', hr, hres, hre⟩ := kepler_loop_noisy L ε hε hcb hsl m 3 fuel m 0.0167189
    (by omega) (by norm_num) h0 (by rw [hEPS]; norm_num)
  refine ⟨r, hr, ?_⟩
  rw [hre]
  exact kepler_result_encl L I ε hε h m e' hres k1 a1 b1 v1 η1 k2 a2 b2 v2 η2 E1 E2 hok

/-! ### The longitude of the sun in `phase` -/

lemma fixangle_encl (z : ℚ) (q : ℤ) (lo hi : ℚ) (h0 : 0 ≤ lo) (h360 : hi < 360)
    (h1 : 360 * (q : ℚ) + lo ≤ z) (h2 : z ≤ 360 * (q : ℚ) + hi) :
    lo ≤ fixangle z ∧ fixangle z ≤ hi := by
  rw [fixangle_eq_mod]
  have e : (360.0 : ℚ) = 360 := by norm_num
  rw [e]
  exact mod_360_encl z q lo hi h0 h360 h1 h2

/-- The longitude of the sun computed by `phase`, for every eccentric anomaly
between `E1` and `E2`. -/
lemma sun_encl (L : Libm) (I : LibmInv) (ε : ℚ) (h : LibmEnclosed L I ε)
    (E1 E2 : ℚ) (k : ℤ) (a b t1 t2 T q1 q2 y1 y2 β1 : ℚ) (kβ1 : ℤ) (aβ1 bβ1 β2 : ℚ)
    (kβ2 : ℤ) (aβ2 bβ2 : ℚ) (qs : ℤ) (Λ1 Λ2 : ℚ)
    (hok : sun_ok ε E1 E2 k a b t1 t2 T q1 q2 y1 y2 β1 kβ1 aβ1 bβ1 β2 kβ2 aβ2 bβ2 qs Λ1 Λ2
      = true) :
    ∀ Ec, E1 ≤ Ec → Ec ≤ E2 → Λ1 ≤ phase_sun L I Ec ∧ phase_sun L I Ec ≤ Λ2 := by
  intro Ec hE1 hE2
  simp only [sun_ok, Bool.and_eq_true, Bool.or_eq_true, decide_eq_true_eq, and_assoc] at hok
  obtain ⟨-, hε0, hr, hcase, hT1, hT2, hqa, hq1, hq2, hq2pos, hy1a, hy1b, hy2a, hy2b, hβ1a, hβ1b, hr1,
    hp1, h11, h12, hβ2a, hβ2b, hr2, hp2, h21, h22, hΛ1, hΛ2, hΛ0, hΛ360⟩ := hok
  have htan := h.tan_encl (Ec / 2) (E1 / 2) (E2 / 2) (by linarith) (by linarith)
    k a b t1 t2 T hr hcase hT1 hT2
  have hq1pos : 0 < q1 := by linarith
  have hsq := h.sqrt_encl ((1 + eccent) / (1 - eccent)) q1 q2 hq1pos hq1 hq2 hq2pos
  unfold phase_sun
  simp only []
  generalize L.tan (Ec / 2) = t at htan ⊢
  generalize I.sqrt ((1 + eccent) / (1 - eccent)) = s at hsq ⊢
  have hspos : 0 ≤ s := by linarith [hsq.1]
  have hy1 : y1 ≤ s * t := by
    have h1 : s * (t1 - ε * (1 + T)) ≤ s * t := mul_le_mul_of_nonneg_left htan.1 hspos
    have h2 : y1 ≤ s * (t1 - ε * (1 + T)) := by
      rcases le_total 0 (t1 - ε * (1 + T)) with ht | ht
      · exact le_trans hy1a (mul_le_mul_of_nonneg_right hsq.1 ht)
      · exact le_trans hy1b (mul_le_mul_of_nonpos_right hsq.2 ht)
    exact le_trans h2 h1
  have hy2 : s * t ≤ y2 := by
    have h1 : s * t ≤ s * (t2 + ε * (1 + T)) := mul_le_mul_of_nonneg_left htan.2 hspos
    have h2 : s * (t2 + ε * (1 + T)) ≤ y2 := by
      rcases le_total 0 (t2 + ε * (1 + T)) with ht | ht
      · exact le_trans (mul_le_mul_of_nonneg_right hsq.2 ht) hy2b
      · exact le_trans (mul_le_mul_of_nonpos_right hsq.1 ht) hy2a
    exact le_trans h1 h2
  have hat := h.atan_encl (s * t) y1 y2 hy1 hy2 β1 kβ1 aβ1 bβ1 β2 kβ2 aβ2 bβ2
    hβ1a hβ1b hr1 hp1 h11 h12 hβ2a hβ2b hr2 hp2 h21 h22
  generalize I.atan (s * t) = at' at hat ⊢
  have hdeg : (0 : ℚ) < 180.0 / PI := by decide!
  apply fixangle_encl _ qs Λ1 Λ2 hΛ0 hΛ360
  · unfold todeg at hΛ1 ⊢
    have := mul_le_mul_of_nonneg_right hat.1 (le_of_lt hdeg)
    linarith
  · unfold todeg at hΛ2 ⊢
    have := mul_le_mul_of_nonneg_right hat.2 (le_of_lt hdeg)
    linarith

/-! ### The fraction returned by `phase` -/

lemma phase_fraction_of_kepler (L : Libm) (I : LibmInv) (fuel : ℕ) (pdate Ec : ℚ)
    (hk : kepler L fuel (phase_M pdate) eccent = some Ec) :
    (∃ r, phase L I fuel pdate = some r) ∧
      phase_fraction L I fuel pdate
        = fixangle (phase_moon_age L pdate (phase_sun L I Ec)) / 360.0 := by
  unfold phase_M at hk
  unfold phase_fraction phase
  simp only [hk, Option.bind_eq_bind, Option.some_bind, bind, Option.bind]
  exact ⟨⟨_, rfl⟩, rfl⟩

lemma torad_between (x x1 x2 : ℚ) (h1 : x1 ≤ x) (h2 : x ≤ x2) :
    (torad x1 ≤ torad x ∧ torad x ≤ torad x2) ∨ (torad x2 ≤ torad x ∧ torad x ≤ torad x1) := by
  have hp : (0 : ℚ) ≤ PI / 180.0 := by decide!
  left
  unfold torad
  exact ⟨mul_le_mul_of_nonneg_right h1 hp, mul_le_mul_of_nonneg_right h2 hp⟩

/-- The fraction returned by `phase`, for every longitude of the sun between
`Λ1` and `Λ2`. -/
lemma moon_encl (L : Libm) (I : LibmInv) (ε : ℚ) (h : LibmEnclosed L I ε) (pdate Λ1 Λ2 : ℚ)
    (k1 : ℤ) (a1 b1 v1 η1 : ℚ) (k2 : ℤ) (a2 b2 v2 η2 : ℚ)
    (k3 : ℤ) (a3 b3 v3 η3 : ℚ) (k4 : ℤ) (a4 b4 v4 η4 : ℚ) (k5 : ℤ) (a5 b5 v5 η5 : ℚ)
    (qm : ℤ) (φ1 φ2 : ℚ)
    (hok : moon_ok ε pdate Λ1 Λ2 k1 a1 b1 v1 η1 k2 a2 b2 v2 η2 k3 a3 b3 v3 η3 k4 a4 b4 v4 η4
      k5 a5 b5 v5 η5 qm φ1 φ2 = true) :
    ∀ Λ, Λ1 ≤ Λ → Λ ≤ Λ2 →
      φ1 ≤ fixangle (phase_moon_age L pdate Λ) / 360.0 ∧
        fixangle (phase_moon_age L pdate Λ) / 360.0 ≤ φ2 := by
  intro Λ hΛ1 hΛ2
  simp only [moon_ok, Bool.and_eq_true, decide_eq_true_eq, and_assoc] at hok
  obtain ⟨hk1, hk2, hk3, hk4, hk5, hA1, hA2, hφ1, hφ2⟩ := hok
  unfold phase_moon_age
  simp only []
  have eml : fixangle (13.1763966 * (pdate - epoch) + mmlong) = phase_ml pdate := rfl
  rw [eml]
  have eMM : fixangle (phase_ml pdate - 0.1114041 * (pdate - epoch) - mmlongp)
      = phase_MM pdate := rfl
  rw [eMM]
  have eM : fixangle (fixangle (360 / 365.2422 * (pdate - epoch)) + elonge - elongp)
      = phase_M pdate := rfl
  rw [eM]
  generalize phase_ml pdate = ml at hk1 hk3 hk4 hk5 hA1 hA2 ⊢
  generalize phase_MM pdate = MM at hk1 hk3 hk4 hk5 hA1 hA2 ⊢
  generalize phase_M pdate = M at hk2 ⊢
  -- the evection
  have hb1 : (torad (2 * (ml - Λ1) - MM) ≤ torad (2 * (ml - Λ) - MM) ∧
      torad (2 * (ml - Λ) - MM) ≤ torad (2 * (ml - Λ2) - MM)) ∨
      (torad (2 * (ml - Λ2) - MM) ≤ torad (2 * (ml - Λ) - MM) ∧
      torad (2 * (ml - Λ) - MM) ≤ torad (2 * (ml - Λ1) - MM)) := by
    rcases torad_between (2 * (ml - Λ) - MM) (2 * (ml - Λ2) - MM) (2 * (ml - Λ1) - MM)
      (by linarith) (by linarith) with hh | hh
    · exact Or.inr hh
    · exact Or.inl hh
  have hs1 := abs_le.mp (h.sin_of_ok _ _ _ hb1 k1 a1 b1 v1 η1 hk1)
  generalize L.sin (torad (2 * (ml - Λ) - MM)) = s1 at hs1 ⊢
  have hs2 := abs_le.mp (h.sin_of_ok (torad M) _ _ (Or.inl ⟨le_rfl, le_rfl⟩)
    k2 a2 b2 v2 η2 hk2)
  generalize L.sin (torad M) = s2 at hs2 ⊢
  clear hk1 hk2 hb1
  -- the corrected anomaly
  obtain ⟨MmP, hMmP⟩ : ∃ x, x = MM + 1.2739 * s1 - 0.1858 * s2 - 0.37 * s2 := ⟨_, rfl⟩
  rw [← hMmP]
  have hP1 : MM + 1.2739 * (v1 - η1) - 0.5558 * (v2 + η2) ≤ MmP := by
    rw [hMmP]; linarith [hs1.1, hs2.2]
  have hP2 : MmP ≤ MM + 1.2739 * (v1 + η1) - 0.5558 * (v2 - η2) := by
    rw [hMmP]; linarith [hs1.2, hs2.1]
  have hs3 := abs_le.mp (h.sin_of_ok (torad MmP) _ _
    (torad_between MmP _ _ hP1 hP2) k3 a3 b3 v3 η3 hk3)
  generalize L.sin (torad MmP) = s3 at hs3 ⊢
  have hs4 := abs_le.mp (h.sin_of_ok (torad (2 * MmP)) _ _
    (torad_between (2 * MmP) _ _ (by linarith) (by linarith)) k4 a4 b4 v4 η4 hk4)
  generalize L.sin (torad (2 * MmP)) = s4 at hs4 ⊢
  clear hk3 hk4 hP1 hP2 hMmP
  -- the true longitude
  obtain ⟨lP, hlP⟩ : ∃ x, x = ml + 1.2739 * s1 + 6.2886 * s3 - 0.1858 * s2 + 0.214 * s4 :=
    ⟨_, rfl⟩
  rw [← hlP]
  have hQ1 : ml + 1.2739 * (v1 - η1) + 6.2886 * (v3 - η3) - 0.1858 * (v2 + η2)
      + 0.214 * (v4 - η4) ≤ lP := by
    rw [hlP]; linarith [hs1.1, hs2.2, hs3.1, hs4.1]
  have hQ2 : lP ≤ ml + 1.2739 * (v1 + η1) + 6.2886 * (v3 + η3) - 0.1858 * (v2 - η2)
      + 0.214 * (v4 + η4) := by
    rw [hlP]; linarith [hs1.2, hs2.1, hs3.2, hs4.2]
  clear hlP hs1 hs2 hs3 hs4
  have hs5 := abs_le.mp (h.sin_of_ok (torad (2 * (lP - Λ))) _ _
    (torad_between (2 * (lP - Λ)) _ _ (by linarith) (by linarith)) k5 a5 b5 v5 η5 hk5)
  generalize L.sin (torad (2 * (lP - Λ))) = s5 at hs5 ⊢
  clear hk5
  have hfix := fixangle_encl (lP + 0.6583 * s5 - Λ) qm (360 * φ1) (360 * φ2) (by linarith)
    (by linarith) (by linarith [hs5.1]) (by linarith [hs5.2])
  have e360 : (360.0 : ℚ) = 360 := by norm_num
  rw [e360]
  constructor
  · rw [le_div_iff₀ (by norm_num)]
    linarith [hfix.1]
  · rw [div_le_iff₀ (by norm_num)]
    linarith [hfix.2]

/-- The fraction returned by `phase` at the Julian date `pdate`: `phase` returns,
and the fraction lies between `φ1` and `φ2`. -/
lemma phase_fraction_encl (L : Libm) (I : LibmInv) (ε : ℚ) (hε : ε ≤ 1 / 1000000000)
    (h : LibmEnclosed L I ε) (fuel : ℕ) (hfuel : 4 ≤ fuel) (pdate : ℚ)
    (kk1 : ℤ) (ka1 kb1 kv1 kη1 : ℚ) (kk2 : ℤ) (ka2 kb2 kv2 kη2 E1 E2 : ℚ)
    (k : ℤ) (a b t1 t2 T q1 q2 y1 y2 β1 : ℚ) (kβ1 : ℤ) (aβ1 bβ1 β2 : ℚ)
    (kβ2 : ℤ) (aβ2 bβ2 : ℚ) (qs : ℤ) (Λ1 Λ2 : ℚ)
    (k1 : ℤ) (a1 b1 v1 η1 : ℚ) (k2 : ℤ) (a2 b2 v2 η2 : ℚ)
    (k3 : ℤ) (a3 b3 v3 η3 : ℚ) (k4 : ℤ) (a4 b4 v4 η4 : ℚ) (k5 : ℤ) (a5 b5 v5 η5 : ℚ)
    (qm : ℤ) (φ1 φ2 : ℚ)
    (hk : kepler_ok ε (torad (phase_M pdate)) kk1 ka1 kb1 kv1 kη1 kk2 ka2 kb2 kv2 kη2 E1 E2
      = true)
    (hs : sun_ok ε E1 E2 k a b t1 t2 T q1 q2 y1 y2 β1 kβ1 aβ1 bβ1 β2 kβ2 aβ2 bβ2 qs Λ1 Λ2
      = true)
    (hm : moon_ok ε pdate Λ1 Λ2 k1 a1 b1 v1 η1 k2 a2 b2 v2 η2 k3 a3 b3 v3 η3 k4 a4 b4 v4 η4
      k5 a5 b5 v5 η5 qm φ1 φ2 = true) :
    (∃ r, phase L I fuel pdate = some r) ∧
      φ1 ≤ phase_fraction L I fuel pdate ∧ phase_fraction L I fuel pdate ≤ φ2 := by
  obtain ⟨Ec, hEc, hE1, hE2⟩ := kepler_encl L I ε hε h fuel hfuel (phase_M pdate)
    kk1 ka1 kb1 kv1 kη1 kk2 ka2 kb2 kv2 kη2 E1 E2 hk
  obtain ⟨hex, heq⟩ := phase_fraction_of_kepler L I fuel pdate Ec hEc
  rw [heq]
  have hΛ := sun_encl L I ε h E1 E2 k a b t1 t2 T q1 q2 y1 y2 β1 kβ1 aβ1 bβ1 β2 kβ2 aβ2 bβ2
    qs Λ1 Λ2 hs Ec hE1 hE2
  exact ⟨hex, moon_encl L I ε h pdate Λ1 Λ2 k1 a1 b1 v1 η1 k2 a2 b2 v2 η2 k3 a3 b3 v3 η3
    k4 a4 b4 v4 η4 k5 a5 b5 v5 η5 qm φ1 φ2 hm _ hΛ.1 hΛ.2⟩

/-! ### Enclosures of the new moons -/

lemma nth_new_moon_eq (L : Libm) (n : ℤ) :
    nth_new_moon L n = universal_from_dynamical
      (poly (nm_c n) 5 nm_approx_vec
        + (List.range 24).foldl (fun acc i => acc + nm_coef n i * L.sin (nm_arg n i))
            ((-0.00017) * L.sin (deg2rad (poly (nm_c n) 4 nm_omega_vec)))
        + 0.000325 * L.sin (deg2rad (poly (nm_c n) 3 nm_extra_vec))
        + (List.range 13).foldl (fun acc i => acc + nm_l_vec.getD i 0 *
            L.sin (deg2rad (nm_i_vec.getD i 0 + nm_j_vec.getD i 0 * ((n - 24724 : ℤ) : ℚ))))
            0.0) := rfl

/-- The moment of the `n`-th new moon, from enclosures of the first sines of its
correction; the other sines are bounded by their coefficients. `Y` is the
Gregorian year of the dynamical time. -/
lemma nth_new_moon_encl (L : Libm) (ε : ℚ) (hsb : ∀ x, |L.sin x| ≤ 1 + ε) (n : ℤ)
    (Sl Hl : List ℚ) (hlen : Hl.length = Sl.length)
    (hterms : ∀ i, i < Sl.length → |L.sin (nm_arg n i) - Sl.getD i 0| ≤ Hl.getD i (1 + ε))
    (Y : ℤ) (lo hi : ℚ)
    (hy1 : ((fixed_from_gregorian Y 1 1 : ℤ) : ℚ) ≤ poly (nm_c n) 5 nm_approx_vec
      + nm_sumS n Sl - nm_sumH n Hl (1 + ε) - nm_rest (1 + ε))
    (hy2 : poly (nm_c n) 5 nm_approx_vec + nm_sumS n Sl + nm_sumH n Hl (1 + ε)
      + nm_rest (1 + ε) < ((fixed_from_gregorian (Y + 1) 1 1 : ℤ) : ℚ))
    (hlo : lo ≤ poly (nm_c n) 5 nm_approx_vec + nm_sumS n Sl - nm_sumH n Hl (1 + ε)
      - nm_rest (1 + ε) - ephemeris_correction_year Y)
    (hhi : poly (nm_c n) 5 nm_approx_vec + nm_sumS n Sl + nm_sumH n Hl (1 + ε)
      + nm_rest (1 + ε) - ephemeris_correction_year Y ≤ hi) :
    lo ≤ nth_new_moon L n ∧ nth_new_moon L n ≤ hi := by
  have hall := terms_of_list (fun i => L.sin (nm_arg n i)) (1 + ε) (fun i => hsb _) Sl Hl hlen
    hterms
  have hsum := foldl_encl (fun i => L.sin (nm_arg n i)) (fun i => nm_coef n i)
    (fun i => Sl.getD i 0) (fun i => Hl.getD i (1 + ε)) hall (List.range 24)
    ((-0.00017) * L.sin (deg2rad (poly (nm_c n) 4 nm_omega_vec)))
  have hadd := foldl_encl
    (fun i => L.sin (deg2rad (nm_i_vec.getD i 0 + nm_j_vec.getD i 0 * ((n - 24724 : ℤ) : ℚ))))
    (fun i => nm_l_vec.getD i 0) (fun _ => 0) (fun _ => 1 + ε)
    (fun i => by simpa using hsb _) (List.range 13) 0.0
  have h1 := hsb (deg2rad (poly (nm_c n) 4 nm_omega_vec))
  have h2 := hsb (deg2rad (poly (nm_c n) 3 nm_extra_vec))
  rw [nth_new_moon_eq]
  unfold nm_sumS nm_sumH nm_rest at *
  simp only [mul_zero, List.map_const', List.sum_replicate, smul_zero, add_zero,
    List.length_range] at hadd
  generalize (List.range 24).foldl _ _ = corr at hsum ⊢
  generalize (List.range 13).foldl _ _ = addl at hadd ⊢
  generalize ((List.range 24).map (fun i => nm_coef n i * Sl.getD i 0)).sum = sS at *
  generalize ((List.range 24).map (fun i => |nm_coef n i| * Hl.getD i (1 + ε))).sum = sH at *
  generalize ((List.range 13).map (fun i => |nm_l_vec.getD i 0| * (1 + ε))).sum = sL at *
  generalize L.sin (deg2rad (poly (nm_c n) 4 nm_omega_vec)) = s1 at *
  generalize L.sin (deg2rad (poly (nm_c n) 3 nm_extra_vec)) = s2 at *
  generalize poly (nm_c n) 5 nm_approx_vec = ap at *
  rw [abs_le] at hsum hadd h1 h2
  have e0 : (0.0 : ℚ) = 0 := by norm_num
  rw [e0] at hadd
  rw [universal_from_dynamical_of_year _ Y (by norm_num at hsum hadd ⊢; linarith [hsum.1, hsum.2, hadd.1, hadd.2, h1.1, h1.2, h2.1, h2.2])
    (by norm_num at hsum hadd ⊢; linarith [hsum.1, hsum.2, hadd.1, hadd.2, h1.1, h1.2, h2.1, h2.2])]
  constructor
  · norm_num at hsum hadd hlo ⊢
    linarith [hsum.1, hsum.2, hadd.1, hadd.2, h1.1, h1.2, h2.1, h2.2]
  · norm_num at hsum hadd hhi ⊢
    linarith [hsum.1, hsum.2, hadd.1, hadd.2, h1.1, h1.2, h2.1, h2.2]

/-! ### The lunation index and the Chinese new moons -/

lemma round_eq_of_bounds (x : ℚ) (n : ℤ) (h0 : 0 ≤ x) (h1 : (n : ℚ) - 1 / 2 ≤ x)
    (h2 : x < (n : ℚ) + 1 / 2) : round x = n := by
  unfold round
  rw [if_pos h0, Int.floor_eq_iff]
  constructor <;> linarith

/-- The lunation index computed by `new_moon_before` and `new_moon_after` at the
moment `t`, from an enclosure of the phase. -/
lemma new_moon_index (ph : ℚ → ℚ) (t φ1 φ2 : ℚ) (n : ℤ)
    (hφ : φ1 ≤ ph (jd_from_moment t) ∧ ph (jd_from_moment t) ≤ φ2)
    (h0 : 0 ≤ t / MEAN_SYNODIC_MONTH - φ2)
    (h1 : (n : ℚ) - 1 / 2 ≤ t / MEAN_SYNODIC_MONTH - φ2)
    (h2 : t / MEAN_SYNODIC_MONTH - φ1 < (n : ℚ) + 1 / 2) :
    round (t / MEAN_SYNODIC_MONTH - ph (jd_from_moment t)) = n :=
  round_eq_of_bounds _ n (by linarith [hφ.2]) (by linarith [hφ.2]) (by linarith [hφ.1])

/-- The Beijing day of a moment after 1928 between `lo` and `hi`. -/
lemma chinese_day_of_moment (t lo hi : ℚ) (m : ℤ) (h1 : lo ≤ t) (h2 : t ≤ hi)
    (hY : 704188 ≤ lo) (hm1 : (m : ℚ) ≤ lo + 1 / 3) (hm2 : hi + 1 / 3 < (m : ℚ) + 1) :
    toInt (⌊standard_from_universal t (chinese_location t)⌋ : ℤ) = m := by
  rw [toInt_intCast]
  unfold standard_from_universal
  rw [chinese_location_timezone]
  have hfl : ¬ ⌊t⌋ < 704188 := by
    rw [not_lt]
    exact Int.le_floor.mpr (by push_cast; linarith)
  rw [if_neg hfl, Int.floor_eq_iff]
  constructor <;> linarith

lemma chinese_new_moon_on_or_after_result (L : Libm) (ph : ℚ → ℚ) (date n n1 m : ℤ)
    (lo hi : ℚ)
    (hn : round (midnight_in_china date / MEAN_SYNODIC_MONTH
      - ph (jd_from_moment (midnight_in_china date))) = n)
    (hn1 : n + 1 = n1)
    (henc : lo ≤ nth_new_moon L n1 ∧ nth_new_moon L n1 ≤ hi)
    (hY : 704188 ≤ lo) (hm1 : (m : ℚ) ≤ lo + 1 / 3) (hm2 : hi + 1 / 3 < (m : ℚ) + 1) :
    chinese_new_moon_on_or_after (ephemeris L ph) date = m := by
  have e : (ephemeris L ph).new_moon_after (midnight_in_china date) = nth_new_moon L n1 := by
    show nth_new_moon L (round (midnight_in_china date / MEAN_SYNODIC_MONTH
      - ph (jd_from_moment (midnight_in_china date))) + 1) = _
    rw [hn, hn1]
  unfold chinese_new_moon_on_or_after
  simp only []
  rw [e]
  exact chinese_day_of_moment _ lo hi m henc.1 henc.2 hY hm1 hm2

lemma chinese_new_moon_before_result (L : Libm) (ph : ℚ → ℚ) (date n m : ℤ)
    (lo hi : ℚ)
    (hn : round (midnight_in_china date / MEAN_SYNODIC_MONTH
      - ph (jd_from_moment (midnight_in_china date))) = n)
    (henc : lo ≤ nth_new_moon L n ∧ nth_new_moon L n ≤ hi)
    (hY : 704188 ≤ lo) (hm1 : (m : ℚ) ≤ lo + 1 / 3) (hm2 : hi + 1 / 3 < (m : ℚ) + 1) :
    chinese_new_moon_before (ephemeris L ph) date = m := by
  have e : (ephemeris L ph).new_moon_before (midnight_in_china date) = nth_new_moon L n := by
    show nth_new_moon L (round (midnight_in_china date / MEAN_SYNODIC_MONTH
      - ph (jd_from_moment (midnight_in_china date)))) = _
    rw [hn]
  unfold chinese_new_moon_before
  simp only []
  rw [e]
  exact chinese_day_of_moment _ lo hi m henc.1 henc.2 hY hm1 hm2

/-! ### Assembling the Chinese new year -/

lemma current_major_solar_term_result (L : Libm) (ph : ℚ → ℚ) (date j r : ℤ) (lo hi : ℚ)
    (henc : lo ≤ solar_longitude L (midnight_in_china date) ∧
      solar_longitude L (midnight_in_china date) ≤ hi)
    (h1 : 30 * (j : ℚ) ≤ lo) (h2 : hi < 30 * ((j : ℚ) + 1))
    (hr : toInt (amod (2 + ((j : ℤ) : ℚ)) 12) = r) :
    current_major_solar_term (ephemeris L ph) date = r := by
  have e : (ephemeris L ph).solar_longitude
      (universal_from_standard (date : ℚ) (chinese_location (date : ℚ)))
      = solar_longitude L (midnight_in_china date) := rfl
  have hf : ⌊solar_longitude L (midnight_in_china date) / 30.0⌋ = j := by
    have e30 : (30.0 : ℚ) = 30 := by norm_num
    rw [e30, Int.floor_eq_iff]
    constructor
    · rw [le_div_iff₀ (by norm_num)]
      linarith [henc.1]
    · rw [div_lt_iff₀ (by norm_num)]
      linarith [henc.2]
  unfold current_major_solar_term
  simp only []
  rw [e, hf]
  exact hr

lemma no_major_solar_term_false (A : Astro) (date d1 m a b : ℤ) (hd : date + 1 = d1)
    (hm : chinese_new_moon_on_or_after A d1 = m)
    (ha : current_major_solar_term A date = a) (hb : current_major_solar_term A m = b)
    (hab : a ≠ b) : no_major_solar_term A date = false := by
  unfold no_major_solar_term
  rw [hd, hm, ha, hb]
  exact decide_eq_false hab

/-- The new year of a sui without a leap month before its second month. -/
lemma chinese_new_year_in_sui_result (A : Astro) (fuel : ℕ) (date s1 s1' s1'' s2 s2' m12 m12' m13
    m11 : ℤ)
    (e1 : s1 + 370 = s1') (e2 : s1 + 1 = s1'') (e3 : s2 + 1 = s2') (e4 : m12 + 1 = m12')
    (hs1 : chinese_winter_solstice_on_or_before A fuel date = some s1)
    (hs2 : chinese_winter_solstice_on_or_before A fuel s1' = some s2)
    (hm12 : chinese_new_moon_on_or_after A s1'' = m12)
    (hm13 : chinese_new_moon_on_or_after A m12' = m13)
    (hm11 : chinese_new_moon_before A s2' = m11)
    (hnl : round (((m11 - m12 : ℤ) : ℚ) / MEAN_SYNODIC_MONTH) ≠ 12 ∨
      (no_major_solar_term A m12 = false ∧ no_major_solar_term A m13 = false)) :
    chinese_new_year_in_sui A fuel date = some m13 := by
  unfold chinese_new_year_in_sui
  simp only [hs1, Option.bind_eq_bind, Option.some_bind, bind, Option.bind, e1, hs2, e2, hm12, e3,
    hm11, e4, hm13]
  rw [if_neg]
  rintro ⟨hr, hn⟩
  rcases hnl with hnl | ⟨h12, h13⟩
  · exact hnl hr
  · rw [h12, h13] at hn
    simp at hn

lemma chinese_new_year_on_or_before_result (A : Astro) (fuel : ℕ) (date ny : ℤ)
    (hs : chinese_new_year_in_sui A fuel date = some ny) (hd : ny ≤ date) :
    chinese_new_year_on_or_before A fuel date = some ny := by
  unfold chinese_new_year_on_or_before
  simp only [hs, Option.bind_eq_bind, Option.some_bind, bind, Option.bind]
  rw [if_pos (ge_iff_le.mpr hd)]

/-! ### Assembling the conversions of the Chinese calendar -/

/-- The date of a day of a sui without a leap month. -/
lemma chinese_from_fixed_result (A : Astro) (fuel : ℕ) (date s1 s1' s1'' s2 s2' d1 m12 m11 m : ℤ)
    (cd : ChineseDate)
    (e1 : s1 + 370 = s1') (e2 : s1 + 1 = s1'') (e3 : s2 + 1 = s2') (e4 : date + 1 = d1)
    (hs1 : chinese_winter_solstice_on_or_before A fuel date = some s1)
    (hs2 : chinese_winter_solstice_on_or_before A fuel s1' = some s2)
    (hm12 : chinese_new_moon_on_or_after A s1'' = m12)
    (hm11 : chinese_new_moon_before A s2' = m11)
    (hm : chinese_new_moon_before A d1 = m)
    (hnl : round (((m11 - m12 : ℤ) : ℚ) / MEAN_SYNODIC_MONTH) ≠ 12)
    (hcd : chinese_date_of date m12 m 0 false = cd) :
    chinese_from_fixed A fuel date = some cd := by
  have hdec : decide (round (((m11 - m12 : ℤ) : ℚ) / MEAN_SYNODIC_MONTH) = 12) = false :=
    decide_eq_false hnl
  have hadj : chinese_month_adj A fuel false m12 m = some 0 := by
    unfold chinese_month_adj
    simp
  have hleap : chinese_leap_flag A fuel false m12 m = some false := by
    unfold chinese_leap_flag
    simp
  unfold chinese_from_fixed
  simp only [hs1, Option.bind_eq_bind, Option.some_bind, bind, Option.bind, e1, hs2, e2, hm12, e3,
    hm11, e4, hm, hdec, hadj, hleap]
  rw [← hcd]
  rfl

/-- The day returned by `fixed_from_chinese` when the month found at the first
new moon is not the month asked for. -/
lemma fixed_from_chinese_result (A : Astro) (fuel : ℕ) (cdate d : ChineseDate)
    (my ny ny' p p1 q : ℤ)
    (hmy : toInt (⌊(EPOCH_CHINESE : ℚ) +
      ((((cdate.cycle - 1) * 60 + (cdate.year - 1) : ℤ) : ℚ) + 0.5) * MEAN_TROPICAL_YEAR⌋ : ℤ)
      = my)
    (hny : chinese_new_year_on_or_before A fuel my = some ny)
    (e1 : ny + (cdate.month - 1) * 29 = ny')
    (hp : chinese_new_moon_on_or_after A ny' = p)
    (hd : chinese_from_fixed A fuel p = some d)
    (hne : ¬ (cdate.month = d.month ∧ cdate.leap = d.leap))
    (e2 : p + 1 = p1) (hq : chinese_new_moon_on_or_after A p1 = q) :
    fixed_from_chinese A fuel cdate = some (q + cdate.day - 1) := by
  unfold fixed_from_chinese
  simp only [hmy, hny, Option.bind_eq_bind, Option.some_bind, bind, Option.bind, e1, hp, hd]
  rw [if_neg hne, e2, hq]

/-! ### Enclosures from one check of the conditions -/

lemma terms_of_ok (L : Libm) (I : LibmInv) (ε : ℚ) (h : LibmEnclosed L I ε)
    (arg arg1 arg2 : ℕ → ℚ)
    (hb : ∀ i, (arg1 i ≤ arg i ∧ arg i ≤ arg2 i) ∨ (arg2 i ≤ arg i ∧ arg i ≤ arg1 i))
    (Kl : List ℤ) (Al Bl Sl Hl : List ℚ) (B : ℚ)
    (hok : terms_ok ε arg1 arg2 Kl Al Bl Sl Hl = true) :
    Hl.length = Sl.length ∧
      ∀ i, i < Sl.length → |L.sin (arg i) - Sl.getD i 0| ≤ Hl.getD i B := by
  simp only [terms_ok, Bool.and_eq_true, decide_eq_true_eq, List.all_eq_true,
    List.mem_range] at hok
  obtain ⟨hlen, hall⟩ := hok
  refine ⟨hlen, fun i hi => ?_⟩
  have h1 := h.sin_of_ok (arg i) (arg1 i) (arg2 i) (hb i) _ _ _ _ _ (hall i hi)
  have e : Hl.getD i B = Hl.getD i 0 := by
    rw [List.getD_eq_getElem _ _ (by omega), List.getD_eq_getElem _ _ (by omega)]
  rw [e]
  exact h1

lemma deg2rad_between (y z c c1 c2 : ℚ) (hc1 : c1 ≤ c) (hc2 : c ≤ c2) :
    (deg2rad (y + z * c1) ≤ deg2rad (y + z * c) ∧
      deg2rad (y + z * c) ≤ deg2rad (y + z * c2)) ∨
    (deg2rad (y + z * c2) ≤ deg2rad (y + z * c) ∧
      deg2rad (y + z * c) ≤ deg2rad (y + z * c1)) := by
  have hr : ∀ x : ℚ, deg2rad (y + z * x) = y * (M_PI / 180.0) + (z * (M_PI / 180.0)) * x := by
    intro x
    unfold deg2rad
    ring
  rw [hr, hr, hr]
  exact affine_between _ _ c c1 c2 hc1 hc2

/-- The solar longitude at the moment `t`. -/
lemma solar_longitude_of_ok (L : Libm) (I : LibmInv) (ε : ℚ) (h : LibmEnclosed L I ε) (t : ℚ)
    (Kl : List ℤ) (Al Bl Sl Hl : List ℚ) (q : ℤ) (lo hi : ℚ)
    (hok : solar_point_ok ε t Kl Al Bl Sl Hl q lo hi = true) :
    lo ≤ solar_longitude L t ∧ solar_longitude L t ≤ hi := by
  simp only [solar_point_ok, Bool.and_eq_true, decide_eq_true_eq, and_assoc] at hok
  obtain ⟨ht, h0, h360, hlo, hhi⟩ := hok
  obtain ⟨hlen, hterms⟩ := terms_of_ok L I ε h
    (fun i => deg2rad (yvec.getD i 0 + zvec.getD i 0 * julian_centuries t)) _ _
    (fun i => Or.inl ⟨le_rfl, le_rfl⟩) Kl Al Bl Sl Hl (1 + ε) ht
  exact solar_longitude_encl L ε h.sin_abs_le h.cos_abs_le t Sl Hl
    hlen hterms q lo hi h0 h360 hlo hhi

/-- The solar longitude at the moments between `τ1` and `τ2`. -/
lemma solar_longitude_near_of_ok (L : Libm) (I : LibmInv) (ε : ℚ) (h : LibmEnclosed L I ε)
    (τ1 τ2 : ℚ) (Y : ℤ) (c1 c2 : ℚ) (Kl : List ℤ) (Al Bl Sl Hl : List ℚ) (q : ℤ) (lo hi : ℚ)
    (hok : solar_near_ok ε τ1 τ2 Y c1 c2 Kl Al Bl Sl Hl q lo hi = true) :
    ∀ τ : ℚ, τ1 ≤ τ → τ ≤ τ2 → lo ≤ solar_longitude L τ ∧ solar_longitude L τ ≤ hi := by
  intro τ ht1 ht2
  simp only [solar_near_ok, Bool.and_eq_true, decide_eq_true_eq, and_assoc] at hok
  obtain ⟨hy1, hy2, hc1, hc2, ht, h0, h360, hlo, hhi⟩ := hok
  have hc := julian_centuries_bounds τ τ1 τ2 Y c1 c2 ht1 ht2 hy1 hy2 hc1 hc2
  obtain ⟨hlen, hterms⟩ := terms_of_ok L I ε h
    (fun i => deg2rad (yvec.getD i 0 + zvec.getD i 0 * julian_centuries τ)) _ _
    (fun i => deg2rad_between _ _ _ c1 c2 hc.1 hc.2) Kl Al Bl Sl Hl (1 + ε) ht
  exact solar_longitude_encl_int L ε h.sin_abs_le h.cos_abs_le τ
    c1 c2 hc.1 hc.2 Sl Hl hlen hterms q lo hi h0 h360 hlo hhi

/-- The winter solstice on or before `date` is the day `s`. -/
lemma winter_solstice_of_ok (L : Libm) (ph : ℚ → ℚ) (fuel : ℕ) (hfuel : 2 ≤ fuel)
    (date d1 s sm sp : ℤ) (l0 h0 : ℚ) (j : ℤ) (τ1 τ2 l1 h1 lo hi : ℚ)
    (e1 : date + 1 = d1) (e2 : s - 1 = sm) (e3 : s + 1 = sp)
    (hs0 : l0 ≤ solar_longitude L (midnight_in_china d1) ∧
      solar_longitude L (midnight_in_china d1) ≤ h0)
    (hst : ∀ τ, τ1 ≤ τ → τ ≤ τ2 → l1 ≤ solar_longitude L τ ∧ solar_longitude L τ ≤ h1)
    (hok : solstice_ok d1 s l0 h0 j τ1 τ2 l1 h1 lo hi = true)
    (hm1 : solar_longitude L (midnight_in_china sm) < 270)
    (hm2 : solar_longitude L (midnight_in_china s) < 270)
    (hm3 : 270 ≤ solar_longitude L (midnight_in_china sp)) :
    chinese_winter_solstice_on_or_before (ephemeris L ph) fuel date = some s := by
  simp only [solstice_ok, Bool.and_eq_true, decide_eq_true_eq, and_assoc] at hok
  obtain ⟨hj1, hj2, hτ1, hτ2, hl1, hh1, hlo, hhi, ht0, hslo, hshi⟩ := hok
  have hest := estimate_prior_encl (solar_longitude L) (midnight_in_china d1) l0 h0 j τ1 τ2 l1 h1
    lo hi hs0 hj1 hj2 hτ1 hτ2 hst hl1 hh1 hlo hhi ht0
  subst e1 e2 e3
  exact chinese_winter_solstice_result (ephemeris L ph) fuel date s lo hi hest hslo hshi hm1 hm2
    hm3 hfuel

/-- The moment of the `n`-th new moon. -/
lemma nth_new_moon_of_ok (L : Libm) (I : LibmInv) (ε : ℚ) (h : LibmEnclosed L I ε) (n : ℤ)
    (Kl : List ℤ) (Al Bl Sl Hl : List ℚ) (Y : ℤ) (lo hi : ℚ)
    (hok : nm_ok ε n Kl Al Bl Sl Hl Y lo hi = true) :
    lo ≤ nth_new_moon L n ∧ nth_new_moon L n ≤ hi := by
  simp only [nm_ok, Bool.and_eq_true, decide_eq_true_eq, and_assoc] at hok
  obtain ⟨ht, hy1, hy2, hlo, hhi⟩ := hok
  obtain ⟨hlen, hterms⟩ := terms_of_ok L I ε h (nm_arg n) _ _
    (fun i => Or.inl ⟨le_rfl, le_rfl⟩) Kl Al Bl Sl Hl (1 + ε) ht
  exact nth_new_moon_encl L ε h.sin_abs_le n Sl Hl hlen hterms Y lo hi hy1 hy2
    hlo hhi

/-- The lunation index computed by `new_moon_before` and `new_moon_after` at
the Beijing midnight of `date`, with the phase returned by `phase`; `phase`
returns there. -/
lemma lunation_index_of_ok (L : Libm) (I : LibmInv) (ε : ℚ) (hε : ε ≤ 1 / 1000000000)
    (h : LibmEnclosed L I ε) (fuel : ℕ) (hfuel : 4 ≤ fuel) (date : ℤ)
    (kk1 : ℤ) (ka1 kb1 kv1 kη1 : ℚ) (kk2 : ℤ) (ka2 kb2 kv2 kη2 E1 E2 : ℚ)
    (k : ℤ) (a b t1 t2 T q1 q2 y1 y2 β1 : ℚ) (kβ1 : ℤ) (aβ1 bβ1 β2 : ℚ)
    (kβ2 : ℤ) (aβ2 bβ2 : ℚ) (qs : ℤ) (Λ1 Λ2 : ℚ)
    (k1 : ℤ) (a1 b1 v1 η1 : ℚ) (k2 : ℤ) (a2 b2 v2 η2 : ℚ)
    (k3 : ℤ) (a3 b3 v3 η3 : ℚ) (k4 : ℤ) (a4 b4 v4 η4 : ℚ) (k5 : ℤ) (a5 b5 v5 η5 : ℚ)
    (qm : ℤ) (φ1 φ2 : ℚ) (n : ℤ)
    (hok : lunation_ok ε date kk1 ka1 kb1 kv1 kη1 kk2 ka2 kb2 kv2 kη2 E1 E2
      k a b t1 t2 T q1 q2 y1 y2 β1 kβ1 aβ1 bβ1 β2 kβ2 aβ2 bβ2 qs Λ1 Λ2
      k1 a1 b1 v1 η1 k2 a2 b2 v2 η2 k3 a3 b3 v3 η3 k4 a4 b4 v4 η4 k5 a5 b5 v5 η5 qm φ1 φ2 n
      = true) :
    (∃ r, phase L I fuel (jd_from_moment (midnight_in_china date)) = some r) ∧
    round (midnight_in_china date / MEAN_SYNODIC_MONTH
      - phase_fraction L I fuel (jd_from_moment (midnight_in_china date))) = n := by
  simp only [lunation_ok, Bool.and_eq_true, decide_eq_true_eq, and_assoc] at hok
  obtain ⟨hk, hs, hm, h0, h1, h2⟩ := hok
  have hp := phase_fraction_encl L I ε hε h fuel hfuel (jd_from_moment (midnight_in_china date))
    kk1 ka1 kb1 kv1 kη1 kk2 ka2 kb2 kv2 kη2 E1 E2
    k a b t1 t2 T q1 q2 y1 y2 β1 kβ1 aβ1 bβ1 β2 kβ2 aβ2 bβ2 qs Λ1 Λ2
    k1 a1 b1 v1 η1 k2 a2 b2 v2 η2 k3 a3 b3 v3 η3 k4 a4 b4 v4 η4 k5 a5 b5 v5 η5 qm φ1 φ2
    hk hs hm
  exact ⟨hp.1, new_moon_index (phase_fraction L I fuel) (midnight_in_china date) φ1 φ2 n hp.2
    h0 h1 h2⟩

/-! ### Library functions within a given distance of the real functions -/

lemma exists_rat_near (x : ℝ) (ε : ℚ) (hε : 0 < ε) : ∃ q : ℚ, |(q : ℝ) - x| ≤ (ε : ℝ) := by
  have hε' : (0 : ℝ) < (ε : ℝ) := by exact_mod_cast hε
  obtain ⟨q, h1, h2⟩ := exists_rat_btwn (show x - (ε : ℝ) < x + (ε : ℝ) by linarith)
  exact ⟨q, abs_le.mpr ⟨by linarith, by linarith⟩⟩

/-- There are rational-valued library functions within `ε` of the real ones. -/
lemma exists_libm_accurate (ε : ℚ) (hε : 0 < ε) : ∃ L I, LibmAccurate L I ε := by
  have hε' : (0 : ℝ) < (ε : ℝ) := by exact_mod_cast hε
  choose s hs using fun x : ℚ => exists_rat_near (Real.sin (x : ℝ)) ε hε
  choose c hc using fun x : ℚ => exists_rat_near (Real.cos (x : ℝ)) ε hε
  choose t ht using fun x : ℚ => exists_rat_near (Real.tan (x : ℝ)) ε hε
  choose q hq using fun x : ℚ => exists_rat_near (Real.sqrt (x : ℝ)) ε hε
  choose a ha using fun x : ℚ => exists_rat_near (Real.arctan (x : ℝ)) ε hε
  refine ⟨{ sin := s, cos := c, tan := t }, { sqrt := q, atan := a }, ?_⟩
  refine { sin := hs, cos := hc, tan := ?_, sqrt := fun x _ => hq x, atan := ha }
  intro x
  refine le_trans (ht x) ?_
  nlinarith [abs_nonneg (Real.tan (x : ℝ))]

/-! ### The Chinese new year of 2023 -/

set_option maxHeartbeats 4000000 in
/-- C2. For library functions within 10⁻⁹ of the real sine, cosine, tangent,
square root and arctangent, `chinese_new_year(2023)` returns the fixed day
738542, which is `fixed_from_gregorian(2023, 1, 22)`. The scan of the winter
solstice ends within 2 steps and `kepler` within 4 iterations: `phase` returns at
the four Beijing midnights at which `new_moon_before` and `new_moon_after` call
it. -/
theorem chinese_new_year_2023 (L : Libm) (I : LibmInv)
    (h : LibmAccurate L I (1 / 1000000000)) (fuel fuel' : ℕ) (hfuel : 2 ≤ fuel)
    (hfuel' : 4 ≤ fuel') :
    chinese_new_year (ephemeris L (phase_fraction L I fuel')) fuel 2023 = some 738542 ∧
    fixed_from_gregorian 2023 1 22 = 738542 ∧
    (∀ date ∈ [(738512 : ℤ), 738513, 738543, 738877],
      ∃ r, phase L I fuel' (jd_from_moment (midnight_in_china date)) = some r) := by
  have he := libm_enclosed L I (1 / 1000000000) (by norm_num) h
  -- enclosures of the solar longitude, of the new moons and of the phase
  have solar_longitude_at_738510 :
      268.6914 ≤ solar_longitude L (midnight_in_china 738510) ∧
        solar_longitude L (midnight_in_china 738510) ≤ 268.8446 :=
    solar_longitude_of_ok L I (1 / 1000000000) he (midnight_in_china 738510)
      [3, 96, 93, 96]
      [0.013298308, (-0.548419439), (-0.656811955), (-0.705900680)]
      [0.013298311, (-0.548419436), (-0.656811952), (-0.705900677)]
      [(-0.99991158), (-0.52133911), 0.79194286, (-0.64871953)]
      [3 / 10000000, 3 / 10000000, 3 / 10000000, 3 / 10000000]
      23 268.6914 268.8446 (by decide!)
  have solar_longitude_at_738511 :
      269.7092 ≤ solar_longitude L (midnight_in_china 738511) ∧
        solar_longitude L (midnight_in_china 738511) ≤ 269.8623 :=
    solar_longitude_of_ok L I (1 / 1000000000) he (midnight_in_china 738511)
      [3, 96, 93, 96]
      [0.013298752, (-0.531217427), (-0.639609814), (-0.688698864)]
      [0.013298755, (-0.531217424), (-0.639609811), (-0.688698861)]
      [(-0.99991157), (-0.50658337), 0.80232872, (-0.63553315)]
      [3 / 10000000, 3 / 10000000, 3 / 10000000, 3 / 10000000]
      23 269.7092 269.8623 (by decide!)
  have solar_longitude_at_738512 :
      270.7270 ≤ solar_longitude L (midnight_in_china 738512) ∧
        solar_longitude L (midnight_in_china 738512) ≤ 270.8802 :=
    solar_longitude_of_ok L I (1 / 1000000000) he (midnight_in_china 738512)
      [3, 96, 93, 96]
      [0.013299196, (-0.514015415), (-0.622407672), (-0.671497048)]
      [0.013299199, (-0.514015412), (-0.622407669), (-0.671497045)]
      [(-0.99991157), (-0.49167773), 0.81247716, (-0.62215871)]
      [3 / 10000000, 3 / 10000000, 3 / 10000000, 3 / 10000000]
      23 270.7270 270.8802 (by decide!)
  have solar_longitude_at_738703 :
      99.5014 ≤ solar_longitude L (midnight_in_china 738703) ∧
        solar_longitude L (midnight_in_china 738703) ≤ 99.6546 :=
    solar_longitude_of_ok L I (1 / 1000000000) he (midnight_in_china 738703)
      [3, 98, 95, 98]
      [0.013383965, (-0.370023542), (-0.478391041), (-0.527542499)]
      [0.013383968, (-0.370023539), (-0.478391038), (-0.527542496)]
      [(-0.99991044), 0.36163738, (-0.88773676), 0.50341147]
      [3 / 10000000, 3 / 10000000, 3 / 10000000, 3 / 10000000]
      24 99.5014 99.6546 (by decide!)
  have solar_longitude_near_738702 :
      ∀ τ : ℚ, 738510.250385 ≤ τ → τ ≤ 738510.405817 →
        269.2847 ≤ solar_longitude L τ ∧ solar_longitude L τ ≤ 269.5976 :=
    solar_longitude_near_of_ok L I (1 / 1000000000) he 738510.250385 738510.405817 2022
      0.2296988884864 0.2297031439828
      [3, 96, 93, 96]
      [0.013298567, (-0.538378309), (-0.646770750), (-0.695859665)]
      [0.013298639, (-0.535704563), (-0.644096984), (-0.693185949)]
      [(-0.99991157), (-0.51159616), 0.79883886, (-0.64001886)]
      [0.0000004, 0.0013372, 0.0013372, 0.0013372]
      23 269.2847 269.5976 (by decide!)
  have winter_solstice_before_738702 (ph : ℚ → ℚ) :
      chinese_winter_solstice_on_or_before (ephemeris L ph) fuel 738702 = some 738511 :=
    winter_solstice_of_ok L ph fuel hfuel 738702 738703 738511 738510 738512
      99.5014 99.6546 1 738510.250385 738510.405817 269.2847 269.5976 738510.6586 738511.1316
      (by norm_num) (by norm_num) (by norm_num)
      solar_longitude_at_738703 solar_longitude_near_738702 (by decide!)
      (lt_of_le_of_lt solar_longitude_at_738510.2 (by norm_num))
      (lt_of_le_of_lt solar_longitude_at_738511.2 (by norm_num))
      (le_trans (by norm_num) solar_longitude_at_738512.1)
  have solar_longitude_at_738875 :
      268.4444 ≤ solar_longitude L (midnight_in_china 738875) ∧
        solar_longitude L (midnight_in_china 738875) ≤ 268.5976 :=
    solar_longitude_of_ok L I (1 / 1000000000) he (midnight_in_china 738875)
      [3, 100, 97, 100]
      [0.013460301, (-0.552870167), (-0.661215371), (-0.710422737)]
      [0.013460304, (-0.552870164), (-0.661215368), (-0.710422734)]
      [(-0.99990941), (-0.52513196), 0.78924649, (-0.65215430)]
      [3 / 10000000, 3 / 10000000, 3 / 10000000, 3 / 10000000]
      24 268.4444 268.5976 (by decide!)
  have solar_longitude_at_738876 :
      269.4621 ≤ solar_longitude L (midnight_in_china 738876) ∧
        solar_longitude L (midnight_in_china 738876) ≤ 269.6153 :=
    solar_longitude_of_ok L I (1 / 1000000000) he (midnight_in_china 738876)
      [3, 100, 97, 100]
      [0.013460745, (-0.535668155), (-0.644013229), (-0.693220920)]
      [0.013460748, (-0.535668152), (-0.644013226), (-0.693220917)]
      [(-0.99990941), (-0.51041572), 0.79969263, (-0.63901800)]
      [3 / 10000000, 3 / 10000000, 3 / 10000000, 3 / 10000000]
      24 269.4621 269.6153 (by decide!)
  have solar_longitude_at_738877 :
      270.4800 ≤ solar_longitude L (midnight_in_china 738877) ∧
        solar_longitude L (midnight_in_china 738877) ≤ 270.6331 :=
    solar_longitude_of_ok L I (1 / 1000000000) he (midnight_in_china 738877)
      [3, 100, 97, 100]
      [0.013461189, (-0.518466144), (-0.626811088), (-0.676019104)]
      [0.013461192, (-0.518466141), (-0.626811085), (-0.676019101)]
      [(-0.99990940), (-0.49554844), 0.80990213, (-0.62569261)]
      [3 / 10000000, 3 / 10000000, 3 / 10000000, 3 / 10000000]
      24 270.4800 270.6331 (by decide!)
  have solar_longitude_at_738882 :
      275.5708 ≤ solar_longitude L (midnight_in_china 738882) ∧
        solar_longitude L (midnight_in_china 738882) ≤ 275.7239 :=
    solar_longitude_of_ok L I (1 / 1000000000) he (midnight_in_china 738882)
      [3, 100, 97, 100]
      [0.013463408, (-0.432456085), (-0.540800381), (-0.590010022)]
      [0.013463411, (-0.432456082), (-0.540800378), (-0.590010019)]
      [(-0.99990937), (-0.41910204), 0.85729690, (-0.55636935)]
      [3 / 10000000, 3 / 10000000, 3 / 10000000, 3 / 10000000]
      24 275.5708 275.7239 (by decide!)
  have solar_longitude_near_738881 :
      ∀ τ : ℚ, 738875.859417 ≤ τ → τ ≤ 738876.014747 →
        269.6575 ≤ solar_longitude L τ ∧ solar_longitude L τ ≤ 269.9703 :=
    solar_longitude_near_of_ok L I (1 / 1000000000) he 738875.859417 738876.014747 2023
      0.2397087186843 0.2397129713880
      [3, 100, 97, 100]
      [0.013460831, (-0.532352462), (-0.640697511), (-0.689905264)]
      [0.013460903, (-0.529680470), (-0.638025499), (-0.687233303)]
      [(-0.99990940), (-0.50641009), 0.80247690, (-0.63543310)]
      [0.0000004, 0.0013363, 0.0013364, 0.0013363]
      24 269.6575 269.9703 (by decide!)
  have winter_solstice_before_738881 (ph : ℚ → ℚ) :
      chinese_winter_solstice_on_or_before (ephemeris L ph) fuel 738881 = some 738876 :=
    winter_solstice_of_ok L ph fuel hfuel 738881 738882 738876 738875 738877
      275.5708 275.7239 0 738875.859417 738876.014747 269.6575 269.9703 738875.8895 738876.3623
      (by norm_num) (by norm_num) (by norm_num)
      solar_longitude_at_738882 solar_longitude_near_738881 (by decide!)
      (lt_of_le_of_lt solar_longitude_at_738875.2 (by norm_num))
      (lt_of_le_of_lt solar_longitude_at_738876.2 (by norm_num))
      (le_trans (by norm_num) solar_longitude_at_738877.1)
  have solar_longitude_at_738542 :
      301.2741 ≤ solar_longitude L (midnight_in_china 738542) ∧
        solar_longitude L (midnight_in_china 738542) ≤ 301.4272 :=
    solar_longitude_of_ok L I (1 / 1000000000) he (midnight_in_china 738542)
      [3, 96, 93, 96]
      [0.013312510, 0.002045213, (-0.106343155), (-0.155442282)]
      [0.013312513, 0.002045216, (-0.106343152), (-0.155442279)]
      [(-0.99991139), 0.00204521, 0.99435089, (-0.15481706)]
      [3 / 10000000, 3 / 10000000, 3 / 10000000, 3 / 10000000]
      23 301.2741 301.4272 (by decide!)
  have solar_longitude_at_738571 :
      330.6610 ≤ solar_longitude L (midnight_in_china 738571) ∧
        solar_longitude L (midnight_in_china 738571) ≤ 330.8142 :=
    solar_longitude_of_ok L I (1 / 1000000000) he (midnight_in_china 738571)
      [3, 96, 93, 96]
      [0.013325381, 0.500903555, 0.392518946, 0.343410393]
      [0.013325384, 0.500903558, 0.392518949, 0.343410396]
      [(-0.99991122), 0.48021829, 0.92394845, 0.33670031]
      [3 / 10000000, 3 / 10000000, 3 / 10000000, 3 / 10000000]
      23 330.6610 330.8142 (by decide!)
  have major_term_at_738512 (ph : ℚ → ℚ) :
      current_major_solar_term (ephemeris L ph) 738512 = 11 :=
    current_major_solar_term_result L ph 738512 9 11 270.7270 270.8802
      solar_longitude_at_738512 (by norm_num) (by norm_num) (by decide!)
  have major_term_at_738542 (ph : ℚ → ℚ) :
      current_major_solar_term (ephemeris L ph) 738542 = 12 :=
    current_major_solar_term_result L ph 738542 10 12 301.2741 301.4272
      solar_longitude_at_738542 (by norm_num) (by norm_num) (by decide!)
  have major_term_at_738571 (ph : ℚ → ℚ) :
      current_major_solar_term (ephemeris L ph) 738571 = 1 :=
    current_major_solar_term_result L ph 738571 11 1 330.6610 330.8142
      solar_longitude_at_738571 (by norm_num) (by norm_num) (by decide!)
  have nth_new_moon_at_25008 :
      738512.383602 ≤ nth_new_moon L 25008 ∧ nth_new_moon L 25008 ≤ 738512.476727 :=
    nth_new_moon_of_ok L I (1 / 1000000000) he 25008
      [1220, 92]
      [(-0.461212225), (-0.201154455)]
      [(-0.461212222), (-0.201154452)]
      [(-0.44503400), (-0.19980064)]
      [3 / 10000000, 3 / 10000000]
      2022 738512.383602 738512.476727 (by decide!)
  have nth_new_moon_at_25009 :
      738541.823754 ≤ nth_new_moon L 25009 ∧ nth_new_moon L 25009 ≤ 738541.916879 :=
    nth_new_moon_of_ok L I (1 / 1000000000) he 25009
      [1224, 92]
      [(-0.010621632), 0.306829850]
      [(-0.010621629), 0.306829853]
      [(-0.01062143), 0.30203807]
      [3 / 10000000, 3 / 10000000]
      2023 738541.823754 738541.916879 (by decide!)
  have nth_new_moon_at_25010 :
      738571.249915 ≤ nth_new_moon L 25010 ∧ nth_new_moon L 25010 ≤ 738571.343039 :=
    nth_new_moon_of_ok L I (1 / 1000000000) he 25010
      [1228, 93]
      [0.439968961, (-0.755982173)]
      [0.439968964, (-0.755982170)]
      [0.42591138, 0.72759814]
      [3 / 10000000, 3 / 10000000]
      2023 738571.249915 738571.343039 (by decide!)
  have nth_new_moon_at_25020 :
      738866.934740 ≤ nth_new_moon L 25020 ∧ nth_new_moon L 25020 ≤ 738867.027864 :=
    nth_new_moon_of_ok L I (1 / 1000000000) he 25020
      [1271, 96]
      [0.233485929, (-0.388528113)]
      [0.233485932, (-0.388528110)]
      [(-0.97286577), (-0.37882664)]
      [3 / 10000000, 3 / 10000000]
      2023 738866.934740 738867.027864 (by decide!)
  have lunation_index_at_738512 :
      (∃ r, phase L I fuel' (jd_from_moment (midnight_in_china 738512)) = some r) ∧
      round (midnight_in_china 738512 / MEAN_SYNODIC_MONTH
        - phase_fraction L I fuel' (jd_from_moment (midnight_in_china 738512))) = 25007 :=
    lunation_index_of_ok L I (1 / 1000000000) le_rfl he fuel' hfuel' 738512
      4 (-0.215679430) (-0.182241427) (-0.19765037) 0.0167194
      4 (-0.202545263) (-0.201984231) (-0.20088842) 0.0002809 6.080859709 6.080873143
      2 (-0.101162801) (-0.101156081) (-0.10150995) (-0.10150189) 0.102 1.016860110 1.016860113
        (-0.10322143) (-0.10321322)
      (-0.1028582) 0 (-0.102858201) (-0.102858198) (-0.1028480) 0 (-0.102848001) (-0.102847998) 0
        270.809721 270.810891
      (-4) 0.352606541 0.352647384 0.34536432 0.0000208
      4 (-0.198960430) (-0.198960427) (-0.19765037) 0.0000004
      4 (-0.592723319) (-0.592722384) (-0.55862149) 0.0000008
      7 0.385349689 0.385351558 (-0.92666670) 0.0000013
      0 (-0.362621301) (-0.362578232) (-0.35470615) 0.0000219
      (-1) 0.9704948 0.9704984 25007
      (by decide!)
  have lunation_index_at_738513 :
      (∃ r, phase L I fuel' (jd_from_moment (midnight_in_china 738513)) = some r) ∧
      round (midnight_in_china 738513 / MEAN_SYNODIC_MONTH
        - phase_fraction L I fuel' (jd_from_moment (midnight_in_china 738513))) = 25008 :=
    lunation_index_of_ok L I (1 / 1000000000) le_rfl he fuel' hfuel' 738513
      4 (-0.198476638) (-0.165038635) (-0.18075854) 0.0167194
      4 (-0.185060075) (-0.184499042) (-0.18372985) 0.0002809 6.098349358 6.098362792
      2 (-0.092417976) (-0.092411256) (-0.09268260) (-0.09267461) 0.093 1.016860110 1.016860113
        (-0.09424525) (-0.09423711)
      (-0.0939687) 0 (-0.093968701) (-0.093968698) (-0.0939586) 0 (-0.093958601) (-0.093958598) 0
        271.828383 271.829541
      (-4) 0.548964820 0.549005245 0.52182168 0.0000206
      4 (-0.181757638) (-0.181757635) (-0.18075854) 0.0000004
      4 (-0.360936730) (-0.360935803) (-0.35315033) 0.0000008
      8 (-0.721873459) (-0.721871608) (-0.66079130) 0.0000013
      0 0.116590982 0.116633615 0.11634819 0.0000217
      0 0.0094907 0.0094943 25008
      (by decide!)
  have lunation_index_at_738543 :
      (∃ r, phase L I fuel' (jd_from_moment (midnight_in_china 738543)) = some r) ∧
      round (midnight_in_china 738543 / MEAN_SYNODIC_MONTH
        - phase_fraction L I fuel' (jd_from_moment (midnight_in_china 738543))) = 25009 :=
    lunation_index_of_ok L I (1 / 1000000000) le_rfl he fuel' hfuel' 738543
      0 0.317607098 0.351045101 0.32813266 0.0167194
      0 0.339531305 0.340092338 0.33330968 0.0002809 0.339891654 0.339905088
      0 0.169945826 0.169952545 0.17160018 0.17160884 0.172 1.016860110 1.016860113 0.17449337
        0.17450219
      0.1727530 0 0.172752999 0.172753002 0.1727637 0 0.172763699 0.172763702 0 302.392438
        302.393665
      0 0.156366497 0.156409330 0.15575122 0.0000218
      0 0.334326098 0.334326101 0.32813266 0.0000004
      0 0.183616374 0.183617354 0.18258682 0.0000008
      0 0.367232749 0.367234706 0.35903498 0.0000013
      0 0.387262325 0.387307473 0.37767580 0.0000229
      0 0.0315079 0.0315117 25009
      (by decide!)
  have lunation_index_at_738877 :
      (∃ r, phase L I fuel' (jd_from_moment (midnight_in_china 738877)) = some r) ∧
      round (midnight_in_china 738877 / MEAN_SYNODIC_MONTH
        - phase_fraction L I fuel' (jd_from_moment (midnight_in_china 738877))) = 25020 :=
    lunation_index_of_ok L I (1 / 1000000000) le_rfl he fuel' hfuel' 738877
      4 (-0.219845946) (-0.186407943) (-0.20173297) 0.0167194
      4 (-0.206780032) (-0.206218999) (-0.20503505) 0.0002809 6.076623870 6.076637304
      2 (-0.103280720) (-0.103274000) (-0.10365017) (-0.10364209) 0.104 1.016860110 1.016860113
        (-0.10539773) (-0.10538950)
      (-0.1050111) 0 (-0.105011101) (-0.105011098) (-0.1050008) 0 (-0.105000801) (-0.105000798) 0
        270.563017 270.564198
      (-6) 0.187509590 0.187550817 (-0.18643297) 0.0000210
      4 (-0.203126946) (-0.203126943) (-0.20173297) 0.0000004
      1 (-0.626808294) (-0.626807350) 0.80990405 0.0000008
      1 0.317179739 0.317181626 0.95011851 0.0000013
      (-5) (-0.259210701) (-0.259167230) (-0.96659816) 0.0000221
      (-1) 0.3526050 0.3526087 25020
      (by decide!)
  have new_moon_on_or_after_738512 :
      chinese_new_moon_on_or_after (ephemeris L (phase_fraction L I fuel')) 738512 = 738512 :=
    chinese_new_moon_on_or_after_result L (phase_fraction L I fuel') 738512 25007 25008 738512
      738512.383602 738512.476727 lunation_index_at_738512.2 (by norm_num)
      nth_new_moon_at_25008 (by norm_num) (by norm_num) (by norm_num)
  have new_moon_on_or_after_738513 :
      chinese_new_moon_on_or_after (ephemeris L (phase_fraction L I fuel')) 738513 = 738542 :=
    chinese_new_moon_on_or_after_result L (phase_fraction L I fuel') 738513 25008 25009 738542
      738541.823754 738541.916879 lunation_index_at_738513.2 (by norm_num)
      nth_new_moon_at_25009 (by norm_num) (by norm_num) (by norm_num)
  have new_moon_on_or_after_738543 :
      chinese_new_moon_on_or_after (ephemeris L (phase_fraction L I fuel')) 738543 = 738571 :=
    chinese_new_moon_on_or_after_result L (phase_fraction L I fuel') 738543 25009 25010 738571
      738571.249915 738571.343039 lunation_index_at_738543.2 (by norm_num)
      nth_new_moon_at_25010 (by norm_num) (by norm_num) (by norm_num)
  have new_moon_before_738877 :
      chinese_new_moon_before (ephemeris L (phase_fraction L I fuel')) 738877 = 738867 :=
    chinese_new_moon_before_result L (phase_fraction L I fuel') 738877 25020 738867
      738866.934740 738867.027864 lunation_index_at_738877.2
      nth_new_moon_at_25020 (by norm_num) (by norm_num) (by norm_num)
  -- the new year
  refine ⟨?_, by decide!, ?_⟩
  · unfold chinese_new_year
    rw [show fixed_from_gregorian 2023 7 1 = 738702 by decide!]
    apply chinese_new_year_on_or_before_result _ _ _ _ ?_ (by norm_num)
    apply chinese_new_year_in_sui_result _ fuel 738702 738511 738881 738512 738876 738877
      738512 738513 738542 738867 (by norm_num) (by norm_num) (by norm_num) (by norm_num)
      (winter_solstice_before_738702 _)
      (winter_solstice_before_738881 _)
      new_moon_on_or_after_738512
      new_moon_on_or_after_738513
      new_moon_before_738877
    right
    constructor
    · exact no_major_solar_term_false _ 738512 738513 738542 11 12 (by norm_num)
        new_moon_on_or_after_738513 (major_term_at_738512 _)
        (major_term_at_738542 _) (by norm_num)
    · exact no_major_solar_term_false _ 738542 738543 738571 12 1 (by norm_num)
        new_moon_on_or_after_738543 (major_term_at_738542 _)
        (major_term_at_738571 _) (by norm_num)
  · intro date hd
    simp only [List.mem_cons, List.mem_singleton, List.not_mem_nil, or_false] at hd
    rcases hd with rfl | rfl | rfl | rfl
    · exact lunation_index_at_738512.1
    · exact lunation_index_at_738513.1
    · exact lunation_index_at_738543.1
    · exact lunation_index_at_738877.1

theorem chinese_new_year_2023_witness :
    ∃ L I, LibmAccurate L I (1 / 1000000000) ∧
      chinese_new_year (ephemeris L (phase_fraction L I 4)) 2 2023 = some 738542 := by
  obtain ⟨L, I, h⟩ := exists_libm_accurate (1 / 1000000000) (by norm_num)
  exact ⟨L, I, h, (chinese_new_year_2023 L I h 2 4 (by norm_num) (by norm_num)).1⟩

/-! ### The Chinese round trip on 3 February 2030 -/

set_option maxHeartbeats 4000000 in
/-- C1. The round trip fails on 3 February 2030, the fixed day 741111. For
library functions within 10⁻⁹ of the real sine, cosine, tangent, square root and
arctangent, `chinese_from_fixed(741111)` is day 1 of month 1 of year 47 of cycle
78, and `fixed_from_chinese` of that date returns 741170, which is 59 days
later. `new_moon_before` and `new_moon_after` take the lunation index from
`phase` of moonphase.c and return `nth_new_moon` of that index and of the next
one, without comparing them with the moment asked. At the Beijing midnight of
741111 `phase` reports a new moon just past, but `nth_new_moon` of that index
falls minutes after the midnight: the new moon before 741112 is on the day
741111, and the new moon on or after 741111 is on the day 741140. `phase`
returns at the six Beijing midnights at which it is called. -/
theorem chinese_round_trip_fails_2030 (L : Libm) (I : LibmInv)
    (h : LibmAccurate L I (1 / 1000000000)) (fuel fuel' : ℕ) (hfuel : 2 ≤ fuel)
    (hfuel' : 4 ≤ fuel') :
    gregorian_from_fixed 741111 = (2030, 2, 3) ∧
    chinese_from_fixed (ephemeris L (phase_fraction L I fuel')) fuel 741111
      = some { cycle := 78, year := 47, month := 1, leap := false, day := 1 } ∧
    fixed_from_chinese (ephemeris L (phase_fraction L I fuel')) fuel
      { cycle := 78, year := 47, month := 1, leap := false, day := 1 } = some 741170 ∧
    chinese_new_moon_before (ephemeris L (phase_fraction L I fuel')) 741112 = 741111 ∧
    chinese_new_moon_on_or_after (ephemeris L (phase_fraction L I fuel')) 741111 = 741140 ∧
    (∀ date ∈ [(741068 : ℤ), 741082, 741111, 741112, 741141, 741434],
      ∃ r, phase L I fuel' (jd_from_moment (midnight_in_china date)) = some r) := by
  have he := libm_enclosed L I (1 / 1000000000) (by norm_num) h
  -- enclosures of the solar longitude, of the new moons and of the phase
  have solar_longitude_at_741066 :
      267.9801 ≤ solar_longitude L (midnight_in_china 741066) ∧
        solar_longitude L (midnight_in_china 741066) ≤ 268.1333 :=
    solar_longitude_of_ok L I (1 / 1000000000) he (midnight_in_china 741066)
      [3, 124, 121, 124]
      [0.014432705, (-0.562372498), (-0.670433693), (-0.720353229)]
      [0.014432708, (-0.562372495), (-0.670433690), (-0.720353226)]
      [(-0.99989585), (-0.53319481), 0.78355228, (-0.65965019)]
      [3 / 10000000, 3 / 10000000, 3 / 10000000, 3 / 10000000]
      30 267.9801 268.1333 (by decide!)
  have solar_longitude_at_741067 :
      268.9978 ≤ solar_longitude L (midnight_in_china 741067) ∧
        solar_longitude L (midnight_in_china 741067) ≤ 269.1509 :=
    solar_longitude_of_ok L I (1 / 1000000000) he (midnight_in_china 741067)
      [3, 124, 121, 124]
      [0.014433149, (-0.545170487), (-0.653231551), (-0.703151413)]
      [0.014433152, (-0.545170484), (-0.653231548), (-0.703151410)]
      [(-0.99989584), (-0.51856387), 0.79412396, (-0.64662482)]
      [3 / 10000000, 3 / 10000000, 3 / 10000000, 3 / 10000000]
      30 268.9978 269.1509 (by decide!)
  have solar_longitude_at_741068 :
      270.0549 ≤ solar_longitude L (midnight_in_china 741068) ∧
        solar_longitude L (midnight_in_china 741068) ≤ 270.0960 :=
    solar_longitude_of_ok L I (1 / 1000000000) he (midnight_in_china 741068)
      [3, 124, 121, 124, 243, 241, 123, 243, 113, 3]
      [0.014433593, (-0.527968475), (-0.636029410), (-0.685949596), 0.470154971, (-0.422419677),
        (-0.698552692), 0.334032921, (-0.746201686), (-0.261045421)]
      [0.014433596, (-0.527968472), (-0.636029407), (-0.685949593), 0.470154974, (-0.422419674),
        (-0.698552689), 0.334032924, (-0.746201683), (-0.261045418)]
      [(-0.99989584), (-0.50377948), 0.80446065, (-0.63340811), (-0.89149809), 0.91209962,
        (-0.76577378), (-0.94472781), 0.73427268, (-0.96612069)]
      [3 / 10000000, 3 / 10000000, 3 / 10000000, 3 / 10000000, 3 / 10000000, 3 / 10000000,
        3 / 10000000, 3 / 10000000, 3 / 10000000, 3 / 10000000]
      30 270.0549 270.0960 (by decide!)
  have solar_longitude_at_741432 :
      268.7508 ≤ solar_longitude L (midnight_in_china 741432) ∧
        solar_longitude L (midnight_in_china 741432) ≤ 268.9039 :=
    solar_longitude_of_ok L I (1 / 1000000000) he (midnight_in_china 741432)
      [3, 128, 125, 128]
      [0.014595142, (-0.549621206), (-0.657634957), (-0.707673460)]
      [0.014595145, (-0.549621203), (-0.657634954), (-0.707673457)]
      [(-0.99989349), (-0.52236426), 0.79144007, (-0.65006765)]
      [3 / 10000000, 3 / 10000000, 3 / 10000000, 3 / 10000000]
      31 268.7508 268.9039 (by decide!)
  have solar_longitude_at_741433 :
      269.7685 ≤ solar_longitude L (midnight_in_china 741433) ∧
        solar_longitude L (midnight_in_china 741433) ≤ 269.9217 :=
    solar_longitude_of_ok L I (1 / 1000000000) he (midnight_in_china 741433)
      [3, 128, 125, 128]
      [0.014595586, (-0.532419194), (-0.640432816), (-0.690471644)]
      [0.014595589, (-0.532419191), (-0.640432813), (-0.690471641)]
      [(-0.99989349), (-0.50761916), 0.80183721, (-0.63690086)]
      [3 / 10000000, 3 / 10000000, 3 / 10000000, 3 / 10000000]
      31 269.7685 269.9217 (by decide!)
  have solar_longitude_at_741434 :
      270.7864 ≤ solar_longitude L (midnight_in_china 741434) ∧
        solar_longitude L (midnight_in_china 741434) ≤ 270.9395 :=
    solar_longitude_of_ok L I (1 / 1000000000) he (midnight_in_china 741434)
      [3, 128, 125, 128]
      [0.014596030, (-0.515217183), (-0.623230675), (-0.673269827)]
      [0.014596033, (-0.515217180), (-0.623230672), (-0.673269824)]
      [(-0.99989348), (-0.49272385), 0.81199708, (-0.62354562)]
      [3 / 10000000, 3 / 10000000, 3 / 10000000, 3 / 10000000]
      31 270.7864 270.9395 (by decide!)
  have solar_longitude_at_741112 :
      314.7836 ≤ solar_longitude L (midnight_in_china 741112) ∧
        solar_longitude L (midnight_in_china 741112) ≤ 314.9368 :=
    solar_longitude_of_ok L I (1 / 1000000000) he (midnight_in_china 741112)
      [3, 124, 121, 124]
      [0.014453121, 0.228920328, 0.120865097, 0.070930608]
      [0.014453124, 0.228920331, 0.120865100, 0.070930611]
      [(-0.99989556), 0.22692615, 0.99270470, 0.07087115]
      [3 / 10000000, 3 / 10000000, 3 / 10000000, 3 / 10000000]
      30 314.7836 314.9368 (by decide!)
  have solar_longitude_near_741111 :
      ∀ τ : ℚ, 741066.075513 ≤ τ → τ ≤ 741066.230945 →
        268.3954 ≤ solar_longitude L τ ∧ solar_longitude L τ ≤ 268.7083 :=
    solar_longitude_near_of_ok L I (1 / 1000000000) he 741066.075513 741066.230945 2029
      0.2996735699785 0.2996778254748
      [3, 124, 121, 124]
      [0.014432887, (-0.555339519), (-0.663400660), (-0.713320330)]
      [0.014432959, (-0.552665773), (-0.660726894), (-0.710646614)]
      [(-0.99989585), (-0.52609539), 0.78872522, (-0.65333668)]
      [0.0000004, 0.0013372, 0.0013372, 0.0013372]
      30 268.3954 268.7083 (by decide!)
  have winter_solstice_before_741111 (ph : ℚ → ℚ) :
      chinese_winter_solstice_on_or_before (ephemeris L ph) fuel 741111 = some 741067 :=
    winter_solstice_of_ok L ph fuel hfuel 741111 741112 741067 741066 741068
      314.7836 314.9368 0 741066.075513 741066.230945 268.3954 268.7083 741067.3860 741067.8590
      (by norm_num) (by norm_num) (by norm_num)
      solar_longitude_at_741112 solar_longitude_near_741111 (by decide!)
      (lt_of_le_of_lt solar_longitude_at_741066.2 (by norm_num))
      (lt_of_le_of_lt solar_longitude_at_741067.2 (by norm_num))
      (le_trans (by norm_num) solar_longitude_at_741068.1)
  have solar_longitude_at_741141 :
      344.0371 ≤ solar_longitude L (midnight_in_china 741141) ∧
        solar_longitude L (midnight_in_china 741141) ≤ 344.1903 :=
    solar_longitude_of_ok L I (1 / 1000000000) he (midnight_in_china 741141)
      [3, 124, 121, 124]
      [0.014465991, 0.727778670, 0.619727198, 0.569783283]
      [0.014465994, 0.727778673, 0.619727201, 0.569783286]
      [(-0.99989537), 0.66521271, 0.81403694, 0.53944958]
      [3 / 10000000, 3 / 10000000, 3 / 10000000, 3 / 10000000]
      30 344.0371 344.1903 (by decide!)
  have solar_longitude_near_741140 :
      ∀ τ : ℚ, 741065.396034 ≤ τ → τ ≤ 741065.551466 →
        267.7040 ≤ solar_longitude L τ ∧ solar_longitude L τ ≤ 268.0169 :=
    solar_longitude_near_of_ok L I (1 / 1000000000) he 741065.396034 741065.551466 2029
      0.2996549668573 0.2996592223537
      [3, 124, 121, 124]
      [0.014432585, (-0.567027925), (-0.675089154), (-0.725008603)]
      [0.014432657, (-0.564354179), (-0.672415388), (-0.722334887)]
      [(-0.99989585), (-0.53599934), 0.78148605, (-0.66214066)]
      [0.0000004, 0.0013372, 0.0013372, 0.0013372]
      30 267.7040 268.0169 (by decide!)
  have winter_solstice_before_741140 (ph : ℚ → ℚ) :
      chinese_winter_solstice_on_or_before (ephemeris L ph) fuel 741140 = some 741067 :=
    winter_solstice_of_ok L ph fuel hfuel 741140 741141 741067 741066 741068
      344.0371 344.1903 0 741065.396034 741065.551466 267.7040 268.0169 741067.4080 741067.8809
      (by norm_num) (by norm_num) (by norm_num)
      solar_longitude_at_741141 solar_longitude_near_741140 (by decide!)
      (lt_of_le_of_lt solar_longitude_at_741066.2 (by norm_num))
      (lt_of_le_of_lt solar_longitude_at_741067.2 (by norm_num))
      (le_trans (by norm_num) solar_longitude_at_741068.1)
  have solar_longitude_at_741304 :
      141.8185 ≤ solar_longitude L (midnight_in_china 741304) ∧
        solar_longitude L (midnight_in_china 741304) ≤ 141.9716 :=
    solar_longitude_of_ok L I (1 / 1000000000) he (midnight_in_china 741304)
      [3, 126, 123, 126]
      [0.014538334, 0.390113938, 0.282083595, 0.232086698]
      [0.014538337, 0.390113941, 0.282083598, 0.232086701]
      [(-0.99989432), (-0.38029380), (-0.96047754), (-0.23000877)]
      [3 / 10000000, 3 / 10000000, 3 / 10000000, 3 / 10000000]
      31 141.8185 141.9716 (by decide!)
  have solar_longitude_near_741303 :
      ∀ τ : ℚ, 741068.317180 ≤ τ → τ ≤ 741068.472511 →
        270.6769 ≤ solar_longitude L τ ∧ solar_longitude L τ ≤ 270.9897 :=
    solar_longitude_near_of_ok L I (1 / 1000000000) he 741068.317180 741068.472511 2029
      0.2997349434761 0.2997391962072
      [3, 124, 121, 124]
      [0.014433882, (-0.516778337), (-0.624839187), (-0.674759586)]
      [0.014433953, (-0.514106328), (-0.622167158), (-0.672087607)]
      [(-0.99989583), (-0.49291976), 0.81183800, (-0.62366583)]
      [0.0000004, 0.0013364, 0.0013364, 0.0013363]
      30 270.6769 270.9897 (by decide!)
  have winter_solstice_before_741303 (ph : ℚ → ℚ) :
      chinese_winter_solstice_on_or_before (ephemeris L ph) fuel 741303 = some 741067 :=
    winter_solstice_of_ok L ph fuel hfuel 741303 741304 741067 741066 741068
      141.8185 141.9716 1 741068.317180 741068.472511 270.6769 270.9897 741067.3130 741067.7858
      (by norm_num) (by norm_num) (by norm_num)
      solar_longitude_at_741304 solar_longitude_near_741303 (by decide!)
      (lt_of_le_of_lt solar_longitude_at_741066.2 (by norm_num))
      (lt_of_le_of_lt solar_longitude_at_741067.2 (by norm_num))
      (le_trans (by norm_num) solar_longitude_at_741068.1)
  have solar_longitude_at_741438 :
      274.8589 ≤ solar_longitude L (midnight_in_china 741438) ∧
        solar_longitude L (midnight_in_china 741438) ≤ 275.0120 :=
    solar_longitude_of_ok L I (1 / 1000000000) he (midnight_in_china 741438)
      [3, 128, 125, 128]
      [0.014597805, (-0.446409135), (-0.554422109), (-0.604462562)]
      [0.014597808, (-0.446409132), (-0.554422106), (-0.604462559)]
      [(-0.99989345), (-0.43172935), 0.85020482, (-0.56831995)]
      [3 / 10000000, 3 / 10000000, 3 / 10000000, 3 / 10000000]
      31 274.8589 275.0120 (by decide!)
  have solar_longitude_near_741437 :
      ∀ τ : ℚ, 741432.581683 ≤ τ → τ ≤ 741432.737014 →
        269.6812 ≤ solar_longitude L τ ∧ solar_longitude L τ ≤ 269.9940 :=
    solar_longitude_near_of_ok L I (1 / 1000000000) he 741432.581683 741432.737014 2030
      0.3097079624905 0.3097122152216
      [3, 128, 125, 128]
      [0.014595548, (-0.533881085), (-0.641894717), (-0.691933517)]
      [0.014595620, (-0.531209076), (-0.639222688), (-0.689261539)]
      [(-0.99989349), (-0.50772762), 0.80176198, (-0.63699791)]
      [0.0000004, 0.0013364, 0.0013364, 0.0013363]
      31 269.6812 269.9940 (by decide!)
  have winter_solstice_before_741437 (ph : ℚ → ℚ) :
      chinese_winter_solstice_on_or_before (ephemeris L ph) fuel 741437 = some 741433 :=
    winter_solstice_of_ok L ph fuel hfuel 741437 741438 741433 741432 741434
      274.8589 275.0120 0 741432.581683 741432.737014 269.6812 269.9940 741432.5877 741433.0605
      (by norm_num) (by norm_num) (by norm_num)
      solar_longitude_at_741438 solar_longitude_near_741437 (by decide!)
      (lt_of_le_of_lt solar_longitude_at_741432.2 (by norm_num))
      (lt_of_le_of_lt solar_longitude_at_741433.2 (by norm_num))
      (le_trans (by norm_num) solar_longitude_at_741434.1)
  have nth_new_moon_at_25095 :
      741081.048458 ≤ nth_new_moon L 25095 ∧ nth_new_moon L 25095 ≤ 741081.141576 :=
    nth_new_moon_of_ok L I (1 / 1000000000) he 25095
      [1593, 120]
      [(-0.529737870), 0.011182847]
      [(-0.529737867), 0.011182850]
      [0.86293956, 0.01118262]
      [3 / 10000000, 3 / 10000000]
      2030 741081.048458 741081.141576 (by decide!)
  have nth_new_moon_at_25096 :
      741110.669597 ≤ nth_new_moon L 25096 ∧ nth_new_moon L 25096 ≤ 741110.672522 :=
    nth_new_moon_of_ok L I (1 / 1000000000) he 25096
      [1597, 120, 3194, 3233, 1477, 1717, 241, (-1636), 4830, 3314, 4791, 3353, (-3113), 3074,
        1838, (-39), 361, (-1516), 6427, 4950, 4710, (-1756), 4911, 6388]
      [(-0.079147256), 0.519167151, (-0.158294510), 0.179338562, (-0.598314408), 0.440019897,
        (-0.532462023), (-0.258485819), 0.100191308, 0.360872643, (-0.237441764), 0.698505715,
        0.339828587, (-0.677461663), (-0.611609277), (-0.337633074), (-0.013294871), 0.260681333,
        0.021044054, 0.619358460, (-0.418975845), (-0.777652972), 0.281725388, (-0.316589019)]
      [(-0.079147253), 0.519167154, (-0.158294507), 0.179338565, (-0.598314405), 0.440019900,
        (-0.532462020), (-0.258485816), 0.100191311, 0.360872646, (-0.237441761), 0.698505718,
        0.339828590, (-0.677461660), (-0.611609274), (-0.337633071), (-0.013294868), 0.260681336,
        0.021044057, 0.619358463, (-0.418975842), (-0.777652969), 0.281725391, (-0.316589016)]
      [0.99686949, 0.49615720, 0.15763427, 0.98396189, 0.82628620, 0.90474319, 0.86155982,
        (-0.25561697), (-0.10002377), (-0.35309080), (-0.97194290), 0.76580398, (-0.94281182),
        0.62681726, 0.57418576, 0.94354136, 0.99991162, 0.25773893, (-0.99977858), (-0.58051291),
        0.40682509, (-0.70160895), (-0.96057719), (-0.31132691)]
      [3 / 10000000, 3 / 10000000, 3 / 10000000, 3 / 10000000, 3 / 10000000, 3 / 10000000,
        3 / 10000000, 3 / 10000000, 3 / 10000000, 3 / 10000000, 3 / 10000000, 3 / 10000000, 3 /
        10000000, 3 / 10000000, 3 / 10000000, 3 / 10000000, 3 / 10000000, 3 / 10000000, 3 /
        10000000, 3 / 10000000, 3 / 10000000, 3 / 10000000, 3 / 10000000, 3 / 10000000]
      2030 741110.669597 741110.672522 (by decide!)
  have nth_new_moon_at_25097 :
      741140.227109 ≤ nth_new_moon L 25097 ∧ nth_new_moon L 25097 ≤ 741140.320227 :=
    nth_new_moon_of_ok L I (1 / 1000000000) he 25097
      [1601, 121]
      [0.371443359, (-0.543644872)]
      [0.371443362, (-0.543644869)]
      [0.93180443, 0.85582903]
      [3 / 10000000, 3 / 10000000]
      2030 741140.227109 741140.320227 (by decide!)
  have nth_new_moon_at_25098 :
      741169.884662 ≤ nth_new_moon L 25098 ∧ nth_new_moon L 25098 ≤ 741169.977780 :=
    nth_new_moon_of_ok L I (1 / 1000000000) he 25098
      [1606, 121]
      [(-0.748762353), (-0.035660568)]
      [(-0.748762350), (-0.035660565)]
      [0.68073267, 0.99936423]
      [3 / 10000000, 3 / 10000000]
      2030 741169.884662 741169.977780 (by decide!)
  have nth_new_moon_at_25106 :
      741406.240248 ≤ nth_new_moon L 25106 ∧ nth_new_moon L 25106 ≤ 741406.333365 :=
    nth_new_moon_of_ok L I (1 / 1000000000) he 25106
      [1640, 124]
      [(-0.285630077), (-0.684175116)]
      [(-0.285630074), (-0.684175113)]
      [(-0.28176205), (-0.63203399)]
      [3 / 10000000, 3 / 10000000]
      2030 741406.240248 741406.333365 (by decide!)
  have lunation_index_at_741068 :
      (∃ r, phase L I fuel' (jd_from_moment (midnight_in_china 741068)) = some r) ∧
      round (midnight_in_china 741068 / MEAN_SYNODIC_MONTH
        - phase_fraction L I fuel' (jd_from_moment (midnight_in_china 741068))) = 25094 :=
    lunation_index_of_ok L I (1 / 1000000000) le_rfl he fuel' hfuel' 741068
      4 (-0.227642251) (-0.194204248) (-0.20936278) 0.0167194
      4 (-0.214703892) (-0.214142860) (-0.21278404) 0.0002809 6.068698018 6.068711452
      2 (-0.107243646) (-0.107236926) (-0.10765735) (-0.10764924) 0.108 1.016860110 1.016860113
        (-0.10947247) (-0.10946421)
      (-0.1090393) 0 (-0.109039301) (-0.109039298) (-0.1090291) 0 (-0.109029101) (-0.109029098) 0
        270.101419 270.102589
      (-6) (-0.606710311) (-0.606669467) 0.57015120 0.0000208
      4 (-0.210923251) (-0.210923248) (-0.20936278) 0.0000004
      3 (-0.515689796) (-0.515688860) (-0.86995300) 0.0000008
      5 0.539416736 0.539418604 0.85800793 0.0000013
      (-4) 0.275841949 0.275885019 0.27237787 0.0000219
      (-1) 0.5224488 0.5224524 25094
      (by decide!)
  have lunation_index_at_741082 :
      (∃ r, phase L I fuel' (jd_from_moment (midnight_in_china 741082)) = some r) ∧
      round (midnight_in_china 741082 / MEAN_SYNODIC_MONTH
        - phase_fraction L I fuel' (jd_from_moment (midnight_in_china 741082))) = 25095 :=
    lunation_index_of_ok L I (1 / 1000000000) le_rfl he fuel' hfuel' 741082
      0 0.013196826 0.046634829 0.02991137 0.0167194
      0 0.030135370 0.030696403 0.03041120 0.0002809 0.030417525 0.030430959
      0 0.015208761 0.015215481 0.01520960 0.01521699 0.016 1.016860110 1.016860113 0.01546603
        0.01547356
      0.0154637 0 0.015463699 0.015463702 0.0154734 0 0.015473399 0.015473402 0 284.368412
        284.369525
      (-1) 0.571305564 0.571344418 (-0.84118523) 0.0000198
      0 0.029915826 0.029915829 0.02991137 0.0000004
      1 (-0.498602914) (-0.498602023) 0.87825172 0.0000008
      1 0.573590500 0.573592279 0.83995752 0.0000012
      0 0.253158132 0.253199121 0.25048251 0.0000208
      0 0.0206036 0.0206071 25095
      (by decide!)
  have lunation_index_at_741111 :
      (∃ r, phase L I fuel' (jd_from_moment (midnight_in_china 741111)) = some r) ∧
      round (midnight_in_china 741111 / MEAN_SYNODIC_MONTH
        - phase_fraction L I fuel' (jd_from_moment (midnight_in_china 741111))) = 25096 :=
    lunation_index_of_ok L I (1 / 1000000000) le_rfl he fuel' hfuel' 741111
      0 0.512077771 0.545515774 0.50449482 0.0167194
      0 0.536950401 0.537511434 0.51175896 0.0002809 0.537345642 0.537359076
      0 0.268672820 0.268679539 0.27532862 0.27533825 0.276 1.016860110 1.016860113 0.27997068
        0.27998049
      0.2729805 0 0.272980499 0.272980502 0.2729917 0 0.272991699 0.272991702 0 313.877663
        313.878948
      (-1) (-0.016392623) (-0.016347765) (-0.99986601) 0.0000228
      0 0.528796771 0.528796774 0.50449482 0.0000004
      1 (-0.177133132) (-0.177132108) 0.98435299 0.0000009
      2 (-0.354266263) (-0.354264217) 0.34690133 0.0000014
      0 0.004534838 0.004582145 0.00455848 0.0000240
      0 0.0003691 0.0003731 25096
      (by decide!)
  have lunation_index_at_741112 :
      (∃ r, phase L I fuel' (jd_from_moment (midnight_in_china 741112)) = some r) ∧
      round (midnight_in_china 741112 / MEAN_SYNODIC_MONTH
        - phase_fraction L I fuel' (jd_from_moment (midnight_in_china 741112))) = 25096 :=
    lunation_index_of_ok L I (1 / 1000000000) le_rfl he fuel' hfuel' 741112
      0 0.529280563 0.562718566 0.51927259 0.0167194
      0 0.554400247 0.554961280 0.52667195 0.0002809 0.554797749 0.554811183
      0 0.277398873 0.277405593 0.28473899 0.28474871 0.285 1.016860110 1.016860113 0.28953971
        0.28954961
      0.2818317 0 0.281831699 0.281831702 0.2818430 0 0.281842999 0.281843002 0 314.891936
        314.893232
      (-1) 0.180118059 0.180163301 (-0.98381850) 0.0000230
      0 0.545999563 0.545999566 0.51927259 0.0000004
      1 0.051107443 0.051108477 0.99869427 0.0000009
      2 0.102214888 0.102216952 (-0.10203802) 0.0000014
      0 0.429484920 0.429532629 0.41642424 0.0000242
      0 0.0349387 0.0349427 25096
      (by decide!)
  have lunation_index_at_741141 :
      (∃ r, phase L I fuel' (jd_from_moment (midnight_in_china 741141)) = some r) ∧
      round (midnight_in_china 741141 / MEAN_SYNODIC_MONTH
        - phase_fraction L I fuel' (jd_from_moment (midnight_in_china 741141))) = 25097 :=
    lunation_index_of_ok L I (1 / 1000000000) le_rfl he fuel' hfuel' 741141
      1 (-0.542634819) (-0.509196816) 0.86486456 0.0167194
      1 (-0.511737528) (-0.511176496) 0.87203230 0.0002809 1.059452428 1.059465862
      0 0.529726213 0.529732932 0.58554712 0.58556049 0.586 1.016860110 1.016860113 0.59541950
        0.59543311
      0.5370436 0 0.537043599 0.537043602 0.5370558 0 0.537055799 0.537055802 0 344.137066
        344.138465
      (-1) (-0.398358156) (-0.398309319) (-0.92170859) 0.0000248
      1 (-0.525915819) (-0.525915816) 0.86486456 0.0000004
      1 0.378737544 0.378738657 0.92913196 0.0000009
      2 0.757475089 0.757477313 (-0.68708991) 0.0000015
      0 0.161490530 0.161541996 0.16081492 0.0000261
      0 0.0131450 0.0131493 25097
      (by decide!)
  have lunation_index_at_741434 :
      (∃ r, phase L I fuel' (jd_from_moment (midnight_in_china 741434)) = some r) ∧
      round (midnight_in_china 741434 / MEAN_SYNODIC_MONTH
        - phase_fraction L I fuel' (jd_from_moment (midnight_in_china 741434))) = 25106 :=
    lunation_index_of_ok L I (1 / 1000000000) le_rfl he fuel' hfuel' 741434
      4 (-0.214605975) (-0.181167972) (-0.19659798) 0.0167194
      4 (-0.201454215) (-0.200893183) (-0.19981950) 0.0002809 6.081951034 6.081964468
      2 (-0.100617138) (-0.100610418) (-0.10095870) (-0.10095064) 0.101 1.016860110 1.016860113
        (-0.10266088) (-0.10265267)
      (-0.1023035) 0 (-0.102303501) (-0.102303498) (-0.1022933) 0 (-0.102293301) (-0.102293298) 0
        270.873285 270.874455
      (-4) (-0.575445805) (-0.575404962) (-0.54419172) 0.0000208
      4 (-0.197886975) (-0.197886972) (-0.19659798) 0.0000004
      4 (-0.334863233) (-0.334862298) (-0.32863956) 0.0000008
      8 (-0.669726465) (-0.669724597) (-0.62077083) 0.0000013
      (-1) 0.570977178 0.571020248 (-0.84136162) 0.0000219
      (-1) 0.9188983 0.9189019 25106
      (by decide!)
  have new_moon_on_or_after_741068 :
      chinese_new_moon_on_or_after (ephemeris L (phase_fraction L I fuel')) 741068 = 741081 :=
    chinese_new_moon_on_or_after_result L (phase_fraction L I fuel') 741068 25094 25095 741081
      741081.048458 741081.141576 lunation_index_at_741068.2 (by norm_num)
      nth_new_moon_at_25095 (by norm_num) (by norm_num) (by norm_num)
  have new_moon_on_or_after_741082 :
      chinese_new_moon_on_or_after (ephemeris L (phase_fraction L I fuel')) 741082 = 741111 :=
    chinese_new_moon_on_or_after_result L (phase_fraction L I fuel') 741082 25095 25096 741111
      741110.669597 741110.672522 lunation_index_at_741082.2 (by norm_num)
      nth_new_moon_at_25096 (by norm_num) (by norm_num) (by norm_num)
  have new_moon_on_or_after_741111 :
      chinese_new_moon_on_or_after (ephemeris L (phase_fraction L I fuel')) 741111 = 741140 :=
    chinese_new_moon_on_or_after_result L (phase_fraction L I fuel') 741111 25096 25097 741140
      741140.227109 741140.320227 lunation_index_at_741111.2 (by norm_num)
      nth_new_moon_at_25097 (by norm_num) (by norm_num) (by norm_num)
  have new_moon_on_or_after_741141 :
      chinese_new_moon_on_or_after (ephemeris L (phase_fraction L I fuel')) 741141 = 741170 :=
    chinese_new_moon_on_or_after_result L (phase_fraction L I fuel') 741141 25097 25098 741170
      741169.884662 741169.977780 lunation_index_at_741141.2 (by norm_num)
      nth_new_moon_at_25098 (by norm_num) (by norm_num) (by norm_num)
  have new_moon_before_741112 :
      chinese_new_moon_before (ephemeris L (phase_fraction L I fuel')) 741112 = 741111 :=
    chinese_new_moon_before_result L (phase_fraction L I fuel') 741112 25096 741111
      741110.669597 741110.672522 lunation_index_at_741112.2
      nth_new_moon_at_25096 (by norm_num) (by norm_num) (by norm_num)
  have new_moon_before_741141 :
      chinese_new_moon_before (ephemeris L (phase_fraction L I fuel')) 741141 = 741140 :=
    chinese_new_moon_before_result L (phase_fraction L I fuel') 741141 25097 741140
      741140.227109 741140.320227 lunation_index_at_741141.2
      nth_new_moon_at_25097 (by norm_num) (by norm_num) (by norm_num)
  have new_moon_before_741434 :
      chinese_new_moon_before (ephemeris L (phase_fraction L I fuel')) 741434 = 741406 :=
    chinese_new_moon_before_result L (phase_fraction L I fuel') 741434 25106 741406
      741406.240248 741406.333365 lunation_index_at_741434.2
      nth_new_moon_at_25106 (by norm_num) (by norm_num) (by norm_num)
  -- the two conversions
  have hnl : round ((((741406 : ℤ) - 741081 : ℤ) : ℚ) / MEAN_SYNODIC_MONTH) ≠ 12 := by decide!
  have hs2 := winter_solstice_before_741437 (phase_fraction L I fuel')
  have hm12 := new_moon_on_or_after_741068
  have hm11 := new_moon_before_741434
  have hd1 : chinese_from_fixed (ephemeris L (phase_fraction L I fuel')) fuel 741111
      = some { cycle := 78, year := 47, month := 1, leap := false, day := 1 } :=
    chinese_from_fixed_result _ fuel 741111 741067 741437 741068 741433 741434 741112 741081
      741406 741111 _ (by norm_num) (by norm_num) (by norm_num) (by norm_num)
      (winter_solstice_before_741111 _) hs2 hm12 hm11
      new_moon_before_741112 hnl (by decide!)
  have hd2 : chinese_from_fixed (ephemeris L (phase_fraction L I fuel')) fuel 741140
      = some { cycle := 78, year := 47, month := 2, leap := false, day := 1 } :=
    chinese_from_fixed_result _ fuel 741140 741067 741437 741068 741433 741434 741141 741081
      741406 741140 _ (by norm_num) (by norm_num) (by norm_num) (by norm_num)
      (winter_solstice_before_741140 _) hs2 hm12 hm11
      new_moon_before_741141 hnl (by decide!)
  have hny : chinese_new_year_on_or_before (ephemeris L (phase_fraction L I fuel')) fuel 741303
      = some 741111 := by
    apply chinese_new_year_on_or_before_result _ _ _ _ ?_ (by norm_num)
    exact chinese_new_year_in_sui_result _ fuel 741303 741067 741437 741068 741433 741434
      741081 741082 741111 741406 (by norm_num) (by norm_num) (by norm_num) (by norm_num)
      (winter_solstice_before_741303 _) hs2 hm12
      new_moon_on_or_after_741082 hm11 (Or.inl hnl)
  refine ⟨by decide!, hd1, ?_, new_moon_before_741112,
    new_moon_on_or_after_741111, ?_⟩
  · exact (fixed_from_chinese_result _ fuel
      { cycle := 78, year := 47, month := 1, leap := false, day := 1 }
      { cycle := 78, year := 47, month := 2, leap := false, day := 1 }
      741303 741111 741111 741140 741141 741170 (by decide!) hny (by norm_num)
      new_moon_on_or_after_741111 hd2 (by decide) (by norm_num)
      new_moon_on_or_after_741141).trans (by norm_num)
  · intro date hd
    simp only [List.mem_cons, List.mem_singleton, List.not_mem_nil, or_false] at hd
    rcases hd with rfl | rfl | rfl | rfl | rfl | rfl
    · exact lunation_index_at_741068.1
    · exact lunation_index_at_741082.1
    · exact lunation_index_at_741111.1
    · exact lunation_index_at_741112.1
    · exact lunation_index_at_741141.1
    · exact lunation_index_at_741434.1

theorem chinese_round_trip_fails_2030_witness :
    ∃ L I, LibmAccurate L I (1 / 1000000000) ∧
      chinese_from_fixed (ephemeris L (phase_fraction L I 4)) 2 741111
        = some { cycle := 78, year := 47, month := 1, leap := false, day := 1 } ∧
      fixed_from_chinese (ephemeris L (phase_fraction L I 4)) 2
        { cycle := 78, year := 47, month := 1, leap := false, day := 1 } = some 741170 := by
  obtain ⟨L, I, h⟩ := exists_libm_accurate (1 / 1000000000) (by norm_num)
  have := chinese_round_trip_fails_2030 L I h 2 4 (by norm_num) (by norm_num)
  exact ⟨L, I, h, this.2.1, this.2.2.1⟩

end Calendrical
